import Mathlib

/-!
# Expression-graph evaluation engine of `mmp_framework`

Shallow embedding of `cppresources/expressiontree/{Expression,Leaf,Parameter,Variable,Function}.h`
and `util/Matrix.h`.

Modelling conventions.

* `double` is modelled by `ℚ`; rounding, infinities and NaN are not modelled.  A division whose
  divisor is zero has no finite result and makes the evaluation fail (`none`).
* `std::vector<double>` is `List ℚ`.  `v.at(i)` out of range throws, and an iterator range that
  runs past the end of a vector is undefined behaviour: both make the evaluation fail (`none`).
* Every object has one value buffer `m_value`.  Function nodes hold pointers into the buffers of
  their operands, so buffers are kept in a `Store` indexed by the object's identifier; an operand
  shared by several parents is one slot of the store.
* The scratch vectors of a function node (`addend1`, `a_greaterequalthan0`, ...) are private
  members sized once by the constructor and zero-initialised by `resize`; `evaluate` rewrites
  the entries below its loop bound before reading them, so they are modelled as locals that
  start from `zeros size` on every call (an entry that a call leaves unwritten is read as the
  constructor's zero).
-/

namespace MMP

/-! ## Expression.h -/

/-- The enum `sign{NN,NP,unknown}`. -/
inductive sign where
  | NN
  | NP
  | unknown
deriving DecidableEq, Repr

abbrev Vec := List ℚ

/-- The value buffers `m_value` of all live objects, by identifier. -/
abbrev Store := Nat → Vec

/-- The members of `Expression` that are fixed at construction. -/
structure Header where
  m_id : Nat
  m_dim : Nat
  m_sign : sign
deriving DecidableEq, Repr

/-! ## util/Matrix.h -/

structure Matrix where
  mRows : Nat
  mCols : Nat
  mData : Vec
deriving DecidableEq, Repr

/-- `Matrix::getGreaterEqualThan0`: the range-for binds each entry *by value*
(`for (double value : ret.mData) { if (value < 0) value = 0; }`), so the assignment changes the
loop's own copy of the entry and `ret` goes through every pass as it is. -/
def Matrix.getGreaterEqualThan0 (m : Matrix) : Matrix :=
  m.mData.foldl (fun ret value => let _value : ℚ := if value < 0 then 0 else value; ret) m

/-- `Matrix::getLessThan0`: the same loop by value with the test `value > 0`. -/
def Matrix.getLessThan0 (m : Matrix) : Matrix :=
  m.mData.foldl (fun ret value => let _value : ℚ := if value > 0 then 0 else value; ret) m

/-- `Matrix::getDim`: `{mRows, mCols}`. -/
def Matrix.getDim (m : Matrix) : List Nat := [m.mRows, m.mCols]

/-- The iterator range `[getRowIt(row), getRowIt(row) + cols)`; it must lie inside `mData`. -/
def Matrix.rowRange (m : Matrix) (row cols : Nat) : Option Vec :=
  if row * m.mCols + cols ≤ m.mData.length then
    some ((m.mData.drop (row * m.mCols)).take cols)
  else none

/-! ## Standard-library primitives used by `evaluate` -/

def zeros (n : Nat) : Vec := List.replicate n 0

/-- Checked element read `v.at(i)`. -/
def Vec.at (v : Vec) (i : Nat) : Option ℚ := v.get? i

/-- Checked element write `v.at(i) = c`. -/
def Vec.write (v : Vec) (i : Nat) (c : ℚ) : Option Vec :=
  if i < v.length then some (v.set i c) else none

/-- All results of a list of fallible operations, or `none` if one failed. -/
def collect : List (Option ℚ) → Option Vec
  | [] => some []
  | none :: _ => none
  | some c :: rest => (collect rest).map (fun r => c :: r)

/-- Division of doubles; a zero divisor has no finite result. -/
def divides (c d : ℚ) : Option ℚ := if d = 0 then none else some (c / d)

def plus (c d : ℚ) : Option ℚ := some (c + d)

def multiplies (c d : ℚ) : Option ℚ := some (c * d)

/-- `std::transform(a.begin(), a.end(), b.begin(), out.begin(), op)`: writes `a.size()` results
over the front of `out`, whose size does not change. -/
def transform2 (op : ℚ → ℚ → Option ℚ) (a b out : Vec) : Option Vec :=
  if a.length ≤ b.length ∧ a.length ≤ out.length then
    (collect (List.zipWith op a b)).map (fun r => r ++ out.drop a.length)
  else none

/-- `std::transform(a.begin(), a.end(), out.begin(), op)`. -/
def transform1 (op : ℚ → Option ℚ) (a out : Vec) : Option Vec :=
  if a.length ≤ out.length then
    (collect (a.map op)).map (fun r => r ++ out.drop a.length)
  else none

/-- `std::inner_product(a.begin(), a.end(), b.begin(), init)`. -/
def inner_product (a b : Vec) (init : ℚ) : Option ℚ :=
  if a.length ≤ b.length then
    some ((List.zipWith (fun c d => c * d) a b).foldl (fun acc t => acc + t) init)
  else none

/-- `std::accumulate(a.begin(), a.end(), init, op)`. -/
def accumulate (a : Vec) (init : ℚ) (op : ℚ → ℚ → ℚ) : ℚ := a.foldl op init

/-- `for (size_t i = 0; i < n; ++i) body(i)` over a loop state, where the body may throw. -/
def forLoop {σ : Type} (n : Nat) (body : Nat → σ → Option σ) (init : σ) : Option σ :=
  (List.range n).foldlM (fun st i => body i st) init

/-- One pass of the sign-split loop body that occurs in every Unknown-operand variant:
```
if (src->at(i) >= 0) { ge.at(i) = src->at(i); lt.at(i) = 0; }
else                 { ge.at(i) = 0;          lt.at(i) = src->at(i); }
``` -/
def splitBody (src : Vec) (i : Nat) (st : Vec × Vec) : Option (Vec × Vec) := do
  let c ← src.at i
  if c ≥ 0 then
    let ge ← st.1.write i c
    let lt ← st.2.write i 0
    pure (ge, lt)
  else
    let ge ← st.1.write i 0
    let lt ← st.2.write i c
    pure (ge, lt)

/-- The sign-split loop `for (i < n)` over `src`, filling the pair `(ge, lt)`. -/
def splitLoop (n : Nat) (src ge lt : Vec) : Option (Vec × Vec) :=
  forLoop n (splitBody src) (ge, lt)

/-- The four scratch vectors filled by one split loop of an Unknown×Unknown variant. -/
structure Split4 where
  a_ge : Vec
  a_lt : Vec
  b_ge : Vec
  b_lt : Vec

/-- Loop body of `Mult_vecU_vecU` and `Dot_U_U`: one test, on the *first* operand, decides the
halves of both operands:
```
if (m_arg1val->at(i) >= 0) { a_ge.at(i) = a; a_lt.at(i) = 0; b_ge.at(i) = b; b_lt.at(i) = 0; }
else                       { a_ge.at(i) = 0; a_lt.at(i) = a; b_ge.at(i) = 0; b_lt.at(i) = b; }
``` -/
def splitBodyByFirst (a b : Vec) (i : Nat) (st : Split4) : Option Split4 := do
  let c ← a.at i
  if c ≥ 0 then
    let a_ge ← st.a_ge.write i c
    let a_lt ← st.a_lt.write i 0
    let d ← b.at i
    let b_ge ← st.b_ge.write i d
    let b_lt ← st.b_lt.write i 0
    pure ⟨a_ge, a_lt, b_ge, b_lt⟩
  else
    let a_ge ← st.a_ge.write i 0
    let a_lt ← st.a_lt.write i c
    let b_ge ← st.b_ge.write i 0
    let d ← b.at i
    let b_lt ← st.b_lt.write i d
    pure ⟨a_ge, a_lt, b_ge, b_lt⟩

/-- Loop body of `Div_VecU_VecU`: each operand is tested by its own sign. -/
def splitBodyEach (a b : Vec) (i : Nat) (st : Split4) : Option Split4 := do
  let c ← a.at i
  let (a_ge, a_lt) ←
    if c ≥ 0 then do
      let a_ge ← st.a_ge.write i c
      let a_lt ← st.a_lt.write i 0
      pure (a_ge, a_lt)
    else do
      let a_ge ← st.a_ge.write i 0
      let a_lt ← st.a_lt.write i c
      pure (a_ge, a_lt)
  let d ← b.at i
  if d ≥ 0 then
    let b_ge ← st.b_ge.write i d
    let b_lt ← st.b_lt.write i 0
    pure ⟨a_ge, a_lt, b_ge, b_lt⟩
  else
    let b_ge ← st.b_ge.write i 0
    let b_lt ← st.b_lt.write i d
    pure ⟨a_ge, a_lt, b_ge, b_lt⟩

/-- What a function node reaches through the pointer `m_arguments.at(k)`: the operand's virtual
`evaluate`, the slot of its value buffer, `getDim()`, and, for a `MultiDimParameter`, its
matrix. -/
structure Arg where
  evaluate : Vec → Vec → Store → Option Store
  m_id : Nat
  m_dim : Nat
  m_matrix : Option Matrix

/-- The `std::log2` and `std::log` of `<cmath>`, which are not part of the repository. -/
structure CMath where
  log2 : ℚ → ℚ
  log : ℚ → ℚ

/-- A stand-in for `<cmath>` in examples that take no logarithm. -/
def noLog : CMath := ⟨fun c => c, fun c => c⟩

/-! ## Function.h: addition -/

/-- `Add_vec_vec::evaluate`. -/
def Add_vec_vec.evaluate (self : Header) (a b : Arg) (x_in y_in : Vec) (s : Store) :
    Option Store := do
  let s ← a.evaluate x_in y_in s
  let s ← b.evaluate x_in y_in s
  let m_value ← transform2 plus (s a.m_id) (s b.m_id) (s self.m_id)
  pure (Function.update s self.m_id m_value)

/-- `Add_vec_scalar::evaluate`; the lambda dereferences `m_arg2val` for every element. -/
def Add_vec_scalar.evaluate (self : Header) (a b : Arg) (x_in y_in : Vec) (s : Store) :
    Option Store := do
  let s ← a.evaluate x_in y_in s
  let s ← b.evaluate x_in y_in s
  let m_value ← transform1 (fun c => ((s b.m_id).at 0).map (fun d => c + d))
    (s a.m_id) (s self.m_id)
  pure (Function.update s self.m_id m_value)

/-! ## Function.h: vector × vector -/

/-- `Mult_vecNN_vecNN::evaluate`. -/
def Mult_vecNN_vecNN.evaluate (self : Header) (a b : Arg) (x_in y_in : Vec) (s : Store) :
    Option Store := do
  let s ← a.evaluate x_in y_in s
  let s ← b.evaluate x_in y_in s
  let m_value ← transform2 multiplies (s a.m_id) (s b.m_id) (s self.m_id)
  pure (Function.update s self.m_id m_value)

/-- `Mult_vecNP_vecNP::evaluate`. -/
def Mult_vecNP_vecNP.evaluate (self : Header) (a b : Arg) (x_in y_in : Vec) (s : Store) :
    Option Store := do
  let s ← a.evaluate y_in x_in s
  let s ← b.evaluate y_in x_in s
  let m_value ← transform2 multiplies (s a.m_id) (s b.m_id) (s self.m_id)
  pure (Function.update s self.m_id m_value)

/-- `Mult_vecNN_vecNP::evaluate`. -/
def Mult_vecNN_vecNP.evaluate (self : Header) (a b : Arg) (x_in y_in : Vec) (s : Store) :
    Option Store := do
  let s ← a.evaluate y_in x_in s
  let s ← b.evaluate x_in y_in s
  let m_value ← transform2 multiplies (s a.m_id) (s b.m_id) (s self.m_id)
  pure (Function.update s self.m_id m_value)

/-- `Mult_vecU_vecNN::evaluate`; `a_greaterequalthan0`, `a_lessthan0` have size `a->getDim()`,
`addend1`, `addend2` have size `m_dim`. -/
def Mult_vecU_vecNN.evaluate (self : Header) (a b : Arg) (x_in y_in : Vec) (s : Store) :
    Option Store := do
  let s ← a.evaluate x_in y_in s
  let (a_greaterequalthan0, a_lessthan0) ←
    splitLoop self.m_dim (s a.m_id) (zeros a.m_dim) (zeros a.m_dim)
  let s ← b.evaluate y_in x_in s
  let b_swap := s b.m_id
  let s ← b.evaluate x_in y_in s
  let addend1 ← transform2 multiplies a_greaterequalthan0 (s b.m_id) (zeros self.m_dim)
  let addend2 ← transform2 multiplies a_lessthan0 b_swap (zeros self.m_dim)
  let m_value ← transform2 plus addend1 addend2 (s self.m_id)
  pure (Function.update s self.m_id m_value)

/-- `Mult_vecU_vecNP::evaluate`. -/
def Mult_vecU_vecNP.evaluate (self : Header) (a b : Arg) (x_in y_in : Vec) (s : Store) :
    Option Store := do
  let s ← a.evaluate y_in x_in s
  let (a_greaterequalthan0, a_lessthan0) ←
    splitLoop self.m_dim (s a.m_id) (zeros a.m_dim) (zeros a.m_dim)
  let s ← b.evaluate y_in x_in s
  let b_swap := s b.m_id
  let s ← b.evaluate x_in y_in s
  let addend1 ← transform2 multiplies a_greaterequalthan0 (s b.m_id) (zeros self.m_dim)
  let addend2 ← transform2 multiplies a_lessthan0 b_swap (zeros self.m_dim)
  let m_value ← transform2 plus addend1 addend2 (s self.m_id)
  pure (Function.update s self.m_id m_value)

/-- `Mult_vecU_vecU::evaluate`; all twelve scratch vectors have size `m_dim`.  The fourth addend
multiplies `a_swap_lessthan0` with `b_lessthan0`. -/
def Mult_vecU_vecU.evaluate (self : Header) (a b : Arg) (x_in y_in : Vec) (s : Store) :
    Option Store := do
  let z := zeros self.m_dim
  let s ← a.evaluate x_in y_in s
  let s ← b.evaluate x_in y_in s
  let own ← forLoop self.m_dim (splitBodyByFirst (s a.m_id) (s b.m_id)) ⟨z, z, z, z⟩
  let s ← a.evaluate y_in x_in s
  let s ← b.evaluate y_in x_in s
  let swap ← forLoop self.m_dim (splitBodyByFirst (s a.m_id) (s b.m_id)) ⟨z, z, z, z⟩
  let addend1 ← transform2 multiplies own.a_ge own.b_ge z
  let addend2 ← transform2 multiplies swap.a_ge own.b_lt z
  let addend3 ← transform2 multiplies own.a_lt swap.b_ge z
  let addend4 ← transform2 multiplies swap.a_lt own.b_lt z
  let m_value ← transform2 plus addend1 addend2 (s self.m_id)
  let m_value ← transform2 plus m_value addend3 m_value
  let m_value ← transform2 plus m_value addend4 m_value
  pure (Function.update s self.m_id m_value)

/-! ## Function.h: vector × scalar -/

/-- The lambda `[this](const double & c){return c * *m_arg2val;}` read against the store. -/
def timesScalar (s : Store) (b : Arg) (c : ℚ) : Option ℚ :=
  ((s b.m_id).at 0).map (fun d => c * d)

/-- `Mult_vecNN_scalarNN::evaluate`. -/
def Mult_vecNN_scalarNN.evaluate (self : Header) (a b : Arg) (x_in y_in : Vec) (s : Store) :
    Option Store := do
  let s ← a.evaluate x_in y_in s
  let s ← b.evaluate x_in y_in s
  let m_value ← transform1 (timesScalar s b) (s a.m_id) (s self.m_id)
  pure (Function.update s self.m_id m_value)

/-- `Mult_vecNP_scalarNP::evaluate`. -/
def Mult_vecNP_scalarNP.evaluate (self : Header) (a b : Arg) (x_in y_in : Vec) (s : Store) :
    Option Store := do
  let s ← a.evaluate y_in x_in s
  let s ← b.evaluate y_in x_in s
  let m_value ← transform1 (timesScalar s b) (s a.m_id) (s self.m_id)
  pure (Function.update s self.m_id m_value)

/-- `Mult_vecNN_scalarNP::evaluate`. -/
def Mult_vecNN_scalarNP.evaluate (self : Header) (a b : Arg) (x_in y_in : Vec) (s : Store) :
    Option Store := do
  let s ← a.evaluate y_in x_in s
  let s ← b.evaluate x_in y_in s
  let m_value ← transform1 (timesScalar s b) (s a.m_id) (s self.m_id)
  pure (Function.update s self.m_id m_value)

/-- `Mult_vecNP_scalarNN::evaluate`. -/
def Mult_vecNP_scalarNN.evaluate (self : Header) (a b : Arg) (x_in y_in : Vec) (s : Store) :
    Option Store := do
  let s ← a.evaluate x_in y_in s
  let s ← b.evaluate y_in x_in s
  let m_value ← transform1 (timesScalar s b) (s a.m_id) (s self.m_id)
  pure (Function.update s self.m_id m_value)

/-- `Mult_vecU_scalarNN::evaluate`; `b_swap` is read with the checked `at(0)`. -/
def Mult_vecU_scalarNN.evaluate (self : Header) (a b : Arg) (x_in y_in : Vec) (s : Store) :
    Option Store := do
  let s ← a.evaluate x_in y_in s
  let (a_greaterequalthan0, a_lessthan0) ←
    splitLoop self.m_dim (s a.m_id) (zeros a.m_dim) (zeros a.m_dim)
  let s ← b.evaluate y_in x_in s
  let b_swap ← (s b.m_id).at 0
  let s ← b.evaluate x_in y_in s
  let addend1 ← transform1 (timesScalar s b) a_greaterequalthan0 (zeros self.m_dim)
  let addend2 ← transform1 (fun c => some (c * b_swap)) a_lessthan0 (zeros self.m_dim)
  let m_value ← transform2 plus addend1 addend2 (s self.m_id)
  pure (Function.update s self.m_id m_value)

/-- `Mult_vecNN_scalarU::evaluate`. -/
def Mult_vecNN_scalarU.evaluate (self : Header) (a b : Arg) (x_in y_in : Vec) (s : Store) :
    Option Store := do
  let s ← b.evaluate x_in y_in s
  let arg2 ← (s b.m_id).at 0
  let s ← if arg2 ≥ 0 then a.evaluate x_in y_in s else a.evaluate y_in x_in s
  let m_value ← transform1 (timesScalar s b) (s a.m_id) (s self.m_id)
  pure (Function.update s self.m_id m_value)

/-- `Mult_vecU_scalarNP::evaluate`. -/
def Mult_vecU_scalarNP.evaluate (self : Header) (a b : Arg) (x_in y_in : Vec) (s : Store) :
    Option Store := do
  let s ← a.evaluate y_in x_in s
  let (a_greaterequalthan0, a_lessthan0) ←
    splitLoop self.m_dim (s a.m_id) (zeros a.m_dim) (zeros a.m_dim)
  let s ← b.evaluate y_in x_in s
  let b_swap ← (s b.m_id).at 0
  let s ← b.evaluate x_in y_in s
  let addend1 ← transform1 (timesScalar s b) a_greaterequalthan0 (zeros self.m_dim)
  let addend2 ← transform1 (fun c => some (c * b_swap)) a_lessthan0 (zeros self.m_dim)
  let m_value ← transform2 plus addend1 addend2 (s self.m_id)
  pure (Function.update s self.m_id m_value)

/-- `Mult_vecNP_scalarU::evaluate`. -/
def Mult_vecNP_scalarU.evaluate (self : Header) (a b : Arg) (x_in y_in : Vec) (s : Store) :
    Option Store := do
  let s ← b.evaluate y_in x_in s
  let arg2 ← (s b.m_id).at 0
  let s ← if arg2 ≥ 0 then a.evaluate x_in y_in s else a.evaluate y_in x_in s
  let m_value ← transform1 (timesScalar s b) (s a.m_id) (s self.m_id)
  pure (Function.update s self.m_id m_value)

/-- `Mult_vecU_scalarU::evaluate`; the six scratch vectors have size `m_dim`; the member `b`
keeps the scalar of the first pass, `*m_arg2val` is the scalar of the second. -/
def Mult_vecU_scalarU.evaluate (self : Header) (a b : Arg) (x_in y_in : Vec) (s : Store) :
    Option Store := do
  let z := zeros self.m_dim
  let s ← b.evaluate x_in y_in s
  let b_first ← (s b.m_id).at 0
  let s ← a.evaluate x_in y_in s
  let (a_greaterequalthan0, a_lessthan0) ← splitLoop self.m_dim (s a.m_id) z z
  let s ← b.evaluate y_in x_in s
  let s ← a.evaluate y_in x_in s
  let (a_swap_greaterequalthan0, a_swap_lessthan0) ← splitLoop self.m_dim (s a.m_id) z z
  let addend1_2 ←
    if b_first ≥ 0 then transform1 (fun c => some (c * b_first)) a_greaterequalthan0 z
    else transform1 (fun c => some (c * b_first)) a_swap_greaterequalthan0 z
  let arg2 ← (s b.m_id).at 0
  let addend3_4 ←
    if arg2 ≥ 0 then transform1 (timesScalar s b) a_lessthan0 z
    else transform1 (timesScalar s b) a_swap_lessthan0 z
  let m_value ← transform2 plus addend1_2 addend3_4 (s self.m_id)
  pure (Function.update s self.m_id m_value)

/-! ## Function.h: vector ÷ scalar -/

/-- The lambda `[this](const double & c){return c / *m_arg2val;}` read against the store. -/
def overScalar (s : Store) (b : Arg) (c : ℚ) : Option ℚ :=
  ((s b.m_id).at 0).bind (fun d => divides c d)

/-- `Div_VecNN_ScalarNN::evaluate`. -/
def Div_VecNN_ScalarNN.evaluate (self : Header) (a b : Arg) (x_in y_in : Vec) (s : Store) :
    Option Store := do
  let s ← a.evaluate x_in y_in s
  let s ← b.evaluate y_in x_in s
  let m_value ← transform1 (overScalar s b) (s a.m_id) (s self.m_id)
  pure (Function.update s self.m_id m_value)

/-- `Div_VecNP_ScalarNP::evaluate`. -/
def Div_VecNP_ScalarNP.evaluate (self : Header) (a b : Arg) (x_in y_in : Vec) (s : Store) :
    Option Store := do
  let s ← a.evaluate y_in x_in s
  let s ← b.evaluate x_in y_in s
  let m_value ← transform1 (overScalar s b) (s a.m_id) (s self.m_id)
  pure (Function.update s self.m_id m_value)

/-- `Div_VecNN_ScalarNP::evaluate`. -/
def Div_VecNN_ScalarNP.evaluate (self : Header) (a b : Arg) (x_in y_in : Vec) (s : Store) :
    Option Store := do
  let s ← a.evaluate y_in x_in s
  let s ← b.evaluate y_in x_in s
  let m_value ← transform1 (overScalar s b) (s a.m_id) (s self.m_id)
  pure (Function.update s self.m_id m_value)

/-- `Div_VecNP_ScalarNN::evaluate`. -/
def Div_VecNP_ScalarNN.evaluate (self : Header) (a b : Arg) (x_in y_in : Vec) (s : Store) :
    Option Store := do
  let s ← a.evaluate x_in y_in s
  let s ← b.evaluate x_in y_in s
  let m_value ← transform1 (overScalar s b) (s a.m_id) (s self.m_id)
  pure (Function.update s self.m_id m_value)

/-- `Div_VecU_ScalarNN::evaluate`. -/
def Div_VecU_ScalarNN.evaluate (self : Header) (a b : Arg) (x_in y_in : Vec) (s : Store) :
    Option Store := do
  let s ← a.evaluate x_in y_in s
  let (a_greaterequalthan0, a_lessthan0) ←
    splitLoop self.m_dim (s a.m_id) (zeros a.m_dim) (zeros a.m_dim)
  let s ← b.evaluate y_in x_in s
  let b_swap ← (s b.m_id).at 0
  let s ← b.evaluate x_in y_in s
  let addend1 ← transform1 (fun c => divides c b_swap) a_greaterequalthan0 (zeros self.m_dim)
  let addend2 ← transform1 (overScalar s b) a_lessthan0 (zeros self.m_dim)
  let m_value ← transform2 plus addend1 addend2 (s self.m_id)
  pure (Function.update s self.m_id m_value)

/-- `Div_VecU_ScalarNP::evaluate`. -/
def Div_VecU_ScalarNP.evaluate (self : Header) (a b : Arg) (x_in y_in : Vec) (s : Store) :
    Option Store := do
  let s ← a.evaluate y_in x_in s
  let (a_greaterequalthan0, a_lessthan0) ←
    splitLoop self.m_dim (s a.m_id) (zeros a.m_dim) (zeros a.m_dim)
  let s ← b.evaluate y_in x_in s
  let b_swap ← (s b.m_id).at 0
  let s ← b.evaluate x_in y_in s
  let addend1 ← transform1 (fun c => divides c b_swap) a_greaterequalthan0 (zeros self.m_dim)
  let addend2 ← transform1 (overScalar s b) a_lessthan0 (zeros self.m_dim)
  let m_value ← transform2 plus addend1 addend2 (s self.m_id)
  pure (Function.update s self.m_id m_value)

/-- `Div_VecNN_ScalarU::evaluate`. -/
def Div_VecNN_ScalarU.evaluate (self : Header) (a b : Arg) (x_in y_in : Vec) (s : Store) :
    Option Store := do
  let s ← b.evaluate y_in x_in s
  let arg2 ← (s b.m_id).at 0
  let s ← if arg2 ≥ 0 then a.evaluate x_in y_in s else a.evaluate y_in x_in s
  let m_value ← transform1 (overScalar s b) (s a.m_id) (s self.m_id)
  pure (Function.update s self.m_id m_value)

/-- `Div_VecNP_ScalarU::evaluate`. -/
def Div_VecNP_ScalarU.evaluate (self : Header) (a b : Arg) (x_in y_in : Vec) (s : Store) :
    Option Store := do
  let s ← b.evaluate x_in y_in s
  let arg2 ← (s b.m_id).at 0
  let s ← if arg2 ≥ 0 then a.evaluate x_in y_in s else a.evaluate y_in x_in s
  let m_value ← transform1 (overScalar s b) (s a.m_id) (s self.m_id)
  pure (Function.update s self.m_id m_value)

/-- `Div_VecU_ScalarU::evaluate`; the member `b` keeps the scalar of the pass at `(x, y)`,
`*m_arg2val` is the scalar of the pass at `(y, x)`. -/
def Div_VecU_ScalarU.evaluate (self : Header) (a b : Arg) (x_in y_in : Vec) (s : Store) :
    Option Store := do
  let z := zeros self.m_dim
  let s ← b.evaluate x_in y_in s
  let b_first ← (s b.m_id).at 0
  let s ← b.evaluate y_in x_in s
  let s ← a.evaluate x_in y_in s
  let (a_greaterequalthan0, a_lessthan0) ← splitLoop self.m_dim (s a.m_id) z z
  let s ← a.evaluate y_in x_in s
  let (a_swap_greaterequalthan0, a_swap_lessthan0) ← splitLoop self.m_dim (s a.m_id) z z
  let addend3_4 ←
    if b_first ≥ 0 then transform1 (fun c => divides c b_first) a_lessthan0 z
    else transform1 (fun c => divides c b_first) a_swap_lessthan0 z
  let arg2 ← (s b.m_id).at 0
  let addend1_2 ←
    if arg2 ≥ 0 then transform1 (overScalar s b) a_greaterequalthan0 z
    else transform1 (overScalar s b) a_swap_greaterequalthan0 z
  let m_value ← transform2 plus addend1_2 addend3_4 (s self.m_id)
  pure (Function.update s self.m_id m_value)

/-! ## Function.h: vector ÷ vector -/

/-- `Div_VecNN_VecNN::evaluate`. -/
def Div_VecNN_VecNN.evaluate (self : Header) (a b : Arg) (x_in y_in : Vec) (s : Store) :
    Option Store := do
  let s ← a.evaluate x_in y_in s
  let s ← b.evaluate y_in x_in s
  let m_value ← transform2 divides (s a.m_id) (s b.m_id) (s self.m_id)
  pure (Function.update s self.m_id m_value)

/-- `Div_VecNP_VecNP::evaluate`. -/
def Div_VecNP_VecNP.evaluate (self : Header) (a b : Arg) (x_in y_in : Vec) (s : Store) :
    Option Store := do
  let s ← a.evaluate y_in x_in s
  let s ← b.evaluate x_in y_in s
  let m_value ← transform2 divides (s a.m_id) (s b.m_id) (s self.m_id)
  pure (Function.update s self.m_id m_value)

/-- `Div_VecNN_VecNP::evaluate`. -/
def Div_VecNN_VecNP.evaluate (self : Header) (a b : Arg) (x_in y_in : Vec) (s : Store) :
    Option Store := do
  let s ← a.evaluate y_in x_in s
  let s ← b.evaluate y_in x_in s
  let m_value ← transform2 divides (s a.m_id) (s b.m_id) (s self.m_id)
  pure (Function.update s self.m_id m_value)

/-- `Div_VecNP_VecNN::evaluate`. -/
def Div_VecNP_VecNN.evaluate (self : Header) (a b : Arg) (x_in y_in : Vec) (s : Store) :
    Option Store := do
  let s ← a.evaluate x_in y_in s
  let s ← b.evaluate x_in y_in s
  let m_value ← transform2 divides (s a.m_id) (s b.m_id) (s self.m_id)
  pure (Function.update s self.m_id m_value)

/-- `Div_VecU_VecNN::evaluate`. -/
def Div_VecU_VecNN.evaluate (self : Header) (a b : Arg) (x_in y_in : Vec) (s : Store) :
    Option Store := do
  let s ← a.evaluate x_in y_in s
  let (a_greaterequalthan0, a_lessthan0) ←
    splitLoop self.m_dim (s a.m_id) (zeros a.m_dim) (zeros a.m_dim)
  let s ← b.evaluate y_in x_in s
  let b_swap := s b.m_id
  let s ← b.evaluate x_in y_in s
  let addend1 ← transform2 divides a_greaterequalthan0 b_swap (zeros self.m_dim)
  let addend2 ← transform2 divides a_lessthan0 (s b.m_id) (zeros self.m_dim)
  let m_value ← transform2 plus addend1 addend2 (s self.m_id)
  pure (Function.update s self.m_id m_value)

/-- `Div_VecU_VecNP::evaluate`. -/
def Div_VecU_VecNP.evaluate (self : Header) (a b : Arg) (x_in y_in : Vec) (s : Store) :
    Option Store := do
  let s ← a.evaluate y_in x_in s
  let (a_greaterequalthan0, a_lessthan0) ←
    splitLoop self.m_dim (s a.m_id) (zeros a.m_dim) (zeros a.m_dim)
  let s ← b.evaluate y_in x_in s
  let b_swap := s b.m_id
  let s ← b.evaluate x_in y_in s
  let addend1 ← transform2 divides a_greaterequalthan0 b_swap (zeros self.m_dim)
  let addend2 ← transform2 divides a_lessthan0 (s b.m_id) (zeros self.m_dim)
  let m_value ← transform2 plus addend1 addend2 (s self.m_id)
  pure (Function.update s self.m_id m_value)

/-- `Div_VecNN_VecU::evaluate`.  The member called `a_swap` is assigned `*m_arg2val`, the value
of the *second* operand, and both quotients have the halves of `b` as dividend; the value of
the first operand is never read. -/
def Div_VecNN_VecU.evaluate (self : Header) (a b : Arg) (x_in y_in : Vec) (s : Store) :
    Option Store := do
  let s ← b.evaluate y_in x_in s
  let (b_greaterequalthan0, b_lessthan0) ←
    splitLoop self.m_dim (s b.m_id) (zeros b.m_dim) (zeros b.m_dim)
  let s ← a.evaluate y_in x_in s
  let a_swap := s b.m_id
  let s ← a.evaluate x_in y_in s
  let addend1 ← transform2 divides b_greaterequalthan0 (s b.m_id) (zeros self.m_dim)
  let addend2 ← transform2 divides b_lessthan0 a_swap (zeros self.m_dim)
  let m_value ← transform2 plus addend1 addend2 (s self.m_id)
  pure (Function.update s self.m_id m_value)

/-- `Div_VecNP_VecU::evaluate`; as `Div_VecNN_VecU`, with the second operand at `(x, y)`. -/
def Div_VecNP_VecU.evaluate (self : Header) (a b : Arg) (x_in y_in : Vec) (s : Store) :
    Option Store := do
  let s ← b.evaluate x_in y_in s
  let (b_greaterequalthan0, b_lessthan0) ←
    splitLoop self.m_dim (s b.m_id) (zeros b.m_dim) (zeros b.m_dim)
  let s ← a.evaluate y_in x_in s
  let a_swap := s b.m_id
  let s ← a.evaluate x_in y_in s
  let addend1 ← transform2 divides b_greaterequalthan0 (s b.m_id) (zeros self.m_dim)
  let addend2 ← transform2 divides b_lessthan0 a_swap (zeros self.m_dim)
  let m_value ← transform2 plus addend1 addend2 (s self.m_id)
  pure (Function.update s self.m_id m_value)

/-- One pass of the last loop of `Div_VecU_VecU::evaluate` ("evaluation with zeros being
ignored"): a quotient whose divisor half is zero is replaced by zero. -/
def Div_VecU_VecU.body (own swap : Split4) (i : Nat) (m_value : Vec) : Option Vec := do
  let bsg ← swap.b_ge.at i
  let tmp1 ← if bsg = 0 then pure 0 else do
    let c ← own.a_ge.at i
    divides c bsg
  let bsl ← swap.b_lt.at i
  let tmp2 ← if bsl = 0 then pure 0 else do
    let c ← swap.a_ge.at i
    divides c bsl
  let bg ← own.b_ge.at i
  let tmp3 ← if bg = 0 then pure 0 else do
    let c ← own.a_lt.at i
    divides c bg
  let bl ← own.b_lt.at i
  let tmp4 ← if bl = 0 then pure 0 else do
    let c ← swap.a_lt.at i
    divides c bl
  m_value.write i (tmp1 + tmp2 + tmp3 + tmp4)

/-- `Div_VecU_VecU::evaluate`; the eight scratch vectors have size `m_dim`. -/
def Div_VecU_VecU.evaluate (self : Header) (a b : Arg) (x_in y_in : Vec) (s : Store) :
    Option Store := do
  let z := zeros self.m_dim
  let s ← a.evaluate x_in y_in s
  let s ← b.evaluate x_in y_in s
  let own ← forLoop self.m_dim (splitBodyEach (s a.m_id) (s b.m_id)) ⟨z, z, z, z⟩
  let s ← a.evaluate y_in x_in s
  let s ← b.evaluate y_in x_in s
  let swap ← forLoop self.m_dim (splitBodyEach (s a.m_id) (s b.m_id)) ⟨z, z, z, z⟩
  let m_value ← forLoop self.m_dim (Div_VecU_VecU.body own swap) (s self.m_id)
  pure (Function.update s self.m_id m_value)

/-! ## Function.h: scalar ÷ vector -/

/-- The lambda `[this](const double & c){return *m_arg1val / c;}` read against the store. -/
def scalarOver (s : Store) (a : Arg) (c : ℚ) : Option ℚ :=
  ((s a.m_id).at 0).bind (fun n => divides n c)

/-- `Div_ScalarNN_VecNN::evaluate`. -/
def Div_ScalarNN_VecNN.evaluate (self : Header) (a b : Arg) (x_in y_in : Vec) (s : Store) :
    Option Store := do
  let s ← a.evaluate x_in y_in s
  let s ← b.evaluate y_in x_in s
  let m_value ← transform1 (scalarOver s a) (s b.m_id) (s self.m_id)
  pure (Function.update s self.m_id m_value)

/-- `Div_ScalarNP_VecNP::evaluate`. -/
def Div_ScalarNP_VecNP.evaluate (self : Header) (a b : Arg) (x_in y_in : Vec) (s : Store) :
    Option Store := do
  let s ← a.evaluate y_in x_in s
  let s ← b.evaluate x_in y_in s
  let m_value ← transform1 (scalarOver s a) (s b.m_id) (s self.m_id)
  pure (Function.update s self.m_id m_value)

/-- `Div_ScalarNN_VecNP::evaluate`. -/
def Div_ScalarNN_VecNP.evaluate (self : Header) (a b : Arg) (x_in y_in : Vec) (s : Store) :
    Option Store := do
  let s ← a.evaluate y_in x_in s
  let s ← b.evaluate y_in x_in s
  let m_value ← transform1 (scalarOver s a) (s b.m_id) (s self.m_id)
  pure (Function.update s self.m_id m_value)

/-- `Div_ScalarNP_VecNN::evaluate`. -/
def Div_ScalarNP_VecNN.evaluate (self : Header) (a b : Arg) (x_in y_in : Vec) (s : Store) :
    Option Store := do
  let s ← a.evaluate x_in y_in s
  let s ← b.evaluate x_in y_in s
  let m_value ← transform1 (scalarOver s a) (s b.m_id) (s self.m_id)
  pure (Function.update s self.m_id m_value)

/-- `Div_ScalarU_VecNN::evaluate`; only `m_arguments.at(0)` is evaluated, the buffer of the
second operand is read as it stands. -/
def Div_ScalarU_VecNN.evaluate (self : Header) (a b : Arg) (x_in y_in : Vec) (s : Store) :
    Option Store := do
  let s ← a.evaluate x_in y_in s
  let arg1 ← (s a.m_id).at 0
  let s ← if arg1 ≥ 0 then a.evaluate y_in x_in s else a.evaluate x_in y_in s
  let m_value ← transform1 (scalarOver s a) (s b.m_id) (s self.m_id)
  pure (Function.update s self.m_id m_value)

/-- `Div_ScalarU_VecNP::evaluate`; only `m_arguments.at(0)` is evaluated. -/
def Div_ScalarU_VecNP.evaluate (self : Header) (a b : Arg) (x_in y_in : Vec) (s : Store) :
    Option Store := do
  let s ← a.evaluate y_in x_in s
  let arg1 ← (s a.m_id).at 0
  let s ← if arg1 ≥ 0 then a.evaluate y_in x_in s else a.evaluate x_in y_in s
  let m_value ← transform1 (scalarOver s a) (s b.m_id) (s self.m_id)
  pure (Function.update s self.m_id m_value)

/-- `Div_ScalarNN_VecU::evaluate`; both transforms run over the whole of `b_greaterequalthan0`
and `b_lessthan0`, zero entries included. -/
def Div_ScalarNN_VecU.evaluate (self : Header) (a b : Arg) (x_in y_in : Vec) (s : Store) :
    Option Store := do
  let s ← b.evaluate y_in x_in s
  let (b_greaterequalthan0, b_lessthan0) ←
    splitLoop self.m_dim (s b.m_id) (zeros b.m_dim) (zeros b.m_dim)
  let s ← a.evaluate y_in x_in s
  let a_swap ← (s a.m_id).at 0
  let s ← a.evaluate x_in y_in s
  let addend1 ← transform1 (scalarOver s a) b_greaterequalthan0 (zeros self.m_dim)
  let addend2 ← transform1 (fun c => divides a_swap c) b_lessthan0 (zeros self.m_dim)
  let m_value ← transform2 plus addend1 addend2 (s self.m_id)
  pure (Function.update s self.m_id m_value)

/-- `Div_ScalarNP_VecU::evaluate`. -/
def Div_ScalarNP_VecU.evaluate (self : Header) (a b : Arg) (x_in y_in : Vec) (s : Store) :
    Option Store := do
  let s ← b.evaluate x_in y_in s
  let (b_greaterequalthan0, b_lessthan0) ←
    splitLoop self.m_dim (s b.m_id) (zeros b.m_dim) (zeros b.m_dim)
  let s ← a.evaluate y_in x_in s
  let a_swap ← (s a.m_id).at 0
  let s ← a.evaluate x_in y_in s
  let addend1 ← transform1 (scalarOver s a) b_greaterequalthan0 (zeros self.m_dim)
  let addend2 ← transform1 (fun c => divides a_swap c) b_lessthan0 (zeros self.m_dim)
  let m_value ← transform2 plus addend1 addend2 (s self.m_id)
  pure (Function.update s self.m_id m_value)

/-- One pass of the last loop of `Div_ScalarU_VecU::evaluate`; `a_first` is the member `a`,
`arg1val` is the buffer behind `m_arg1val`, dereferenced in the second test. -/
def Div_ScalarU_VecU.body (a_first : ℚ) (arg1val : Vec) (b_ge b_lt b_swap_ge b_swap_lt : Vec)
    (i : Nat) (m_value : Vec) : Option Vec := do
  let tmp1_3 ←
    if a_first ≥ 0 then do
      let d ← b_swap_ge.at i
      if d = 0 then pure 0 else divides a_first d
    else do
      let d ← b_ge.at i
      if d = 0 then pure 0 else divides a_first d
  let arg1 ← arg1val.at 0
  let tmp2_4 ←
    if arg1 ≥ 0 then do
      let d ← b_swap_lt.at i
      if d = 0 then pure 0 else divides arg1 d
    else do
      let d ← b_lt.at i
      if d = 0 then pure 0 else divides arg1 d
  m_value.write i (tmp1_3 + tmp2_4)

/-- `Div_ScalarU_VecU::evaluate`; the four scratch vectors have size `m_dim`. -/
def Div_ScalarU_VecU.evaluate (self : Header) (a b : Arg) (x_in y_in : Vec) (s : Store) :
    Option Store := do
  let z := zeros self.m_dim
  let s ← a.evaluate x_in y_in s
  let a_first ← (s a.m_id).at 0
  let s ← a.evaluate y_in x_in s
  let s ← b.evaluate x_in y_in s
  let (b_greaterequalthan0, b_lessthan0) ← splitLoop self.m_dim (s b.m_id) z z
  let s ← b.evaluate y_in x_in s
  let (b_swap_greaterequalthan0, b_swap_lessthan0) ← splitLoop self.m_dim (s b.m_id) z z
  let m_value ← forLoop self.m_dim
    (Div_ScalarU_VecU.body a_first (s a.m_id) b_greaterequalthan0 b_lessthan0
      b_swap_greaterequalthan0 b_swap_lessthan0) (s self.m_id)
  pure (Function.update s self.m_id m_value)

/-! ## Function.h: dot product (`m_dim = 1`) -/

/-- The statement `m_value.at(0) = std::inner_product(a.begin(), a.end(), b.begin(), 0)`. -/
def setInner (a b m_value : Vec) : Option Vec := do
  let r ← inner_product a b 0
  m_value.write 0 r

/-- The statement `m_value.at(0) += std::inner_product(a.begin(), a.end(), b.begin(), 0)`. -/
def addInner (a b m_value : Vec) : Option Vec := do
  let r ← inner_product a b 0
  let old ← m_value.at 0
  m_value.write 0 (old + r)

/-- The statement
`m_value.at(0) = std::inner_product(a.begin(), a.end(), b.begin(), m_value.at(0))`. -/
def accInner (a b m_value : Vec) : Option Vec := do
  let old ← m_value.at 0
  let r ← inner_product a b old
  m_value.write 0 r

/-- `Dot_NN_NN::evaluate`. -/
def Dot_NN_NN.evaluate (self : Header) (a b : Arg) (x_in y_in : Vec) (s : Store) :
    Option Store := do
  let s ← a.evaluate x_in y_in s
  let s ← b.evaluate x_in y_in s
  let m_value ← setInner (s a.m_id) (s b.m_id) (s self.m_id)
  pure (Function.update s self.m_id m_value)

/-- `Dot_NP_NP::evaluate`. -/
def Dot_NP_NP.evaluate (self : Header) (a b : Arg) (x_in y_in : Vec) (s : Store) :
    Option Store := do
  let s ← a.evaluate y_in x_in s
  let s ← b.evaluate y_in x_in s
  let m_value ← setInner (s a.m_id) (s b.m_id) (s self.m_id)
  pure (Function.update s self.m_id m_value)

/-- `Dot_NN_NP::evaluate`. -/
def Dot_NN_NP.evaluate (self : Header) (a b : Arg) (x_in y_in : Vec) (s : Store) :
    Option Store := do
  let s ← a.evaluate y_in x_in s
  let s ← b.evaluate x_in y_in s
  let m_value ← setInner (s a.m_id) (s b.m_id) (s self.m_id)
  pure (Function.update s self.m_id m_value)

/-- `Dot_U_NN::evaluate`; the split loop runs over `m_arg1val->size()`, the scratch vectors have
size `a->getDim()`. -/
def Dot_U_NN.evaluate (self : Header) (a b : Arg) (x_in y_in : Vec) (s : Store) :
    Option Store := do
  let s ← a.evaluate x_in y_in s
  let (a_greaterequalthan0, a_lessthan0) ←
    splitLoop (s a.m_id).length (s a.m_id) (zeros a.m_dim) (zeros a.m_dim)
  let s ← b.evaluate y_in x_in s
  let b_swap := s b.m_id
  let s ← b.evaluate x_in y_in s
  let m_value ← setInner a_greaterequalthan0 (s b.m_id) (s self.m_id)
  let m_value ← addInner a_lessthan0 b_swap m_value
  pure (Function.update s self.m_id m_value)

/-- `Dot_U_NP::evaluate`; the split loop runs over `i < m_dim`, and `m_dim` is 1; the scratch
vectors have size `a->getDim()`. -/
def Dot_U_NP.evaluate (self : Header) (a b : Arg) (x_in y_in : Vec) (s : Store) :
    Option Store := do
  let s ← a.evaluate y_in x_in s
  let (a_greaterequalthan0, a_lessthan0) ←
    splitLoop self.m_dim (s a.m_id) (zeros a.m_dim) (zeros a.m_dim)
  let s ← b.evaluate y_in x_in s
  let b_swap := s b.m_id
  let s ← b.evaluate x_in y_in s
  let m_value ← setInner a_greaterequalthan0 (s b.m_id) (s self.m_id)
  let m_value ← accInner a_lessthan0 b_swap m_value
  pure (Function.update s self.m_id m_value)

/-- `Dot_U_U::evaluate`; the scratch vectors have size `m_dim`, and `m_dim` is 1.  The fourth
inner product pairs `a_swap_lessthan0` with `b_swap_lessthan0`. -/
def Dot_U_U.evaluate (self : Header) (a b : Arg) (x_in y_in : Vec) (s : Store) :
    Option Store := do
  let z := zeros self.m_dim
  let s ← a.evaluate x_in y_in s
  let s ← b.evaluate x_in y_in s
  let own ← forLoop self.m_dim (splitBodyByFirst (s a.m_id) (s b.m_id)) ⟨z, z, z, z⟩
  let s ← a.evaluate y_in x_in s
  let s ← b.evaluate y_in x_in s
  let swap ← forLoop self.m_dim (splitBodyByFirst (s a.m_id) (s b.m_id)) ⟨z, z, z, z⟩
  let m_value ← setInner own.a_ge own.b_ge (s self.m_id)
  let m_value ← accInner swap.a_ge own.b_lt m_value
  let m_value ← accInner own.a_lt swap.b_ge m_value
  let m_value ← accInner swap.a_lt swap.b_lt m_value
  pure (Function.update s self.m_id m_value)

/-! ## Function.h: matrix × vector (`m_dim` is the number of rows) -/

/-- The statement `m_value.at(row) = std::inner_product(r, r + cols, v.begin(), 0)` with `r`
the row iterator `m.getRowIt(row)`. -/
def setRow (cols : Nat) (m : Matrix) (v : Vec) (row : Nat) (m_value : Vec) : Option Vec := do
  let r ← m.rowRange row cols
  let t ← inner_product r v 0
  m_value.write row t

/-- The statement `m_value.at(row) = std::inner_product(r, r + cols, v.begin(),
m_value.at(row))`. -/
def accRow (cols : Nat) (m : Matrix) (v : Vec) (row : Nat) (m_value : Vec) : Option Vec := do
  let r ← m.rowRange row cols
  let old ← m_value.at row
  let t ← inner_product r v old
  m_value.write row t

/-- One pass of the row loop of the sign-definite variants; the width of the row range is
`m_matval->getDim().at(1)`. -/
def rowBody1 (m : Matrix) (vec : Vec) (row : Nat) (m_value : Vec) : Option Vec :=
  setRow m.mCols m vec row m_value

/-- One pass of the row loop with two inner products, the second accumulating on the first. -/
def rowBody2 (cols : Nat) (m1 : Matrix) (v1 : Vec) (m2 : Matrix) (v2 : Vec) (row : Nat)
    (m_value : Vec) : Option Vec := do
  let m_value ← setRow cols m1 v1 row m_value
  accRow cols m2 v2 row m_value

/-- `Mult_MatNN_VecNN::evaluate`. -/
def Mult_MatNN_VecNN.evaluate (self : Header) (a b : Arg) (x_in y_in : Vec) (s : Store) :
    Option Store := do
  let m_matval ← a.m_matrix
  let s ← a.evaluate x_in y_in s
  let s ← b.evaluate x_in y_in s
  let m_value ← forLoop self.m_dim (rowBody1 m_matval (s b.m_id)) (s self.m_id)
  pure (Function.update s self.m_id m_value)

/-- `Mult_MatNP_VecNP::evaluate`. -/
def Mult_MatNP_VecNP.evaluate (self : Header) (a b : Arg) (x_in y_in : Vec) (s : Store) :
    Option Store := do
  let m_matval ← a.m_matrix
  let s ← a.evaluate y_in x_in s
  let s ← b.evaluate y_in x_in s
  let m_value ← forLoop self.m_dim (rowBody1 m_matval (s b.m_id)) (s self.m_id)
  pure (Function.update s self.m_id m_value)

/-- `Mult_MatNN_VecNP::evaluate`. -/
def Mult_MatNN_VecNP.evaluate (self : Header) (a b : Arg) (x_in y_in : Vec) (s : Store) :
    Option Store := do
  let m_matval ← a.m_matrix
  let s ← a.evaluate y_in x_in s
  let s ← b.evaluate x_in y_in s
  let m_value ← forLoop self.m_dim (rowBody1 m_matval (s b.m_id)) (s self.m_id)
  pure (Function.update s self.m_id m_value)

/-- `Mult_MatNP_VecNN::evaluate`. -/
def Mult_MatNP_VecNN.evaluate (self : Header) (a b : Arg) (x_in y_in : Vec) (s : Store) :
    Option Store := do
  let m_matval ← a.m_matrix
  let s ← a.evaluate x_in y_in s
  let s ← b.evaluate y_in x_in s
  let m_value ← forLoop self.m_dim (rowBody1 m_matval (s b.m_id)) (s self.m_id)
  pure (Function.update s self.m_id m_value)

/-- `Mult_MatU_VecNN::evaluate`; the member `b` is the vector of the pass at `(x, y)`. -/
def Mult_MatU_VecNN.evaluate (self : Header) (a b : Arg) (x_in y_in : Vec) (s : Store) :
    Option Store := do
  let m_matval ← a.m_matrix
  let s ← a.evaluate x_in y_in s
  let a_greaterequalthan0 := m_matval.getGreaterEqualThan0
  let a_lessthan0 := m_matval.getLessThan0
  let s ← b.evaluate x_in y_in s
  let b_first := s b.m_id
  let s ← b.evaluate y_in x_in s
  let m_value ← forLoop self.m_dim
    (rowBody2 m_matval.mCols a_greaterequalthan0 b_first a_lessthan0 (s b.m_id)) (s self.m_id)
  pure (Function.update s self.m_id m_value)

/-- `Mult_MatU_VecNP::evaluate`. -/
def Mult_MatU_VecNP.evaluate (self : Header) (a b : Arg) (x_in y_in : Vec) (s : Store) :
    Option Store := do
  let m_matval ← a.m_matrix
  let s ← a.evaluate y_in x_in s
  let a_greaterequalthan0 := m_matval.getGreaterEqualThan0
  let a_lessthan0 := m_matval.getLessThan0
  let s ← b.evaluate x_in y_in s
  let b_first := s b.m_id
  let s ← b.evaluate y_in x_in s
  let m_value ← forLoop self.m_dim
    (rowBody2 m_matval.mCols a_greaterequalthan0 b_first a_lessthan0 (s b.m_id)) (s self.m_id)
  pure (Function.update s self.m_id m_value)

/-- `Mult_MatNN_VecU::evaluate`; `bsize` is the size `m_vecval->size()` that the constructor
gave to `b_greaterequalthan0` and `b_lessthan0`; the member `a` is a copy of `*m_matval`. -/
def Mult_MatNN_VecU.evaluate (bsize : Nat) (self : Header) (a b : Arg) (x_in y_in : Vec)
    (s : Store) : Option Store := do
  let m_matval ← a.m_matrix
  let s ← a.evaluate x_in y_in s
  let a_copy := m_matval
  let s ← a.evaluate y_in x_in s
  let s ← b.evaluate x_in y_in s
  let (b_greaterequalthan0, b_lessthan0) ←
    splitLoop self.m_dim (s b.m_id) (zeros bsize) (zeros bsize)
  let m_value ← forLoop self.m_dim
    (rowBody2 m_matval.mCols a_copy b_greaterequalthan0 m_matval b_lessthan0) (s self.m_id)
  pure (Function.update s self.m_id m_value)

/-- `Mult_MatNP_VecU::evaluate`. -/
def Mult_MatNP_VecU.evaluate (bsize : Nat) (self : Header) (a b : Arg) (x_in y_in : Vec)
    (s : Store) : Option Store := do
  let m_matval ← a.m_matrix
  let s ← a.evaluate x_in y_in s
  let a_copy := m_matval
  let s ← a.evaluate y_in x_in s
  let s ← b.evaluate y_in x_in s
  let (b_greaterequalthan0, b_lessthan0) ←
    splitLoop self.m_dim (s b.m_id) (zeros bsize) (zeros bsize)
  let m_value ← forLoop self.m_dim
    (rowBody2 m_matval.mCols a_copy b_greaterequalthan0 m_matval b_lessthan0) (s self.m_id)
  pure (Function.update s self.m_id m_value)

/-- One pass of the row loop of `Mult_MatU_VecU::evaluate`: four inner products accumulated in
`m_value.at(row)`. -/
def rowBody4 (cols : Nat) (m1 : Matrix) (v1 : Vec) (m2 : Matrix) (v2 : Vec) (m3 : Matrix)
    (v3 : Vec) (m4 : Matrix) (v4 : Vec) (row : Nat) (m_value : Vec) : Option Vec := do
  let m_value ← setRow cols m1 v1 row m_value
  let m_value ← accRow cols m2 v2 row m_value
  let m_value ← accRow cols m3 v3 row m_value
  accRow cols m4 v4 row m_value

/-- `Mult_MatU_VecU::evaluate`; `bsize` is the size `m_vecval->size()` that the constructor gave
to the four vector halves. -/
def Mult_MatU_VecU.evaluate (bsize : Nat) (self : Header) (a b : Arg) (x_in y_in : Vec)
    (s : Store) : Option Store := do
  let m_matval ← a.m_matrix
  let s ← a.evaluate x_in y_in s
  let a_greaterequalthan0 := m_matval.getGreaterEqualThan0
  let a_lessthan0 := m_matval.getLessThan0
  let s ← b.evaluate x_in y_in s
  let (b_greaterequalthan0, b_lessthan0) ←
    splitLoop self.m_dim (s b.m_id) (zeros bsize) (zeros bsize)
  let s ← a.evaluate y_in x_in s
  let a_swap_greaterequalthan0 := m_matval.getGreaterEqualThan0
  let a_swap_lessthan0 := m_matval.getLessThan0
  let s ← b.evaluate y_in x_in s
  let (b_swap_greaterequalthan0, b_swap_lessthan0) ←
    splitLoop self.m_dim (s b.m_id) (zeros bsize) (zeros bsize)
  let m_value ← forLoop self.m_dim
    (rowBody4 m_matval.mCols a_greaterequalthan0 b_greaterequalthan0
      a_swap_greaterequalthan0 b_lessthan0 a_lessthan0 b_swap_greaterequalthan0
      a_swap_lessthan0 b_swap_lessthan0) (s self.m_id)
  pure (Function.update s self.m_id m_value)

/-! ## Function.h: unary nodes -/

/-- `Inv::evaluate` (name "inverse"): the operand at `(y, x)`, then `std::log2` of each entry. -/
def Inv.evaluate (cm : CMath) (self : Header) (a : Arg) (x_in y_in : Vec) (s : Store) :
    Option Store := do
  let s ← a.evaluate y_in x_in s
  let m_value ← transform1 (fun c => some (cm.log2 c)) (s a.m_id) (s self.m_id)
  pure (Function.update s self.m_id m_value)

/-- `Log2::evaluate`. -/
def Log2.evaluate (cm : CMath) (self : Header) (a : Arg) (x_in y_in : Vec) (s : Store) :
    Option Store := do
  let s ← a.evaluate x_in y_in s
  let m_value ← transform1 (fun c => some (cm.log2 c)) (s a.m_id) (s self.m_id)
  pure (Function.update s self.m_id m_value)

/-- `LogN::evaluate`. -/
def LogN.evaluate (cm : CMath) (self : Header) (a : Arg) (x_in y_in : Vec) (s : Store) :
    Option Store := do
  let s ← a.evaluate x_in y_in s
  let m_value ← transform1 (fun c => some (cm.log c)) (s a.m_id) (s self.m_id)
  pure (Function.update s self.m_id m_value)

/-- `Neg::evaluate`. -/
def Neg.evaluate (self : Header) (a : Arg) (x_in y_in : Vec) (s : Store) : Option Store := do
  let s ← a.evaluate y_in x_in s
  let m_value ← transform1 (fun c => some (-c)) (s a.m_id) (s self.m_id)
  pure (Function.update s self.m_id m_value)

/-- `Prod::evaluate`. -/
def Prod.evaluate (self : Header) (a : Arg) (x_in y_in : Vec) (s : Store) : Option Store := do
  let s ← a.evaluate x_in y_in s
  let m_value ← (s self.m_id).write 0 (accumulate (s a.m_id) 1 (fun c d => c * d))
  pure (Function.update s self.m_id m_value)

/-- `Sum::evaluate`. -/
def Sum.evaluate (self : Header) (a : Arg) (x_in y_in : Vec) (s : Store) : Option Store := do
  let s ← a.evaluate x_in y_in s
  let m_value ← (s self.m_id).write 0 (accumulate (s a.m_id) 0 (fun c d => c + d))
  pure (Function.update s self.m_id m_value)

/-- `Sliced::evaluate`; `m_valuepointer` points at entry `m_index` of the operand's buffer. -/
def Sliced.evaluate (m_index : Nat) (self : Header) (a : Arg) (x_in y_in : Vec) (s : Store) :
    Option Store := do
  let s ← a.evaluate x_in y_in s
  let c ← (s a.m_id).at m_index
  let m_value ← (s self.m_id).write 0 c
  pure (Function.update s self.m_id m_value)

/-! ## The expression graph -/

/-- The concrete leaf classes of `Parameter.h` and `Variable.h`. -/
inductive LeafKind where
  | Parameter
  | MultiDimParameter (m_matrix : Matrix)
  | Variable
deriving DecidableEq, Repr

/-- The concrete one-operand classes; `Sliced` carries its member `m_index`. -/
inductive UnaryKind where
  | Inv
  | Log2
  | LogN
  | Neg
  | Prod
  | Sum
  | Sliced (m_index : Nat)
deriving DecidableEq, Repr

/-- The concrete two-operand classes; the three `Mat*_VecU` classes carry the size that their
constructor gave to the halves of the vector operand. -/
inductive BinaryKind where
  | Add_vec_vec
  | Add_vec_scalar
  | Mult_vecNN_vecNN
  | Mult_vecNP_vecNP
  | Mult_vecNN_vecNP
  | Mult_vecU_vecNN
  | Mult_vecU_vecNP
  | Mult_vecU_vecU
  | Mult_vecNN_scalarNN
  | Mult_vecNP_scalarNP
  | Mult_vecNN_scalarNP
  | Mult_vecNP_scalarNN
  | Mult_vecU_scalarNN
  | Mult_vecNN_scalarU
  | Mult_vecU_scalarNP
  | Mult_vecNP_scalarU
  | Mult_vecU_scalarU
  | Div_VecNN_ScalarNN
  | Div_VecNP_ScalarNP
  | Div_VecNN_ScalarNP
  | Div_VecNP_ScalarNN
  | Div_VecU_ScalarNN
  | Div_VecU_ScalarNP
  | Div_VecNN_ScalarU
  | Div_VecNP_ScalarU
  | Div_VecU_ScalarU
  | Div_VecNN_VecNN
  | Div_VecNP_VecNP
  | Div_VecNN_VecNP
  | Div_VecNP_VecNN
  | Div_VecU_VecNN
  | Div_VecU_VecNP
  | Div_VecNN_VecU
  | Div_VecNP_VecU
  | Div_VecU_VecU
  | Div_ScalarNN_VecNN
  | Div_ScalarNP_VecNP
  | Div_ScalarNN_VecNP
  | Div_ScalarNP_VecNN
  | Div_ScalarU_VecNN
  | Div_ScalarU_VecNP
  | Div_ScalarNN_VecU
  | Div_ScalarNP_VecU
  | Div_ScalarU_VecU
  | Dot_NN_NN
  | Dot_NP_NP
  | Dot_NN_NP
  | Dot_U_NN
  | Dot_U_NP
  | Dot_U_U
  | Mult_MatNN_VecNN
  | Mult_MatNP_VecNP
  | Mult_MatNN_VecNP
  | Mult_MatNP_VecNN
  | Mult_MatU_VecNN
  | Mult_MatU_VecNP
  | Mult_MatNN_VecU (bsize : Nat)
  | Mult_MatNP_VecU (bsize : Nat)
  | Mult_MatU_VecU (bsize : Nat)

/-- An object of the class hierarchy below `Expression`, with the objects its `m_arguments`
point to.  Two occurrences with the same `m_id` are the same object: they share the slot of the
store. -/
inductive Expression where
  | leaf (h : Header) (k : LeafKind) : Expression
  | unary (h : Header) (k : UnaryKind) (a : Expression) : Expression
  | binary (h : Header) (k : BinaryKind) (a b : Expression) : Expression
  | list (h : Header) (m_arguments : List Expression) : Expression

def Expression.header : Expression → Header
  | .leaf h _ => h
  | .unary h _ _ => h
  | .binary h _ _ _ => h
  | .list h _ => h

def Expression.getID (e : Expression) : Nat := e.header.m_id

def Expression.getDim (e : Expression) : Nat := e.header.m_dim

def Expression.getSign (e : Expression) : sign := e.header.m_sign

/-- `Expression::getValue`, read against the store. -/
def Expression.getValue (e : Expression) (s : Store) : Vec := s e.getID

/-- `MultiDimParameter::getValue`, the matrix of a `MultiDimParameter`. -/
def Expression.getMatrix : Expression → Option Matrix
  | .leaf _ (.MultiDimParameter m) => some m
  | _ => none

/-- Virtual dispatch of `evaluate` for the one-operand classes. -/
def UnaryKind.evaluate (cm : CMath) : UnaryKind → Header → Arg → Vec → Vec → Store → Option Store
  | .Inv => Inv.evaluate cm
  | .Log2 => Log2.evaluate cm
  | .LogN => LogN.evaluate cm
  | .Neg => Neg.evaluate
  | .Prod => Prod.evaluate
  | .Sum => Sum.evaluate
  | .Sliced m_index => Sliced.evaluate m_index

/-- Virtual dispatch of `evaluate` for the two-operand classes. -/
def BinaryKind.evaluate : BinaryKind → Header → Arg → Arg → Vec → Vec → Store → Option Store
  | .Add_vec_vec => Add_vec_vec.evaluate
  | .Add_vec_scalar => Add_vec_scalar.evaluate
  | .Mult_vecNN_vecNN => Mult_vecNN_vecNN.evaluate
  | .Mult_vecNP_vecNP => Mult_vecNP_vecNP.evaluate
  | .Mult_vecNN_vecNP => Mult_vecNN_vecNP.evaluate
  | .Mult_vecU_vecNN => Mult_vecU_vecNN.evaluate
  | .Mult_vecU_vecNP => Mult_vecU_vecNP.evaluate
  | .Mult_vecU_vecU => Mult_vecU_vecU.evaluate
  | .Mult_vecNN_scalarNN => Mult_vecNN_scalarNN.evaluate
  | .Mult_vecNP_scalarNP => Mult_vecNP_scalarNP.evaluate
  | .Mult_vecNN_scalarNP => Mult_vecNN_scalarNP.evaluate
  | .Mult_vecNP_scalarNN => Mult_vecNP_scalarNN.evaluate
  | .Mult_vecU_scalarNN => Mult_vecU_scalarNN.evaluate
  | .Mult_vecNN_scalarU => Mult_vecNN_scalarU.evaluate
  | .Mult_vecU_scalarNP => Mult_vecU_scalarNP.evaluate
  | .Mult_vecNP_scalarU => Mult_vecNP_scalarU.evaluate
  | .Mult_vecU_scalarU => Mult_vecU_scalarU.evaluate
  | .Div_VecNN_ScalarNN => Div_VecNN_ScalarNN.evaluate
  | .Div_VecNP_ScalarNP => Div_VecNP_ScalarNP.evaluate
  | .Div_VecNN_ScalarNP => Div_VecNN_ScalarNP.evaluate
  | .Div_VecNP_ScalarNN => Div_VecNP_ScalarNN.evaluate
  | .Div_VecU_ScalarNN => Div_VecU_ScalarNN.evaluate
  | .Div_VecU_ScalarNP => Div_VecU_ScalarNP.evaluate
  | .Div_VecNN_ScalarU => Div_VecNN_ScalarU.evaluate
  | .Div_VecNP_ScalarU => Div_VecNP_ScalarU.evaluate
  | .Div_VecU_ScalarU => Div_VecU_ScalarU.evaluate
  | .Div_VecNN_VecNN => Div_VecNN_VecNN.evaluate
  | .Div_VecNP_VecNP => Div_VecNP_VecNP.evaluate
  | .Div_VecNN_VecNP => Div_VecNN_VecNP.evaluate
  | .Div_VecNP_VecNN => Div_VecNP_VecNN.evaluate
  | .Div_VecU_VecNN => Div_VecU_VecNN.evaluate
  | .Div_VecU_VecNP => Div_VecU_VecNP.evaluate
  | .Div_VecNN_VecU => Div_VecNN_VecU.evaluate
  | .Div_VecNP_VecU => Div_VecNP_VecU.evaluate
  | .Div_VecU_VecU => Div_VecU_VecU.evaluate
  | .Div_ScalarNN_VecNN => Div_ScalarNN_VecNN.evaluate
  | .Div_ScalarNP_VecNP => Div_ScalarNP_VecNP.evaluate
  | .Div_ScalarNN_VecNP => Div_ScalarNN_VecNP.evaluate
  | .Div_ScalarNP_VecNN => Div_ScalarNP_VecNN.evaluate
  | .Div_ScalarU_VecNN => Div_ScalarU_VecNN.evaluate
  | .Div_ScalarU_VecNP => Div_ScalarU_VecNP.evaluate
  | .Div_ScalarNN_VecU => Div_ScalarNN_VecU.evaluate
  | .Div_ScalarNP_VecU => Div_ScalarNP_VecU.evaluate
  | .Div_ScalarU_VecU => Div_ScalarU_VecU.evaluate
  | .Dot_NN_NN => Dot_NN_NN.evaluate
  | .Dot_NP_NP => Dot_NP_NP.evaluate
  | .Dot_NN_NP => Dot_NN_NP.evaluate
  | .Dot_U_NN => Dot_U_NN.evaluate
  | .Dot_U_NP => Dot_U_NP.evaluate
  | .Dot_U_U => Dot_U_U.evaluate
  | .Mult_MatNN_VecNN => Mult_MatNN_VecNN.evaluate
  | .Mult_MatNP_VecNP => Mult_MatNP_VecNP.evaluate
  | .Mult_MatNN_VecNP => Mult_MatNN_VecNP.evaluate
  | .Mult_MatNP_VecNN => Mult_MatNP_VecNN.evaluate
  | .Mult_MatU_VecNN => Mult_MatU_VecNN.evaluate
  | .Mult_MatU_VecNP => Mult_MatU_VecNP.evaluate
  | .Mult_MatNN_VecU bsize => Mult_MatNN_VecU.evaluate bsize
  | .Mult_MatNP_VecU bsize => Mult_MatNP_VecU.evaluate bsize
  | .Mult_MatU_VecU bsize => Mult_MatU_VecU.evaluate bsize

mutual
/-- The virtual `Expression::evaluate(x_in, y_in)`.  `Leaf::evaluate` has an empty body,
`Variable::evaluate` is `m_value = x_in`, and a function node runs the body of its class on the
operands reached through `m_arguments`. -/
def Expression.evaluate (cm : CMath) : Expression → Vec → Vec → Store → Option Store
  | .leaf h .Variable, x_in, _, s => some (Function.update s h.m_id x_in)
  | .leaf _ .Parameter, _, _, s => some s
  | .leaf _ (.MultiDimParameter _), _, _, s => some s
  | .unary h k a, x_in, y_in, s =>
      k.evaluate cm h ⟨a.evaluate cm, a.getID, a.getDim, a.getMatrix⟩ x_in y_in s
  | .binary h k a b, x_in, y_in, s =>
      k.evaluate h ⟨a.evaluate cm, a.getID, a.getDim, a.getMatrix⟩
        ⟨b.evaluate cm, b.getID, b.getDim, b.getMatrix⟩ x_in y_in s
  | .list h m_arguments, x_in, y_in, s => List_evaluate cm h m_arguments 0 x_in y_in s
/-- `List::evaluate`, from pass `i` of its loop on, with the operands `m_arguments.at(i)`,
`m_arguments.at(i+1)`, ... still to be visited:
```
for (int i=0; i<m_dim; ++i) {
    m_arguments.at(i)->evaluate(x_in, y_in);
    m_value.at(i) = m_valuepointer.at(i)->at(0);
}
``` -/
def List_evaluate (cm : CMath) (self : Header) :
    List Expression → Nat → Vec → Vec → Store → Option Store
  | [], i, _, _, s => if i < self.m_dim then none else some s
  | a :: rest, i, x_in, y_in, s =>
      if i < self.m_dim then do
        let s ← a.evaluate cm x_in y_in s
        let c ← (s a.getID).at 0
        let m_value ← (s self.m_id).write i c
        List_evaluate cm self rest (i + 1) x_in y_in (Function.update s self.m_id m_value)
      else some s
end

/-- What a parent sees of an operand. -/
def Expression.toArg (cm : CMath) (e : Expression) : Arg :=
  ⟨e.evaluate cm, e.getID, e.getDim, e.getMatrix⟩

/-! ## Construction: the static registry of `Expression` and the constructors -/

/-- The static members `uid_counter` and `expression_list` of `Expression`, and the value
buffers of the objects constructed so far. -/
structure Registry where
  uid_counter : Nat
  expression_list : List Expression
  heap : Store

/-- Program start: `uid_counter = 0`, `expression_list = {}`. -/
def Registry.initial : Registry := ⟨0, [], fun _ => []⟩

/-- The constructor `Expression(name)` followed by the assignments of a derived constructor:
the new object takes the identifier `++uid_counter`, is appended to `expression_list`, and its
buffer `m_value` is initialised. -/
def Registry.construct (r : Registry) (mk : Nat → Expression) (m_value : Vec) :
    Expression × Registry :=
  let m_id := r.uid_counter + 1
  let e := mk m_id
  (e, ⟨m_id, r.expression_list ++ [e], Function.update r.heap m_id m_value⟩)

/-- The loop of `Parameter::Parameter` (and of `MultiDimParameter`) that assigns `m_sign` once
per component, starting from the member initialiser `m_sign = unknown`. -/
def Parameter.signLoop (valuein : Vec) : sign :=
  valuein.foldl
    (fun _ v => if v ≥ 0 then sign.NN else if v ≤ 0 then sign.NP else sign.unknown)
    sign.unknown

/-- `Parameter::Parameter(valuein)`. -/
def Parameter.new (valuein : Vec) (r : Registry) : Expression × Registry :=
  r.construct
    (fun m_id => .leaf ⟨m_id, valuein.length, Parameter.signLoop valuein⟩ .Parameter) valuein

/-- `MultiDimParameter::MultiDimParameter(rows, cols, valuein)`; `m_dim` is 0 and `m_value` stays
empty. -/
def MultiDimParameter.new (rows cols : Nat) (valuein : Vec) (r : Registry) :
    Expression × Registry :=
  r.construct
    (fun m_id => .leaf ⟨m_id, 0, Parameter.signLoop valuein⟩
      (.MultiDimParameter ⟨rows, cols, valuein⟩)) []

/-- `Variable::Variable(dimension, sign)`. -/
def Variable.new (dimension : Nat) (sg : sign) (r : Registry) : Expression × Registry :=
  r.construct (fun m_id => .leaf ⟨m_id, dimension, sg⟩ .Variable) (zeros dimension)

/-- The tag computed by the constructors of `Add_vec_vec` and `Add_vec_scalar`. -/
def Add.signOf (sa sb : sign) : sign :=
  if sa = sign.NN ∧ sb = sign.NN then sign.NN
  else if sa = sign.NP ∧ sb = sign.NP then sign.NP
  else sign.unknown

/-- `Add_vec_vec::Add_vec_vec(a, b)`. -/
def Add_vec_vec.new (a b : Expression) (r : Registry) : Expression × Registry :=
  r.construct
    (fun m_id => .binary ⟨m_id, a.getDim, Add.signOf a.getSign b.getSign⟩ .Add_vec_vec a b)
    (zeros a.getDim)

/-! ## Reference semantics used to state the properties -/

/-- The nonnegative half of a number, as the split loops compute it. -/
def geHalf (c : ℚ) : ℚ := if c ≥ 0 then c else 0

/-- The negative half of a number, as the split loops compute it. -/
def ltHalf (c : ℚ) : ℚ := if c ≥ 0 then 0 else c

/-- The operator families of the specification, one per abstract base class. -/
inductive Family where
  | add_vec_vec
  | add_vec_scalar
  | mult_vec_vec
  | mult_vec_scalar
  | mult_mat_vec
  | dot
  | div_vec_vec
  | div_vec_scalar
  | div_scalar_vec
deriving DecidableEq, Repr

/-- The base class of each two-operand class. -/
def BinaryKind.family : BinaryKind → Family
  | .Add_vec_vec => .add_vec_vec
  | .Add_vec_scalar => .add_vec_scalar
  | .Mult_vecNN_vecNN | .Mult_vecNP_vecNP | .Mult_vecNN_vecNP | .Mult_vecU_vecNN
  | .Mult_vecU_vecNP | .Mult_vecU_vecU => .mult_vec_vec
  | .Mult_vecNN_scalarNN | .Mult_vecNP_scalarNP | .Mult_vecNN_scalarNP | .Mult_vecNP_scalarNN
  | .Mult_vecU_scalarNN | .Mult_vecNN_scalarU | .Mult_vecU_scalarNP | .Mult_vecNP_scalarU
  | .Mult_vecU_scalarU => .mult_vec_scalar
  | .Div_VecNN_ScalarNN | .Div_VecNP_ScalarNP | .Div_VecNN_ScalarNP | .Div_VecNP_ScalarNN
  | .Div_VecU_ScalarNN | .Div_VecU_ScalarNP | .Div_VecNN_ScalarU | .Div_VecNP_ScalarU
  | .Div_VecU_ScalarU => .div_vec_scalar
  | .Div_VecNN_VecNN | .Div_VecNP_VecNP | .Div_VecNN_VecNP | .Div_VecNP_VecNN
  | .Div_VecU_VecNN | .Div_VecU_VecNP | .Div_VecNN_VecU | .Div_VecNP_VecU
  | .Div_VecU_VecU => .div_vec_vec
  | .Div_ScalarNN_VecNN | .Div_ScalarNP_VecNP | .Div_ScalarNN_VecNP | .Div_ScalarNP_VecNN
  | .Div_ScalarU_VecNN | .Div_ScalarU_VecNP | .Div_ScalarNN_VecU | .Div_ScalarNP_VecU
  | .Div_ScalarU_VecU => .div_scalar_vec
  | .Dot_NN_NN | .Dot_NP_NP | .Dot_NN_NP | .Dot_U_NN | .Dot_U_NP | .Dot_U_U => .dot
  | .Mult_MatNN_VecNN | .Mult_MatNP_VecNP | .Mult_MatNN_VecNP | .Mult_MatNP_VecNN
  | .Mult_MatU_VecNN | .Mult_MatU_VecNP | .Mult_MatNN_VecU _ | .Mult_MatNP_VecU _
  | .Mult_MatU_VecU _ => .mult_mat_vec

/-- The operand tags that the name of a class states (first operand, second operand); the two
addition classes state none. -/
def BinaryKind.namedTags : BinaryKind → Option (sign × sign)
  | .Add_vec_vec | .Add_vec_scalar => none
  | .Mult_vecNN_vecNN | .Mult_vecNN_scalarNN | .Div_VecNN_ScalarNN | .Div_VecNN_VecNN
  | .Div_ScalarNN_VecNN | .Dot_NN_NN | .Mult_MatNN_VecNN => some (.NN, .NN)
  | .Mult_vecNP_vecNP | .Mult_vecNP_scalarNP | .Div_VecNP_ScalarNP | .Div_VecNP_VecNP
  | .Div_ScalarNP_VecNP | .Dot_NP_NP | .Mult_MatNP_VecNP => some (.NP, .NP)
  | .Mult_vecNN_vecNP | .Mult_vecNN_scalarNP | .Div_VecNN_ScalarNP | .Div_VecNN_VecNP
  | .Div_ScalarNN_VecNP | .Dot_NN_NP | .Mult_MatNN_VecNP => some (.NN, .NP)
  | .Mult_vecNP_scalarNN | .Div_VecNP_ScalarNN | .Div_VecNP_VecNN | .Div_ScalarNP_VecNN
  | .Mult_MatNP_VecNN => some (.NP, .NN)
  | .Mult_vecU_vecNN | .Mult_vecU_scalarNN | .Div_VecU_ScalarNN | .Div_VecU_VecNN
  | .Div_ScalarU_VecNN | .Dot_U_NN | .Mult_MatU_VecNN => some (.unknown, .NN)
  | .Mult_vecU_vecNP | .Mult_vecU_scalarNP | .Div_VecU_ScalarNP | .Div_VecU_VecNP
  | .Div_ScalarU_VecNP | .Dot_U_NP | .Mult_MatU_VecNP => some (.unknown, .NP)
  | .Mult_vecNN_scalarU | .Div_VecNN_ScalarU | .Div_VecNN_VecU | .Div_ScalarNN_VecU
  | .Mult_MatNN_VecU _ => some (.NN, .unknown)
  | .Mult_vecNP_scalarU | .Div_VecNP_ScalarU | .Div_VecNP_VecU | .Div_ScalarNP_VecU
  | .Mult_MatNP_VecU _ => some (.NP, .unknown)
  | .Mult_vecU_vecU | .Mult_vecU_scalarU | .Div_VecU_ScalarU | .Div_VecU_VecU
  | .Div_ScalarU_VecU | .Dot_U_U | .Mult_MatU_VecU _ => some (.unknown, .unknown)

/-- A class is sign-definite when its name states no Unknown operand (the addition classes
included). -/
def BinaryKind.signDefinite (k : BinaryKind) : Prop :=
  match k.namedTags with
  | none => True
  | some (ta, tb) => ta ≠ sign.unknown ∧ tb ≠ sign.unknown

/-- `Matrix::operator()(i, j)`: entry `mData[i * mCols + j]`. -/
def Matrix.entry (m : Matrix) (i j : Nat) : ℚ := m.mData.getD (i * m.mCols + j) 0

/-- The plain inner product `Σ_i a[i]·b[i]`. -/
def plainDot (a b : Vec) : ℚ := (List.zipWith (fun c d => c * d) a b).sum

/-- Row `r` of the plain matrix-vector product: `Σ_k M(r,k)·v[k]`. -/
def plainRow (m : Matrix) (v : Vec) (r : Nat) : ℚ :=
  ((List.range m.mCols).map (fun k => m.entry r k * v.getD k 0)).sum

/-- The plain matrix-vector product. -/
def plainMatVec (m : Matrix) (v : Vec) : Vec := (List.range m.mRows).map (plainRow m v)

/-- The plain, sign-agnostic operation of each family on the values `va`, `vb` of the operands
(for matrix × vector, on the matrix of the first operand and the value of the second). -/
def plainOperation : Family → Option Matrix → Vec → Vec → Vec
  | .add_vec_vec, _, va, vb => List.zipWith (fun c d => c + d) va vb
  | .add_vec_scalar, _, va, vb => va.map (fun c => c + vb.headD 0)
  | .mult_vec_vec, _, va, vb => List.zipWith (fun c d => c * d) va vb
  | .mult_vec_scalar, _, va, vb => va.map (fun c => c * vb.headD 0)
  | .mult_mat_vec, some m, _, vb => plainMatVec m vb
  | .mult_mat_vec, none, _, _ => []
  | .dot, _, va, vb => [plainDot va vb]
  | .div_vec_vec, _, va, vb => List.zipWith (fun c d => c / d) va vb
  | .div_vec_scalar, _, va, vb => va.map (fun c => c / vb.headD 0)
  | .div_scalar_vec, _, va, vb => vb.map (fun d => va.headD 0 / d)

/-- The dimensions that a node of a family presupposes: `n` is the node's `m_dim`, `out` its own
buffer, `va`, `vb` the values of the operands, `mat` the matrix of the first operand. -/
def wellDimensioned : Family → Nat → Option Matrix → Vec → Vec → Vec → Prop
  | .add_vec_vec, n, _, va, vb, out
  | .mult_vec_vec, n, _, va, vb, out
  | .div_vec_vec, n, _, va, vb, out => va.length = n ∧ vb.length = n ∧ out.length = n
  | .add_vec_scalar, n, _, va, vb, out
  | .mult_vec_scalar, n, _, va, vb, out
  | .div_vec_scalar, n, _, va, vb, out => va.length = n ∧ vb.length = 1 ∧ out.length = n
  | .div_scalar_vec, n, _, va, vb, out => va.length = 1 ∧ vb.length = n ∧ out.length = n
  | .dot, n, _, va, vb, out => va.length = vb.length ∧ n = 1 ∧ out.length = 1
  | .mult_mat_vec, n, some m, _, vb, out =>
      m.mRows = n ∧ m.mData.length = m.mRows * m.mCols ∧ vb.length = m.mCols ∧ out.length = n
  | .mult_mat_vec, _, none, _, _, _ => False

/-- In the three division families every component of the divisor (the second operand) is
nonzero. -/
def divisorsNonzero : Family → Vec → Prop
  | .div_vec_vec, vb | .div_vec_scalar, vb | .div_scalar_vec, vb => ∀ d ∈ vb, d ≠ 0
  | _, _ => True

/-- The tag `m_sign` assigned by the constructor of each two-operand class; only the two
addition classes look at the tags `sa`, `sb` of the operands. -/
def BinaryKind.ctorSign (k : BinaryKind) (sa sb : sign) : sign :=
  match k with
  | .Add_vec_vec | .Add_vec_scalar => Add.signOf sa sb
  | .Mult_vecNN_vecNN | .Mult_vecNP_vecNP => sign.NN
  | .Mult_vecNN_vecNP => sign.NP
  | .Mult_vecNN_scalarNN | .Mult_vecNP_scalarNP => sign.NN
  | .Mult_vecNN_scalarNP | .Mult_vecNP_scalarNN => sign.NP
  | .Div_VecNN_ScalarNN | .Div_VecNP_ScalarNP => sign.NN
  | .Div_VecNN_ScalarNP | .Div_VecNP_ScalarNN => sign.NP
  | .Div_VecNN_VecNN | .Div_VecNP_VecNP => sign.NN
  | .Div_VecNN_VecNP | .Div_VecNP_VecNN => sign.NP
  | .Div_ScalarNN_VecNN | .Div_ScalarNP_VecNP => sign.NN
  | .Div_ScalarNN_VecNP | .Div_ScalarNP_VecNN => sign.NP
  | .Dot_NN_NN | .Dot_NP_NP | .Dot_NN_NP => sign.NN
  | .Mult_MatNN_VecNN | .Mult_MatNP_VecNP => sign.NN
  | .Mult_MatNN_VecNP | .Mult_MatNP_VecNN => sign.NP
  | _ => sign.unknown

/-- The dimension `m_dim` assigned by the constructor of each two-operand class: `b->getDim()`
in the scalar ÷ vector classes, `1` in the dot products, the row count of the matrix in the
matrix × vector classes, `a->getDim()` elsewhere. -/
def BinaryKind.ctorDim (k : BinaryKind) (a b : Expression) : Nat :=
  match k.family with
  | .div_scalar_vec => b.getDim
  | .dot => 1
  | .mult_mat_vec =>
      match a.getMatrix with
      | some m => m.mRows
      | none => 0
  | _ => a.getDim

/-- The pair handed to an operand: `(x, y)` as given, or swapped. -/
def route (swap : Bool) (x y : Vec) : Vec × Vec := if swap then (y, x) else (x, y)

/-- Routing rule for the first operand of a sign-definite class, from the tag its name states
for the *other* operand: a factor or a dividend gets the swapped pair when its partner is named
NP; the addition classes never swap. -/
def BinaryKind.swapsFirst (k : BinaryKind) : Bool :=
  match k.namedTags with
  | some (_, tb) => tb = sign.NP
  | none => false

/-- Routing rule for the second operand: a factor gets the swapped pair when its partner is
named NP, a divisor when the dividend is named NN. -/
def BinaryKind.swapsSecond (k : BinaryKind) : Bool :=
  match k.family, k.namedTags with
  | .div_vec_vec, some (ta, _) | .div_vec_scalar, some (ta, _)
  | .div_scalar_vec, some (ta, _) => ta = sign.NN
  | _, some (ta, _) => ta = sign.NP
  | _, none => false

/-- The last statement of `evaluate` in the sign-definite classes of a family: the operator's
fixed formula on the buffers of the two operands. -/
def Family.combine (f : Family) (self : Header) (a b : Arg) (s : Store) : Option Store :=
  (match f with
    | .add_vec_vec => transform2 plus (s a.m_id) (s b.m_id) (s self.m_id)
    | .add_vec_scalar =>
        transform1 (fun c => ((s b.m_id).at 0).map (fun d => c + d)) (s a.m_id) (s self.m_id)
    | .mult_vec_vec => transform2 multiplies (s a.m_id) (s b.m_id) (s self.m_id)
    | .mult_vec_scalar => transform1 (timesScalar s b) (s a.m_id) (s self.m_id)
    | .mult_mat_vec =>
        a.m_matrix.bind (fun m => forLoop self.m_dim (rowBody1 m (s b.m_id)) (s self.m_id))
    | .dot => setInner (s a.m_id) (s b.m_id) (s self.m_id)
    | .div_vec_vec => transform2 divides (s a.m_id) (s b.m_id) (s self.m_id)
    | .div_vec_scalar => transform1 (overScalar s b) (s a.m_id) (s self.m_id)
    | .div_scalar_vec => transform1 (scalarOver s a) (s b.m_id) (s self.m_id)).map
    (fun m_value => Function.update s self.m_id m_value)

/-- Routing of the one-operand classes: `Neg` and `Inv` hand on the swapped pair. -/
def UnaryKind.swaps : UnaryKind → Bool
  | .Neg | .Inv => true
  | _ => false

/-- The last statement of `evaluate` in the one-operand classes. -/
def UnaryKind.combine (cm : CMath) (k : UnaryKind) (self : Header) (a : Arg) (s : Store) :
    Option Store :=
  (match k with
    | .Inv | .Log2 => transform1 (fun c => some (cm.log2 c)) (s a.m_id) (s self.m_id)
    | .LogN => transform1 (fun c => some (cm.log c)) (s a.m_id) (s self.m_id)
    | .Neg => transform1 (fun c => some (-c)) (s a.m_id) (s self.m_id)
    | .Prod => (s self.m_id).write 0 (accumulate (s a.m_id) 1 (fun c d => c * d))
    | .Sum => (s self.m_id).write 0 (accumulate (s a.m_id) 0 (fun c d => c + d))
    | .Sliced m_index => ((s a.m_id).at m_index).bind (fun c => (s self.m_id).write 0 c)).map
    (fun m_value => Function.update s self.m_id m_value)

/-- The half of `d` that the split loop of `Mult_vecU_vecU` and `Dot_U_U` files as
nonnegative: the test is on the first operand `c`. -/
def pickGe (c d : ℚ) : ℚ := if c ≥ 0 then d else 0

/-- The half of `d` filed as negative by the test on the first operand `c`. -/
def pickLt (c d : ℚ) : ℚ := if c ≥ 0 then 0 else d

/-- The operand `e` takes the value `v` at `(x, x)`: from every store that satisfies `inv`, its
evaluation at `(x, x)` succeeds, ends in a store that satisfies `inv`, leaves `v` in the buffer
of `e`, keeps the buffer of its partner `p` when that holds `vp`, and does not touch the buffer
`self` of the parent. -/
def DiagValue (cm : CMath) (inv : Store → Prop) (self : Nat) (e p : Expression)
    (x v vp : Vec) : Prop :=
  ∀ t, inv t → ∃ t', e.evaluate cm x x t = some t' ∧ inv t' ∧ t' e.getID = v
    ∧ (t p.getID = vp → t' p.getID = vp) ∧ t' self = t self

/-! ## Reference notions for monotonicity -/

/-- A number agrees with a tag: `≥ 0` for NN, `≤ 0` for NP, anything for Unknown. -/
def signHolds : sign → ℚ → Prop
  | .NN, c => 0 ≤ c
  | .NP, c => c ≤ 0
  | .unknown, _ => True

/-- A value carries a tag when each of its components agrees with it. -/
def carries (t : sign) (v : Vec) : Prop := ∀ c ∈ v, signHolds t c

/-- The componentwise order `x ≤ x'` on vectors of one length. -/
def Vec.le (x x' : Vec) : Prop := List.Forall₂ (fun c d => c ≤ d) x x'

/-- The tag that the name of a class states for its first operand (Unknown for the addition
classes, whose names state none). -/
def BinaryKind.tagFirst (k : BinaryKind) : sign :=
  match k.namedTags with
  | some (ta, _) => ta
  | none => sign.unknown

/-- The tag that the name of a class states for its second operand. -/
def BinaryKind.tagSecond (k : BinaryKind) : sign :=
  match k.namedTags with
  | some (_, tb) => tb
  | none => sign.unknown

/-- The buffer of a leaf after `evaluate(p, q)`, given what it held before: a Variable adopts
`p`, a Parameter keeps `stored`. -/
def LeafKind.value : LeafKind → Vec → Vec → Vec
  | .Variable, _, p => p
  | _, stored, _ => stored

/-- The store after `evaluate(p, q)` on a leaf with identifier `id`. -/
def LeafKind.store : LeafKind → Nat → Vec → Store → Store
  | .Variable, id, p, s => Function.update s id p
  | _, _, _, s => s

/-! ## Construction of function nodes -/

/-- The three matrix × Unknown-vector classes size their vector halves with `m_vecval->size()`
in the constructor; the other classes keep no such size. -/
def BinaryKind.withSize (k : BinaryKind) (n : Nat) : BinaryKind :=
  match k with
  | .Mult_MatNN_VecU _ => .Mult_MatNN_VecU n
  | .Mult_MatNP_VecU _ => .Mult_MatNP_VecU n
  | .Mult_MatU_VecU _ => .Mult_MatU_VecU n
  | k => k

/-- The two-operand constructor `K(a, b)` of a class `K`: `m_dim`, `m_value.resize(m_dim)` and
`m_sign` as the class assigns them.  The scalar classes take the address
`&b->getValue()->at(0)` (`&a->getValue()->at(0)` for scalar ÷ vector), which throws on an empty
buffer, and the matrix classes accept only a `MultiDimParameter*` as first operand. -/
def BinaryKind.new (k : BinaryKind) (a b : Expression) (r : Registry) :
    Option (Expression × Registry) :=
  let made := r.construct
    (fun m_id => .binary ⟨m_id, k.ctorDim a b, k.ctorSign a.getSign b.getSign⟩
      (k.withSize (r.heap b.getID).length) a b)
    (zeros (k.ctorDim a b))
  match k.family with
  | .add_vec_scalar | .mult_vec_scalar | .div_vec_scalar =>
      ((r.heap b.getID).at 0).map (fun _ => made)
  | .div_scalar_vec => ((r.heap a.getID).at 0).map (fun _ => made)
  | .mult_mat_vec => a.getMatrix.map (fun _ => made)
  | _ => some made

/-- The tag `m_sign` assigned by the constructor of each one-operand class from the tag `sa`
of the operand. -/
def UnaryKind.ctorSign : UnaryKind → sign → sign
  | .Inv, sa => if sa = sign.NN then sign.NN else if sa = sign.NP then sign.NP else sign.unknown
  | .Log2, _ | .LogN, _ => sign.unknown
  | .Neg, sa => if sa = sign.NN then sign.NP else if sa = sign.NP then sign.NN else sign.unknown
  | .Prod, _ => sign.NN
  | .Sum, sa | .Sliced _, sa => sa

/-- The dimension `m_dim` assigned by the constructor of each one-operand class. -/
def UnaryKind.ctorDim : UnaryKind → Expression → Nat
  | .Inv, a | .Log2, a | .LogN, a | .Neg, a => a.getDim
  | .Prod, _ | .Sum, _ | .Sliced _, _ => 1

/-- The one-operand constructor `K(a)`; `Sliced(a, index)` takes the address
`&a->getValue()->at(index)`, which throws when the buffer has no such entry. -/
def UnaryKind.new (k : UnaryKind) (a : Expression) (r : Registry) :
    Option (Expression × Registry) :=
  let made := r.construct
    (fun m_id => .unary ⟨m_id, k.ctorDim a, k.ctorSign a.getSign⟩ k a) (zeros (k.ctorDim a))
  match k with
  | .Sliced m_index => ((r.heap a.getID).at m_index).map (fun _ => made)
  | _ => some made

/-! ## Expression.h: `evaluate_me` -/

/-- `Expression::evaluate_me`: `this->evaluate(x_in, y_in); return m_value.at(0);`. -/
def Expression.evaluate_me (cm : CMath) (e : Expression) (x_in y_in : Vec) (s : Store) :
    Option (ℚ × Store) := do
  let s ← e.evaluate cm x_in y_in s
  let c ← (s e.getID).at 0
  pure (c, s)

/-- A sequence of calls `evaluate(x₁, y₁); evaluate(x₂, y₂); ...` on one node. -/
def Expression.evaluateEach (cm : CMath) (e : Expression) (calls : List (Vec × Vec))
    (s : Store) : Option Store :=
  calls.foldlM (fun st xy => e.evaluate cm xy.1 xy.2 st) s

/-! ## Constraint.h -/

/-- The members of `Constraint`. -/
structure Constraint where
  m_constraint : Expression
  m_dim : Nat

/-- `Constraint::Constraint(constraint)`: `m_dim = m_constraint->getDim()`. -/
def Constraint.new (constraint : Expression) : Constraint :=
  ⟨constraint, constraint.getDim⟩

/-- The loop shared by the three `fulfilled` methods, from pass `i` on with `n` passes left:
```
for (int i=0; i<m_dim; ++i) { if (<test on getValue()->at(i)>) {return false;} }
return true;
``` -/
def Constraint.scan (test : ℚ → Bool) (value : Vec) : Nat → Nat → Option Bool
  | _, 0 => some true
  | i, n + 1 =>
      (value.at i).bind (fun c => if test c then some false else scan test value (i + 1) n)

/-- `InequalityConstraint::fulfilled`: the test is `at(i) == 0`. -/
def InequalityConstraint.fulfilled (c : Constraint) (cm : CMath) (x_in y_in : Vec)
    (s : Store) : Option (Bool × Store) := do
  let s ← c.m_constraint.evaluate cm x_in y_in s
  let r ← Constraint.scan (fun v => decide (v = 0)) (s c.m_constraint.getID) 0 c.m_dim
  pure (r, s)

/-- `GTOEConstraint::fulfilled`: the test is `at(i) > 0`. -/
def GTOEConstraint.fulfilled (c : Constraint) (cm : CMath) (x_in y_in : Vec)
    (s : Store) : Option (Bool × Store) := do
  let s ← c.m_constraint.evaluate cm x_in y_in s
  let r ← Constraint.scan (fun v => decide (v > 0)) (s c.m_constraint.getID) 0 c.m_dim
  pure (r, s)

/-- `LTOEConstraint::fulfilled`: the test is `at(i) < 0`. -/
def LTOEConstraint.fulfilled (c : Constraint) (cm : CMath) (x_in y_in : Vec)
    (s : Store) : Option (Bool × Store) := do
  let s ← c.m_constraint.evaluate cm x_in y_in s
  let r ← Constraint.scan (fun v => decide (v < 0)) (s c.m_constraint.getID) 0 c.m_dim
  pure (r, s)

/-! ## Reference tables of the tags -/

/-- The table of result tags of the multiplicative families as the specification gives it:
Unknown as soon as one operand is Unknown; for the dot product NN otherwise; for the other
families NN for equal operand tags and NP for different ones. -/
def tagTable (f : Family) (ta tb : sign) : sign :=
  if ta = sign.unknown ∨ tb = sign.unknown then sign.unknown
  else if f = Family.dot then sign.NN
  else if ta = tb then sign.NN else sign.NP

/-- The tag of a Parameter as a reduction over all components: NN if all are `≥ 0`, else NP if
all are `≤ 0`, else Unknown. -/
def reducedTag (v : Vec) : sign :=
  if ∀ c ∈ v, 0 ≤ c then sign.NN else if ∀ c ∈ v, c ≤ 0 then sign.NP else sign.unknown

/-! ## Expression.h, Function.h: the expressions of an objective -/

/-- `Function::getArgs`: the operands `m_arguments` of a function node; a leaf is no
`Function`. -/
def Expression.getArgs : Expression → List Expression
  | .leaf _ _ => []
  | .unary _ _ a => [a]
  | .binary _ _ a b => [a, b]
  | .list _ m_arguments => m_arguments

mutual
/-- Virtual `add_to_expr_list`: a leaf appends itself (`Expression::add_to_expr_list`); a
function node lets each of its arguments append in turn and then appends itself
(`Function::add_to_expr_list`). -/
def Expression.add_to_expr_list : Expression → List Expression → List Expression
  | .leaf h k, expr_list => expr_list ++ [.leaf h k]
  | .unary h k a, expr_list => a.add_to_expr_list expr_list ++ [.unary h k a]
  | .binary h k a b, expr_list =>
      b.add_to_expr_list (a.add_to_expr_list expr_list) ++ [.binary h k a b]
  | .list h m_arguments, expr_list =>
      add_each_to_expr_list m_arguments expr_list ++ [.list h m_arguments]
/-- The loop `for (auto arg : m_arguments) arg->add_to_expr_list(expr_list);`. -/
def add_each_to_expr_list : List Expression → List Expression → List Expression
  | [], expr_list => expr_list
  | arg :: rest, expr_list => add_each_to_expr_list rest (arg.add_to_expr_list expr_list)
end

/-- The inner loop of `get_expression_list`, from the current `j` on:
```
for (int j=i+1; j<list.size(); j++)
    if (list.at(i)->getID() == list.at(j)->getID()) list.erase(list.begin() + j);
```
After an `erase` the loop still increments `j`.  The first argument bounds the number of
passes; `none` means that the bound was too small (or that an `at` was out of range). -/
def eraseLoop (i : Nat) : Nat → Nat → List Expression → Option (List Expression)
  | 0, j, l => if j < l.length then none else some l
  | n + 1, j, l =>
      if j < l.length then
        match l.get? i, l.get? j with
        | some ei, some ej =>
            if ei.getID = ej.getID then eraseLoop i n (j + 1) (l.eraseIdx j)
            else eraseLoop i n (j + 1) l
        | _, _ => none
      else some l

/-- The outer loop `for (int i=0; i<list.size(); ++i)` of `get_expression_list`, from the
current `i` on, with a bound on the number of passes. -/
def dedupLoop : Nat → Nat → List Expression → Option (List Expression)
  | 0, i, l => if i < l.length then none else some l
  | n + 1, i, l =>
      if i < l.length then (eraseLoop i l.length (i + 1) l).bind (dedupLoop n (i + 1))
      else some l

/-- `Expression::get_expression_list`: the list filled by `add_to_expr_list`, then the two
loops that erase entries with a repeated identifier.  Neither loop makes more passes than the
list is long at its start. -/
def Expression.get_expression_list (e : Expression) : Option (List Expression) :=
  dedupLoop (e.add_to_expr_list []).length 0 (e.add_to_expr_list [])

/-! ## Function.h, Constraint.h: compaction into a contiguous array -/

/-- How a call ends: with a result, with a C++ exception leaving the function (`thrown`), or
in undefined behaviour (`undefined`: an uninitialised pointer is used). -/
inductive Outcome (α : Type) where
  | ok (a : α)
  | thrown
  | undefined

/-- An element of the contiguous array, an alternative of `variant_expression`: the copy of a
node, whose operand list `m_arguments` holds positions of the same array (for a leaf it is
empty). -/
structure Slot where
  node : Expression
  m_arguments : List Nat

/-- `findElementGetIndex`, from position `i` on: the position of the first element with the
identifier `id_to_find`, or `-1`. -/
def findElementFrom : List Slot → Nat → Nat → Int
  | [], _, _ => -1
  | v :: rest, i, id_to_find =>
      if v.node.getID = id_to_find then (i : Int) else findElementFrom rest (i + 1) id_to_find

/-- `findElementGetIndex(vec_of_different_types, id_to_find)`. -/
def findElementGetIndex (vec_of_different_types : List Slot) (id_to_find : Nat) : Int :=
  findElementFrom vec_of_different_types 0 id_to_find

/-- `contiguousStorageContainer.at(vectorIndexOfArgument)` with an `int` index: `-1` converts
to the largest `size_t`, which is out of range. -/
def containerAt (container : List Slot) (index : Int) : Option Slot :=
  if 0 ≤ index then container.get? index.toNat else none

/-- The loop over `func->getArgs()` in `get_variant_vector`: each argument is looked up by
identifier in the array built so far and `tmp` collects what was found; the `at` throws on a
miss. -/
def rebindArguments (container : List Slot) : List Expression → Outcome (List Nat)
  | [] => .ok []
  | arg :: rest =>
      let vectorIndexOfArgument := findElementGetIndex container arg.getID
      match containerAt container vectorIndexOfArgument with
      | none => .thrown
      | some _ =>
          match rebindArguments container rest with
          | .ok tmp => .ok (vectorIndexOfArgument.toNat :: tmp)
          | .thrown => .thrown
          | .undefined => .undefined

/-- One pass of the loop of `get_variant_vector`: a leaf is copied into the array; a function
node is copied by its rebinding constructor with the arguments found in the array. -/
def compactStep (container : List Slot) (expr : Expression) : Outcome (List Slot) :=
  match expr with
  | .leaf h k => .ok (container ++ [⟨.leaf h k, []⟩])
  | func =>
      match rebindArguments container func.getArgs with
      | .ok tmp => .ok (container ++ [⟨func, tmp⟩])
      | .thrown => .thrown
      | .undefined => .undefined

/-- The loop `for (auto expr : ...)` of both overloads of `get_variant_vector`. -/
def compactLoop : List Expression → List Slot → Outcome (List Slot)
  | [], container => .ok container
  | expr :: rest, container =>
      match compactStep container expr with
      | .ok container => compactLoop rest container
      | .thrown => .thrown
      | .undefined => .undefined

/-- `get_variant_vector()`: over the whole registry `Expression::getExpressionList()`. -/
def get_variant_vector (r : Registry) : Outcome (List Slot) :=
  compactLoop r.expression_list []

/-- `get_variant_vector(objective)`: over `objective->get_expression_list()`. -/
def get_variant_vector_of (objective : Expression) : Outcome (List Slot) :=
  match objective.get_expression_list with
  | some list_of_expressions_in_objective => compactLoop list_of_expressions_in_objective []
  | none => .thrown

/-- The three classes of constraints. -/
inductive ConstraintKind where
  | InequalityConstraint
  | GTOEConstraint
  | LTOEConstraint
deriving DecidableEq, Repr

/-- One pass of the loop of `get_variant_vector_constraints`.  Whatever the class of `constr`:
```
Expression *basePointer;
size_t index = findElementGetIndex(list_of_expressions, idToFind);
if (index != -1) { basePointer = getBasePointer(list_of_expressions.at(index)); }
contiguousStorageContainer.push_back(XConstraint(basePointer));
```
On a miss `basePointer` is never assigned and the constructor of `Constraint` dereferences
it. -/
def constraintStep (list_of_expressions : List Slot) (constr : ConstraintKind × Constraint) :
    Outcome (ConstraintKind × Constraint) :=
  let index := findElementGetIndex list_of_expressions constr.2.m_constraint.getID
  if index ≠ -1 then
    match containerAt list_of_expressions index with
    | some v => .ok (constr.1, Constraint.new v.node)
    | none => .thrown
  else .undefined

/-- `get_variant_vector_constraints(constraints, list_of_expressions)`. -/
def get_variant_vector_constraints :
    List (ConstraintKind × Constraint) → List Slot → Outcome (List (ConstraintKind × Constraint))
  | [], _ => .ok []
  | constr :: rest, list_of_expressions =>
      match constraintStep list_of_expressions constr with
      | .ok c =>
          match get_variant_vector_constraints rest list_of_expressions with
          | .ok cs => .ok (c :: cs)
          | .thrown => .thrown
          | .undefined => .undefined
      | .thrown => .thrown
      | .undefined => .undefined

/-! ## Copies of nodes -/

/-- The defaulted copy constructor `Expression(const Expression &old)`: a memberwise copy;
`getNewID` is not called and nothing is pushed to `expression_list`. -/
def Registry.copy (r : Registry) (old : Expression) : Expression × Registry := (old, r)

/-- A sequence of constructions, each given by the object it builds from its new identifier and
by the initial buffer. -/
def Registry.constructEach : Registry → List ((Nat → Expression) × Vec) → Registry
  | r, [] => r
  | r, ctor :: rest => Registry.constructEach (r.construct ctor.1 ctor.2).2 rest

/-- The pointer members `m_arg1val` and `m_arg2val` (`m_matval`, `m_vecval`) of a two-operand
node, each given by the identifier of the node into whose value it points. -/
structure ValuePointers where
  m_arg1val : Nat
  m_arg2val : Nat

/-- The pointers set by the two-operand constructor of every base class: `m_arg1val` into the
value of `a`, `m_arg2val` into the value of `b`. -/
def Family.ctorPointers (_f : Family) (a b : Expression) : ValuePointers :=
  ⟨a.getID, b.getID⟩

/-- The pointers set by the rebinding copy constructor `K(old, arguments)` of the base class of
each family: `m_arg1val` from `arguments.at(0)`, `m_arg2val` from `arguments.at(1)`, except in
`Div_Vec_Scalar`, which has `m_arg2val = &arguments.at(0)->getValue()->at(0)`.  Taking the
address of entry 0 throws on an empty value. -/
def Family.copyPointers (f : Family) (arguments : List Expression) (s : Store) :
    Option ValuePointers :=
  match f with
  | .div_vec_scalar => do
      let a0 ← arguments.get? 0
      let _ ← (s a0.getID).at 0
      pure ⟨a0.getID, a0.getID⟩
  | .add_vec_scalar | .mult_vec_scalar => do
      let a0 ← arguments.get? 0
      let a1 ← arguments.get? 1
      let _ ← (s a1.getID).at 0
      pure ⟨a0.getID, a1.getID⟩
  | .div_scalar_vec => do
      let a0 ← arguments.get? 0
      let _ ← (s a0.getID).at 0
      let a1 ← arguments.get? 1
      pure ⟨a0.getID, a1.getID⟩
  | _ => do
      let a0 ← arguments.get? 0
      let a1 ← arguments.get? 1
      pure ⟨a0.getID, a1.getID⟩

/-- `evaluate` of a two-operand node with operand list `[a, b]` and pointer members `p`: the
calls `m_arguments.at(k)->evaluate(...)` go to `a` and `b`, the values are read where the
pointers point.  (The six classes that also read `m_arguments.at(1)->getValue()` directly are in
families whose copy constructor points `m_arg2val` at that same operand.) -/
def BinaryKind.evaluateThrough (k : BinaryKind) (self : Header) (p : ValuePointers)
    (cm : CMath) (a b : Expression) (x_in y_in : Vec) (s : Store) : Option Store :=
  k.evaluate self ⟨a.evaluate cm, p.m_arg1val, a.getDim, a.getMatrix⟩
    ⟨b.evaluate cm, p.m_arg2val, b.getDim, b.getMatrix⟩ x_in y_in s

/-- `evaluate` of the copy `K(old, arguments)` of a two-operand node, as `get_variant_vector`
builds it. -/
def BinaryKind.evaluateCopy (k : BinaryKind) (self : Header) (cm : CMath)
    (arguments : List Expression) (x_in y_in : Vec) (s : Store) : Option Store := do
  let p ← k.family.copyPointers arguments s
  let a ← arguments.get? 0
  let b ← arguments.get? 1
  k.evaluateThrough self p cm a b x_in y_in s

/-! ## Reference notions for the compaction -/

/-- The node `n` is reachable from `e` through operand pointers. -/
inductive Reaches : Expression → Expression → Prop where
  | self (e : Expression) : Reaches e e
  | operand (e a n : Expression) : a ∈ e.getArgs → Reaches a n → Reaches e n

/-- Every operand of every element of the list has its identifier among `seen` or among the
identifiers of the elements before it. -/
def operandsSeen : List Expression → List Nat → Prop
  | [], _ => True
  | e :: rest, seen => (∀ o ∈ e.getArgs, o.getID ∈ seen) ∧ operandsSeen rest (e.getID :: seen)

/-- The list `l'` arises from `l` by erasing, one at a time, elements whose identifier is
carried by an element before them. -/
inductive Dedups : List Expression → List Expression → Prop where
  | refl (l : List Expression) : Dedups l l
  | step (pre post : List Expression) (d d' : Expression) (l' : List Expression) :
      d' ∈ pre → d'.getID = d.getID → Dedups (pre ++ post) l' → Dedups (pre ++ d :: post) l'

/-- The loop of `List::List` over the tags of the operands, with the counters `nncount`,
`npcount` and the member `m_sign`:
```
if (sign_i == NN) nncount++; else if (sign_i == NP) npcount++;
if ((npcount > 0 && nncount > 0) || sign_i == unknown) { m_sign = unknown; break; }
``` -/
def List_signLoop : List sign → Nat → Nat → sign → sign
  | [], _, _, m_sign => m_sign
  | sg :: rest, nncount, npcount, m_sign =>
      let nncount := if sg = sign.NN then nncount + 1 else nncount
      let npcount := if sg = sign.NN then npcount else if sg = sign.NP then npcount + 1
        else npcount
      if (npcount > 0 ∧ nncount > 0) ∨ sg = sign.unknown then sign.unknown
      else List_signLoop rest nncount npcount m_sign

/-- `List::List(a)`: `m_dim = a.size()`, `m_value.resize(m_dim)`, and the loop over the
operands' tags, entered with the initial `m_sign = unknown` of `Expression`. -/
def List_new (a : List Expression) (r : Registry) : Expression × Registry :=
  r.construct
    (fun m_id => .list
      ⟨m_id, a.length, List_signLoop (a.map Expression.getSign) 0 0 sign.unknown⟩ a)
    (zeros a.length)

/-! ## Reference notions for abstract operands -/

/-- An operand that behaves as an independent function `f` of the pair it is handed: its
`evaluate(p, q)` leaves `f p q` in its own buffer `id` and touches no other buffer. -/
def functionOperand (id dim : Nat) (f : Vec → Vec → Vec) : Arg :=
  ⟨fun p q s => some (Function.update s id (f p q)), id, dim, none⟩

/-- Mixed monotonicity of `f`: componentwise nondecreasing in the first argument and
nonincreasing in the second. -/
def mixedMonotone (f : Vec → Vec → Vec) : Prop :=
  (∀ x x' y, Vec.le x x' → Vec.le (f x y) (f x' y))
    ∧ (∀ x y y', Vec.le y y' → Vec.le (f x y') (f x y))

/-- The operand `e` takes the value `v` at `(x, y)`: from every store that satisfies `inv`, its
evaluation at `(x, y)` succeeds, ends in a store that satisfies `inv`, leaves `v` in the buffer
of `e`, and does not touch the buffers listed in `keep`. -/
def ValueAt (cm : CMath) (inv : Store → Prop) (keep : List Nat) (e : Expression)
    (x y v : Vec) : Prop :=
  ∀ t, inv t → ∃ t', e.evaluate cm x y t = some t' ∧ inv t' ∧ t' e.getID = v
    ∧ ∀ i ∈ keep, t' i = t i

/-- The buffers of the two operands and of the node all hold one component. -/
def oneDimensional (self : Header) (a b : Arg) (t : Store) : Prop :=
  (t a.m_id).length = 1 ∧ (t b.m_id).length = 1 ∧ (t self.m_id).length = 1

/-! ## Reference notions for the one-operand classes -/

/-- The buffer sizes that `evaluate` of a one-operand class needs in order to return: `va` is
the value of the operand, `out` the node's own buffer. -/
def unaryFits : UnaryKind → Vec → Vec → Prop
  | .Inv, va, out | .Log2, va, out | .LogN, va, out | .Neg, va, out => va.length ≤ out.length
  | .Prod, _, out | .Sum, _, out => 0 < out.length
  | .Sliced m_index, va, out => m_index < va.length ∧ 0 < out.length

/-- The buffer of a one-operand node after `evaluate`, from the value `va` of the operand and
the former content `out` of the buffer. -/
def unaryOut (cm : CMath) : UnaryKind → Vec → Vec → Vec
  | .Inv, va, out | .Log2, va, out => va.map cm.log2 ++ out.drop va.length
  | .LogN, va, out => va.map cm.log ++ out.drop va.length
  | .Neg, va, out => va.map (fun c => -c) ++ out.drop va.length
  | .Prod, va, out => out.set 0 va.prod
  | .Sum, va, out => out.set 0 va.sum
  | .Sliced m_index, va, out => out.set 0 (va.getD m_index 0)

/-! # Properties -/

/-! ## Lemmas on the primitives -/

theorem forLoop_zero {σ : Type} (body : Nat → σ → Option σ) (init : σ) :
    forLoop 0 body init = some init := by
  simp [forLoop]

theorem forLoop_succ {σ : Type} (n : Nat) (body : Nat → σ → Option σ) (init : σ) :
    forLoop (n + 1) body init = (forLoop n body init).bind (body n) := by
  simp [forLoop, List.range_succ, List.foldlM_append]

theorem write_append (l1 l2 : Vec) (n : Nat) (c : ℚ) (h1 : l1.length = n) (h2 : 0 < l2.length) :
    Vec.write (l1 ++ l2) n c = some (l1 ++ c :: l2.drop 1) := by
  subst h1
  cases l2 with
  | nil => simp at h2
  | cons d r => simp [Vec.write]

theorem at_eq (v : Vec) (i : Nat) (h : i < v.length) : v.at i = some v[i] := by
  simp [Vec.at, h]

theorem at_append_right (l1 l2 : Vec) (n : Nat) (h1 : l1.length = n) :
    Vec.at (l1 ++ l2) n = l2.at 0 := by
  subst h1
  simp [Vec.at, List.getElem?_append_right]

theorem take_succ_map (f : ℚ → ℚ) (src : Vec) (n : Nat) (h : n < src.length) :
    (src.map f).take (n + 1) = (src.map f).take n ++ [f src[n]] := by
  rw [List.take_succ]
  simp [List.getElem?_eq_getElem h]

theorem collect_zipWith_total (f : ℚ → ℚ → ℚ) (a b : Vec) :
    collect (List.zipWith (fun c d => some (f c d)) a b) = some (List.zipWith f a b) := by
  induction a generalizing b with
  | nil => simp [collect]
  | cons c a ih =>
    cases b with
    | nil => simp [collect]
    | cons d b => simp [collect, ih]

theorem collect_map_total (f : ℚ → ℚ) (a : Vec) :
    collect (a.map (fun c => some (f c))) = some (a.map f) := by
  induction a with
  | nil => simp [collect]
  | cons c a ih => simp [collect, ih]

theorem collect_zipWith_divides (a b : Vec) (hb : ∀ d ∈ b, d ≠ 0) :
    collect (List.zipWith divides a b) = some (List.zipWith (fun c d => c / d) a b) := by
  induction a generalizing b with
  | nil => simp [collect]
  | cons c a ih =>
    cases b with
    | nil => simp [collect]
    | cons d b =>
      have hd : d ≠ 0 := hb d (by simp)
      have hb' : ∀ e ∈ b, e ≠ 0 := fun e he => hb e (by simp [he])
      simp [collect, ih b hb', divides, hd]

theorem collect_map_divides_by (a : Vec) (d : ℚ) (hd : d ≠ 0) :
    collect (a.map (fun c => divides c d)) = some (a.map (fun c => c / d)) := by
  have e : (fun c => divides c d) = (fun c => some (c / d)) := by
    funext c
    simp [divides, hd]
  rw [e, collect_map_total (fun c => c / d)]

theorem collect_map_divides_into (b : Vec) (n : ℚ) (hb : ∀ d ∈ b, d ≠ 0) :
    collect (b.map (fun d => divides n d)) = some (b.map (fun d => n / d)) := by
  induction b with
  | nil => simp [collect]
  | cons d b ih =>
    have hd : d ≠ 0 := hb d (by simp)
    have hb' : ∀ e ∈ b, e ≠ 0 := fun e he => hb e (by simp [he])
    have e : divides n d = some (n / d) := by simp [divides, hd]
    rw [List.map_cons, List.map_cons, e]
    simp only [collect, ih hb', Option.map_some']

theorem transform2_plus (a b out : Vec) :
    transform2 plus a b out =
      if a.length ≤ b.length ∧ a.length ≤ out.length then
        some (List.zipWith (fun c d => c + d) a b ++ out.drop a.length)
      else none := by
  unfold transform2 plus
  rw [collect_zipWith_total (fun c d => c + d)]
  rfl

theorem transform2_multiplies (a b out : Vec) :
    transform2 multiplies a b out =
      if a.length ≤ b.length ∧ a.length ≤ out.length then
        some (List.zipWith (fun c d => c * d) a b ++ out.drop a.length)
      else none := by
  unfold transform2 multiplies
  rw [collect_zipWith_total (fun c d => c * d)]
  rfl

theorem transform2_divides (a b out : Vec) (hb : ∀ d ∈ b, d ≠ 0) :
    transform2 divides a b out =
      if a.length ≤ b.length ∧ a.length ≤ out.length then
        some (List.zipWith (fun c d => c / d) a b ++ out.drop a.length)
      else none := by
  unfold transform2
  rw [collect_zipWith_divides a b hb]
  rfl

theorem transform1_total (f : ℚ → ℚ) (a out : Vec) :
    transform1 (fun c => some (f c)) a out =
      if a.length ≤ out.length then some (a.map f ++ out.drop a.length) else none := by
  unfold transform1
  rw [collect_map_total f]
  rfl

theorem transform1_divides_by (a out : Vec) (d : ℚ) (hd : d ≠ 0) :
    transform1 (fun c => divides c d) a out =
      if a.length ≤ out.length then some (a.map (fun c => c / d) ++ out.drop a.length)
      else none := by
  unfold transform1
  rw [collect_map_divides_by a d hd]
  rfl

theorem transform1_divides_into (b out : Vec) (n : ℚ) (hb : ∀ d ∈ b, d ≠ 0) :
    transform1 (fun d => divides n d) b out =
      if b.length ≤ out.length then some (b.map (fun d => n / d) ++ out.drop b.length)
      else none := by
  unfold transform1
  rw [collect_map_divides_into b n hb]
  rfl

theorem foldl_add_eq_sum (l : Vec) (init : ℚ) :
    l.foldl (fun acc t => acc + t) init = init + l.sum := by
  induction l generalizing init with
  | nil => simp
  | cons c l ih => simp [ih]; ring

theorem inner_product_eq (a b : Vec) (init : ℚ) (h : a.length ≤ b.length) :
    inner_product a b init = some (init + plainDot a b) := by
  simp [inner_product, h, foldl_add_eq_sum, plainDot]

theorem head_of_length_one (v : Vec) (h : v.length = 1) : v.at 0 = some (v.headD 0) := by
  cases v with
  | nil => simp at h
  | cons c r => simp [Vec.at]

theorem headD_ne_zero (v : Vec) (h : v.length = 1) (hz : ∀ d ∈ v, d ≠ 0) : v.headD 0 ≠ 0 := by
  cases v with
  | nil => simp at h
  | cons c r => simpa using hz c (by simp)


theorem drop_all (l : Vec) (n : Nat) (h : l.length = n) : l.drop n = [] := by
  simp [h]

theorem take_all (l : Vec) (n : Nat) (h : l.length = n) : l.take n = l := by
  simp [← h]


theorem timesScalar_of (s : Store) (b : Arg) (d : ℚ) (h : (s b.m_id).at 0 = some d) :
    timesScalar s b = fun c => some (c * d) := by
  funext c
  simp [timesScalar, h]

theorem overScalar_of (s : Store) (b : Arg) (d : ℚ) (h : (s b.m_id).at 0 = some d) :
    overScalar s b = fun c => divides c d := by
  funext c
  simp [overScalar, h]

theorem scalarOver_of (s : Store) (a : Arg) (n : ℚ) (h : (s a.m_id).at 0 = some n) :
    scalarOver s a = fun c => divides n c := by
  funext c
  simp [scalarOver, h]


theorem bind_pure_eq_map {α β : Type} (o : Option α) (f : α → β) :
    (o.bind fun v => some (f v)) = o.map f := by
  cases o <;> rfl

theorem matrix_first {α : Type} (om : Option Matrix) (ea : Option Store)
    (eb : Store → Option Store) (f : Matrix → Store → Option α) :
    om.bind (fun m => ea.bind (fun s1 => (eb s1).bind (fun s2 => f m s2)))
      = ea.bind (fun s1 => (eb s1).bind (fun s2 => om.bind (fun m => f m s2))) := by
  cases om with
  | some m => rfl
  | none =>
    cases ea with
    | none => rfl
    | some s1 =>
      simp only [Option.none_bind, Option.some_bind]
      cases eb s1 <;> rfl

theorem forLoop_one {σ : Type} (body : Nat → σ → Option σ) (init : σ) :
    forLoop 1 body init = body 0 init := by
  simp [forLoop, List.range_succ]

theorem forLoop_two {σ : Type} (body : Nat → σ → Option σ) (init : σ) :
    forLoop 2 body init = (body 0 init).bind (body 1) := by
  simp [forLoop, List.range_succ]

theorem length_zeros (n : Nat) : (zeros n).length = n := by
  simp [zeros]

theorem drop_zeros (n : Nat) : (zeros n).drop n = [] := by
  simp [zeros]

theorem geHalf_add_ltHalf (c : ℚ) : geHalf c + ltHalf c = c := by
  unfold geHalf ltHalf
  split_ifs <;> ring

theorem geHalf_mul_add (c d : ℚ) : geHalf c * d + ltHalf c * d = c * d := by
  rw [← add_mul, geHalf_add_ltHalf]

theorem geHalf_div_add (c d : ℚ) : geHalf c / d + ltHalf c / d = c / d := by
  rw [← add_div, geHalf_add_ltHalf]

theorem set_append_at (l1 l2 : Vec) (n : Nat) (c : ℚ) (h1 : l1.length = n) :
    (l1 ++ l2).set n c = l1 ++ l2.set 0 c := by
  subst h1
  simp [List.set_append_right]

theorem forLoop_fill (n : Nat) (body : Nat → Vec → Option Vec) (g : Nat → ℚ) (out : Vec)
    (hn : n ≤ out.length)
    (hbody : ∀ i (mv : Vec), i < n → i < mv.length → body i mv = some (mv.set i (g i))) :
    forLoop n body out = some ((List.range n).map g ++ out.drop n) := by
  induction n with
  | zero => simp [forLoop_zero]
  | succ n ih =>
    have ih' := ih (by omega) (fun i mv hi hl => hbody i mv (by omega) hl)
    rw [forLoop_succ, ih', Option.some_bind, hbody n _ (by omega) (by simp; omega)]
    have hl : ((List.range n).map g).length = n := by simp
    rw [set_append_at _ _ n _ hl]
    have hd : out.drop n = out[n] :: out.drop (n + 1) := by
      rw [List.drop_eq_getElem_cons]
    simp only [List.range_succ, List.map_append, List.map_cons, List.map_nil,
      List.append_assoc, List.singleton_append]
    rw [hd]
    rfl

theorem rowRange_eq (m : Matrix) (row : Nat) (h : row * m.mCols + m.mCols ≤ m.mData.length) :
    m.rowRange row m.mCols = some ((m.mData.drop (row * m.mCols)).take m.mCols) := by
  simp [Matrix.rowRange, h]

theorem row_bound (m : Matrix) (row : Nat) (hr : row < m.mRows)
    (hm : m.mData.length = m.mRows * m.mCols) : row * m.mCols + m.mCols ≤ m.mData.length := by
  rw [hm]
  have : (row + 1) * m.mCols ≤ m.mRows * m.mCols := Nat.mul_le_mul_right _ hr
  linarith [Nat.succ_mul row m.mCols]

theorem rowDot_eq (m : Matrix) (v : Vec) (row : Nat)
    (h : row * m.mCols + m.mCols ≤ m.mData.length) (hv : v.length = m.mCols) :
    plainDot ((m.mData.drop (row * m.mCols)).take m.mCols) v = plainRow m v row := by
  unfold plainDot plainRow
  congr 1
  apply List.ext_getElem
  · simp
    omega
  · intro i h1 h2
    simp at h1 h2
    have hi : row * m.mCols + i < m.mData.length := by omega
    simp [Matrix.entry, List.getD_eq_getElem?_getD, List.getElem?_eq_getElem hi,
      List.getElem?_eq_getElem (show i < v.length by omega)]

theorem setRow_eq (m : Matrix) (v mv : Vec) (row : Nat)
    (h : row * m.mCols + m.mCols ≤ m.mData.length) (hv : v.length = m.mCols)
    (hl : row < mv.length) :
    setRow m.mCols m v row mv = some (mv.set row (plainRow m v row)) := by
  have hlen : ((m.mData.drop (row * m.mCols)).take m.mCols).length ≤ v.length := by
    simp
    omega
  simp [setRow, rowRange_eq m row h, inner_product_eq _ _ _ hlen, rowDot_eq m v row h hv,
    Vec.write, hl]

theorem accRow_eq (m : Matrix) (v mv : Vec) (row : Nat)
    (h : row * m.mCols + m.mCols ≤ m.mData.length) (hv : v.length = m.mCols)
    (hl : row < mv.length) :
    accRow m.mCols m v row mv = some (mv.set row (mv[row] + plainRow m v row)) := by
  have hlen : ((m.mData.drop (row * m.mCols)).take m.mCols).length ≤ v.length := by
    simp
    omega
  simp [accRow, rowRange_eq m row h, inner_product_eq _ _ _ hlen, rowDot_eq m v row h hv,
    Vec.write, hl, at_eq mv row hl]

theorem rowLoop1_eq (m : Matrix) (v out : Vec) (hm : m.mData.length = m.mRows * m.mCols)
    (hv : v.length = m.mCols) (ho : out.length = m.mRows) :
    forLoop m.mRows (rowBody1 m v) out = some (plainMatVec m v) := by
  rw [forLoop_fill m.mRows (rowBody1 m v) (plainRow m v) out (by omega)]
  · simp [plainMatVec, ← ho]
  · intro i mv hi hl
    exact setRow_eq m v mv i (row_bound m i hi hm) hv hl

/-! ## Closed forms of the split loops -/

theorem splitLoop_eq (n : Nat) (src ge lt : Vec) (hs : n ≤ src.length) (hg : n ≤ ge.length)
    (hl : n ≤ lt.length) :
    splitLoop n src ge lt
      = some ((src.map geHalf).take n ++ ge.drop n, (src.map ltHalf).take n ++ lt.drop n) := by
  induction n with
  | zero => simp [splitLoop, forLoop_zero]
  | succ n ih =>
    have ih' := ih (by omega) (by omega) (by omega)
    unfold splitLoop at ih' ⊢
    rw [forLoop_succ, ih']
    have hn : n < src.length := by omega
    have e1 : ((src.map geHalf).take n).length = n := by simp; omega
    have e2 : ((src.map ltHalf).take n).length = n := by simp; omega
    have d1 : 0 < (ge.drop n).length := by simp; omega
    have d2 : 0 < (lt.drop n).length := by simp; omega
    simp only [Option.some_bind, splitBody, at_eq src n hn, Option.bind_eq_bind,
      write_append _ _ n _ e1 d1, write_append _ _ n _ e2 d2, Option.pure_def, List.drop_drop]
    by_cases hc : src[n] ≥ 0
    · simp [hc, take_succ_map _ _ _ hn, geHalf, ltHalf, Nat.add_comm]
    · simp [hc, take_succ_map _ _ _ hn, geHalf, ltHalf, Nat.add_comm]

theorem splitLoop_fit (n : Nat) (src : Vec) (hs : src.length = n) :
    splitLoop n src (zeros n) (zeros n) = some (src.map geHalf, src.map ltHalf) := by
  rw [splitLoop_eq n src _ _ (by omega) (by simp [zeros]) (by simp [zeros])]
  simp [zeros, ← hs]

theorem take_succ_zipWith (f : ℚ → ℚ → ℚ) (a b : Vec) (n : Nat) (ha : n < a.length)
    (hb : n < b.length) :
    (List.zipWith f a b).take (n + 1) = (List.zipWith f a b).take n ++ [f a[n] b[n]] := by
  rw [List.take_succ]
  simp [List.getElem?_eq_getElem ha, List.getElem?_eq_getElem hb, List.getElem?_zipWith]

theorem splitByFirst_eq (n : Nat) (a b : Vec) (st : Split4) (ha : n ≤ a.length)
    (hb : n ≤ b.length) (h1 : n ≤ st.a_ge.length) (h2 : n ≤ st.a_lt.length)
    (h3 : n ≤ st.b_ge.length) (h4 : n ≤ st.b_lt.length) :
    forLoop n (splitBodyByFirst a b) st
      = some ⟨(a.map geHalf).take n ++ st.a_ge.drop n, (a.map ltHalf).take n ++ st.a_lt.drop n,
          (List.zipWith pickGe a b).take n ++ st.b_ge.drop n,
          (List.zipWith pickLt a b).take n ++ st.b_lt.drop n⟩ := by
  induction n with
  | zero => simp [forLoop_zero]
  | succ n ih =>
    have ih' := ih (by omega) (by omega) (by omega) (by omega) (by omega) (by omega)
    rw [forLoop_succ, ih']
    have hna : n < a.length := by omega
    have hnb : n < b.length := by omega
    have e1 : ((a.map geHalf).take n).length = n := by simp; omega
    have e2 : ((a.map ltHalf).take n).length = n := by simp; omega
    have e3 : ((List.zipWith pickGe a b).take n).length = n := by simp; omega
    have e4 : ((List.zipWith pickLt a b).take n).length = n := by simp; omega
    have d1 : 0 < (st.a_ge.drop n).length := by simp; omega
    have d2 : 0 < (st.a_lt.drop n).length := by simp; omega
    have d3 : 0 < (st.b_ge.drop n).length := by simp; omega
    have d4 : 0 < (st.b_lt.drop n).length := by simp; omega
    simp only [Option.some_bind, splitBodyByFirst, at_eq a n hna, at_eq b n hnb,
      Option.bind_eq_bind, write_append _ _ n _ e1 d1, write_append _ _ n _ e2 d2,
      write_append _ _ n _ e3 d3, write_append _ _ n _ e4 d4, Option.pure_def, List.drop_drop]
    by_cases hc : a[n] ≥ 0
    · simp [hc, take_succ_map _ _ _ hna, take_succ_zipWith _ _ _ _ hna hnb, geHalf, ltHalf,
        pickGe, pickLt, Nat.add_comm]
    · simp [hc, take_succ_map _ _ _ hna, take_succ_zipWith _ _ _ _ hna hnb, geHalf, ltHalf,
        pickGe, pickLt, Nat.add_comm]

theorem splitByFirst_fit (n : Nat) (a b : Vec) (ha : a.length = n) (hb : b.length = n) :
    forLoop n (splitBodyByFirst a b) ⟨zeros n, zeros n, zeros n, zeros n⟩
      = some ⟨a.map geHalf, a.map ltHalf, List.zipWith pickGe a b, List.zipWith pickLt a b⟩ := by
  subst ha
  rw [splitByFirst_eq a.length a b _ (by omega) (by omega) (by simp [zeros]) (by simp [zeros])
    (by simp [zeros]) (by simp [zeros])]
  simp [zeros, hb]

theorem splitEach_eq (n : Nat) (a b : Vec) (st : Split4) (ha : n ≤ a.length)
    (hb : n ≤ b.length) (h1 : n ≤ st.a_ge.length) (h2 : n ≤ st.a_lt.length)
    (h3 : n ≤ st.b_ge.length) (h4 : n ≤ st.b_lt.length) :
    forLoop n (splitBodyEach a b) st
      = some ⟨(a.map geHalf).take n ++ st.a_ge.drop n, (a.map ltHalf).take n ++ st.a_lt.drop n,
          (b.map geHalf).take n ++ st.b_ge.drop n,
          (b.map ltHalf).take n ++ st.b_lt.drop n⟩ := by
  induction n with
  | zero => simp [forLoop_zero]
  | succ n ih =>
    have ih' := ih (by omega) (by omega) (by omega) (by omega) (by omega) (by omega)
    rw [forLoop_succ, ih']
    have hna : n < a.length := by omega
    have hnb : n < b.length := by omega
    have e1 : ((a.map geHalf).take n).length = n := by simp; omega
    have e2 : ((a.map ltHalf).take n).length = n := by simp; omega
    have e3 : ((b.map geHalf).take n).length = n := by simp; omega
    have e4 : ((b.map ltHalf).take n).length = n := by simp; omega
    have d1 : 0 < (st.a_ge.drop n).length := by simp; omega
    have d2 : 0 < (st.a_lt.drop n).length := by simp; omega
    have d3 : 0 < (st.b_ge.drop n).length := by simp; omega
    have d4 : 0 < (st.b_lt.drop n).length := by simp; omega
    simp only [Option.some_bind, splitBodyEach, at_eq a n hna, at_eq b n hnb,
      Option.bind_eq_bind, write_append _ _ n _ e1 d1, write_append _ _ n _ e2 d2,
      write_append _ _ n _ e3 d3, write_append _ _ n _ e4 d4, Option.pure_def, List.drop_drop]
    by_cases hc : a[n] ≥ 0 <;> by_cases hd : b[n] ≥ 0 <;>
      simp [hc, hd, take_succ_map _ _ _ hna, take_succ_map _ _ _ hnb, geHalf, ltHalf,
        write_append _ _ n _ e1 d1, write_append _ _ n _ e2 d2,
        write_append _ _ n _ e3 d3, write_append _ _ n _ e4 d4, Nat.add_comm]

theorem splitEach_fit (n : Nat) (a b : Vec) (ha : a.length = n) (hb : b.length = n) :
    forLoop n (splitBodyEach a b) ⟨zeros n, zeros n, zeros n, zeros n⟩
      = some ⟨a.map geHalf, a.map ltHalf, b.map geHalf, b.map ltHalf⟩ := by
  subst ha
  rw [splitEach_eq a.length a b _ (by omega) (by omega) (by simp [zeros]) (by simp [zeros])
    (by simp [zeros]) (by simp [zeros])]
  simp [zeros, hb]


/-! ## C1: diagonal consistency of the sign-definite variants -/

/-- C1, as stated, fails for a vector `x` shorter than the operands: on the freshly built node
`Mult_vecNN_vecNN(v, p)`, with `v` a Variable of dimension 2 and `p = Parameter([10, 20])`,
`evaluate([1], [1])` returns, the operands' values are `[1]` and `[10, 20]`, and the node's value
is `[10, 0]`: the second component is what the buffer held before, not a product.  After an
earlier `evaluate([3, 4], [3, 4])` the value is `[10, 80]`.  A zero divisor leaves no value:
`Div_VecNN_VecNN(v, Parameter([0]))` at `x = [1]`. -/
theorem diag_signDefinite_counterexample :
    BinaryKind.signDefinite .Mult_vecNN_vecNN
    ∧ ((Expression.binary ⟨3, 2, sign.NN⟩ .Mult_vecNN_vecNN (.leaf ⟨1, 2, sign.NN⟩ .Variable)
          (.leaf ⟨2, 2, sign.NN⟩ .Parameter)).evaluate noLog [1] [1]
        (Function.update (fun _ => [0, 0]) 2 [10, 20])).map (fun s => (s 1, s 2, s 3))
      = some ([1], [10, 20], [10, 0])
    ∧ plainOperation Family.mult_vec_vec none [1] [10, 20] = [10]
    ∧ (((Expression.binary ⟨3, 2, sign.NN⟩ .Mult_vecNN_vecNN (.leaf ⟨1, 2, sign.NN⟩ .Variable)
          (.leaf ⟨2, 2, sign.NN⟩ .Parameter)).evaluate noLog [3, 4] [3, 4]
        (Function.update (fun _ => [0, 0]) 2 [10, 20])).bind
        (fun s => (Expression.binary ⟨3, 2, sign.NN⟩ .Mult_vecNN_vecNN
          (.leaf ⟨1, 2, sign.NN⟩ .Variable) (.leaf ⟨2, 2, sign.NN⟩ .Parameter)).evaluate noLog
            [1] [1] s)).map (fun s => (s 1, s 2, s 3))
      = some ([1], [10, 20], [10, 80])
    ∧ BinaryKind.signDefinite .Div_VecNN_VecNN
    ∧ (Expression.binary ⟨3, 1, sign.NN⟩ .Div_VecNN_VecNN (.leaf ⟨1, 1, sign.NN⟩ .Variable)
          (.leaf ⟨2, 1, sign.NN⟩ .Parameter)).evaluate noLog [1] [1]
        (Function.update (fun _ => [0]) 2 [0]) = none := by
  refine ⟨by simp [BinaryKind.signDefinite, BinaryKind.namedTags], ?_, ?_, ?_,
    by simp [BinaryKind.signDefinite, BinaryKind.namedTags], ?_⟩
  · simp only [Expression.evaluate, BinaryKind.evaluate, Mult_vecNN_vecNN.evaluate,
      Expression.getID, Expression.header, Option.bind_eq_bind, Option.some_bind]
    simp only [Function.update_apply]
    norm_num [transform2, multiplies, collect]
  · norm_num [plainOperation]
  · simp only [Expression.evaluate, BinaryKind.evaluate, Mult_vecNN_vecNN.evaluate,
      Expression.getID, Expression.header, Option.bind_eq_bind, Option.some_bind]
    simp only [Function.update_apply]
    norm_num [transform2, multiplies, collect]
  · simp only [Expression.evaluate, BinaryKind.evaluate, Div_VecNN_VecNN.evaluate,
      Expression.getID, Expression.header, Option.bind_eq_bind, Option.some_bind]
    simp only [Function.update_apply]
    norm_num [transform2, divides, collect]

/-- C1, amended: for every sign-definite class (both named operand tags in NN, NP, and the two
addition classes) and every vector x at which the operands' values and the node's buffer have
the dimensions that the class presupposes and, in the division classes, every component of the
divisor is nonzero, `evaluate(x, x)` evaluates both operands at (x, x) and leaves in the node's
buffer the plain operation of the family (componentwise sum, product or quotient, inner
product, matrix-vector product) applied to the operands' values, whichever argument order the
class routes to each operand. -/
theorem diag_signDefinite (cm : CMath) (k : BinaryKind) (hk : k.signDefinite) (h : Header)
    (a b : Expression) (x : Vec) (s s1 s2 : Store)
    (ha : a.evaluate cm x x s = some s1) (hb : b.evaluate cm x x s1 = some s2)
    (hd : wellDimensioned k.family h.m_dim a.getMatrix (s2 a.getID) (s2 b.getID) (s2 h.m_id))
    (hz : divisorsNonzero k.family (s2 b.getID)) :
    (Expression.binary h k a b).evaluate cm x x s
      = some (Function.update s2 h.m_id
          (plainOperation k.family a.getMatrix (s2 a.getID) (s2 b.getID))) := by
  cases k
  all_goals first
    | (exfalso; revert hk; simp [BinaryKind.signDefinite, BinaryKind.namedTags]; done)
    | skip
  all_goals simp only [BinaryKind.family, wellDimensioned, divisorsNonzero] at hd hz
  all_goals simp only [BinaryKind.family, plainOperation, Expression.evaluate, BinaryKind.evaluate]
  all_goals first
    | (obtain ⟨h1, h2, h3⟩ := hd
       simp [Add_vec_vec.evaluate,
        Mult_vecNN_vecNN.evaluate, Mult_vecNP_vecNP.evaluate, Mult_vecNN_vecNP.evaluate,
        ha, hb, transform2_plus, transform2_multiplies, h1, h2, h3, drop_all _ _ h3]
       done)
    | (obtain ⟨h1, h2, h3⟩ := hd
       simp [Div_VecNN_VecNN.evaluate, Div_VecNP_VecNP.evaluate, Div_VecNN_VecNP.evaluate,
        Div_VecNP_VecNN.evaluate,
        ha, hb, transform2_divides _ _ _ hz, h1, h2, h3, drop_all _ _ h3]
       done)
    | (obtain ⟨h1, h2, h3⟩ := hd
       simp [Add_vec_scalar.evaluate, head_of_length_one _ h2, transform1_total,
        ha, hb, h1, h2, h3, drop_all _ _ h3]
       done)
    | (obtain ⟨h1, h2, h3⟩ := hd
       simp [Mult_vecNN_scalarNN.evaluate, Mult_vecNP_scalarNP.evaluate,
        Mult_vecNN_scalarNP.evaluate, Mult_vecNP_scalarNN.evaluate,
        timesScalar_of s2 ⟨b.evaluate cm, b.getID, b.getDim, b.getMatrix⟩ _
          (head_of_length_one _ h2),
        transform1_total, ha, hb, h1, h2, h3, drop_all _ _ h3]
       done)
    | (obtain ⟨h1, h2, h3⟩ := hd
       obtain ⟨d, hbd⟩ := List.length_eq_one.mp h2
       have hne : d ≠ 0 := hz d (by simp [hbd])
       simp [Div_VecNN_ScalarNN.evaluate, Div_VecNP_ScalarNP.evaluate, Div_VecNN_ScalarNP.evaluate,
        Div_VecNP_ScalarNN.evaluate,
        overScalar_of s2 ⟨b.evaluate cm, b.getID, b.getDim, b.getMatrix⟩ d
          (by simp [hbd, Vec.at]),
        transform1_divides_by _ _ _ hne,
        ha, hb, h1, hbd, h3, drop_all _ _ h3]
       done)
    | (obtain ⟨h1, h2, h3⟩ := hd
       simp [Div_ScalarNN_VecNN.evaluate, Div_ScalarNP_VecNP.evaluate, Div_ScalarNN_VecNP.evaluate,
        Div_ScalarNP_VecNN.evaluate,
        scalarOver_of s2 ⟨a.evaluate cm, a.getID, a.getDim, a.getMatrix⟩ _
          (head_of_length_one _ h1),
        transform1_divides_into _ _ _ hz,
        ha, hb, h1, h2, h3, drop_all _ _ h3]
       done)
    | (obtain ⟨h1, h2, h3⟩ := hd
       have hl : (s2 h.m_id).length = 1 := h3
       obtain ⟨c, hc⟩ := List.length_eq_one.mp hl
       simp [Dot_NN_NN.evaluate, Dot_NP_NP.evaluate, Dot_NN_NP.evaluate, setInner,
        inner_product_eq _ _ _ (le_of_eq h1), Vec.write, hc,
        ha, hb]
       done)
    | (cases hM : a.getMatrix with
       | none => simp [hM] at hd
       | some m =>
         simp only [hM] at hd
         obtain ⟨h1, h2, h3, h4⟩ := hd
         simp [Mult_MatNN_VecNN.evaluate, Mult_MatNP_VecNP.evaluate, Mult_MatNN_VecNP.evaluate,
          Mult_MatNP_VecNN.evaluate, hM, ha, hb, ← h1, rowLoop1_eq m _ _ h2 h3 (h4.trans h1.symm)]
         done)
    | skip

/-- Witness for C1 at `Mult_vecNN_vecNP` on two Variables, which routes `(y, x)` to the first
operand and `(x, y)` to the second. -/
theorem diag_signDefinite_witness :
    (Expression.binary ⟨3, 2, sign.NP⟩ .Mult_vecNN_vecNP (.leaf ⟨1, 2, sign.NN⟩ .Variable)
        (.leaf ⟨2, 2, sign.NP⟩ .Variable)).evaluate noLog [3, -5] [3, -5] (fun _ => [0, 0])
      = some (Function.update
          (Function.update (Function.update (fun _ => [0, 0]) 1 [3, -5]) 2 [3, -5]) 3
          (plainOperation Family.mult_vec_vec none
            ((Function.update (Function.update (fun _ => [0, 0]) 1 [3, -5]) 2 [3, -5]) 1)
            ((Function.update (Function.update (fun _ => [0, 0]) 1 [3, -5]) 2 [3, -5]) 2))) :=
  diag_signDefinite noLog .Mult_vecNN_vecNP
    (by simp [BinaryKind.signDefinite, BinaryKind.namedTags]) ⟨3, 2, sign.NP⟩
    (.leaf ⟨1, 2, sign.NN⟩ .Variable) (.leaf ⟨2, 2, sign.NP⟩ .Variable) [3, -5] (fun _ => [0, 0])
    (Function.update (fun _ => [0, 0]) 1 [3, -5])
    (Function.update (Function.update (fun _ => [0, 0]) 1 [3, -5]) 2 [3, -5])
    (by simp [Expression.evaluate]) (by simp [Expression.evaluate])
    (by simp [wellDimensioned, BinaryKind.family, Expression.getID, Expression.header,
      Function.update])
    (by simp [divisorsNonzero, BinaryKind.family])

/-! ## Monotonicity of the plain operations under the named signs -/

theorem vec_le_iff (x x' : Vec) :
    Vec.le x x' ↔ x.length = x'.length
      ∧ ∀ (i : Nat) (h1 : i < x.length) (h2 : i < x'.length), x[i] ≤ x'[i] := by
  unfold Vec.le
  rw [List.forall₂_iff_get]
  simp

theorem vec_le_refl (x : Vec) : Vec.le x x :=
  (vec_le_iff x x).2 ⟨rfl, fun _ _ _ => le_refl _⟩

theorem zipWith_le (op : ℚ → ℚ → ℚ) (va va' vb vb' : Vec) (hla : va.length = va'.length)
    (hlb : vb.length = vb'.length)
    (hop : ∀ (i : Nat) (h1 : i < va.length) (h2 : i < va'.length) (h3 : i < vb.length)
      (h4 : i < vb'.length), op va[i] vb[i] ≤ op va'[i] vb'[i]) :
    Vec.le (List.zipWith op va vb) (List.zipWith op va' vb') := by
  rw [vec_le_iff]
  refine ⟨by simp [hla, hlb], ?_⟩
  intro i h1 h2
  simp only [List.length_zipWith, lt_min_iff] at h1 h2
  simp only [List.getElem_zipWith]
  exact hop i h1.1 h2.1 h1.2 h2.2

theorem map_le (f g : ℚ → ℚ) (va va' : Vec) (hla : va.length = va'.length)
    (hop : ∀ (i : Nat) (h1 : i < va.length) (h2 : i < va'.length), f va[i] ≤ g va'[i]) :
    Vec.le (va.map f) (va'.map g) := by
  rw [vec_le_iff]
  refine ⟨by simp [hla], ?_⟩
  intro i h1 h2
  simp only [List.length_map] at h1 h2
  simp only [List.getElem_map]
  exact hop i h1 h2

theorem carries_at (t : sign) (v : Vec) (h : carries t v) (i : Nat) (hi : i < v.length) :
    signHolds t v[i] :=
  h _ (List.getElem_mem hi)

theorem mul_mono_tags (ta tb : sign) (hta : ta ≠ sign.unknown) (htb : tb ≠ sign.unknown)
    (c c' d d' : ℚ) (hc : c ≤ c') (hd : d ≤ d') (ec : tb = sign.NP → c = c')
    (ed : ta = sign.NP → d = d') (sc : signHolds ta c) (sc' : signHolds ta c')
    (sd : signHolds tb d) (sd' : signHolds tb d') : c * d ≤ c' * d' := by
  cases ta <;> cases tb <;> simp only [signHolds, ne_eq, not_true_eq_false, reduceCtorEq,
    forall_const, false_implies, not_false_eq_true] at *
  · exact mul_le_mul hc hd sd sc'
  · subst ec
    exact mul_le_mul_of_nonneg_left hd sc
  · subst ed
    exact mul_le_mul_of_nonneg_right hc sd
  · subst ec
    subst ed
    exact le_refl _

theorem div_mono_tags (ta tb : sign) (hta : ta ≠ sign.unknown) (htb : tb ≠ sign.unknown)
    (c c' d d' : ℚ) (hc : c ≤ c') (hd : d ≤ d') (ec : tb = sign.NP → c = c')
    (ed : ta = sign.NN → d = d') (sc : signHolds ta c) (sc' : signHolds ta c')
    (sd : signHolds tb d) (sd' : signHolds tb d') (nz : d ≠ 0) (nz' : d' ≠ 0) :
    c / d ≤ c' / d' := by
  cases ta <;> cases tb <;> simp only [signHolds, ne_eq, not_true_eq_false, reduceCtorEq,
    forall_const, false_implies, not_false_eq_true] at *
  · subst ed
    exact div_le_div_of_nonneg_right hc sd
  · subst ec
    subst ed
    exact le_refl _
  · have hpos : 0 < d := lt_of_le_of_ne sd (Ne.symm nz)
    have hpos' : 0 < d' := lt_of_le_of_ne sd' (Ne.symm nz')
    calc c / d ≤ c' / d := div_le_div_of_nonneg_right hc sd
      _ ≤ c' / d' := by
        rw [div_le_div_iff₀ hpos hpos']
        exact mul_le_mul_of_nonpos_left hd sc'
  · subst ec
    have hneg : d < 0 := lt_of_le_of_ne sd nz
    have hneg' : d' < 0 := lt_of_le_of_ne sd' nz'
    have key : (-c) / (-d) ≤ (-c) / (-d') :=
      div_le_div_of_nonneg_left (neg_nonneg.mpr sc) (neg_pos.mpr hneg') (neg_le_neg hd)
    rwa [neg_div_neg_eq, neg_div_neg_eq] at key

theorem swapsFirst_iff (k : BinaryKind) : k.swapsFirst = true ↔ k.tagSecond = sign.NP := by
  unfold BinaryKind.swapsFirst BinaryKind.tagSecond
  cases k.namedTags <;> simp

theorem swapsSecond_iff (k : BinaryKind) (hk : k.signDefinite) :
    k.swapsSecond = true ↔
      k.tagFirst = (if k.family = Family.div_vec_vec ∨ k.family = Family.div_vec_scalar
        ∨ k.family = Family.div_scalar_vec then sign.NN else sign.NP) := by
  cases k <;> simp [BinaryKind.swapsSecond, BinaryKind.tagFirst, BinaryKind.namedTags,
    BinaryKind.family, BinaryKind.signDefinite] at hk ⊢

theorem tags_definite (k : BinaryKind) (hk : k.signDefinite)
    (hf : k.family ≠ Family.add_vec_vec ∧ k.family ≠ Family.add_vec_scalar) :
    k.tagFirst ≠ sign.unknown ∧ k.tagSecond ≠ sign.unknown := by
  cases k <;> simp [BinaryKind.tagFirst, BinaryKind.tagSecond, BinaryKind.namedTags,
    BinaryKind.family, BinaryKind.signDefinite] at hk hf ⊢

theorem headD_le (vb vb' : Vec) (h : Vec.le vb vb') : vb.headD 0 ≤ vb'.headD 0 := by
  cases h with
  | nil => simp
  | cons h1 _ => simpa using h1

theorem carries_headD (t : sign) (v : Vec) (h : carries t v) (hl : v.length = 1) :
    signHolds t (v.headD 0) := by
  obtain ⟨d, hd⟩ := List.length_eq_one.mp hl
  subst hd
  exact h d (by simp)

theorem sum_le_of_vec_le (l l' : Vec) (h : Vec.le l l') : l.sum ≤ l'.sum :=
  List.Forall₂.sum_le_sum h

theorem getD_le (v v' : Vec) (h : Vec.le v v') (i : Nat) : v.getD i 0 ≤ v'.getD i 0 := by
  obtain ⟨hl, hi⟩ := (vec_le_iff v v').1 h
  by_cases hc : i < v.length
  · have hc' : i < v'.length := hl ▸ hc
    simpa [List.getD_eq_getElem?_getD, List.getElem?_eq_getElem hc,
      List.getElem?_eq_getElem hc'] using hi i hc hc'
  · have hc' : ¬ i < v'.length := hl ▸ hc
    simp [List.getD_eq_getElem?_getD, List.getElem?_eq_none (not_lt.mp hc),
      List.getElem?_eq_none (not_lt.mp hc')]

theorem entry_nonneg (m : Matrix) (h : carries sign.NN m.mData) (i j : Nat) :
    0 ≤ m.entry i j := by
  unfold Matrix.entry
  by_cases hc : i * m.mCols + j < m.mData.length
  · simpa [List.getD_eq_getElem?_getD, List.getElem?_eq_getElem hc] using
      h _ (List.getElem_mem hc)
  · simp [List.getD_eq_getElem?_getD, List.getElem?_eq_none (not_lt.mp hc)]

theorem map_le_same {α : Type} (l : List α) (f g : α → ℚ) (h : ∀ a, f a ≤ g a) :
    Vec.le (l.map f) (l.map g) := by
  unfold Vec.le
  induction l with
  | nil => exact List.Forall₂.nil
  | cons a l ih => exact List.Forall₂.cons (h a) ih

theorem plainMatVec_mono (m : Matrix) (v v' : Vec) (hm : carries sign.NN m.mData)
    (h : Vec.le v v') : Vec.le (plainMatVec m v) (plainMatVec m v') := by
  unfold plainMatVec
  apply map_le_same
  intro i
  unfold plainRow
  apply sum_le_of_vec_le
  apply map_le_same
  intro j
  exact mul_le_mul_of_nonneg_left (getD_le v v' h _) (entry_nonneg m hm _ _)

theorem eq_at (v v' : Vec) (h : v = v') (i : Nat) (h1 : i < v.length) (h2 : i < v'.length) :
    v[i] = v'[i] := by
  subst h
  rfl

theorem le_at (v v' : Vec) (h : Vec.le v v') (i : Nat) (h1 : i < v.length)
    (h2 : i < v'.length) : v[i] ≤ v'[i] :=
  ((vec_le_iff v v').1 h).2 i h1 h2

theorem headD_eq (v v' : Vec) (h : v = v') : v.headD 0 = v'.headD 0 := by
  rw [h]

theorem plainOperation_mono (k : BinaryKind) (hk : k.signDefinite) (n : Nat)
    (mat : Option Matrix) (va va' vb vb' out : Vec)
    (hA : Vec.le va va') (hA' : k.swapsFirst = true → va = va')
    (hB : Vec.le vb vb') (hB' : k.swapsSecond = true → vb = vb')
    (sa : carries k.tagFirst va) (sa' : carries k.tagFirst va')
    (sb : carries k.tagSecond vb) (sb' : carries k.tagSecond vb')
    (sm : ∀ m, mat = some m → carries k.tagFirst m.mData)
    (hd : wellDimensioned k.family n mat va vb out)
    (hz : divisorsNonzero k.family vb) (hz' : divisorsNonzero k.family vb') :
    Vec.le (plainOperation k.family mat va vb) (plainOperation k.family mat va' vb') := by
  have la : va.length = va'.length := ((vec_le_iff _ _).1 hA).1
  have lb : vb.length = vb'.length := ((vec_le_iff _ _).1 hB).1
  have eA : k.tagSecond = sign.NP → va = va' := fun e => hA' ((swapsFirst_iff k).2 e)
  have eB := swapsSecond_iff k hk
  have ht := tags_definite k hk
  cases hf : k.family
  all_goals simp only [hf, wellDimensioned, divisorsNonzero, plainOperation, ne_eq,
    reduceCtorEq, not_false_eq_true, and_self, forall_const, or_self, or_false, false_or,
    if_true, if_false, not_true_eq_false, and_false, false_and] at hd hz hz' eB ht ⊢
  · exact zipWith_le _ _ _ _ _ la lb (fun i h1 h2 h3 h4 =>
      add_le_add (le_at _ _ hA i h1 h2) (le_at _ _ hB i h3 h4))
  · exact map_le _ _ _ _ la (fun i h1 h2 =>
      add_le_add (le_at _ _ hA i h1 h2) (headD_le _ _ hB))
  · exact zipWith_le _ _ _ _ _ la lb (fun i h1 h2 h3 h4 =>
      mul_mono_tags k.tagFirst k.tagSecond ht.1 ht.2 _ _ _ _ (le_at _ _ hA i h1 h2)
        (le_at _ _ hB i h3 h4) (fun e => eq_at _ _ (eA e) i h1 h2)
        (fun e => eq_at _ _ (hB' (eB.2 e)) i h3 h4)
        (carries_at _ _ sa i h1) (carries_at _ _ sa' i h2)
        (carries_at _ _ sb i h3) (carries_at _ _ sb' i h4))
  · exact map_le _ _ _ _ la (fun i h1 h2 =>
      mul_mono_tags k.tagFirst k.tagSecond ht.1 ht.2 _ _ _ _ (le_at _ _ hA i h1 h2)
        (headD_le _ _ hB) (fun e => eq_at _ _ (eA e) i h1 h2)
        (fun e => headD_eq _ _ (hB' (eB.2 e)))
        (carries_at _ _ sa i h1) (carries_at _ _ sa' i h2)
        (carries_headD _ _ sb hd.2.1) (carries_headD _ _ sb' (lb ▸ hd.2.1)))
  · cases mat with
    | none => exact absurd hd (by simp [wellDimensioned])
    | some m =>
      simp only [plainOperation]
      cases hta : k.tagFirst with
      | unknown => exact absurd hta ht.1
      | NP => rw [hB' (eB.2 hta)]; exact vec_le_refl _
      | NN => exact plainMatVec_mono m vb vb' (hta ▸ sm m rfl) hB
  · unfold plainDot
    exact List.Forall₂.cons (sum_le_of_vec_le _ _ (zipWith_le _ _ _ _ _ la lb
      (fun i h1 h2 h3 h4 =>
        mul_mono_tags k.tagFirst k.tagSecond ht.1 ht.2 _ _ _ _ (le_at _ _ hA i h1 h2)
          (le_at _ _ hB i h3 h4) (fun e => eq_at _ _ (eA e) i h1 h2)
          (fun e => eq_at _ _ (hB' (eB.2 e)) i h3 h4)
          (carries_at _ _ sa i h1) (carries_at _ _ sa' i h2)
          (carries_at _ _ sb i h3) (carries_at _ _ sb' i h4)))) List.Forall₂.nil
  · exact zipWith_le _ _ _ _ _ la lb (fun i h1 h2 h3 h4 =>
      div_mono_tags k.tagFirst k.tagSecond ht.1 ht.2 _ _ _ _ (le_at _ _ hA i h1 h2)
        (le_at _ _ hB i h3 h4) (fun e => eq_at _ _ (eA e) i h1 h2)
        (fun e => eq_at _ _ (hB' (eB.2 e)) i h3 h4)
        (carries_at _ _ sa i h1) (carries_at _ _ sa' i h2)
        (carries_at _ _ sb i h3) (carries_at _ _ sb' i h4)
        (hz _ (List.getElem_mem h3)) (hz' _ (List.getElem_mem h4)))
  · exact map_le _ _ _ _ la (fun i h1 h2 =>
      div_mono_tags k.tagFirst k.tagSecond ht.1 ht.2 _ _ _ _ (le_at _ _ hA i h1 h2)
        (headD_le _ _ hB) (fun e => eq_at _ _ (eA e) i h1 h2)
        (fun e => headD_eq _ _ (hB' (eB.2 e)))
        (carries_at _ _ sa i h1) (carries_at _ _ sa' i h2)
        (carries_headD _ _ sb hd.2.1) (carries_headD _ _ sb' (lb ▸ hd.2.1))
        (headD_ne_zero _ hd.2.1 hz) (headD_ne_zero _ (lb ▸ hd.2.1) hz'))
  · exact map_le _ _ _ _ lb (fun i h3 h4 =>
      div_mono_tags k.tagFirst k.tagSecond ht.1 ht.2 _ _ _ _ (headD_le _ _ hA)
        (le_at _ _ hB i h3 h4) (fun e => headD_eq _ _ (eA e))
        (fun e => eq_at _ _ (hB' (eB.2 e)) i h3 h4)
        (carries_headD _ _ sa hd.1) (carries_headD _ _ sa' (la ▸ hd.1))
        (carries_at _ _ sb i h3) (carries_at _ _ sb' i h4)
        (hz _ (List.getElem_mem h3)) (hz' _ (List.getElem_mem h4)))

/-! ## Evaluation of a sign-definite node at any pair `(x, y)` -/

theorem signDefinite_routed (cm : CMath) (k : BinaryKind) (hk : k.signDefinite) (h : Header)
    (a b : Expression) (x y : Vec) (s s1 s2 : Store)
    (ha : a.evaluate cm (route k.swapsFirst x y).1 (route k.swapsFirst x y).2 s = some s1)
    (hb : b.evaluate cm (route k.swapsSecond x y).1 (route k.swapsSecond x y).2 s1 = some s2)
    (hd : wellDimensioned k.family h.m_dim a.getMatrix (s2 a.getID) (s2 b.getID) (s2 h.m_id))
    (hz : divisorsNonzero k.family (s2 b.getID)) :
    (Expression.binary h k a b).evaluate cm x y s
      = some (Function.update s2 h.m_id
          (plainOperation k.family a.getMatrix (s2 a.getID) (s2 b.getID))) := by
  cases k
  all_goals first
    | (exfalso; revert hk; simp [BinaryKind.signDefinite, BinaryKind.namedTags]; done)
    | skip
  all_goals simp only [BinaryKind.swapsFirst, BinaryKind.swapsSecond, BinaryKind.namedTags,
    BinaryKind.family, route, decide_True, decide_False, if_true, if_false,
    Bool.false_eq_true, reduceCtorEq] at ha hb
  all_goals simp only [BinaryKind.family, wellDimensioned, divisorsNonzero] at hd hz
  all_goals simp only [BinaryKind.family, plainOperation, Expression.evaluate, BinaryKind.evaluate]
  all_goals first
    | (obtain ⟨h1, h2, h3⟩ := hd
       simp [Add_vec_vec.evaluate,
        Mult_vecNN_vecNN.evaluate, Mult_vecNP_vecNP.evaluate, Mult_vecNN_vecNP.evaluate,
        ha, hb, transform2_plus, transform2_multiplies, h1, h2, h3, drop_all _ _ h3]
       done)
    | (obtain ⟨h1, h2, h3⟩ := hd
       simp [Div_VecNN_VecNN.evaluate, Div_VecNP_VecNP.evaluate, Div_VecNN_VecNP.evaluate,
        Div_VecNP_VecNN.evaluate,
        ha, hb, transform2_divides _ _ _ hz, h1, h2, h3, drop_all _ _ h3]
       done)
    | (obtain ⟨h1, h2, h3⟩ := hd
       simp [Add_vec_scalar.evaluate, head_of_length_one _ h2, transform1_total,
        ha, hb, h1, h2, h3, drop_all _ _ h3]
       done)
    | (obtain ⟨h1, h2, h3⟩ := hd
       simp [Mult_vecNN_scalarNN.evaluate, Mult_vecNP_scalarNP.evaluate,
        Mult_vecNN_scalarNP.evaluate, Mult_vecNP_scalarNN.evaluate,
        timesScalar_of s2 ⟨b.evaluate cm, b.getID, b.getDim, b.getMatrix⟩ _
          (head_of_length_one _ h2),
        transform1_total, ha, hb, h1, h2, h3, drop_all _ _ h3]
       done)
    | (obtain ⟨h1, h2, h3⟩ := hd
       obtain ⟨d, hbd⟩ := List.length_eq_one.mp h2
       have hne : d ≠ 0 := hz d (by simp [hbd])
       simp [Div_VecNN_ScalarNN.evaluate, Div_VecNP_ScalarNP.evaluate, Div_VecNN_ScalarNP.evaluate,
        Div_VecNP_ScalarNN.evaluate,
        overScalar_of s2 ⟨b.evaluate cm, b.getID, b.getDim, b.getMatrix⟩ d
          (by simp [hbd, Vec.at]),
        transform1_divides_by _ _ _ hne,
        ha, hb, h1, hbd, h3, drop_all _ _ h3]
       done)
    | (obtain ⟨h1, h2, h3⟩ := hd
       simp [Div_ScalarNN_VecNN.evaluate, Div_ScalarNP_VecNP.evaluate, Div_ScalarNN_VecNP.evaluate,
        Div_ScalarNP_VecNN.evaluate,
        scalarOver_of s2 ⟨a.evaluate cm, a.getID, a.getDim, a.getMatrix⟩ _
          (head_of_length_one _ h1),
        transform1_divides_into _ _ _ hz,
        ha, hb, h1, h2, h3, drop_all _ _ h3]
       done)
    | (obtain ⟨h1, h2, h3⟩ := hd
       have hl : (s2 h.m_id).length = 1 := h3
       obtain ⟨c, hc⟩ := List.length_eq_one.mp hl
       simp [Dot_NN_NN.evaluate, Dot_NP_NP.evaluate, Dot_NN_NP.evaluate, setInner,
        inner_product_eq _ _ _ (le_of_eq h1), Vec.write, hc,
        ha, hb]
       done)
    | (cases hM : a.getMatrix with
       | none => simp [hM] at hd
       | some m =>
         simp only [hM] at hd
         obtain ⟨h1, h2, h3, h4⟩ := hd
         simp [Mult_MatNN_VecNN.evaluate, Mult_MatNP_VecNP.evaluate, Mult_MatNN_VecNP.evaluate,
          Mult_MatNP_VecNN.evaluate, hM, ha, hb, ← h1, rowLoop1_eq m _ _ h2 h3 (h4.trans h1.symm)]
         done)
    | skip


theorem leaf_evaluate (cm : CMath) (hl : Header) (kl : LeafKind) (p q : Vec) (s : Store) :
    (Expression.leaf hl kl).evaluate cm p q s = some (kl.store hl.m_id p s) := by
  cases kl <;> simp [Expression.evaluate, LeafKind.store]

theorem two_leaves_values (ka kb : LeafKind) (ida idb idh : Nat) (pa pb : Vec) (s : Store)
    (hid : ida ≠ idb ∧ ida ≠ idh ∧ idb ≠ idh) :
    (kb.store idb pb (ka.store ida pa s)) ida = ka.value (s ida) pa
    ∧ (kb.store idb pb (ka.store ida pa s)) idb = kb.value (s idb) pb
    ∧ (kb.store idb pb (ka.store ida pa s)) idh = s idh := by
  obtain ⟨h1, h2, h3⟩ := hid
  cases ka <;> cases kb <;>
    simp [LeafKind.store, LeafKind.value, Function.update_apply, h1, h2, h3, Ne.symm h1,
      Ne.symm h2, Ne.symm h3]

theorem value_value (kl : LeafKind) (st p q : Vec) :
    kl.value (kl.value st p) q = kl.value st q := by
  cases kl <;> rfl

theorem value_length (kl : LeafKind) (st p q : Vec) (h : p.length = q.length) :
    (kl.value st p).length = (kl.value st q).length := by
  cases kl <;> simp [LeafKind.value, h]

theorem route_length (sw : Bool) (x x' y : Vec) (h : x.length = x'.length) :
    (route sw x y).1.length = (route sw x' y).1.length := by
  cases sw <;> simp [route, h]

theorem value_route_le (kl : LeafKind) (sw : Bool) (st x x' y : Vec) (h : Vec.le x x') :
    Vec.le (kl.value st (route sw x y).1) (kl.value st (route sw x' y).1) := by
  cases kl <;> cases sw <;> simp [LeafKind.value, route, h, vec_le_refl]

theorem value_route_eq (kl : LeafKind) (sw : Bool) (st x x' y : Vec) (h : sw = true) :
    kl.value st (route sw x y).1 = kl.value st (route sw x' y).1 := by
  subst h
  simp [route]

theorem wellDimensioned_congr (f : Family) (n : Nat) (mat : Option Matrix)
    (va vb out va' vb' out' : Vec) (la : va'.length = va.length) (lb : vb'.length = vb.length)
    (lo : out'.length = out.length) (h : wellDimensioned f n mat va vb out) :
    wellDimensioned f n mat va' vb' out' := by
  cases f <;> cases mat <;> simp only [wellDimensioned] at h ⊢ <;>
    first
      | exact h
      | (rw [la, lb, lo]; exact h)
      | (rw [lb, lo]; exact h)

theorem plainOperation_length (f : Family) (n : Nat) (mat : Option Matrix) (va vb out : Vec)
    (h : wellDimensioned f n mat va vb out) :
    (plainOperation f mat va vb).length = out.length := by
  cases f <;> cases mat <;> simp only [wellDimensioned] at h <;>
    first
      | exact absurd h not_false
      | (simp [plainOperation, plainMatVec, h.1, h.2.1, h.2.2]; done)
      | (simp [plainOperation, plainMatVec, h.1, h.2.2.2]; done)

/-! ## Monotonicity in the first argument: two-operand classes -/

/-- Every sign-definite two-operand class applied to two distinct leaves whose values carry the
signs named by the class: two consecutive calls `evaluate(x, y)`, `evaluate(x', y)` with
`x ≤ x'` return, and no component of the value falls. -/
theorem binary_nondecreasing_in_x (cm : CMath) (k : BinaryKind)
    (hk : k.signDefinite) (h ha hb : Header) (ka kb : LeafKind) (x x' y : Vec) (s : Store)
    (hid : ha.m_id ≠ hb.m_id ∧ ha.m_id ≠ h.m_id ∧ hb.m_id ≠ h.m_id)
    (hx : Vec.le x x')
    (hd : wellDimensioned k.family h.m_dim (Expression.leaf ha ka).getMatrix
      (ka.value (s ha.m_id) (route k.swapsFirst x y).1)
      (kb.value (s hb.m_id) (route k.swapsSecond x y).1) (s h.m_id))
    (hsa : ∀ v ∈ [x, x'], carries k.tagFirst (ka.value (s ha.m_id) (route k.swapsFirst v y).1))
    (hsm : ∀ m, (Expression.leaf ha ka).getMatrix = some m → carries k.tagFirst m.mData)
    (hsb : ∀ v ∈ [x, x'],
      carries k.tagSecond (kb.value (s hb.m_id) (route k.swapsSecond v y).1)
      ∧ divisorsNonzero k.family (kb.value (s hb.m_id) (route k.swapsSecond v y).1)) :
    ∃ s1 s2,
      (Expression.binary h k (.leaf ha ka) (.leaf hb kb)).evaluate cm x y s = some s1
      ∧ (Expression.binary h k (.leaf ha ka) (.leaf hb kb)).evaluate cm x' y s1 = some s2
      ∧ Vec.le (s1 h.m_id) (s2 h.m_id) := by
  have lx : x.length = x'.length := ((vec_le_iff _ _).1 hx).1
  obtain ⟨v1, v2, v3⟩ := two_leaves_values ka kb ha.m_id hb.m_id h.m_id
    (route k.swapsFirst x y).1 (route k.swapsSecond x y).1 s hid
  have e1 := signDefinite_routed cm k hk h (.leaf ha ka) (.leaf hb kb) x y s _ _
    (leaf_evaluate cm ha ka _ _ s) (leaf_evaluate cm hb kb _ _ _)
    (by simpa only [Expression.getID, Expression.header, v1, v2, v3] using hd)
    (by simpa only [Expression.getID, Expression.header, v2] using (hsb x (by simp)).2)
  simp only [Expression.getID, Expression.header, v1, v2] at e1
  obtain ⟨s1, hs1⟩ : ∃ s1, Function.update (kb.store hb.m_id (route k.swapsSecond x y).1
      (ka.store ha.m_id (route k.swapsFirst x y).1 s)) h.m_id
      (plainOperation k.family (Expression.leaf ha ka).getMatrix
        (ka.value (s ha.m_id) (route k.swapsFirst x y).1)
        (kb.value (s hb.m_id) (route k.swapsSecond x y).1)) = s1 := ⟨_, rfl⟩
  rw [hs1] at e1
  have a1 : s1 ha.m_id = ka.value (s ha.m_id) (route k.swapsFirst x y).1 := by
    rw [← hs1, Function.update_noteq hid.2.1, v1]
  have b1 : s1 hb.m_id = kb.value (s hb.m_id) (route k.swapsSecond x y).1 := by
    rw [← hs1, Function.update_noteq hid.2.2, v2]
  have o1 : s1 h.m_id = plainOperation k.family (Expression.leaf ha ka).getMatrix
      (ka.value (s ha.m_id) (route k.swapsFirst x y).1)
      (kb.value (s hb.m_id) (route k.swapsSecond x y).1) := by
    rw [← hs1, Function.update_same]
  obtain ⟨w1, w2, w3⟩ := two_leaves_values ka kb ha.m_id hb.m_id h.m_id
    (route k.swapsFirst x' y).1 (route k.swapsSecond x' y).1 s1 hid
  rw [a1, value_value] at w1
  rw [b1, value_value] at w2
  have hd' : wellDimensioned k.family h.m_dim (Expression.leaf ha ka).getMatrix
      (ka.value (s ha.m_id) (route k.swapsFirst x' y).1)
      (kb.value (s hb.m_id) (route k.swapsSecond x' y).1) (s1 h.m_id) :=
    wellDimensioned_congr _ _ _ _ _ _ _ _ _
      (value_length _ _ _ _ (route_length _ _ _ _ lx.symm))
      (value_length _ _ _ _ (route_length _ _ _ _ lx.symm))
      (by rw [o1]; exact plainOperation_length _ _ _ _ _ _ hd) hd
  have e2 := signDefinite_routed cm k hk h (.leaf ha ka) (.leaf hb kb) x' y s1 _ _
    (leaf_evaluate cm ha ka _ _ s1) (leaf_evaluate cm hb kb _ _ _)
    (by simpa only [Expression.getID, Expression.header, w1, w2, w3] using hd')
    (by simpa only [Expression.getID, Expression.header, w2] using (hsb x' (by simp)).2)
  simp only [Expression.getID, Expression.header, w1, w2] at e2
  refine ⟨s1, _, e1, e2, ?_⟩
  rw [o1, Function.update_same]
  exact plainOperation_mono k hk h.m_dim _ _ _ _ _ (s h.m_id)
    (value_route_le _ _ _ _ _ _ hx) (fun e => value_route_eq _ _ _ _ _ _ e)
    (value_route_le _ _ _ _ _ _ hx) (fun e => value_route_eq _ _ _ _ _ _ e)
    (hsa x (by simp)) (hsa x' (by simp)) (hsb x (by simp)).1 (hsb x' (by simp)).1 hsm hd
    (hsb x (by simp)).2 (hsb x' (by simp)).2


/-! ## C2: the one-operand classes -/

theorem foldl_mul_eq_prod (l : Vec) (init : ℚ) :
    l.foldl (fun c d => c * d) init = init * l.prod := by
  induction l generalizing init with
  | nil => simp
  | cons c rest ih => simp [ih, mul_assoc]

theorem unary_leaf_closed (cm : CMath) (k : UnaryKind) (h ha : Header) (ka : LeafKind)
    (x y : Vec) (s : Store) (hid : ha.m_id ≠ h.m_id)
    (hd : unaryFits k (ka.value (s ha.m_id) (route k.swaps x y).1) (s h.m_id)) :
    (Expression.unary h k (.leaf ha ka)).evaluate cm x y s
      = some (Function.update (ka.store ha.m_id (route k.swaps x y).1 s) h.m_id
          (unaryOut cm k (ka.value (s ha.m_id) (route k.swaps x y).1) (s h.m_id))) := by
  cases k <;> cases ka <;>
    simp only [unaryFits, UnaryKind.swaps, route, if_true, if_false, Bool.false_eq_true,
      LeafKind.value] at hd <;>
    simp [Expression.evaluate, UnaryKind.evaluate, Inv.evaluate, Log2.evaluate, LogN.evaluate,
      Neg.evaluate, Prod.evaluate, Sum.evaluate, Sliced.evaluate, Expression.getID,
      Expression.header, LeafKind.store, LeafKind.value, UnaryKind.swaps, route, unaryOut,
      transform1_total, Vec.write, Vec.at, accumulate, foldl_add_eq_sum, foldl_mul_eq_prod,
      Function.update_apply, hid, Ne.symm hid, hd, List.getD_eq_getElem?_getD]

theorem prod_le_prod_of_le (l l' : Vec) (h : Vec.le l l') (h0 : carries sign.NN l) :
    0 ≤ l.prod ∧ l.prod ≤ l'.prod := by
  unfold Vec.le at h
  induction h with
  | nil => simp
  | @cons c d rest rest' hcd _ ih =>
    have hc : 0 ≤ c := h0 c (by simp)
    obtain ⟨p0, ple⟩ := ih (fun e he => h0 e (List.mem_cons_of_mem _ he))
    simp only [List.prod_cons]
    exact ⟨mul_nonneg hc p0, mul_le_mul hcd ple p0 (le_trans hc hcd)⟩

theorem set_zero_le (out : Vec) (c d : ℚ) (h : c ≤ d) :
    Vec.le (out.set 0 c) ((out.set 0 c).set 0 d) := by
  cases out with
  | nil => exact List.Forall₂.nil
  | cons o rest => exact List.Forall₂.cons h (vec_le_refl rest)

theorem store_self (kl : LeafKind) (id : Nat) (p : Vec) (s : Store) :
    (kl.store id p s) id = kl.value (s id) p := by
  cases kl <;> simp [LeafKind.store, LeafKind.value]

theorem store_other (kl : LeafKind) (id j : Nat) (p : Vec) (s : Store) (h : id ≠ j) :
    (kl.store id p s) j = s j := by
  cases kl <;> simp [LeafKind.store, Function.update_apply, Ne.symm h]

theorem unaryOut_length (cm : CMath) (k : UnaryKind) (va out : Vec) (hd : unaryFits k va out) :
    (unaryOut cm k va out).length = out.length := by
  cases k <;> simp only [unaryFits] at hd <;> simp [unaryOut] <;> omega

theorem unaryOut_mono (cm : CMath) (k : UnaryKind) (hk : k ≠ .Log2 ∧ k ≠ .LogN)
    (va va' out : Vec) (hle : Vec.le va va') (heq : k.swaps = true → va = va')
    (hs : k = .Prod → carries sign.NN va) :
    Vec.le (unaryOut cm k va out) (unaryOut cm k va' (unaryOut cm k va out)) := by
  cases k with
  | Inv =>
    have e := heq rfl
    subst e
    simp only [unaryOut]
    rw [List.drop_left' (by simp)]
    exact vec_le_refl _
  | Neg =>
    have e := heq rfl
    subst e
    simp only [unaryOut]
    rw [List.drop_left' (by simp)]
    exact vec_le_refl _
  | Log2 => exact absurd rfl hk.1
  | LogN => exact absurd rfl hk.2
  | Prod => exact set_zero_le out _ _ (prod_le_prod_of_le va va' hle (hs rfl)).2
  | Sum => exact set_zero_le out _ _ (sum_le_of_vec_le va va' hle)
  | Sliced m_index => exact set_zero_le out _ _ (getD_le va va' hle m_index)

theorem unaryFits_next (cm : CMath) (k : UnaryKind) (va va' out : Vec)
    (hl : va.length = va'.length) (hd : unaryFits k va out) :
    unaryFits k va' (unaryOut cm k va out) := by
  have e := unaryOut_length cm k va out hd
  cases k <;> simp only [unaryFits] at hd ⊢ <;> rw [e] <;> first | omega | exact hd

/-- Every one-operand class that can be tagged NN or NP, applied to a leaf: two consecutive
calls `evaluate(x, y)`, `evaluate(x', y)` with `x ≤ x'` return, and the value does not fall. -/
theorem unary_nondecreasing_in_x (cm : CMath) (k : UnaryKind)
    (hk : k ≠ UnaryKind.Log2 ∧ k ≠ UnaryKind.LogN) (h ha : Header) (ka : LeafKind)
    (x x' y : Vec) (s : Store) (hid : ha.m_id ≠ h.m_id) (hx : Vec.le x x')
    (hd : unaryFits k (ka.value (s ha.m_id) (route k.swaps x y).1) (s h.m_id))
    (hs : k = UnaryKind.Prod → carries sign.NN (ka.value (s ha.m_id) x)) :
    ∃ s1 s2,
      (Expression.unary h k (.leaf ha ka)).evaluate cm x y s = some s1
      ∧ (Expression.unary h k (.leaf ha ka)).evaluate cm x' y s1 = some s2
      ∧ Vec.le (s1 h.m_id) (s2 h.m_id) := by
  have lx : x.length = x'.length := ((vec_le_iff _ _).1 hx).1
  have e1 := unary_leaf_closed cm k h ha ka x y s hid hd
  obtain ⟨s1, hs1⟩ : ∃ s1, Function.update (ka.store ha.m_id (route k.swaps x y).1 s) h.m_id
      (unaryOut cm k (ka.value (s ha.m_id) (route k.swaps x y).1) (s h.m_id)) = s1 := ⟨_, rfl⟩
  rw [hs1] at e1
  have a1 : s1 ha.m_id = ka.value (s ha.m_id) (route k.swaps x y).1 := by
    rw [← hs1, Function.update_noteq hid, store_self]
  have o1 : s1 h.m_id = unaryOut cm k (ka.value (s ha.m_id) (route k.swaps x y).1)
      (s h.m_id) := by
    rw [← hs1, Function.update_same]
  have hd' : unaryFits k (ka.value (s1 ha.m_id) (route k.swaps x' y).1) (s1 h.m_id) := by
    rw [a1, value_value, o1]
    exact unaryFits_next cm k _ _ _ (value_length _ _ _ _ (route_length _ _ _ _ lx)) hd
  have e2 := unary_leaf_closed cm k h ha ka x' y s1 hid hd'
  refine ⟨s1, _, e1, e2, ?_⟩
  rw [Function.update_same, a1, value_value, o1]
  refine unaryOut_mono cm k hk _ _ _ (value_route_le _ _ _ _ _ _ hx)
    (fun e => value_route_eq _ _ _ _ _ _ e) ?_
  intro hp
  subst hp
  simpa [UnaryKind.swaps, route] using hs rfl

theorem list_signLoop_unknown (l : List sign) :
    ∀ nncount npcount, List_signLoop l nncount npcount sign.unknown = sign.unknown := by
  induction l with
  | nil => intro _ _; rfl
  | cons sg rest ih =>
    intro nncount npcount
    simp only [List_signLoop, ih, ite_self]

/-! ## C2: monotonicity in the first argument -/

/-- C2, as stated, fails, and each restriction of the amended statement is needed.
(1) The NP half: `Mult_vecNN_vecNP(p, v)` with `p = Parameter([1])` and `v` a Variable is tagged
NP, both operands carry the signs named by the class at `x = [-2]` and at `x' = [-1]`, and with
`y = [0]` fixed the value rises from `[-2]` to `[-1]`.
(2) The NN half on a one-operand class: `Prod(v)` is tagged NN whatever `v` is, and its value
falls from `[4]` at `x = [-2, -2]` to `[1]` at `x' = [-1, -1]`.
(3) The NN half on a two-operand class: `Mult_vecNN_vecNN(v, w)` on two Variables is tagged
NN, at `x = [-2]` and `x' = [-1]` the operands' values do not carry the sign NN named by the
class, and the value falls from `[4]` to `[1]`; `Mult_MatNN_VecNN(M, v)` with the one-entry
matrix `M = (-1)` is tagged NN and its value falls from `[-1]` at `x = [1]` to `[-2]` at
`x' = [2]`.
(4) Dimensions: `Mult_vecNN_vecNN(Variable(1), Parameter([10]))` at `x = [1, 2]` and
`Neg(Variable(1))` at `y = [1, 2]` write past the node's one-entry buffer and leave no value.
(5) Divisors: `Div_VecNN_VecNN(v, Parameter([0]))` at `x = [1]` leaves no value.
(6) Distinct operands: `Mult_vecNN_vecNP(v, v)` on one Variable `v`, with `y = [1]`, has both
routed values of the named signs at `x = [-2]` and `x' = [-1]`, and its value falls from `[4]`
to `[1]`. -/
theorem monotonicity_by_tag_counterexample :
    (BinaryKind.ctorSign .Mult_vecNN_vecNP sign.NN sign.NP = sign.NP
      ∧ Vec.le [-2] [-1]
      ∧ ((Expression.binary ⟨3, 1, sign.NP⟩ .Mult_vecNN_vecNP (.leaf ⟨1, 1, sign.NN⟩ .Parameter)
            (.leaf ⟨2, 1, sign.NP⟩ .Variable)).evaluate noLog [-2] [0]
          (Function.update (fun _ => [0]) 1 [1])).map (fun s => s 3) = some [-2]
      ∧ ((Expression.binary ⟨3, 1, sign.NP⟩ .Mult_vecNN_vecNP (.leaf ⟨1, 1, sign.NN⟩ .Parameter)
            (.leaf ⟨2, 1, sign.NP⟩ .Variable)).evaluate noLog [-1] [0]
          (Function.update (fun _ => [0]) 1 [1])).map (fun s => s 3) = some [-1]
      ∧ ¬ Vec.le [-1] [-2])
    ∧ (UnaryKind.ctorSign .Prod sign.unknown = sign.NN
      ∧ Vec.le [-2, -2] [-1, -1]
      ∧ ((Expression.unary ⟨2, 1, sign.NN⟩ .Prod (.leaf ⟨1, 2, sign.unknown⟩ .Variable)).evaluate
          noLog [-2, -2] [0, 0] (fun _ => [0])).map (fun s => s 2) = some [4]
      ∧ ((Expression.unary ⟨2, 1, sign.NN⟩ .Prod (.leaf ⟨1, 2, sign.unknown⟩ .Variable)).evaluate
          noLog [-1, -1] [0, 0] (fun _ => [0])).map (fun s => s 2) = some [1]
      ∧ ¬ Vec.le [4] [1])
    ∧ (BinaryKind.ctorSign .Mult_vecNN_vecNN sign.NN sign.NN = sign.NN
      ∧ ((Expression.binary ⟨3, 1, sign.NN⟩ .Mult_vecNN_vecNN (.leaf ⟨1, 1, sign.NN⟩ .Variable)
            (.leaf ⟨2, 1, sign.NN⟩ .Variable)).evaluate noLog [-2] [0]
          (fun _ => [0])).map (fun s => s 3) = some [4]
      ∧ ((Expression.binary ⟨3, 1, sign.NN⟩ .Mult_vecNN_vecNN (.leaf ⟨1, 1, sign.NN⟩ .Variable)
            (.leaf ⟨2, 1, sign.NN⟩ .Variable)).evaluate noLog [-1] [0]
          (fun _ => [0])).map (fun s => s 3) = some [1]
      ∧ BinaryKind.ctorSign .Mult_MatNN_VecNN sign.NP sign.NN = sign.NN
      ∧ Vec.le [1] [2]
      ∧ ((Expression.binary ⟨3, 1, sign.NN⟩ .Mult_MatNN_VecNN
            (.leaf ⟨1, 0, sign.NP⟩ (.MultiDimParameter ⟨1, 1, [-1]⟩))
            (.leaf ⟨2, 1, sign.NN⟩ .Variable)).evaluate noLog [1] [0]
          (Function.update (fun _ => [0]) 1 [])).map (fun s => s 3) = some [-1]
      ∧ ((Expression.binary ⟨3, 1, sign.NN⟩ .Mult_MatNN_VecNN
            (.leaf ⟨1, 0, sign.NP⟩ (.MultiDimParameter ⟨1, 1, [-1]⟩))
            (.leaf ⟨2, 1, sign.NN⟩ .Variable)).evaluate noLog [2] [0]
          (Function.update (fun _ => [0]) 1 [])).map (fun s => s 3) = some [-2]
      ∧ ¬ Vec.le [-1] [-2])
    ∧ ((Expression.binary ⟨3, 1, sign.NN⟩ .Mult_vecNN_vecNN (.leaf ⟨1, 1, sign.NN⟩ .Variable)
            (.leaf ⟨2, 1, sign.NN⟩ .Parameter)).evaluate noLog [1, 2] [0]
          (Function.update (fun _ => [0]) 2 [10]) = none
      ∧ (Expression.unary ⟨2, 1, sign.NP⟩ .Neg (.leaf ⟨1, 1, sign.NN⟩ .Variable)).evaluate
          noLog [0] [1, 2] (fun _ => [0]) = none)
    ∧ (Expression.binary ⟨3, 1, sign.NN⟩ .Div_VecNN_VecNN (.leaf ⟨1, 1, sign.NN⟩ .Variable)
          (.leaf ⟨2, 1, sign.NN⟩ .Parameter)).evaluate noLog [1] [0]
        (Function.update (fun _ => [0]) 2 [0]) = none
    ∧ (carries sign.NN [1] ∧ carries sign.NP [-2] ∧ carries sign.NP [-1]
      ∧ ((Expression.binary ⟨3, 1, sign.NP⟩ .Mult_vecNN_vecNP (.leaf ⟨1, 1, sign.NN⟩ .Variable)
            (.leaf ⟨1, 1, sign.NN⟩ .Variable)).evaluate noLog [-2] [1]
          (fun _ => [0])).map (fun s => s 3) = some [4]
      ∧ ((Expression.binary ⟨3, 1, sign.NP⟩ .Mult_vecNN_vecNP (.leaf ⟨1, 1, sign.NN⟩ .Variable)
            (.leaf ⟨1, 1, sign.NN⟩ .Variable)).evaluate noLog [-1] [1]
          (fun _ => [0])).map (fun s => s 3) = some [1]
      ∧ ¬ Vec.le [4] [1]) := by
  refine ⟨⟨rfl, ?_, ?_, ?_, ?_⟩, ⟨rfl, ?_, ?_, ?_, ?_⟩, ⟨rfl, ?_, ?_, rfl, ?_, ?_, ?_, ?_⟩,
    ⟨?_, ?_⟩, ?_, ⟨?_, ?_, ?_, ?_, ?_, ?_⟩⟩
  · simp [Vec.le]
  · simp only [Expression.evaluate, BinaryKind.evaluate, Mult_vecNN_vecNP.evaluate,
      Expression.getID, Expression.header, Option.bind_eq_bind, Option.some_bind]
    simp only [Function.update_apply]
    simp [transform2_multiplies]
  · simp only [Expression.evaluate, BinaryKind.evaluate, Mult_vecNN_vecNP.evaluate,
      Expression.getID, Expression.header, Option.bind_eq_bind, Option.some_bind]
    simp only [Function.update_apply]
    simp [transform2_multiplies]
  · simp [Vec.le]
  · simp [Vec.le]
  · simp only [Expression.evaluate, UnaryKind.evaluate, Prod.evaluate,
      Expression.getID, Expression.header, Option.bind_eq_bind, Option.some_bind]
    simp only [Function.update_apply]
    norm_num [Vec.write, accumulate]
  · simp only [Expression.evaluate, UnaryKind.evaluate, Prod.evaluate,
      Expression.getID, Expression.header, Option.bind_eq_bind, Option.some_bind]
    simp only [Function.update_apply]
    norm_num [Vec.write, accumulate]
  · simp [Vec.le]
  · simp only [Expression.evaluate, BinaryKind.evaluate, Mult_vecNN_vecNN.evaluate,
      Expression.getID, Expression.header, Option.bind_eq_bind, Option.some_bind]
    simp only [Function.update_apply]
    norm_num [transform2, multiplies, collect]
  · simp only [Expression.evaluate, BinaryKind.evaluate, Mult_vecNN_vecNN.evaluate,
      Expression.getID, Expression.header, Option.bind_eq_bind, Option.some_bind]
    simp only [Function.update_apply]
    norm_num [transform2, multiplies, collect]
  · norm_num [Vec.le]
  · simp only [Expression.evaluate, BinaryKind.evaluate, Mult_MatNN_VecNN.evaluate,
      Expression.getID, Expression.header, Expression.getMatrix, Option.bind_eq_bind,
      Option.some_bind]
    simp only [Function.update_apply]
    norm_num [forLoop, rowBody1, setRow, Matrix.rowRange, inner_product, Vec.write, Vec.at,
      List.range_succ]
  · simp only [Expression.evaluate, BinaryKind.evaluate, Mult_MatNN_VecNN.evaluate,
      Expression.getID, Expression.header, Expression.getMatrix, Option.bind_eq_bind,
      Option.some_bind]
    simp only [Function.update_apply]
    norm_num [forLoop, rowBody1, setRow, Matrix.rowRange, inner_product, Vec.write, Vec.at,
      List.range_succ]
  · simp [Vec.le]
  · simp only [Expression.evaluate, BinaryKind.evaluate, Mult_vecNN_vecNN.evaluate,
      Expression.getID, Expression.header, Option.bind_eq_bind, Option.some_bind]
    simp only [Function.update_apply]
    norm_num [transform2, multiplies, collect]
  · simp only [Expression.evaluate, UnaryKind.evaluate, Neg.evaluate,
      Expression.getID, Expression.header, Option.bind_eq_bind, Option.some_bind]
    simp only [Function.update_apply]
    norm_num [transform1, collect]
  · simp only [Expression.evaluate, BinaryKind.evaluate, Div_VecNN_VecNN.evaluate,
      Expression.getID, Expression.header, Option.bind_eq_bind, Option.some_bind]
    simp only [Function.update_apply]
    norm_num [transform2, divides, collect]
  · simp [carries, signHolds]
  · simp [carries, signHolds]
  · simp [carries, signHolds]
  · simp only [Expression.evaluate, BinaryKind.evaluate, Mult_vecNN_vecNP.evaluate,
      Expression.getID, Expression.header, Option.bind_eq_bind, Option.some_bind]
    simp only [Function.update_apply]
    norm_num [transform2, multiplies, collect]
  · simp only [Expression.evaluate, BinaryKind.evaluate, Mult_vecNN_vecNP.evaluate,
      Expression.getID, Expression.header, Option.bind_eq_bind, Option.some_bind]
    simp only [Function.update_apply]
    norm_num [transform2, multiplies, collect]
  · simp [Vec.le]

/-- C2, amended: the tag of the node does not enter, and the value never falls.  For every
`y` and every `x ≤ x'` componentwise, the calls `evaluate(x, y)` and then `evaluate(x', y)`
both return and each component of the value after `evaluate(x, y)` is `≤` the same component
after `evaluate(x', y)`, whether the node is tagged NN or NP, in each of these cases:
(a) a sign-definite two-operand class (the two addition classes and every class whose name
states two tags in {NN, NP}) applied to two distinct leaf operands (Variables, Parameters, a
matrix parameter for the matrix classes) whose values at `(x, y)` and at `(x', y)` carry the
signs named by the class, with nonzero divisors and the dimensions the class presupposes;
(b) Inv, Neg, Sum, Sliced and Prod applied to a leaf operand, when `evaluate` has the buffer
sizes it needs to return and, for Prod, the operand's value at `x` is nonnegative.
These are all the nodes that a constructor can tag NN or NP: (c) the remaining two-operand
classes, (d) Log2 and LogN and (e) List are tagged Unknown whatever their operands are. -/
theorem nondecreasing_in_x_under_named_signs (cm : CMath) :
    (∀ k : BinaryKind, k.signDefinite →
      ∀ (h ha hb : Header) (ka kb : LeafKind) (x x' y : Vec) (s : Store),
        (ha.m_id ≠ hb.m_id ∧ ha.m_id ≠ h.m_id ∧ hb.m_id ≠ h.m_id) →
        Vec.le x x' →
        wellDimensioned k.family h.m_dim (Expression.leaf ha ka).getMatrix
          (ka.value (s ha.m_id) (route k.swapsFirst x y).1)
          (kb.value (s hb.m_id) (route k.swapsSecond x y).1) (s h.m_id) →
        (∀ v ∈ [x, x'],
          carries k.tagFirst (ka.value (s ha.m_id) (route k.swapsFirst v y).1)) →
        (∀ m, (Expression.leaf ha ka).getMatrix = some m → carries k.tagFirst m.mData) →
        (∀ v ∈ [x, x'],
          carries k.tagSecond (kb.value (s hb.m_id) (route k.swapsSecond v y).1)
          ∧ divisorsNonzero k.family (kb.value (s hb.m_id) (route k.swapsSecond v y).1)) →
        ∃ s1 s2,
          (Expression.binary h k (.leaf ha ka) (.leaf hb kb)).evaluate cm x y s = some s1
          ∧ (Expression.binary h k (.leaf ha ka) (.leaf hb kb)).evaluate cm x' y s1 = some s2
          ∧ Vec.le (s1 h.m_id) (s2 h.m_id))
    ∧ (∀ k : UnaryKind, (k ≠ UnaryKind.Log2 ∧ k ≠ UnaryKind.LogN) →
      ∀ (h ha : Header) (ka : LeafKind) (x x' y : Vec) (s : Store),
        ha.m_id ≠ h.m_id →
        Vec.le x x' →
        unaryFits k (ka.value (s ha.m_id) (route k.swaps x y).1) (s h.m_id) →
        (k = UnaryKind.Prod → carries sign.NN (ka.value (s ha.m_id) x)) →
        ∃ s1 s2,
          (Expression.unary h k (.leaf ha ka)).evaluate cm x y s = some s1
          ∧ (Expression.unary h k (.leaf ha ka)).evaluate cm x' y s1 = some s2
          ∧ Vec.le (s1 h.m_id) (s2 h.m_id))
    ∧ (∀ (k : BinaryKind) (sa sb : sign), ¬ k.signDefinite → k.ctorSign sa sb = sign.unknown)
    ∧ (∀ sa : sign, UnaryKind.ctorSign .Log2 sa = sign.unknown
        ∧ UnaryKind.ctorSign .LogN sa = sign.unknown)
    ∧ (∀ (a : List Expression) (r : Registry), (List_new a r).1.getSign = sign.unknown) := by
  refine ⟨?_, ?_, ?_, fun _ => ⟨rfl, rfl⟩, ?_⟩
  · intro k hk h ha hb ka kb x x' y s hid hx hd hsa hsm hsb
    exact binary_nondecreasing_in_x cm k hk h ha hb ka kb x x' y s hid hx hd hsa hsm hsb
  · intro k hk h ha ka x x' y s hid hx hd hs
    exact unary_nondecreasing_in_x cm k hk h ha ka x x' y s hid hx hd hs
  · intro k sa sb hk
    cases k <;>
      first
        | rfl
        | exact absurd (by simp [BinaryKind.signDefinite, BinaryKind.namedTags]) hk
  · intro a r
    simp [List_new, Registry.construct, Expression.getSign, Expression.header,
      list_signLoop_unknown]

/-- Witness for the amended C2: on the node of the counterexample, `Mult_vecNN_vecNP(p, v)`
tagged NP with `p = Parameter([1])`, `x = [-2] ≤ x' = [-1]`, `y = [0]`, and on `Prod(v)` with a
Variable `v` of dimension 2, `x = [1, 2] ≤ x' = [2, 3]`. -/
theorem nondecreasing_in_x_under_named_signs_witness :
    (∃ s1 s2,
      (Expression.binary ⟨3, 1, sign.NP⟩ .Mult_vecNN_vecNP (.leaf ⟨1, 1, sign.NN⟩ .Parameter)
          (.leaf ⟨2, 1, sign.NP⟩ .Variable)).evaluate noLog [-2] [0]
        (Function.update (fun _ => [0]) 1 [1]) = some s1
      ∧ (Expression.binary ⟨3, 1, sign.NP⟩ .Mult_vecNN_vecNP (.leaf ⟨1, 1, sign.NN⟩ .Parameter)
          (.leaf ⟨2, 1, sign.NP⟩ .Variable)).evaluate noLog [-1] [0] s1 = some s2
      ∧ Vec.le (s1 3) (s2 3))
    ∧ (∃ s1 s2,
      (Expression.unary ⟨2, 1, sign.NN⟩ .Prod (.leaf ⟨1, 2, sign.NN⟩ .Variable)).evaluate noLog
          [1, 2] [0, 0] (fun _ => [0]) = some s1
      ∧ (Expression.unary ⟨2, 1, sign.NN⟩ .Prod (.leaf ⟨1, 2, sign.NN⟩ .Variable)).evaluate noLog
          [2, 3] [0, 0] s1 = some s2
      ∧ Vec.le (s1 2) (s2 2)) :=
  ⟨(nondecreasing_in_x_under_named_signs noLog).1 .Mult_vecNN_vecNP
    (by simp [BinaryKind.signDefinite, BinaryKind.namedTags])
    ⟨3, 1, sign.NP⟩ ⟨1, 1, sign.NN⟩ ⟨2, 1, sign.NP⟩ .Parameter .Variable [-2] [-1] [0]
    (Function.update (fun _ => [0]) 1 [1]) (by decide) (by simp [Vec.le])
    (by simp [wellDimensioned, BinaryKind.family, Expression.getMatrix, LeafKind.value, route,
      BinaryKind.swapsSecond, BinaryKind.namedTags, Function.update_apply])
    (by simp [carries, signHolds, BinaryKind.tagFirst, BinaryKind.namedTags, LeafKind.value])
    (by simp [Expression.getMatrix])
    (by simp [carries, signHolds, BinaryKind.tagSecond, BinaryKind.namedTags, LeafKind.value,
      route, BinaryKind.swapsSecond, BinaryKind.family, divisorsNonzero]),
   (nondecreasing_in_x_under_named_signs noLog).2.1 .Prod (by decide)
    ⟨2, 1, sign.NN⟩ ⟨1, 2, sign.NN⟩ .Variable [1, 2] [2, 3] [0, 0] (fun _ => [0]) (by decide)
    (by norm_num [Vec.le]) (by simp [unaryFits])
    (by simp [carries, signHolds, LeafKind.value])⟩

/-! ## C3: the Unknown×Unknown product as a bound -/

/-- C3 fails on the code: for `Mult_vecU_vecU(v, p)` with `v` a Variable (nondecreasing in its
first argument, constant in the second) and `p = Parameter([-1])`, and `l = [1] ≤ z = [1] ≤
u = [2]`, the value after `evaluate(u, l)` is `[-2]`, below `v(z,z)·p(z,z) = 1·(-1) = -1`: the
split loop files the whole of `b` under the sign of `a`, so the negative `b` lands in
`b_greaterequalthan0` and is multiplied with `a(u, l)` instead of `a(l, u)`. -/
theorem mult_vecU_vecU_not_upper_bound :
    ((Expression.binary ⟨3, 1, sign.unknown⟩ .Mult_vecU_vecU
          (.leaf ⟨1, 1, sign.unknown⟩ .Variable) (.leaf ⟨2, 1, sign.NP⟩ .Parameter)).evaluate
        noLog [2] [1] (Function.update (fun _ => [0]) 2 [-1])).map (fun s => s 3) = some [-2]
    ∧ ((Expression.leaf ⟨1, 1, sign.unknown⟩ .Variable).evaluate noLog [1] [1]
        (Function.update (fun _ => [0]) 2 [-1])).map (fun s => (s 1, s 2)) = some ([1], [-1])
    ∧ ¬ ((1 : ℚ) * (-1) ≤ -2) := by
  refine ⟨?_, ?_, by norm_num⟩
  · simp only [Expression.evaluate, BinaryKind.evaluate, Mult_vecU_vecU.evaluate,
      Expression.getID, Expression.header, Option.bind_eq_bind, Option.some_bind, forLoop_one,
      zeros, List.replicate]
    simp only [Function.update_apply]
    simp [splitBodyByFirst, Vec.at, Vec.write, transform2_plus, transform2_multiplies]
  · simp [Expression.evaluate, Function.update_apply]

/-! ## C4: `Add_vec_vec` computes the componentwise sum -/

/-- C4, as stated, fails when an operand's value is shorter than its dimension: on the freshly
built node `Add_vec_vec(v, p)`, with `v` a Variable of dimension 2 and `p = Parameter([10, 20])`,
`evaluate([1], [0])` returns, the operands' values are `[1]` and `[10, 20]`, and the node's value
is `[11, 0]`; after an earlier `evaluate([5, 6], [0, 0])` it is `[11, 26]`, the second component
being the sum `6 + 20` of the earlier call. -/
theorem add_vec_vec_sum_counterexample :
    (Expression.leaf ⟨1, 2, sign.NN⟩ .Variable).getDim
      = (Expression.leaf ⟨2, 2, sign.NN⟩ .Parameter).getDim
    ∧ ((Expression.binary ⟨3, 2, sign.NN⟩ .Add_vec_vec (.leaf ⟨1, 2, sign.NN⟩ .Variable)
          (.leaf ⟨2, 2, sign.NN⟩ .Parameter)).evaluate noLog [1] [0]
        (Function.update (fun _ => [0, 0]) 2 [10, 20])).map (fun s => (s 1, s 2, s 3))
      = some ([1], [10, 20], [11, 0])
    ∧ (((Expression.binary ⟨3, 2, sign.NN⟩ .Add_vec_vec (.leaf ⟨1, 2, sign.NN⟩ .Variable)
          (.leaf ⟨2, 2, sign.NN⟩ .Parameter)).evaluate noLog [5, 6] [0, 0]
        (Function.update (fun _ => [0, 0]) 2 [10, 20])).bind
        (fun s => (Expression.binary ⟨3, 2, sign.NN⟩ .Add_vec_vec
          (.leaf ⟨1, 2, sign.NN⟩ .Variable) (.leaf ⟨2, 2, sign.NN⟩ .Parameter)).evaluate noLog
            [1] [0] s)).map (fun s => (s 1, s 2, s 3))
      = some ([1], [10, 20], [11, 26]) := by
  refine ⟨rfl, ?_, ?_⟩
  · simp only [Expression.evaluate, BinaryKind.evaluate, Add_vec_vec.evaluate,
      Expression.getID, Expression.header, Option.bind_eq_bind, Option.some_bind]
    simp only [Function.update_apply]
    norm_num [transform2, plus, collect]
  · simp only [Expression.evaluate, BinaryKind.evaluate, Add_vec_vec.evaluate,
      Expression.getID, Expression.header, Option.bind_eq_bind, Option.some_bind]
    simp only [Function.update_apply]
    norm_num [transform2, plus, collect]

/-- C4, amended: for operands a, b and all x, y, `Add_vec_vec::evaluate(x, y)` evaluates both
operands at (x, y); when a's value is no longer than b's value and than the node's buffer, it
leaves `value[i] = a.value[i] + b.value[i]` for every `i` below the length of a's value and
keeps the components of the buffer from there on; when the two values and the buffer have the
node's dimension n, `value[i] = a.value[i] + b.value[i]` for every `i < n`; for two Parameters
built by their constructors the result is the sum of the constant vectors for every (x, y), and
`Parameter([1,2,3]) + Parameter([4,5,6])` gives `[5,7,9]`. -/
theorem add_vec_vec_sum (cm : CMath) :
    (∀ (h : Header) (a b : Expression) (x y : Vec) (s s1 s2 : Store),
      a.evaluate cm x y s = some s1 → b.evaluate cm x y s1 = some s2 →
      (s2 a.getID).length ≤ (s2 b.getID).length →
      (s2 a.getID).length ≤ (s2 h.m_id).length →
      (Expression.binary h .Add_vec_vec a b).evaluate cm x y s
        = some (Function.update s2 h.m_id
            (List.zipWith (fun c d => c + d) (s2 a.getID) (s2 b.getID)
              ++ (s2 h.m_id).drop (s2 a.getID).length)))
    ∧ (∀ (h : Header) (a b : Expression) (x y : Vec) (s s1 s2 : Store),
      a.evaluate cm x y s = some s1 → b.evaluate cm x y s1 = some s2 →
      (s2 a.getID).length = h.m_dim → (s2 b.getID).length = h.m_dim →
      (s2 h.m_id).length = h.m_dim →
      (Expression.binary h .Add_vec_vec a b).evaluate cm x y s
        = some (Function.update s2 h.m_id
            (List.zipWith (fun c d => c + d) (s2 a.getID) (s2 b.getID))))
    ∧ (∀ (v w x y : Vec) (r : Registry), v.length = w.length →
        let p := Parameter.new v r
        let q := Parameter.new w p.2
        let n := Add_vec_vec.new p.1 q.1 q.2
        (n.1.evaluate cm x y n.2.heap).map (fun s => s n.1.getID)
          = some (List.zipWith (fun c d => c + d) v w))
    ∧ (∀ (x y : Vec),
        let p := Parameter.new [1, 2, 3] Registry.initial
        let q := Parameter.new [4, 5, 6] p.2
        let n := Add_vec_vec.new p.1 q.1 q.2
        (n.1.evaluate cm x y n.2.heap).map (fun s => s n.1.getID) = some [5, 7, 9]) := by
  have stale : ∀ (h : Header) (a b : Expression) (x y : Vec) (s s1 s2 : Store),
      a.evaluate cm x y s = some s1 → b.evaluate cm x y s1 = some s2 →
      (s2 a.getID).length ≤ (s2 b.getID).length →
      (s2 a.getID).length ≤ (s2 h.m_id).length →
      (Expression.binary h .Add_vec_vec a b).evaluate cm x y s
        = some (Function.update s2 h.m_id
            (List.zipWith (fun c d => c + d) (s2 a.getID) (s2 b.getID)
              ++ (s2 h.m_id).drop (s2 a.getID).length)) := by
    intro h a b x y s s1 s2 ha hb h1 h2
    simp [Expression.evaluate, BinaryKind.evaluate, Add_vec_vec.evaluate, ha, hb,
      transform2_plus, h1, h2]
  have general : ∀ (h : Header) (a b : Expression) (x y : Vec) (s s1 s2 : Store),
      a.evaluate cm x y s = some s1 → b.evaluate cm x y s1 = some s2 →
      (s2 a.getID).length = h.m_dim → (s2 b.getID).length = h.m_dim →
      (s2 h.m_id).length = h.m_dim →
      (Expression.binary h .Add_vec_vec a b).evaluate cm x y s
        = some (Function.update s2 h.m_id
            (List.zipWith (fun c d => c + d) (s2 a.getID) (s2 b.getID))) := by
    intro h a b x y s s1 s2 ha hb h1 h2 h3
    simp [Expression.evaluate, BinaryKind.evaluate, Add_vec_vec.evaluate, ha, hb,
      transform2_plus, h1, h2, h3, drop_all _ _ h3]
  have params : ∀ (v w x y : Vec) (r : Registry), v.length = w.length →
        let p := Parameter.new v r
        let q := Parameter.new w p.2
        let n := Add_vec_vec.new p.1 q.1 q.2
        (n.1.evaluate cm x y n.2.heap).map (fun s => s n.1.getID)
          = some (List.zipWith (fun c d => c + d) v w) := by
    intro v w x y r hvw
    simp only [Parameter.new, Add_vec_vec.new, Registry.construct]
    simp [Expression.evaluate, BinaryKind.evaluate, Add_vec_vec.evaluate, transform2_plus,
      Expression.getID, Expression.header, Expression.getDim, Function.update, zeros, hvw]
  refine ⟨stale, general, params, ?_⟩
  intro x y
  have e := params [1, 2, 3] [4, 5, 6] x y Registry.initial rfl
  simp only at e ⊢
  rw [e]
  norm_num

/-- Witness for C4: two Variables of dimension 2 added at `x = [1, 2]`, `y = [7, 7]`. -/
theorem add_vec_vec_sum_witness :
    (Expression.binary ⟨3, 2, sign.NN⟩ .Add_vec_vec (.leaf ⟨1, 2, sign.NN⟩ .Variable)
        (.leaf ⟨2, 2, sign.NN⟩ .Variable)).evaluate noLog [1, 2] [7, 7] (fun _ => [0, 0])
      = some (Function.update
          (Function.update (Function.update (fun _ => [0, 0]) 1 [1, 2]) 2 [1, 2]) 3
          (List.zipWith (fun c d => c + d)
            ((Function.update (Function.update (fun _ => [0, 0]) 1 [1, 2]) 2 [1, 2]) 1)
            ((Function.update (Function.update (fun _ => [0, 0]) 1 [1, 2]) 2 [1, 2]) 2))) :=
  (add_vec_vec_sum noLog).2.1 ⟨3, 2, sign.NN⟩ (.leaf ⟨1, 2, sign.NN⟩ .Variable)
    (.leaf ⟨2, 2, sign.NN⟩ .Variable) [1, 2] [7, 7] (fun _ => [0, 0])
    (Function.update (fun _ => [0, 0]) 1 [1, 2])
    (Function.update (Function.update (fun _ => [0, 0]) 1 [1, 2]) 2 [1, 2])
    (by simp [Expression.evaluate]) (by simp [Expression.evaluate])
    (by simp [Expression.getID, Expression.header, Function.update])
    (by simp [Expression.getID, Expression.header, Function.update])
    (by simp [Function.update])

/-! ## C5: argument routing -/

/-- C5, as stated, fails: `Mult_vecNP_vecNP` is tagged NN by its constructor, and
`evaluate([1], [2])` hands both operands the swapped pair: the two Variable operands, which adopt
the first argument they are called with, hold `y = [2]` afterwards, not `x = [1]`. -/
theorem routing_by_own_tag_counterexample :
    BinaryKind.ctorSign .Mult_vecNP_vecNP sign.NP sign.NP = sign.NN
    ∧ ((Expression.binary ⟨3, 1, sign.NN⟩ .Mult_vecNP_vecNP (.leaf ⟨1, 1, sign.NP⟩ .Variable)
          (.leaf ⟨2, 1, sign.NP⟩ .Variable)).evaluate noLog [1] [2] (fun _ => [0])).map
        (fun s => (s 1, s 2)) = some ([2], [2])
    ∧ ((Expression.leaf ⟨1, 1, sign.NP⟩ .Variable).evaluate noLog [1] [2] (fun _ => [0])).map
        (fun s => s 1) = some [1] := by
  refine ⟨rfl, ?_, ?_⟩
  · simp [Expression.evaluate, BinaryKind.evaluate, Mult_vecNP_vecNP.evaluate,
      transform2_multiplies, Expression.getID, Expression.header, Function.update]
  · simp [Expression.evaluate]

/-- C5, amended: routing is fixed by the operand tags in the name of the class, not by the tag
of the node.  A sign-definite two-operand class evaluates its first operand with the pair
`route swapsFirst`, then its second with `route swapsSecond` (a factor or dividend is swapped
when the partner is named NP, a divisor when the dividend is named NN, the addition classes
never swap), then applies the formula of its family; `Neg` and `Inv` evaluate their operand with
`(y, x)` and the other one-operand classes with `(x, y)`. -/
theorem routing_by_named_tags (cm : CMath) :
    (∀ (k : BinaryKind), k.signDefinite →
      ∀ (h : Header) (a b : Expression) (x y : Vec) (s : Store),
        (Expression.binary h k a b).evaluate cm x y s
          = (a.evaluate cm (route k.swapsFirst x y).1 (route k.swapsFirst x y).2 s).bind
              (fun s1 =>
                (b.evaluate cm (route k.swapsSecond x y).1 (route k.swapsSecond x y).2 s1).bind
                  (fun s2 => k.family.combine h (a.toArg cm) (b.toArg cm) s2)))
    ∧ (∀ (k : UnaryKind) (h : Header) (a : Expression) (x y : Vec) (s : Store),
        (Expression.unary h k a).evaluate cm x y s
          = (a.evaluate cm (route k.swaps x y).1 (route k.swaps x y).2 s).bind
              (fun s1 => k.combine cm h (a.toArg cm) s1)) := by
  constructor
  · intro k hk h a b x y s
    cases k
    all_goals first
      | (exfalso; revert hk; simp [BinaryKind.signDefinite, BinaryKind.namedTags]; done)
      | skip
    all_goals
      simp only [Expression.evaluate, BinaryKind.evaluate, BinaryKind.swapsFirst,
        BinaryKind.swapsSecond, BinaryKind.namedTags, BinaryKind.family, route,
        Family.combine, Expression.toArg, decide_True, decide_False, if_true, if_false,
        Bool.false_eq_true, reduceCtorEq]
    all_goals first
      | (simp only [Add_vec_vec.evaluate, Add_vec_scalar.evaluate,
          Mult_vecNN_vecNN.evaluate, Mult_vecNP_vecNP.evaluate, Mult_vecNN_vecNP.evaluate,
          Mult_vecNN_scalarNN.evaluate, Mult_vecNP_scalarNP.evaluate,
          Mult_vecNN_scalarNP.evaluate, Mult_vecNP_scalarNN.evaluate,
          Div_VecNN_ScalarNN.evaluate, Div_VecNP_ScalarNP.evaluate,
          Div_VecNN_ScalarNP.evaluate, Div_VecNP_ScalarNN.evaluate,
          Div_VecNN_VecNN.evaluate, Div_VecNP_VecNP.evaluate, Div_VecNN_VecNP.evaluate,
          Div_VecNP_VecNN.evaluate,
          Div_ScalarNN_VecNN.evaluate, Div_ScalarNP_VecNP.evaluate,
          Div_ScalarNN_VecNP.evaluate, Div_ScalarNP_VecNN.evaluate,
          Dot_NN_NN.evaluate, Dot_NP_NP.evaluate, Dot_NN_NP.evaluate,
          Option.bind_eq_bind, Option.pure_def, bind_pure_eq_map]
         done)
      | (simp only [Mult_MatNN_VecNN.evaluate, Mult_MatNP_VecNP.evaluate,
          Mult_MatNN_VecNP.evaluate, Mult_MatNP_VecNN.evaluate,
          Option.bind_eq_bind, Option.pure_def, bind_pure_eq_map]
         rw [matrix_first]
         simp only [Option.map_bind']
         done)
  · intro k h a x y s
    cases k <;>
      simp only [Expression.evaluate, UnaryKind.evaluate, UnaryKind.swaps, route,
        UnaryKind.combine, Expression.toArg, if_true, if_false, Bool.false_eq_true,
        Inv.evaluate, Log2.evaluate, LogN.evaluate, Neg.evaluate, Prod.evaluate, Sum.evaluate,
        Sliced.evaluate, Option.bind_eq_bind, Option.pure_def, bind_pure_eq_map]
    congr 1
    funext s1
    cases (s1 a.getID).at _ <;> rfl

/-- Witness for the amended C5 at `Div_VecNN_ScalarNN`: the dividend is evaluated with
`(x, y)`, the divisor with `(y, x)`. -/
theorem routing_by_named_tags_witness :
    (Expression.binary ⟨3, 1, sign.NN⟩ .Div_VecNN_ScalarNN (.leaf ⟨1, 1, sign.NN⟩ .Variable)
        (.leaf ⟨2, 1, sign.NN⟩ .Variable)).evaluate noLog [6] [3] (fun _ => [0])
      = ((Expression.leaf ⟨1, 1, sign.NN⟩ .Variable).evaluate noLog [6] [3] (fun _ => [0])).bind
          (fun s1 =>
            ((Expression.leaf ⟨2, 1, sign.NN⟩ .Variable).evaluate noLog [3] [6] s1).bind
              (fun s2 => Family.div_vec_scalar.combine ⟨3, 1, sign.NN⟩
                ((Expression.leaf ⟨1, 1, sign.NN⟩ .Variable).toArg noLog)
                ((Expression.leaf ⟨2, 1, sign.NN⟩ .Variable).toArg noLog) s2)) :=
  (routing_by_named_tags noLog).1 .Div_VecNN_ScalarNN
    (by simp [BinaryKind.signDefinite, BinaryKind.namedTags]) ⟨3, 1, sign.NN⟩
    (.leaf ⟨1, 1, sign.NN⟩ .Variable) (.leaf ⟨2, 1, sign.NN⟩ .Variable) [6] [3] (fun _ => [0])

/-! ## C6: diagonal consistency of the Unknown-operand multiplications -/

theorem recombine_mul (a b : Vec) :
    List.zipWith (fun c d => c + d) (List.zipWith (fun c d => c * d) (a.map geHalf) b)
        (List.zipWith (fun c d => c * d) (a.map ltHalf) b)
      = List.zipWith (fun c d => c * d) a b := by
  induction a generalizing b with
  | nil => simp
  | cons c a ih =>
    cases b with
    | nil => simp
    | cons d b =>
      simp only [List.map_cons, List.zipWith_cons_cons, ih b, List.cons.injEq, and_true]
      unfold geHalf ltHalf
      split_ifs <;> ring

theorem recombine_mul_scalar (a : Vec) (d e : ℚ) (hde : d = e) :
    List.zipWith (fun c d => c + d) ((a.map geHalf).map (fun c => c * d))
        ((a.map ltHalf).map (fun c => c * e))
      = a.map (fun c => c * d) := by
  subst hde
  induction a with
  | nil => simp
  | cons c a ih =>
    simp only [List.map_cons, List.zipWith_cons_cons, ih, List.cons.injEq, and_true]
    unfold geHalf ltHalf
    split_ifs <;> ring

theorem recombine_mul_both (a b : Vec) :
    List.zipWith (fun c d => c + d)
        (List.zipWith (fun c d => c + d)
          (List.zipWith (fun c d => c + d)
            (List.zipWith (fun c d => c * d) (a.map geHalf) (List.zipWith pickGe a b))
            (List.zipWith (fun c d => c * d) (a.map geHalf) (List.zipWith pickLt a b)))
          (List.zipWith (fun c d => c * d) (a.map ltHalf) (List.zipWith pickGe a b)))
        (List.zipWith (fun c d => c * d) (a.map ltHalf) (List.zipWith pickLt a b))
      = List.zipWith (fun c d => c * d) a b := by
  induction a generalizing b with
  | nil => simp
  | cons c a ih =>
    cases b with
    | nil => simp
    | cons d b =>
      simp only [List.map_cons, List.zipWith_cons_cons, ih b, List.cons.injEq, and_true]
      unfold geHalf ltHalf pickGe pickLt
      split_ifs <;> ring

theorem diag_Mult_vecU_vecNN (cm : CMath) (h : Header) (a b : Expression) (x va vb : Vec) (s : Store)
    (inv : Store → Prop) (hinv : inv s)
    (ha : DiagValue cm inv h.m_id a b x va vb) (hb : DiagValue cm inv h.m_id b a x vb va)
    (hdim : a.getDim = h.m_dim)
    (h1 : va.length = h.m_dim) (h2 : vb.length = h.m_dim) (h3 : (s h.m_id).length = h.m_dim) :
    ((Mult_vecU_vecNN.evaluate h (a.toArg cm) (b.toArg cm) x x s).map (fun s' => s' h.m_id))
      = some (List.zipWith (fun c d => c * d) va vb) := by
  unfold Expression.toArg
  obtain ⟨t1, e1, i1, v1, k1, f1⟩ := ha s hinv
  obtain ⟨t2, e2, i2, v2, k2, f2⟩ := hb t1 i1
  obtain ⟨t3, e3, i3, v3, k3, f3⟩ := hb t2 i2
  have hl : (t3 h.m_id).length = h.m_dim := by rw [f3, f2, f1, h3]
  simp [Mult_vecU_vecNN.evaluate, e1, e2, e3, v1, v2, v3, hdim, splitLoop_fit _ _ h1,
    transform2_plus, transform2_multiplies, h1, h2, hl, length_zeros, drop_zeros,
    drop_all _ _ hl, recombine_mul]
theorem diag_Mult_vecU_vecNP (cm : CMath) (h : Header) (a b : Expression) (x va vb : Vec) (s : Store)
    (inv : Store → Prop) (hinv : inv s)
    (ha : DiagValue cm inv h.m_id a b x va vb) (hb : DiagValue cm inv h.m_id b a x vb va)
    (hdim : a.getDim = h.m_dim)
    (h1 : va.length = h.m_dim) (h2 : vb.length = h.m_dim) (h3 : (s h.m_id).length = h.m_dim) :
    ((Mult_vecU_vecNP.evaluate h (a.toArg cm) (b.toArg cm) x x s).map (fun s' => s' h.m_id))
      = some (List.zipWith (fun c d => c * d) va vb) := by
  unfold Expression.toArg
  obtain ⟨t1, e1, i1, v1, k1, f1⟩ := ha s hinv
  obtain ⟨t2, e2, i2, v2, k2, f2⟩ := hb t1 i1
  obtain ⟨t3, e3, i3, v3, k3, f3⟩ := hb t2 i2
  have hl : (t3 h.m_id).length = h.m_dim := by rw [f3, f2, f1, h3]
  simp [Mult_vecU_vecNP.evaluate, e1, e2, e3, v1, v2, v3, hdim, splitLoop_fit _ _ h1,
    transform2_plus, transform2_multiplies, h1, h2, hl, length_zeros, drop_zeros,
    drop_all _ _ hl, recombine_mul]
theorem diag_Mult_vecU_vecU (cm : CMath) (h : Header) (a b : Expression) (x va vb : Vec) (s : Store)
    (inv : Store → Prop) (hinv : inv s)
    (ha : DiagValue cm inv h.m_id a b x va vb) (hb : DiagValue cm inv h.m_id b a x vb va)
    (hdim : a.getDim = h.m_dim)
    (h1 : va.length = h.m_dim) (h2 : vb.length = h.m_dim) (h3 : (s h.m_id).length = h.m_dim) :
    ((Mult_vecU_vecU.evaluate h (a.toArg cm) (b.toArg cm) x x s).map (fun s' => s' h.m_id))
      = some (List.zipWith (fun c d => c * d) va vb) := by
  unfold Expression.toArg
  obtain ⟨t1, e1, i1, v1, k1, f1⟩ := ha s hinv
  obtain ⟨t2, e2, i2, v2, k2, f2⟩ := hb t1 i1
  obtain ⟨t3, e3, i3, v3, k3, f3⟩ := ha t2 i2
  obtain ⟨t4, e4, i4, v4, k4, f4⟩ := hb t3 i3
  have hl : (t4 h.m_id).length = h.m_dim := by rw [f4, f3, f2, f1, h3]
  have w2 : t2 a.getID = va := k2 v1
  have w4 : t4 a.getID = va := k4 v3
  simp only [Mult_vecU_vecU.evaluate, e1, e2, e3, e4, v2, v4, w2, w4, Option.bind_eq_bind,
    Option.some_bind, splitByFirst_fit _ _ _ h1 h2]
  simp [transform2_plus, transform2_multiplies, h1, h2, hl, length_zeros, drop_zeros,
    drop_all _ _ hl, recombine_mul_both]
theorem diag_Mult_vecU_scalarNN (cm : CMath) (h : Header) (a b : Expression) (x va vb : Vec) (s : Store)
    (inv : Store → Prop) (hinv : inv s)
    (ha : DiagValue cm inv h.m_id a b x va vb) (hb : DiagValue cm inv h.m_id b a x vb va)
    (hdim : a.getDim = h.m_dim)
    (h1 : va.length = h.m_dim) (h2 : vb.length = 1) (h3 : (s h.m_id).length = h.m_dim) :
    ((Mult_vecU_scalarNN.evaluate h (a.toArg cm) (b.toArg cm) x x s).map (fun s' => s' h.m_id))
      = some (va.map (fun c => c * vb.headD 0)) := by
  unfold Expression.toArg
  obtain ⟨d, hbd⟩ := List.length_eq_one.mp h2
  obtain ⟨t1, e1, i1, v1, k1, f1⟩ := ha s hinv
  obtain ⟨t2, e2, i2, v2, k2, f2⟩ := hb t1 i1
  obtain ⟨t3, e3, i3, v3, k3, f3⟩ := hb t2 i2
  have hl : (t3 h.m_id).length = h.m_dim := by rw [f3, f2, f1, h3]
  have hts : timesScalar t3 ⟨Expression.evaluate cm b, b.getID, b.getDim, b.getMatrix⟩
      = fun c => some (c * d) := timesScalar_of _ _ d (by simp [v3, hbd, Vec.at])
  simp only [Mult_vecU_scalarNN.evaluate, e1, e2, e3, v1, v2, v3, hdim, Option.bind_eq_bind,
    Option.some_bind, splitLoop_fit _ _ h1, hts]
  simp [hbd, Vec.at, transform1_total, transform2_plus, h1, hl, length_zeros, drop_zeros,
    drop_all _ _ hl, recombine_mul_scalar, geHalf_mul_add]
theorem diag_Mult_vecU_scalarNP (cm : CMath) (h : Header) (a b : Expression) (x va vb : Vec) (s : Store)
    (inv : Store → Prop) (hinv : inv s)
    (ha : DiagValue cm inv h.m_id a b x va vb) (hb : DiagValue cm inv h.m_id b a x vb va)
    (hdim : a.getDim = h.m_dim)
    (h1 : va.length = h.m_dim) (h2 : vb.length = 1) (h3 : (s h.m_id).length = h.m_dim) :
    ((Mult_vecU_scalarNP.evaluate h (a.toArg cm) (b.toArg cm) x x s).map (fun s' => s' h.m_id))
      = some (va.map (fun c => c * vb.headD 0)) := by
  unfold Expression.toArg
  obtain ⟨d, hbd⟩ := List.length_eq_one.mp h2
  obtain ⟨t1, e1, i1, v1, k1, f1⟩ := ha s hinv
  obtain ⟨t2, e2, i2, v2, k2, f2⟩ := hb t1 i1
  obtain ⟨t3, e3, i3, v3, k3, f3⟩ := hb t2 i2
  have hl : (t3 h.m_id).length = h.m_dim := by rw [f3, f2, f1, h3]
  have hts : timesScalar t3 ⟨Expression.evaluate cm b, b.getID, b.getDim, b.getMatrix⟩
      = fun c => some (c * d) := timesScalar_of _ _ d (by simp [v3, hbd, Vec.at])
  simp only [Mult_vecU_scalarNP.evaluate, e1, e2, e3, v1, v2, v3, hdim, Option.bind_eq_bind,
    Option.some_bind, splitLoop_fit _ _ h1, hts]
  simp [hbd, Vec.at, transform1_total, transform2_plus, h1, hl, length_zeros, drop_zeros,
    drop_all _ _ hl, recombine_mul_scalar, geHalf_mul_add]
theorem diag_Mult_vecNN_scalarU (cm : CMath) (h : Header) (a b : Expression) (x va vb : Vec) (s : Store)
    (inv : Store → Prop) (hinv : inv s)
    (ha : DiagValue cm inv h.m_id a b x va vb) (hb : DiagValue cm inv h.m_id b a x vb va)
    (hdim : a.getDim = h.m_dim)
    (h1 : va.length = h.m_dim) (h2 : vb.length = 1) (h3 : (s h.m_id).length = h.m_dim) :
    ((Mult_vecNN_scalarU.evaluate h (a.toArg cm) (b.toArg cm) x x s).map (fun s' => s' h.m_id))
      = some (va.map (fun c => c * vb.headD 0)) := by
  unfold Expression.toArg
  obtain ⟨d, hbd⟩ := List.length_eq_one.mp h2
  obtain ⟨t1, e1, i1, v1, k1, f1⟩ := hb s hinv
  obtain ⟨t2, e2, i2, v2, k2, f2⟩ := ha t1 i1
  have w2 : t2 b.getID = vb := k2 v1
  have hl : (t2 h.m_id).length = h.m_dim := by rw [f2, f1, h3]
  have hts : timesScalar t2 ⟨Expression.evaluate cm b, b.getID, b.getDim, b.getMatrix⟩
      = fun c => some (c * d) := timesScalar_of _ _ d (by simp [w2, hbd, Vec.at])
  simp only [Mult_vecNN_scalarU.evaluate, e1, e2, v1, v2, Option.bind_eq_bind, Option.some_bind, ite_self,
    hts]
  simp [hbd, Vec.at, e2, v2, hts, transform1_total, h1, hl, drop_all _ _ hl]
theorem diag_Mult_vecNP_scalarU (cm : CMath) (h : Header) (a b : Expression) (x va vb : Vec) (s : Store)
    (inv : Store → Prop) (hinv : inv s)
    (ha : DiagValue cm inv h.m_id a b x va vb) (hb : DiagValue cm inv h.m_id b a x vb va)
    (hdim : a.getDim = h.m_dim)
    (h1 : va.length = h.m_dim) (h2 : vb.length = 1) (h3 : (s h.m_id).length = h.m_dim) :
    ((Mult_vecNP_scalarU.evaluate h (a.toArg cm) (b.toArg cm) x x s).map (fun s' => s' h.m_id))
      = some (va.map (fun c => c * vb.headD 0)) := by
  unfold Expression.toArg
  obtain ⟨d, hbd⟩ := List.length_eq_one.mp h2
  obtain ⟨t1, e1, i1, v1, k1, f1⟩ := hb s hinv
  obtain ⟨t2, e2, i2, v2, k2, f2⟩ := ha t1 i1
  have w2 : t2 b.getID = vb := k2 v1
  have hl : (t2 h.m_id).length = h.m_dim := by rw [f2, f1, h3]
  have hts : timesScalar t2 ⟨Expression.evaluate cm b, b.getID, b.getDim, b.getMatrix⟩
      = fun c => some (c * d) := timesScalar_of _ _ d (by simp [w2, hbd, Vec.at])
  simp only [Mult_vecNP_scalarU.evaluate, e1, e2, v1, v2, Option.bind_eq_bind, Option.some_bind, ite_self,
    hts]
  simp [hbd, Vec.at, e2, v2, hts, transform1_total, h1, hl, drop_all _ _ hl]
theorem diag_Mult_vecU_scalarU (cm : CMath) (h : Header) (a b : Expression) (x va vb : Vec) (s : Store)
    (inv : Store → Prop) (hinv : inv s)
    (ha : DiagValue cm inv h.m_id a b x va vb) (hb : DiagValue cm inv h.m_id b a x vb va)
    (hdim : a.getDim = h.m_dim)
    (h1 : va.length = h.m_dim) (h2 : vb.length = 1) (h3 : (s h.m_id).length = h.m_dim) :
    ((Mult_vecU_scalarU.evaluate h (a.toArg cm) (b.toArg cm) x x s).map (fun s' => s' h.m_id))
      = some (va.map (fun c => c * vb.headD 0)) := by
  unfold Expression.toArg
  obtain ⟨d, hbd⟩ := List.length_eq_one.mp h2
  obtain ⟨t1, e1, i1, v1, k1, f1⟩ := hb s hinv
  obtain ⟨t2, e2, i2, v2, k2, f2⟩ := ha t1 i1
  obtain ⟨t3, e3, i3, v3, k3, f3⟩ := hb t2 i2
  obtain ⟨t4, e4, i4, v4, k4, f4⟩ := ha t3 i3
  have w4 : t4 b.getID = vb := k4 v3
  have hl : (t4 h.m_id).length = h.m_dim := by rw [f4, f3, f2, f1, h3]
  have hts : timesScalar t4 ⟨Expression.evaluate cm b, b.getID, b.getDim, b.getMatrix⟩
      = fun c => some (c * d) := timesScalar_of _ _ d (by simp [w4, hbd, Vec.at])
  simp only [Mult_vecU_scalarU.evaluate, e1, e2, e3, e4, v1, v2, v3, v4, w4,
    Option.bind_eq_bind, Option.some_bind, splitLoop_fit _ _ h1, hts, ite_self]
  simp [hbd, Vec.at, transform1_total, transform2_plus, h1, hl, length_zeros, drop_zeros,
    drop_all _ _ hl, recombine_mul_scalar, geHalf_mul_add]

/-- C6, as stated, fails for a vector `x` shorter than the first operand: on the freshly built
node `Mult_vecNN_scalarU(v, p)`, with `v` a Variable of dimension 2 and `p = Parameter([2])`,
`evaluate([3], [3])` returns, the operands' values are `[3]` and `[2]`, and the node's value is
`[6, 0]`; after an earlier `evaluate([4, 5], [4, 5])` it is `[6, 10]`, the second component
being the product `5 · 2` of the earlier call. -/
theorem diag_mult_unknown_counterexample :
    ((Expression.binary ⟨3, 2, sign.unknown⟩ .Mult_vecNN_scalarU
          (.leaf ⟨1, 2, sign.NN⟩ .Variable) (.leaf ⟨2, 1, sign.NN⟩ .Parameter)).evaluate noLog
        [3] [3] (Function.update (fun _ => [0, 0]) 2 [2])).map (fun s => (s 1, s 2, s 3))
      = some ([3], [2], [6, 0])
    ∧ plainOperation Family.mult_vec_scalar none [3] [2] = [6]
    ∧ (((Expression.binary ⟨3, 2, sign.unknown⟩ .Mult_vecNN_scalarU
          (.leaf ⟨1, 2, sign.NN⟩ .Variable) (.leaf ⟨2, 1, sign.NN⟩ .Parameter)).evaluate noLog
        [4, 5] [4, 5] (Function.update (fun _ => [0, 0]) 2 [2])).bind
        (fun s => (Expression.binary ⟨3, 2, sign.unknown⟩ .Mult_vecNN_scalarU
          (.leaf ⟨1, 2, sign.NN⟩ .Variable) (.leaf ⟨2, 1, sign.NN⟩ .Parameter)).evaluate noLog
            [3] [3] s)).map (fun s => (s 1, s 2, s 3))
      = some ([3], [2], [6, 10]) := by
  refine ⟨?_, ?_, ?_⟩
  · simp only [Expression.evaluate, BinaryKind.evaluate, Mult_vecNN_scalarU.evaluate,
      Expression.getID, Expression.header, Option.bind_eq_bind, Option.some_bind]
    simp only [Function.update_apply]
    norm_num [transform1, timesScalar, Vec.at, collect]
  · norm_num [plainOperation]
  · simp only [Expression.evaluate, BinaryKind.evaluate, Mult_vecNN_scalarU.evaluate,
      Expression.getID, Expression.header, Option.bind_eq_bind, Option.some_bind]
    simp only [Function.update_apply]
    norm_num [transform1, timesScalar, Vec.at, collect]

/-- C6, amended: for each of the eight multiplication classes with an Unknown operand, on a
node that has the dimension of its first operand, when the operands take the values `va`, `vb`
at `(x, x)` (of any signs) and these values and the node's buffer have the dimensions that the
class presupposes, `evaluate(x, x)` leaves the plain product `va[i]·vb[i]` (`va[i]·vb[0]` for a
scalar second operand) in the node's buffer: the sign-split addends recombine. -/
theorem diag_mult_unknown (cm : CMath) (k : BinaryKind)
    (hk : k.family = Family.mult_vec_vec ∨ k.family = Family.mult_vec_scalar)
    (hu : ¬ k.signDefinite) (h : Header) (a b : Expression) (x va vb : Vec) (s : Store)
    (inv : Store → Prop) (hinv : inv s)
    (ha : DiagValue cm inv h.m_id a b x va vb) (hb : DiagValue cm inv h.m_id b a x vb va)
    (hdim : a.getDim = h.m_dim)
    (hd : wellDimensioned k.family h.m_dim none va vb (s h.m_id)) :
    ((Expression.binary h k a b).evaluate cm x x s).map (fun s' => s' h.m_id)
      = some (plainOperation k.family none va vb) := by
  cases k
  all_goals first
    | (exfalso; revert hk; simp [BinaryKind.family]; done)
    | (exfalso; revert hu; simp [BinaryKind.signDefinite, BinaryKind.namedTags]; done)
    | skip
  all_goals simp only [BinaryKind.family, wellDimensioned] at hd
  all_goals simp only [BinaryKind.family, plainOperation, Expression.evaluate, BinaryKind.evaluate]
  all_goals obtain ⟨h1, h2, h3⟩ := hd
  · exact diag_Mult_vecU_vecNN cm h a b x va vb s inv hinv ha hb hdim h1 h2 h3
  · exact diag_Mult_vecU_vecNP cm h a b x va vb s inv hinv ha hb hdim h1 h2 h3
  · exact diag_Mult_vecU_vecU cm h a b x va vb s inv hinv ha hb hdim h1 h2 h3
  · exact diag_Mult_vecU_scalarNN cm h a b x va vb s inv hinv ha hb hdim h1 h2 h3
  · exact diag_Mult_vecNN_scalarU cm h a b x va vb s inv hinv ha hb hdim h1 h2 h3
  · exact diag_Mult_vecU_scalarNP cm h a b x va vb s inv hinv ha hb hdim h1 h2 h3
  · exact diag_Mult_vecNP_scalarU cm h a b x va vb s inv hinv ha hb hdim h1 h2 h3
  · exact diag_Mult_vecU_scalarU cm h a b x va vb s inv hinv ha hb hdim h1 h2 h3

theorem diagValue_variable (cm : CMath) (self : Nat) (ha : Header) (p : Expression)
    (x vp : Vec) (hs : ha.m_id ≠ self) (hp : p.getID = ha.m_id → vp = x) :
    DiagValue cm (fun _ => True) self (.leaf ha .Variable) p x x vp := by
  intro t _
  refine ⟨Function.update t ha.m_id x, by simp [Expression.evaluate], trivial, ?_, ?_, ?_⟩
  · simp [Expression.getID, Expression.header]
  · intro hv
    by_cases hq : p.getID = ha.m_id
    · rw [hq, hp hq]
      simp
    · simp [Function.update_noteq hq, hv]
  · simp [Function.update_noteq (Ne.symm hs)]

/-- Witness for C6: `Mult_vecU_vecU` on two Variables at `x = [3, -5]`. -/
theorem diag_mult_unknown_witness :
    ((Expression.binary ⟨3, 2, sign.unknown⟩ .Mult_vecU_vecU
        (.leaf ⟨1, 2, sign.unknown⟩ .Variable) (.leaf ⟨2, 2, sign.unknown⟩ .Variable)).evaluate
        noLog [3, -5] [3, -5] (fun _ => [0, 0])).map (fun s' => s' 3)
      = some (plainOperation Family.mult_vec_vec none [3, -5] [3, -5]) :=
  diag_mult_unknown noLog .Mult_vecU_vecU (Or.inl rfl)
    (by simp [BinaryKind.signDefinite, BinaryKind.namedTags]) ⟨3, 2, sign.unknown⟩
    (.leaf ⟨1, 2, sign.unknown⟩ .Variable) (.leaf ⟨2, 2, sign.unknown⟩ .Variable)
    [3, -5] [3, -5] [3, -5] (fun _ => [0, 0]) (fun _ => True) trivial
    (diagValue_variable noLog 3 ⟨1, 2, sign.unknown⟩ _ _ _ (by decide) (fun _ => rfl))
    (diagValue_variable noLog 3 ⟨2, 2, sign.unknown⟩ _ _ _ (by decide) (fun _ => rfl))
    rfl (by simp [wellDimensioned, BinaryKind.family])

/-! ## C7: the Unknown-operand dot products on the diagonal -/

/-- C7 fails on the code: for `a` a Variable of dimension 2 and `b = Parameter([-1, -1])` at
`x = [1, 1]` the operands take the values `[1, 1]` and `[-1, -1]` at `(x, x)`, whose inner
product is `-2`; `Dot_U_NP::evaluate(x, x)` leaves `[-1]`, because its split loop runs over
`i < m_dim` and `Dot::Dot` sets `m_dim = 1`, so only component 0 of `a` reaches the halves;
`Dot_U_U::evaluate(x, x)` leaves `[-1]` too, its halves having size `m_dim = 1`.  The sibling
`Dot_U_NN` loops over `m_arg1val->size()` and yields `[-2]` on the same operands. -/
theorem dot_U_NP_reads_one_component :
    ((Expression.binary ⟨3, 1, sign.unknown⟩ .Dot_U_NP
          (.leaf ⟨1, 2, sign.unknown⟩ .Variable) (.leaf ⟨2, 2, sign.NP⟩ .Parameter)).evaluate
        noLog [1, 1] [1, 1] (Function.update (fun _ => [0]) 2 [-1, -1])).map
          (fun s => (s 1, s 2, s 3)) = some ([1, 1], [-1, -1], [-1])
    ∧ ((Expression.binary ⟨3, 1, sign.unknown⟩ .Dot_U_U
          (.leaf ⟨1, 2, sign.unknown⟩ .Variable) (.leaf ⟨2, 2, sign.NP⟩ .Parameter)).evaluate
        noLog [1, 1] [1, 1] (Function.update (fun _ => [0]) 2 [-1, -1])).map
          (fun s => (s 1, s 2, s 3)) = some ([1, 1], [-1, -1], [-1])
    ∧ ((Expression.binary ⟨3, 1, sign.unknown⟩ .Dot_U_NN
          (.leaf ⟨1, 2, sign.unknown⟩ .Variable) (.leaf ⟨2, 2, sign.NP⟩ .Parameter)).evaluate
        noLog [1, 1] [1, 1] (Function.update (fun _ => [0]) 2 [-1, -1])).map
          (fun s => (s 1, s 2, s 3)) = some ([1, 1], [-1, -1], [-2])
    ∧ plainOperation Family.dot none [1, 1] [-1, -1] = [-2] := by
  refine ⟨?_, ?_, ?_, ?_⟩
  · simp only [Expression.evaluate, BinaryKind.evaluate, Dot_U_NP.evaluate,
      Expression.getID, Expression.getDim, Expression.header, Option.bind_eq_bind,
      Option.some_bind, forLoop_one, splitLoop, zeros, List.replicate]
    simp only [Function.update_apply]
    simp [splitBody, Vec.at, Vec.write, setInner, accInner, inner_product]
  · simp only [Expression.evaluate, BinaryKind.evaluate, Dot_U_U.evaluate,
      Expression.getID, Expression.getDim, Expression.header, Option.bind_eq_bind,
      Option.some_bind, forLoop_one, zeros, List.replicate]
    simp only [Function.update_apply]
    simp [splitBodyByFirst, Vec.at, Vec.write, setInner, accInner, inner_product]
  · simp only [Expression.evaluate, BinaryKind.evaluate, Dot_U_NN.evaluate,
      Expression.getID, Expression.getDim, Expression.header, Option.bind_eq_bind,
      Option.some_bind, splitLoop, zeros, List.replicate]
    simp only [Function.update_apply]
    simp [forLoop_two, splitBody, Vec.at, Vec.write, setInner, addInner, inner_product]
    norm_num
  · simp [plainOperation, plainDot]
    norm_num

/-! ## C8: the Unknown-operand matrix × vector products on the diagonal -/

/-- C8 fails on the code: for the 2×2 matrix parameter `M = [[1, -2], [3, 4]]` and a Variable
`v` at `x = [1, 1]` the plain product `M·v` is `[-1, 7]`, while `Mult_MatU_VecNN::evaluate(x, x)`
and `Mult_MatU_VecU::evaluate(x, x)` leave `[-2, 14]`, twice the product (and so does
`Mult_MatU_VecNP` at `x = [-1, -1]`, leaving `[2, -14]` for `[1, -7]`):
`Matrix::getGreaterEqualThan0` and `Matrix::getLessThan0` assign to the by-value loop variable
and return the matrix unchanged, so both "halves" of `M` are `M` itself. -/
theorem mult_MatU_doubles_product :
    ((Expression.binary ⟨3, 2, sign.unknown⟩ .Mult_MatU_VecNN
          (.leaf ⟨1, 0, sign.NN⟩ (.MultiDimParameter ⟨2, 2, [1, -2, 3, 4]⟩))
          (.leaf ⟨2, 2, sign.NN⟩ .Variable)).evaluate
        noLog [1, 1] [1, 1] (fun _ => [0, 0])).map (fun s => (s 2, s 3))
      = some ([1, 1], [-2, 14])
    ∧ ((Expression.binary ⟨3, 2, sign.unknown⟩ (.Mult_MatU_VecU 2)
          (.leaf ⟨1, 0, sign.NN⟩ (.MultiDimParameter ⟨2, 2, [1, -2, 3, 4]⟩))
          (.leaf ⟨2, 2, sign.unknown⟩ .Variable)).evaluate
        noLog [1, 1] [1, 1] (fun _ => [0, 0])).map (fun s => (s 2, s 3))
      = some ([1, 1], [-2, 14])
    ∧ plainOperation Family.mult_mat_vec (some ⟨2, 2, [1, -2, 3, 4]⟩) [] [1, 1] = [-1, 7]
    ∧ ((Expression.binary ⟨3, 2, sign.unknown⟩ .Mult_MatU_VecNP
          (.leaf ⟨1, 0, sign.NN⟩ (.MultiDimParameter ⟨2, 2, [1, -2, 3, 4]⟩))
          (.leaf ⟨2, 2, sign.NP⟩ .Variable)).evaluate
        noLog [-1, -1] [-1, -1] (fun _ => [0, 0])).map (fun s => (s 2, s 3))
      = some ([-1, -1], [2, -14])
    ∧ plainOperation Family.mult_mat_vec (some ⟨2, 2, [1, -2, 3, 4]⟩) [] [-1, -1] = [1, -7] := by
  have hge : Matrix.getGreaterEqualThan0 ⟨2, 2, [1, -2, 3, 4]⟩ = ⟨2, 2, [1, -2, 3, 4]⟩ := by
    simp [Matrix.getGreaterEqualThan0]
  have hlt : Matrix.getLessThan0 ⟨2, 2, [1, -2, 3, 4]⟩ = ⟨2, 2, [1, -2, 3, 4]⟩ := by
    simp [Matrix.getLessThan0]
  refine ⟨?_, ?_, ?_, ?_, ?_⟩
  · simp only [Expression.evaluate, BinaryKind.evaluate, Mult_MatU_VecNN.evaluate,
      Expression.getID, Expression.getDim, Expression.getMatrix, Expression.header,
      Option.bind_eq_bind, Option.some_bind, forLoop_two, hge, hlt]
    simp only [Function.update_apply]
    simp [rowBody2, setRow, accRow, Matrix.rowRange, Vec.at, Vec.write, inner_product]
    norm_num
  · simp only [Expression.evaluate, BinaryKind.evaluate, Mult_MatU_VecU.evaluate,
      Expression.getID, Expression.getDim, Expression.getMatrix, Expression.header,
      Option.bind_eq_bind, Option.some_bind, forLoop_two, splitLoop, hge, hlt, zeros,
      List.replicate]
    simp only [Function.update_apply]
    simp [rowBody4, splitBody, setRow, accRow, Matrix.rowRange, Vec.at, Vec.write, inner_product]
    norm_num
  · simp [plainOperation, plainMatVec, plainRow, Matrix.entry, List.range_succ]
    norm_num
  · simp only [Expression.evaluate, BinaryKind.evaluate, Mult_MatU_VecNP.evaluate,
      Expression.getID, Expression.getDim, Expression.getMatrix, Expression.header,
      Option.bind_eq_bind, Option.some_bind, forLoop_two, hge, hlt]
    simp only [Function.update_apply]
    simp [rowBody2, setRow, accRow, Matrix.rowRange, Vec.at, Vec.write, inner_product]
    norm_num
  · simp [plainOperation, plainMatVec, plainRow, Matrix.entry, List.range_succ]
    norm_num

/-! ## C9: vector ÷ Unknown vector on the diagonal -/

/-- C9 fails on the code: for `a` a Variable and `b = Parameter([3, -2])` at `x = [6, 4]` the
operands take the values `[6, 4]` and `[3, -2]` at `(x, x)`, with plain quotient `[2, -2]`;
`Div_VecNN_VecU::evaluate(x, x)` leaves `[1, 1]`, and so does `Div_VecNP_VecU::evaluate(x, x)`
(at `x = [-6, -4]`, plain quotient `[-2, 2]`): both assign `a_swap = *m_arg2val` and divide the
halves of `b` by `b`, so the value of the dividend is never read. -/
theorem div_VecNN_VecU_ignores_dividend :
    ((Expression.binary ⟨3, 2, sign.unknown⟩ .Div_VecNN_VecU
          (.leaf ⟨1, 2, sign.NN⟩ .Variable) (.leaf ⟨2, 2, sign.NP⟩ .Parameter)).evaluate
        noLog [6, 4] [6, 4] (Function.update (fun _ => [0, 0]) 2 [3, -2])).map
          (fun s => (s 1, s 2, s 3)) = some ([6, 4], [3, -2], [1, 1])
    ∧ plainOperation Family.div_vec_vec none [6, 4] [3, -2] = [2, -2]
    ∧ ((Expression.binary ⟨3, 2, sign.unknown⟩ .Div_VecNP_VecU
          (.leaf ⟨1, 2, sign.NP⟩ .Variable) (.leaf ⟨2, 2, sign.NP⟩ .Parameter)).evaluate
        noLog [-6, -4] [-6, -4] (Function.update (fun _ => [0, 0]) 2 [3, -2])).map
          (fun s => (s 1, s 2, s 3)) = some ([-6, -4], [3, -2], [1, 1])
    ∧ plainOperation Family.div_vec_vec none [-6, -4] [3, -2] = [-2, 2] := by
  refine ⟨?_, ?_, ?_, ?_⟩
  · simp only [Expression.evaluate, BinaryKind.evaluate, Div_VecNN_VecU.evaluate,
      Expression.getID, Expression.getDim, Expression.header, Option.bind_eq_bind,
      Option.some_bind, forLoop_two, splitLoop, zeros, List.replicate]
    simp only [Function.update_apply]
    simp [splitBody, Vec.at, Vec.write, transform2, collect, divides, plus]
    norm_num [collect, divides, plus]
  · simp [plainOperation]
    norm_num
  · simp only [Expression.evaluate, BinaryKind.evaluate, Div_VecNP_VecU.evaluate,
      Expression.getID, Expression.getDim, Expression.header, Option.bind_eq_bind,
      Option.some_bind, forLoop_two, splitLoop, zeros, List.replicate]
    simp only [Function.update_apply]
    simp [splitBody, Vec.at, Vec.write, transform2, collect, divides, plus]
    norm_num [collect, divides, plus]
  · simp [plainOperation]
    norm_num

/-! ## C10: diagonal consistency of the Unknown-operand divisions -/

theorem recombine_div (a b : Vec) :
    List.zipWith (fun c d => c + d) (List.zipWith (fun c d => c / d) (a.map geHalf) b)
        (List.zipWith (fun c d => c / d) (a.map ltHalf) b)
      = List.zipWith (fun c d => c / d) a b := by
  induction a generalizing b with
  | nil => simp
  | cons c a ih =>
    cases b with
    | nil => simp
    | cons d b =>
      simp only [List.map_cons, List.zipWith_cons_cons, ih b, List.cons.injEq, and_true]
      exact geHalf_div_add c d

theorem recombine_div_scalar (a : Vec) (d : ℚ) :
    List.zipWith (fun c d => c + d) ((a.map geHalf).map (fun c => c / d))
        ((a.map ltHalf).map (fun c => c / d))
      = a.map (fun c => c / d) := by
  induction a with
  | nil => simp
  | cons c a ih =>
    simp only [List.map_cons, List.zipWith_cons_cons, ih, List.cons.injEq, and_true]
    exact geHalf_div_add c d

theorem diag_Div_VecU_VecNN (cm : CMath) (h : Header) (a b : Expression) (x va vb : Vec) (s : Store)
    (inv : Store → Prop) (hinv : inv s)
    (ha : DiagValue cm inv h.m_id a b x va vb) (hb : DiagValue cm inv h.m_id b a x vb va)
    (hz : ∀ d ∈ vb, d ≠ 0)
    (hdim : a.getDim = h.m_dim) (h1 : va.length = h.m_dim) (h2 : vb.length = h.m_dim)
    (h3 : (s h.m_id).length = h.m_dim) :
    ((Div_VecU_VecNN.evaluate h (a.toArg cm) (b.toArg cm) x x s).map (fun s' => s' h.m_id))
      = some (List.zipWith (fun c d => c / d) va vb) := by
  unfold Expression.toArg
  obtain ⟨t1, e1, i1, v1, k1, f1⟩ := ha s hinv
  obtain ⟨t2, e2, i2, v2, k2, f2⟩ := hb t1 i1
  obtain ⟨t3, e3, i3, v3, k3, f3⟩ := hb t2 i2
  have hl : (t3 h.m_id).length = h.m_dim := by rw [f3, f2, f1, h3]
  simp only [Div_VecU_VecNN.evaluate, e1, e2, e3, v1, v2, v3, hdim, Option.bind_eq_bind,
    Option.some_bind, splitLoop_fit _ _ h1, transform2_divides _ _ _ hz]
  simp [transform2_plus, h1, h2, hl, length_zeros, drop_zeros, drop_all _ _ hl,
    recombine_div]
theorem diag_Div_VecU_VecNP (cm : CMath) (h : Header) (a b : Expression) (x va vb : Vec) (s : Store)
    (inv : Store → Prop) (hinv : inv s)
    (ha : DiagValue cm inv h.m_id a b x va vb) (hb : DiagValue cm inv h.m_id b a x vb va)
    (hz : ∀ d ∈ vb, d ≠ 0)
    (hdim : a.getDim = h.m_dim) (h1 : va.length = h.m_dim) (h2 : vb.length = h.m_dim)
    (h3 : (s h.m_id).length = h.m_dim) :
    ((Div_VecU_VecNP.evaluate h (a.toArg cm) (b.toArg cm) x x s).map (fun s' => s' h.m_id))
      = some (List.zipWith (fun c d => c / d) va vb) := by
  unfold Expression.toArg
  obtain ⟨t1, e1, i1, v1, k1, f1⟩ := ha s hinv
  obtain ⟨t2, e2, i2, v2, k2, f2⟩ := hb t1 i1
  obtain ⟨t3, e3, i3, v3, k3, f3⟩ := hb t2 i2
  have hl : (t3 h.m_id).length = h.m_dim := by rw [f3, f2, f1, h3]
  simp only [Div_VecU_VecNP.evaluate, e1, e2, e3, v1, v2, v3, hdim, Option.bind_eq_bind,
    Option.some_bind, splitLoop_fit _ _ h1, transform2_divides _ _ _ hz]
  simp [transform2_plus, h1, h2, hl, length_zeros, drop_zeros, drop_all _ _ hl,
    recombine_div]
theorem diag_Div_VecU_ScalarNN (cm : CMath) (h : Header) (a b : Expression) (x va vb : Vec) (s : Store)
    (inv : Store → Prop) (hinv : inv s)
    (ha : DiagValue cm inv h.m_id a b x va vb) (hb : DiagValue cm inv h.m_id b a x vb va)
    (hz : ∀ d ∈ vb, d ≠ 0)
    (hdim : a.getDim = h.m_dim) (h1 : va.length = h.m_dim) (h2 : vb.length = 1)
    (h3 : (s h.m_id).length = h.m_dim) :
    ((Div_VecU_ScalarNN.evaluate h (a.toArg cm) (b.toArg cm) x x s).map (fun s' => s' h.m_id))
      = some (va.map (fun c => c / vb.headD 0)) := by
  unfold Expression.toArg
  obtain ⟨d, hbd⟩ := List.length_eq_one.mp h2
  have hne : d ≠ 0 := hz d (by simp [hbd])
  obtain ⟨t1, e1, i1, v1, k1, f1⟩ := ha s hinv
  obtain ⟨t2, e2, i2, v2, k2, f2⟩ := hb t1 i1
  obtain ⟨t3, e3, i3, v3, k3, f3⟩ := hb t2 i2
  have hl : (t3 h.m_id).length = h.m_dim := by rw [f3, f2, f1, h3]
  have hts : overScalar t3 ⟨Expression.evaluate cm b, b.getID, b.getDim, b.getMatrix⟩
      = fun c => divides c d := overScalar_of _ _ d (by simp [v3, hbd, Vec.at])
  have hat : (t2 b.getID).at 0 = some d := by simp [v2, hbd, Vec.at]
  simp only [Div_VecU_ScalarNN.evaluate, e1, e2, e3, v1, hat, hdim, Option.bind_eq_bind,
    Option.some_bind, splitLoop_fit _ _ h1, hts, transform1_divides_by _ _ _ hne]
  simp [hbd, transform2_plus, h1, hl, length_zeros, drop_zeros, drop_all _ _ hl,
    recombine_div_scalar, geHalf_div_add]
theorem diag_Div_VecU_ScalarNP (cm : CMath) (h : Header) (a b : Expression) (x va vb : Vec) (s : Store)
    (inv : Store → Prop) (hinv : inv s)
    (ha : DiagValue cm inv h.m_id a b x va vb) (hb : DiagValue cm inv h.m_id b a x vb va)
    (hz : ∀ d ∈ vb, d ≠ 0)
    (hdim : a.getDim = h.m_dim) (h1 : va.length = h.m_dim) (h2 : vb.length = 1)
    (h3 : (s h.m_id).length = h.m_dim) :
    ((Div_VecU_ScalarNP.evaluate h (a.toArg cm) (b.toArg cm) x x s).map (fun s' => s' h.m_id))
      = some (va.map (fun c => c / vb.headD 0)) := by
  unfold Expression.toArg
  obtain ⟨d, hbd⟩ := List.length_eq_one.mp h2
  have hne : d ≠ 0 := hz d (by simp [hbd])
  obtain ⟨t1, e1, i1, v1, k1, f1⟩ := ha s hinv
  obtain ⟨t2, e2, i2, v2, k2, f2⟩ := hb t1 i1
  obtain ⟨t3, e3, i3, v3, k3, f3⟩ := hb t2 i2
  have hl : (t3 h.m_id).length = h.m_dim := by rw [f3, f2, f1, h3]
  have hts : overScalar t3 ⟨Expression.evaluate cm b, b.getID, b.getDim, b.getMatrix⟩
      = fun c => divides c d := overScalar_of _ _ d (by simp [v3, hbd, Vec.at])
  have hat : (t2 b.getID).at 0 = some d := by simp [v2, hbd, Vec.at]
  simp only [Div_VecU_ScalarNP.evaluate, e1, e2, e3, v1, hat, hdim, Option.bind_eq_bind,
    Option.some_bind, splitLoop_fit _ _ h1, hts, transform1_divides_by _ _ _ hne]
  simp [hbd, transform2_plus, h1, hl, length_zeros, drop_zeros, drop_all _ _ hl,
    recombine_div_scalar, geHalf_div_add]
theorem diag_Div_VecNN_ScalarU (cm : CMath) (h : Header) (a b : Expression) (x va vb : Vec) (s : Store)
    (inv : Store → Prop) (hinv : inv s)
    (ha : DiagValue cm inv h.m_id a b x va vb) (hb : DiagValue cm inv h.m_id b a x vb va)
    (hz : ∀ d ∈ vb, d ≠ 0)
    (hdim : a.getDim = h.m_dim) (h1 : va.length = h.m_dim) (h2 : vb.length = 1)
    (h3 : (s h.m_id).length = h.m_dim) :
    ((Div_VecNN_ScalarU.evaluate h (a.toArg cm) (b.toArg cm) x x s).map (fun s' => s' h.m_id))
      = some (va.map (fun c => c / vb.headD 0)) := by
  unfold Expression.toArg
  obtain ⟨d, hbd⟩ := List.length_eq_one.mp h2
  have hne : d ≠ 0 := hz d (by simp [hbd])
  obtain ⟨t1, e1, i1, v1, k1, f1⟩ := hb s hinv
  obtain ⟨t2, e2, i2, v2, k2, f2⟩ := ha t1 i1
  have w2 : t2 b.getID = vb := k2 v1
  have hl : (t2 h.m_id).length = h.m_dim := by rw [f2, f1, h3]
  have hts : overScalar t2 ⟨Expression.evaluate cm b, b.getID, b.getDim, b.getMatrix⟩
      = fun c => divides c d := overScalar_of _ _ d (by simp [w2, hbd, Vec.at])
  have hat : (t1 b.getID).at 0 = some d := by simp [v1, hbd, Vec.at]
  simp only [Div_VecNN_ScalarU.evaluate, e1, e2, hat, v2, Option.bind_eq_bind, Option.some_bind, ite_self,
    hts, transform1_divides_by _ _ _ hne]
  simp [hbd, h1, hl, drop_all _ _ hl]
theorem diag_Div_VecNP_ScalarU (cm : CMath) (h : Header) (a b : Expression) (x va vb : Vec) (s : Store)
    (inv : Store → Prop) (hinv : inv s)
    (ha : DiagValue cm inv h.m_id a b x va vb) (hb : DiagValue cm inv h.m_id b a x vb va)
    (hz : ∀ d ∈ vb, d ≠ 0)
    (hdim : a.getDim = h.m_dim) (h1 : va.length = h.m_dim) (h2 : vb.length = 1)
    (h3 : (s h.m_id).length = h.m_dim) :
    ((Div_VecNP_ScalarU.evaluate h (a.toArg cm) (b.toArg cm) x x s).map (fun s' => s' h.m_id))
      = some (va.map (fun c => c / vb.headD 0)) := by
  unfold Expression.toArg
  obtain ⟨d, hbd⟩ := List.length_eq_one.mp h2
  have hne : d ≠ 0 := hz d (by simp [hbd])
  obtain ⟨t1, e1, i1, v1, k1, f1⟩ := hb s hinv
  obtain ⟨t2, e2, i2, v2, k2, f2⟩ := ha t1 i1
  have w2 : t2 b.getID = vb := k2 v1
  have hl : (t2 h.m_id).length = h.m_dim := by rw [f2, f1, h3]
  have hts : overScalar t2 ⟨Expression.evaluate cm b, b.getID, b.getDim, b.getMatrix⟩
      = fun c => divides c d := overScalar_of _ _ d (by simp [w2, hbd, Vec.at])
  have hat : (t1 b.getID).at 0 = some d := by simp [v1, hbd, Vec.at]
  simp only [Div_VecNP_ScalarU.evaluate, e1, e2, hat, v2, Option.bind_eq_bind, Option.some_bind, ite_self,
    hts, transform1_divides_by _ _ _ hne]
  simp [hbd, h1, hl, drop_all _ _ hl]
theorem diag_Div_VecU_ScalarU (cm : CMath) (h : Header) (a b : Expression) (x va vb : Vec) (s : Store)
    (inv : Store → Prop) (hinv : inv s)
    (ha : DiagValue cm inv h.m_id a b x va vb) (hb : DiagValue cm inv h.m_id b a x vb va)
    (hz : ∀ d ∈ vb, d ≠ 0)
    (hdim : a.getDim = h.m_dim) (h1 : va.length = h.m_dim) (h2 : vb.length = 1)
    (h3 : (s h.m_id).length = h.m_dim) :
    ((Div_VecU_ScalarU.evaluate h (a.toArg cm) (b.toArg cm) x x s).map (fun s' => s' h.m_id))
      = some (va.map (fun c => c / vb.headD 0)) := by
  unfold Expression.toArg
  obtain ⟨d, hbd⟩ := List.length_eq_one.mp h2
  have hne : d ≠ 0 := hz d (by simp [hbd])
  obtain ⟨t1, e1, i1, v1, k1, f1⟩ := hb s hinv
  obtain ⟨t2, e2, i2, v2, k2, f2⟩ := hb t1 i1
  obtain ⟨t3, e3, i3, v3, k3, f3⟩ := ha t2 i2
  obtain ⟨t4, e4, i4, v4, k4, f4⟩ := ha t3 i3
  have w4 : t4 b.getID = vb := k4 (k3 v2)
  have hl : (t4 h.m_id).length = h.m_dim := by rw [f4, f3, f2, f1, h3]
  have hts : overScalar t4 ⟨Expression.evaluate cm b, b.getID, b.getDim, b.getMatrix⟩
      = fun c => divides c d := overScalar_of _ _ d (by simp [w4, hbd, Vec.at])
  have hat1 : (t1 b.getID).at 0 = some d := by simp [v1, hbd, Vec.at]
  have hat4 : (t4 b.getID).at 0 = some d := by simp [w4, hbd, Vec.at]
  simp only [Div_VecU_ScalarU.evaluate, e1, e2, e3, e4, hat1, hat4, v3, v4,
    Option.bind_eq_bind, Option.some_bind, splitLoop_fit _ _ h1, hts, ite_self,
    transform1_divides_by _ _ _ hne]
  simp [hbd, transform2_plus, h1, hl, length_zeros, drop_zeros, drop_all _ _ hl,
    recombine_div_scalar, geHalf_div_add]
theorem div_body_eq (va vb mv : Vec) (i : Nat) (hz : ∀ d ∈ vb, d ≠ 0) (ha : i < va.length)
    (hb : i < vb.length) (hm : i < mv.length) :
    Div_VecU_VecU.body ⟨va.map geHalf, va.map ltHalf, vb.map geHalf, vb.map ltHalf⟩
        ⟨va.map geHalf, va.map ltHalf, vb.map geHalf, vb.map ltHalf⟩ i mv
      = some (mv.set i (va.getD i 0 / vb.getD i 0)) := by
  have hne : vb[i] ≠ 0 := hz _ (List.getElem_mem _)
  have e1 : Vec.at (va.map geHalf) i = some (geHalf va[i]) := by simp [Vec.at, ha]
  have e2 : Vec.at (va.map ltHalf) i = some (ltHalf va[i]) := by simp [Vec.at, ha]
  have e3 : Vec.at (vb.map geHalf) i = some (geHalf vb[i]) := by simp [Vec.at, hb]
  have e4 : Vec.at (vb.map ltHalf) i = some (ltHalf vb[i]) := by simp [Vec.at, hb]
  have ga : va.getD i 0 = va[i] := by simp [List.getD_eq_getElem?_getD, ha]
  have gb : vb.getD i 0 = vb[i] := by simp [List.getD_eq_getElem?_getD, hb]
  simp only [Div_VecU_VecU.body, e1, e2, e3, e4, Option.bind_eq_bind, Option.some_bind,
    Option.pure_def, ga, gb, Vec.write, hm, if_true]
  by_cases hc : vb[i] ≥ 0
  · have hpos : geHalf vb[i] = vb[i] := by simp [geHalf, hc]
    have hneg : ltHalf vb[i] = 0 := by simp [ltHalf, hc]
    simp [hpos, hneg, hne, divides, ← add_div, geHalf_add_ltHalf]
  · have hpos : geHalf vb[i] = 0 := by simp [geHalf, hc]
    have hneg : ltHalf vb[i] = vb[i] := by simp [ltHalf, hc]
    simp [hpos, hneg, hne, divides, ← add_div, geHalf_add_ltHalf]

theorem range_map_div (va vb : Vec) (n : Nat) (h1 : va.length = n) (h2 : vb.length = n) :
    (List.range n).map (fun i => va.getD i 0 / vb.getD i 0)
      = List.zipWith (fun c d => c / d) va vb := by
  apply List.ext_getElem
  · simp [h1, h2]
  · intro i hi1 hi2
    simp at hi1 hi2
    simp [List.getD_eq_getElem?_getD, List.getElem?_eq_getElem hi2.1,
      List.getElem?_eq_getElem hi2.2]

theorem diag_Div_VecU_VecU (cm : CMath) (h : Header) (a b : Expression) (x va vb : Vec)
    (s : Store) (inv : Store → Prop) (hinv : inv s)
    (ha : DiagValue cm inv h.m_id a b x va vb) (hb : DiagValue cm inv h.m_id b a x vb va)
    (hz : ∀ d ∈ vb, d ≠ 0)
    (h1 : va.length = h.m_dim) (h2 : vb.length = h.m_dim)
    (h3 : (s h.m_id).length = h.m_dim) :
    ((Div_VecU_VecU.evaluate h (a.toArg cm) (b.toArg cm) x x s).map (fun s' => s' h.m_id))
      = some (List.zipWith (fun c d => c / d) va vb) := by
  unfold Expression.toArg
  obtain ⟨t1, e1, i1, v1, k1, f1⟩ := ha s hinv
  obtain ⟨t2, e2, i2, v2, k2, f2⟩ := hb t1 i1
  obtain ⟨t3, e3, i3, v3, k3, f3⟩ := ha t2 i2
  obtain ⟨t4, e4, i4, v4, k4, f4⟩ := hb t3 i3
  have hl : (t4 h.m_id).length = h.m_dim := by rw [f4, f3, f2, f1, h3]
  have w2 : t2 a.getID = va := k2 v1
  have w4 : t4 a.getID = va := k4 v3
  have hloop : forLoop h.m_dim
      (Div_VecU_VecU.body ⟨va.map geHalf, va.map ltHalf, vb.map geHalf, vb.map ltHalf⟩
        ⟨va.map geHalf, va.map ltHalf, vb.map geHalf, vb.map ltHalf⟩) (t4 h.m_id)
      = some (List.zipWith (fun c d => c / d) va vb) := by
    rw [forLoop_fill h.m_dim _ (fun i => va.getD i 0 / vb.getD i 0) _ (le_of_eq hl.symm)
      (fun i mv hi hm => div_body_eq va vb mv i hz (by omega) (by omega) hm)]
    rw [drop_all _ _ hl, List.append_nil, range_map_div va vb _ h1 h2]
  simp only [Div_VecU_VecU.evaluate, e1, e2, e3, e4, v2, v4, w2, w4, Option.bind_eq_bind,
    Option.some_bind, splitEach_fit _ _ _ h1 h2, hloop]
  simp

theorem scalar_body_eq (n : ℚ) (vb mv : Vec) (i : Nat) (hz : ∀ d ∈ vb, d ≠ 0)
    (hb : i < vb.length) (hm : i < mv.length) :
    Div_ScalarU_VecU.body n [n] (vb.map geHalf) (vb.map ltHalf) (vb.map geHalf)
        (vb.map ltHalf) i mv
      = some (mv.set i (n / vb.getD i 0)) := by
  have hne : vb[i] ≠ 0 := hz _ (List.getElem_mem _)
  have e3 : Vec.at (vb.map geHalf) i = some (geHalf vb[i]) := by simp [Vec.at, hb]
  have e4 : Vec.at (vb.map ltHalf) i = some (ltHalf vb[i]) := by simp [Vec.at, hb]
  have e0 : Vec.at [n] 0 = some n := by simp [Vec.at]
  have gb : vb.getD i 0 = vb[i] := by simp [List.getD_eq_getElem?_getD, hb]
  simp only [Div_ScalarU_VecU.body, e0, e3, e4, Option.bind_eq_bind, Option.some_bind,
    Option.pure_def, gb, Vec.write, hm, if_true, ite_self]
  by_cases hc : vb[i] ≥ 0
  · have hpos : geHalf vb[i] = vb[i] := by simp [geHalf, hc]
    have hneg : ltHalf vb[i] = 0 := by simp [ltHalf, hc]
    simp [hpos, hneg, hne, divides]
  · have hpos : geHalf vb[i] = 0 := by simp [geHalf, hc]
    have hneg : ltHalf vb[i] = vb[i] := by simp [ltHalf, hc]
    simp [hpos, hneg, hne, divides]

theorem range_map_under (n : ℚ) (vb : Vec) (m : Nat) (h2 : vb.length = m) :
    (List.range m).map (fun i => n / vb.getD i 0) = vb.map (fun d => n / d) := by
  apply List.ext_getElem
  · simp [h2]
  · intro i hi1 hi2
    simp at hi1 hi2
    simp [List.getD_eq_getElem?_getD, List.getElem?_eq_getElem hi2]

theorem diag_Div_ScalarU_VecU (cm : CMath) (h : Header) (a b : Expression) (x va vb : Vec)
    (s : Store) (inv : Store → Prop) (hinv : inv s)
    (ha : DiagValue cm inv h.m_id a b x va vb) (hb : DiagValue cm inv h.m_id b a x vb va)
    (hz : ∀ d ∈ vb, d ≠ 0)
    (h1 : va.length = 1) (h2 : vb.length = h.m_dim)
    (h3 : (s h.m_id).length = h.m_dim) :
    ((Div_ScalarU_VecU.evaluate h (a.toArg cm) (b.toArg cm) x x s).map (fun s' => s' h.m_id))
      = some (vb.map (fun d => va.headD 0 / d)) := by
  unfold Expression.toArg
  obtain ⟨n, han⟩ := List.length_eq_one.mp h1
  obtain ⟨t1, e1, i1, v1, k1, f1⟩ := ha s hinv
  obtain ⟨t2, e2, i2, v2, k2, f2⟩ := ha t1 i1
  obtain ⟨t3, e3, i3, v3, k3, f3⟩ := hb t2 i2
  obtain ⟨t4, e4, i4, v4, k4, f4⟩ := hb t3 i3
  have hl : (t4 h.m_id).length = h.m_dim := by rw [f4, f3, f2, f1, h3]
  have w4 : t4 a.getID = [n] := by rw [k4 (k3 v2), han]
  have hat1 : (t1 a.getID).at 0 = some n := by simp [v1, han, Vec.at]
  have hloop : forLoop h.m_dim
      (Div_ScalarU_VecU.body n [n] (vb.map geHalf) (vb.map ltHalf) (vb.map geHalf)
        (vb.map ltHalf)) (t4 h.m_id)
      = some (vb.map (fun d => n / d)) := by
    rw [forLoop_fill h.m_dim _ (fun i => n / vb.getD i 0) _ (le_of_eq hl.symm)
      (fun i mv hi hm => scalar_body_eq n vb mv i hz (by omega) hm)]
    rw [drop_all _ _ hl, List.append_nil, range_map_under n vb _ h2]
  simp only [Div_ScalarU_VecU.evaluate, e1, e2, e3, e4, hat1, v3, v4, w4, Option.bind_eq_bind,
    Option.some_bind, splitLoop_fit _ _ h2, hloop]
  simp [han]

theorem diagValue_parameter (cm : CMath) (self : Nat) (hp : Header) (p : Expression)
    (x v vp : Vec) :
    DiagValue cm (fun t => t hp.m_id = v) self (.leaf hp .Parameter) p x v vp := by
  intro t ht
  exact ⟨t, by simp [Expression.evaluate], ht, by simpa [Expression.getID, Expression.header]
    using ht, fun hv => hv, rfl⟩

theorem diagValue_variable_keeping (cm : CMath) (self q : Nat) (ha : Header) (p : Expression)
    (x vp w : Vec) (hs : ha.m_id ≠ self) (hq : q ≠ ha.m_id) (hp : p.getID = ha.m_id → vp = x) :
    DiagValue cm (fun t => t q = w) self (.leaf ha .Variable) p x x vp := by
  intro t ht
  refine ⟨Function.update t ha.m_id x, by simp [Expression.evaluate], ?_, ?_, ?_, ?_⟩
  · simpa [Function.update_noteq hq] using ht
  · simp [Expression.getID, Expression.header]
  · intro hv
    by_cases hc : p.getID = ha.m_id
    · rw [hc, hp hc]
      simp
    · simp [Function.update_noteq hc, hv]
  · simp [Function.update_noteq (Ne.symm hs)]

/-- C10, as stated, fails for a vector `x` shorter than the dividend: on the freshly built node
`Div_VecNN_ScalarU(v, p)`, with `v` a Variable of dimension 2 and `p = Parameter([2])`,
`evaluate([6], [6])` returns, the operands' values are `[6]` and `[2]`, and the node's value is
`[3, 0]`; after an earlier `evaluate([4, 10], [4, 10])` it is `[3, 5]`, the second component
being the quotient `10 / 2` of the earlier call. -/
theorem diag_div_unknown_counterexample :
    (⟨3, 2, sign.unknown⟩ : Header).m_dim
      = BinaryKind.ctorDim .Div_VecNN_ScalarU (.leaf ⟨1, 2, sign.NN⟩ .Variable)
          (.leaf ⟨2, 1, sign.NN⟩ .Parameter)
    ∧ ((Expression.binary ⟨3, 2, sign.unknown⟩ .Div_VecNN_ScalarU
          (.leaf ⟨1, 2, sign.NN⟩ .Variable) (.leaf ⟨2, 1, sign.NN⟩ .Parameter)).evaluate noLog
        [6] [6] (Function.update (fun _ => [0, 0]) 2 [2])).map (fun s => (s 1, s 2, s 3))
      = some ([6], [2], [3, 0])
    ∧ plainOperation Family.div_vec_scalar none [6] [2] = [3]
    ∧ (((Expression.binary ⟨3, 2, sign.unknown⟩ .Div_VecNN_ScalarU
          (.leaf ⟨1, 2, sign.NN⟩ .Variable) (.leaf ⟨2, 1, sign.NN⟩ .Parameter)).evaluate noLog
        [4, 10] [4, 10] (Function.update (fun _ => [0, 0]) 2 [2])).bind
        (fun s => (Expression.binary ⟨3, 2, sign.unknown⟩ .Div_VecNN_ScalarU
          (.leaf ⟨1, 2, sign.NN⟩ .Variable) (.leaf ⟨2, 1, sign.NN⟩ .Parameter)).evaluate noLog
            [6] [6] s)).map (fun s => (s 1, s 2, s 3))
      = some ([6], [2], [3, 5]) := by
  refine ⟨rfl, ?_, ?_, ?_⟩
  · simp only [Expression.evaluate, BinaryKind.evaluate, Div_VecNN_ScalarU.evaluate,
      Expression.getID, Expression.header, Option.bind_eq_bind, Option.some_bind]
    simp only [Function.update_apply]
    norm_num [transform1, overScalar, divides, Vec.at, collect]
  · norm_num [plainOperation]
  · simp only [Expression.evaluate, BinaryKind.evaluate, Div_VecNN_ScalarU.evaluate,
      Expression.getID, Expression.header, Option.bind_eq_bind, Option.some_bind]
    simp only [Function.update_apply]
    norm_num [transform1, overScalar, divides, Vec.at, collect]

/-- C10, amended. Diagonal consistency of the other Unknown-operand divisions: for each of the
nine listed classes, on a node whose `m_dim` is the one its two-operand constructor assigns,
when the operands reproducibly take the values `va`, `vb` at `(x, x)`, these values and the
node's buffer have the dimensions that the class presupposes, and every component of the
divisor `vb` is nonzero, `evaluate(x, x)` leaves the plain quotient in the node's buffer:
`va[i]/vb[i]`, `va[i]/vb[0]` for vector ÷ scalar, `va[0]/vb[i]` for scalar ÷ vector. -/
theorem diag_div_unknown (cm : CMath) (k : BinaryKind)
    (hk : k ∈ [BinaryKind.Div_VecU_VecNN, .Div_VecU_VecNP, .Div_VecU_VecU, .Div_VecU_ScalarNN,
      .Div_VecU_ScalarNP, .Div_VecNN_ScalarU, .Div_VecNP_ScalarU, .Div_VecU_ScalarU,
      .Div_ScalarU_VecU])
    (h : Header) (a b : Expression) (x va vb : Vec) (s : Store)
    (inv : Store → Prop) (hinv : inv s)
    (ha : DiagValue cm inv h.m_id a b x va vb) (hb : DiagValue cm inv h.m_id b a x vb va)
    (hdim : h.m_dim = k.ctorDim a b)
    (hd : wellDimensioned k.family h.m_dim none va vb (s h.m_id))
    (hz : divisorsNonzero k.family vb) :
    ((Expression.binary h k a b).evaluate cm x x s).map (fun s' => s' h.m_id)
      = some (plainOperation k.family none va vb) := by
  cases k
  all_goals first
    | (exfalso; revert hk; simp; done)
    | skip
  all_goals simp only [BinaryKind.family, wellDimensioned] at hd
  all_goals simp only [BinaryKind.family, divisorsNonzero] at hz
  all_goals simp only [BinaryKind.ctorDim, BinaryKind.family] at hdim
  all_goals simp only [BinaryKind.family, plainOperation, Expression.evaluate, BinaryKind.evaluate]
  all_goals obtain ⟨h1, h2, h3⟩ := hd
  · exact diag_Div_VecU_ScalarNN cm h a b x va vb s inv hinv ha hb hz hdim.symm h1 h2 h3
  · exact diag_Div_VecU_ScalarNP cm h a b x va vb s inv hinv ha hb hz hdim.symm h1 h2 h3
  · exact diag_Div_VecNN_ScalarU cm h a b x va vb s inv hinv ha hb hz hdim.symm h1 h2 h3
  · exact diag_Div_VecNP_ScalarU cm h a b x va vb s inv hinv ha hb hz hdim.symm h1 h2 h3
  · exact diag_Div_VecU_ScalarU cm h a b x va vb s inv hinv ha hb hz hdim.symm h1 h2 h3
  · exact diag_Div_VecU_VecNN cm h a b x va vb s inv hinv ha hb hz hdim.symm h1 h2 h3
  · exact diag_Div_VecU_VecNP cm h a b x va vb s inv hinv ha hb hz hdim.symm h1 h2 h3
  · exact diag_Div_VecU_VecU cm h a b x va vb s inv hinv ha hb hz h1 h2 h3
  · exact diag_Div_ScalarU_VecU cm h a b x va vb s inv hinv ha hb hz h1 h2 h3

/-- Witness for C10: `Div_VecU_VecU` on a Variable and the Parameter `[2, -4]` at
`x = [3, -5]`. -/
theorem diag_div_unknown_witness :
    ((Expression.binary ⟨3, 2, sign.unknown⟩ .Div_VecU_VecU
        (.leaf ⟨1, 2, sign.unknown⟩ .Variable) (.leaf ⟨2, 2, sign.unknown⟩ .Parameter)).evaluate
        noLog [3, -5] [3, -5] (fun i => if i = 2 then [2, -4] else [0, 0])).map (fun s' => s' 3)
      = some (plainOperation Family.div_vec_vec none [3, -5] [2, -4]) :=
  diag_div_unknown noLog .Div_VecU_VecU (by simp) ⟨3, 2, sign.unknown⟩
    (.leaf ⟨1, 2, sign.unknown⟩ .Variable) (.leaf ⟨2, 2, sign.unknown⟩ .Parameter)
    [3, -5] [3, -5] [2, -4] (fun i => if i = 2 then [2, -4] else [0, 0])
    (fun t => t 2 = [2, -4]) (by simp)
    (diagValue_variable_keeping noLog 3 2 ⟨1, 2, sign.unknown⟩ _ _ _ _ (by decide) (by decide)
      (by simp [Expression.getID, Expression.header]))
    (diagValue_parameter noLog 3 ⟨2, 2, sign.unknown⟩ _ _ _ _)
    rfl (by simp [wellDimensioned, BinaryKind.family])
    (by simp [divisorsNonzero, BinaryKind.family])


/-! ## C11, C12: the tags assigned by the constructors -/

theorem binary_new_sign (k : BinaryKind) (a b : Expression) (r : Registry) (e : Expression)
    (r' : Registry) (hc : k.new a b r = some (e, r')) :
    e.getSign = k.ctorSign a.getSign b.getSign := by
  unfold BinaryKind.new at hc
  cases hf : k.family <;> simp only [hf, Option.map_eq_some', Option.some.injEq] at hc
  all_goals first
    | (obtain ⟨_, _, hc⟩ := hc
       have h1 := congrArg Prod.fst hc
       simp only [Registry.construct] at h1
       rw [← h1]
       rfl)
    | (have h1 := congrArg Prod.fst hc
       simp only [Registry.construct] at h1
       rw [← h1]
       rfl)

theorem ctorSign_table (k : BinaryKind) (sa sb ta tb : sign)
    (hn : k.namedTags = some (ta, tb)) : k.ctorSign sa sb = tagTable k.family ta tb := by
  cases k <;> simp only [BinaryKind.namedTags, Option.some.injEq, Prod.mk.injEq,
    reduceCtorEq] at hn
  all_goals obtain ⟨h1, h2⟩ := hn
  all_goals subst h1
  all_goals subst h2
  all_goals simp [BinaryKind.ctorSign, BinaryKind.family, tagTable]

/-- C11. Result tags of the multiplicative classes: a node built by the two-operand constructor
of a class whose name states the operand tags `(ta, tb)` (every class of the families
vector×vector, vector×scalar, matrix×vector, dot product, vector÷vector, vector÷scalar and
scalar÷vector) carries the tag of the table: Unknown if `ta` or `tb` is Unknown; otherwise NN in
the dot-product family; otherwise NN for `ta = tb` and NP for `ta ≠ tb`. -/
theorem ctor_tags_follow_table (k : BinaryKind) (a b : Expression) (r : Registry)
    (ta tb : sign) (e : Expression) (r' : Registry)
    (hn : k.namedTags = some (ta, tb)) (hc : k.new a b r = some (e, r')) :
    e.getSign = tagTable k.family ta tb := by
  rw [binary_new_sign k a b r e r' hc]
  exact ctorSign_table k _ _ ta tb hn

/-- Witness for C11: `Dot_NN_NP` built on two Variables is tagged NN. -/
theorem ctor_tags_follow_table_witness :
    (Expression.binary ⟨3, 1, sign.NN⟩ .Dot_NN_NP (.leaf ⟨1, 2, sign.NN⟩ .Variable)
        (.leaf ⟨2, 2, sign.NP⟩ .Variable)).getSign = tagTable Family.dot sign.NN sign.NP :=
  ctor_tags_follow_table .Dot_NN_NP (.leaf ⟨1, 2, sign.NN⟩ .Variable)
    (.leaf ⟨2, 2, sign.NP⟩ .Variable)
    ⟨2, [.leaf ⟨1, 2, sign.NN⟩ .Variable, .leaf ⟨2, 2, sign.NP⟩ .Variable], fun _ => [0, 0]⟩
    sign.NN sign.NP (Expression.binary ⟨3, 1, sign.NN⟩ .Dot_NN_NP
      (.leaf ⟨1, 2, sign.NN⟩ .Variable) (.leaf ⟨2, 2, sign.NP⟩ .Variable))
    ⟨3, [.leaf ⟨1, 2, sign.NN⟩ .Variable, .leaf ⟨2, 2, sign.NP⟩ .Variable,
        Expression.binary ⟨3, 1, sign.NN⟩ .Dot_NN_NP
          (.leaf ⟨1, 2, sign.NN⟩ .Variable) (.leaf ⟨2, 2, sign.NP⟩ .Variable)],
      Function.update (fun _ => [0, 0]) 3 (zeros 1)⟩
    rfl rfl

theorem unary_new_sign (k : UnaryKind) (a : Expression) (r : Registry) (e : Expression)
    (r' : Registry) (hc : k.new a r = some (e, r')) :
    e.getSign = k.ctorSign a.getSign := by
  unfold UnaryKind.new at hc
  cases k <;> simp only [Option.map_eq_some', Option.some.injEq] at hc
  all_goals first
    | (obtain ⟨_, _, hc⟩ := hc
       have h1 := congrArg Prod.fst hc
       simp only [Registry.construct] at h1
       rw [← h1]
       rfl)
    | (have h1 := congrArg Prod.fst hc
       simp only [Registry.construct] at h1
       rw [← h1]
       rfl)

/-- C12. Tags computed from the operands' tags: a node built by `Add_vec_vec(a, b)` or
`Add_vec_scalar(a, b)` is tagged NN exactly when both operands are tagged NN, NP exactly when
both are tagged NP, and Unknown exactly in every other case; a node built by `Neg(a)` is tagged
NP when `a` is NN, NN when `a` is NP, and Unknown when `a` is Unknown. -/
theorem add_neg_tags :
    (∀ (k : BinaryKind) (a b : Expression) (r : Registry) (e : Expression) (r' : Registry),
      (k = .Add_vec_vec ∨ k = .Add_vec_scalar) → k.new a b r = some (e, r') →
        (e.getSign = sign.NN ↔ a.getSign = sign.NN ∧ b.getSign = sign.NN)
        ∧ (e.getSign = sign.NP ↔ a.getSign = sign.NP ∧ b.getSign = sign.NP)
        ∧ (e.getSign = sign.unknown ↔ ¬ (a.getSign = sign.NN ∧ b.getSign = sign.NN)
            ∧ ¬ (a.getSign = sign.NP ∧ b.getSign = sign.NP)))
    ∧ (∀ (a : Expression) (r : Registry) (e : Expression) (r' : Registry),
        UnaryKind.Neg.new a r = some (e, r') →
          (a.getSign = sign.NN → e.getSign = sign.NP)
          ∧ (a.getSign = sign.NP → e.getSign = sign.NN)
          ∧ (a.getSign = sign.unknown → e.getSign = sign.unknown)) := by
  constructor
  · intro k a b r e r' hk hc
    rw [binary_new_sign k a b r e r' hc]
    rcases hk with hk | hk <;> subst hk <;>
      cases a.getSign <;> cases b.getSign <;> simp [BinaryKind.ctorSign, Add.signOf]
  · intro a r e r' hc
    rw [unary_new_sign _ a r e r' hc]
    cases a.getSign <;> simp [UnaryKind.ctorSign]

/-- Witness for C12: `Add_vec_scalar` of an NP vector and an NP scalar Parameter, and `Neg` of
an NN Variable. -/
theorem add_neg_tags_witness :
    ((Expression.binary ⟨3, 2, sign.NP⟩ .Add_vec_scalar (.leaf ⟨1, 2, sign.NP⟩ .Variable)
        (.leaf ⟨2, 1, sign.NP⟩ .Parameter)).getSign = sign.NP ↔
      (Expression.leaf ⟨1, 2, sign.NP⟩ .Variable).getSign = sign.NP
        ∧ (Expression.leaf ⟨2, 1, sign.NP⟩ .Parameter).getSign = sign.NP)
    ∧ ((Expression.leaf ⟨1, 2, sign.NN⟩ .Variable).getSign = sign.NN →
        (Expression.unary ⟨2, 2, sign.NP⟩ .Neg (.leaf ⟨1, 2, sign.NN⟩ .Variable)).getSign
          = sign.NP) :=
  ⟨(add_neg_tags.1 .Add_vec_scalar (.leaf ⟨1, 2, sign.NP⟩ .Variable)
      (.leaf ⟨2, 1, sign.NP⟩ .Parameter)
      ⟨2, [.leaf ⟨1, 2, sign.NP⟩ .Variable, .leaf ⟨2, 1, sign.NP⟩ .Parameter],
        Function.update (fun _ => [0, 0]) 2 [-4]⟩ _ _ (Or.inr rfl) rfl).2.1,
   (add_neg_tags.2 (.leaf ⟨1, 2, sign.NN⟩ .Variable)
      ⟨1, [.leaf ⟨1, 2, sign.NN⟩ .Variable], fun _ => [0, 0]⟩ _ _ rfl).1⟩

/-! ## C13: `Neg` -/

/-- C14 fails on the code: `Parameter([-1, 1])` has a strictly negative and a strictly positive
component, so the reduction over all components gives Unknown, but the constructor's loop
assigns `m_sign` anew at every component and ends with the tag NN of the last one;
`Parameter([1, -1])` ends with NP, `Parameter([-1, 0])`, all of whose components are `≤ 0`, with
NN, and the empty `Parameter([])` keeps Unknown. -/
theorem parameter_tag_is_not_a_reduction :
    (Parameter.new [-1, 1] Registry.initial).1.getSign = sign.NN
    ∧ reducedTag [-1, 1] = sign.unknown
    ∧ (Parameter.new [1, -1] Registry.initial).1.getSign = sign.NP
    ∧ reducedTag [1, -1] = sign.unknown
    ∧ (Parameter.new [-1, 0] Registry.initial).1.getSign = sign.NN
    ∧ reducedTag [-1, 0] = sign.NP := by
  refine ⟨?_, ?_, ?_, ?_, ?_, ?_⟩ <;>
    norm_num [Parameter.new, Registry.construct, Expression.getSign, Expression.header,
      Parameter.signLoop, reducedTag]

/-! ## C15, C16: the leaves -/

/-- C15. A Variable adopts its first argument: a Variable constructed with any dimension and
tag keeps both in its header, `evaluate(x, y)` leaves `x` in its buffer whatever `y` and the tag
are, `evaluate(y, x)` leaves `y`, and no other buffer changes. -/
theorem variable_adopts_first_argument (cm : CMath) (dimension : Nat) (sg : sign)
    (r : Registry) (x y : Vec) (s : Store) :
    (Variable.new dimension sg r).1.getDim = dimension
    ∧ (Variable.new dimension sg r).1.getSign = sg
    ∧ (Variable.new dimension sg r).1.evaluate cm x y s
        = some (Function.update s (Variable.new dimension sg r).1.getID x)
    ∧ (Variable.new dimension sg r).1.evaluate cm y x s
        = some (Function.update s (Variable.new dimension sg r).1.getID y)
    ∧ (Function.update s (Variable.new dimension sg r).1.getID x)
        (Variable.new dimension sg r).1.getID = x := by
  simp [Variable.new, Registry.construct, Expression.getDim, Expression.getSign,
    Expression.getID, Expression.header, Expression.evaluate]

theorem evaluateEach_parameter (cm : CMath) (h : Header) (calls : List (Vec × Vec))
    (s : Store) : (Expression.leaf h .Parameter).evaluateEach cm calls s = some s := by
  unfold Expression.evaluateEach
  induction calls with
  | nil => rfl
  | cons c rest ih => simpa [List.foldlM, Expression.evaluate] using ih

/-- C16. Evaluating a Parameter changes nothing: `Parameter(v)` has dimension `|v|` and value
`v`, and any sequence of `evaluate(x, y)` calls on it returns the store it started from, so the
value is still `v`; the header with dimension and tag is not part of what `evaluate` returns. -/
theorem parameter_evaluate_is_noop (cm : CMath) (v : Vec) (r : Registry)
    (calls : List (Vec × Vec)) :
    (Parameter.new v r).1.getDim = v.length
    ∧ (Parameter.new v r).2.heap (Parameter.new v r).1.getID = v
    ∧ (Parameter.new v r).1.evaluateEach cm calls (Parameter.new v r).2.heap
        = some (Parameter.new v r).2.heap
    ∧ ∀ s : Store, (Parameter.new v r).1.evaluateEach cm calls s = some s := by
  refine ⟨?_, ?_, ?_, ?_⟩
  · simp [Parameter.new, Registry.construct, Expression.getDim, Expression.header]
  · simp [Parameter.new, Registry.construct, Expression.getID, Expression.header]
  · exact evaluateEach_parameter cm _ calls _
  · intro s
    exact evaluateEach_parameter cm _ calls s

/-! ## C17, C18, C19: the constraints -/

theorem scan_prefix (test : ℚ → Bool) (value : Vec) :
    ∀ (n i : Nat), i + n ≤ value.length →
      Constraint.scan test value i n
        = some (decide (∀ c ∈ (value.drop i).take n, test c = false)) := by
  intro n
  induction n with
  | zero =>
    intro i _
    simp [Constraint.scan]
  | succ n ih =>
    intro i hi
    have hlt : i < value.length := by omega
    have hd : value.drop i = value[i] :: value.drop (i + 1) := List.drop_eq_getElem_cons hlt
    have hat : value.at i = some value[i] := at_eq value i hlt
    rw [Constraint.scan, hat, hd, List.take_succ_cons]
    by_cases ht : test value[i] = true
    · simp only [ht, if_true, Option.some_bind, Option.some.injEq]
      symm
      rw [decide_eq_false_iff_not]
      intro hall
      have := hall value[i] (List.mem_cons_self _ _)
      rw [ht] at this
      exact Bool.noConfusion this
    · have hf : test value[i] = false := by simpa using ht
      simp only [hf, Option.some_bind, ih (i + 1) (by omega), Bool.false_eq_true, if_false,
        Option.some.injEq, decide_eq_decide]
      constructor
      · intro hrest c hc
        rcases List.mem_cons.1 hc with hc | hc
        · rw [hc]
          exact hf
        · exact hrest c hc
      · intro hall c hc
        exact hall c (List.mem_cons_of_mem _ hc)

theorem scan_first (test : ℚ → Bool) (value : Vec) (n : Nat) (h : n ≤ value.length) :
    Constraint.scan test value 0 n = some (decide (∀ c ∈ value.take n, test c = false)) := by
  simpa using scan_prefix test value n 0 (by omega)

/-- C17, as stated, fails when the value of the wrapped node is longer than the node's dimension:
the loop of `fulfilled` visits the first `m_dim` components only. For a Variable `v` of dimension
1, `fulfilled([-1, 5], [0])` of `v ≤ 0` leaves the value `[-1, 5]` and returns true although its
component `5` is `> 0`. When the value is shorter than the dimension the loop runs into `at(i)` out
of range: for a Variable of dimension 2, `fulfilled([-1], [0])` returns nothing. -/
theorem gtoe_fulfilled_counterexample :
    GTOEConstraint.fulfilled (Constraint.new (.leaf ⟨1, 1, sign.NP⟩ .Variable)) noLog [-1, 5] [0]
        (fun _ => [0]) = some (true, Function.update (fun _ => [0]) 1 [-1, 5])
    ∧ (∃ c ∈ (Function.update (fun _ => [0]) 1 [-1, 5] : Store) 1, c > 0)
    ∧ GTOEConstraint.fulfilled (Constraint.new (.leaf ⟨1, 2, sign.NP⟩ .Variable)) noLog [-1] [0]
        (fun _ => [0, 0]) = none := by
  refine ⟨?_, ?_, ?_⟩
  · simp only [GTOEConstraint.fulfilled, Constraint.new, Expression.evaluate,
      Expression.getID, Expression.getDim, Expression.header, Option.bind_eq_bind,
      Option.some_bind, Option.pure_def]
    norm_num [Constraint.scan, Vec.at]
  · norm_num
  · simp only [GTOEConstraint.fulfilled, Constraint.new, Expression.evaluate,
      Expression.getID, Expression.getDim, Expression.header, Option.bind_eq_bind,
      Option.some_bind, Option.pure_def]
    norm_num [Constraint.scan, Vec.at]

/-- C17, amended. The `≤ 0` relation (class `GTOEConstraint`) reads the first `m_dim` components:
when the wrapped node evaluated at `(x, y)` leaves a value with at least as many components as the
node's dimension `m_dim`, `fulfilled(x, y)` consists of that evaluation and returns true exactly
when each of the first `m_dim` components of the value is `≤ 0`, false exactly when one of them is
`> 0`; when the value has exactly `m_dim` components, these are all the components of the value; on
a node with value `[-1, 0, 2]` it returns false. -/
theorem gtoe_fulfilled_iff_all_nonpositive (cm : CMath) (e : Expression) (x y : Vec)
    (s s1 : Store) (he : e.evaluate cm x y s = some s1)
    (hl : e.getDim ≤ (s1 e.getID).length) :
    (∃ r, GTOEConstraint.fulfilled (Constraint.new e) cm x y s = some (r, s1)
      ∧ (r = true ↔ ∀ c ∈ (s1 e.getID).take e.getDim, c ≤ 0)
      ∧ (r = false ↔ ∃ c ∈ (s1 e.getID).take e.getDim, c > 0)
      ∧ ((s1 e.getID).length = e.getDim →
          (r = true ↔ ∀ c ∈ s1 e.getID, c ≤ 0)
          ∧ (r = false ↔ ∃ c ∈ s1 e.getID, c > 0)))
    ∧ (GTOEConstraint.fulfilled (Constraint.new (.leaf ⟨1, 3, sign.NN⟩ .Parameter)) cm x y
        (fun _ => [-1, 0, 2])).map (fun p => p.1) = some false := by
  refine ⟨?_, ?_⟩
  · refine ⟨decide (∀ c ∈ (s1 e.getID).take e.getDim, (decide (c > 0)) = false), ?_, ?_, ?_,
      ?_⟩
    · simp only [GTOEConstraint.fulfilled, Constraint.new, he, Option.bind_eq_bind,
        Option.some_bind, scan_first _ _ _ hl, Option.pure_def]
    · simp
    · simp
    · intro hd
      have ht : (s1 e.getID).take e.getDim = s1 e.getID := by
        rw [← hd]
        exact List.take_length _
      rw [ht]
      simp
  all_goals
    simp only [GTOEConstraint.fulfilled, Constraint.new, Expression.evaluate,
      Expression.getID, Expression.getDim, Expression.header, Option.bind_eq_bind,
      Option.some_bind, Option.pure_def]
    norm_num [Constraint.scan, Vec.at]

/-- Witness for C17: on the Variable `v` of dimension 1 at `x = [-1, 5]`, only the first
component of the value enters. -/
theorem gtoe_fulfilled_iff_all_nonpositive_witness :
    ∃ r, GTOEConstraint.fulfilled (Constraint.new (.leaf ⟨1, 1, sign.NP⟩ .Variable)) noLog
        [-1, 5] [0] (fun _ => [0]) = some (r, Function.update (fun _ => [0]) 1 [-1, 5])
      ∧ (r = true ↔ ∀ c ∈ ((Function.update (fun _ => [0]) 1 [-1, 5] : Store)
          (Expression.leaf ⟨1, 1, sign.NP⟩ .Variable).getID).take
            (Expression.leaf ⟨1, 1, sign.NP⟩ .Variable).getDim, c ≤ 0)
      ∧ (r = false ↔ ∃ c ∈ ((Function.update (fun _ => [0]) 1 [-1, 5] : Store)
          (Expression.leaf ⟨1, 1, sign.NP⟩ .Variable).getID).take
            (Expression.leaf ⟨1, 1, sign.NP⟩ .Variable).getDim, c > 0)
      ∧ (((Function.update (fun _ => [0]) 1 [-1, 5] : Store)
          (Expression.leaf ⟨1, 1, sign.NP⟩ .Variable).getID).length
            = (Expression.leaf ⟨1, 1, sign.NP⟩ .Variable).getDim →
          (r = true ↔ ∀ c ∈ (Function.update (fun _ => [0]) 1 [-1, 5] : Store)
            (Expression.leaf ⟨1, 1, sign.NP⟩ .Variable).getID, c ≤ 0)
          ∧ (r = false ↔ ∃ c ∈ (Function.update (fun _ => [0]) 1 [-1, 5] : Store)
            (Expression.leaf ⟨1, 1, sign.NP⟩ .Variable).getID, c > 0)) :=
  (gtoe_fulfilled_iff_all_nonpositive noLog (.leaf ⟨1, 1, sign.NP⟩ .Variable) [-1, 5] [0]
    (fun _ => [0]) (Function.update (fun _ => [0]) 1 [-1, 5])
    (by simp [Expression.evaluate])
    (by simp [Expression.getID, Expression.getDim, Expression.header])).1

/-- C18, as stated, fails when the value of the wrapped node is longer than the node's dimension:
the loop of `fulfilled` visits the first `m_dim` components only. For a Variable `v` of dimension
1, `fulfilled([1, -5], [0])` of `v ≥ 0` leaves the value `[1, -5]` and returns true although its
component `-5` is `< 0`. When the value is shorter than the dimension the loop runs into `at(i)`
out of range: for a Variable of dimension 2, `fulfilled([1], [0])` returns nothing. -/
theorem ltoe_fulfilled_counterexample :
    LTOEConstraint.fulfilled (Constraint.new (.leaf ⟨1, 1, sign.NN⟩ .Variable)) noLog [1, -5] [0]
        (fun _ => [0]) = some (true, Function.update (fun _ => [0]) 1 [1, -5])
    ∧ (∃ c ∈ (Function.update (fun _ => [0]) 1 [1, -5] : Store) 1, c < 0)
    ∧ LTOEConstraint.fulfilled (Constraint.new (.leaf ⟨1, 2, sign.NN⟩ .Variable)) noLog [1] [0]
        (fun _ => [0, 0]) = none := by
  refine ⟨?_, ?_, ?_⟩
  · simp only [LTOEConstraint.fulfilled, Constraint.new, Expression.evaluate,
      Expression.getID, Expression.getDim, Expression.header, Option.bind_eq_bind,
      Option.some_bind, Option.pure_def]
    norm_num [Constraint.scan, Vec.at]
  · norm_num
  · simp only [LTOEConstraint.fulfilled, Constraint.new, Expression.evaluate,
      Expression.getID, Expression.getDim, Expression.header, Option.bind_eq_bind,
      Option.some_bind, Option.pure_def]
    norm_num [Constraint.scan, Vec.at]

/-- C18, amended. The `≥ 0` relation (class `LTOEConstraint`) reads the first `m_dim` components:
when the wrapped node evaluated at `(x, y)` leaves a value with at least as many components as the
node's dimension `m_dim`, `fulfilled(x, y)` consists of that evaluation and returns true exactly
when each of the first `m_dim` components of the value is `≥ 0`, false exactly when one of them is
`< 0`; when the value has exactly `m_dim` components, these are all the components of the value; on
a node with value `[-1, 0, 2]` it returns false. -/
theorem ltoe_fulfilled_iff_all_nonnegative (cm : CMath) (e : Expression) (x y : Vec)
    (s s1 : Store) (he : e.evaluate cm x y s = some s1)
    (hl : e.getDim ≤ (s1 e.getID).length) :
    (∃ r, LTOEConstraint.fulfilled (Constraint.new e) cm x y s = some (r, s1)
      ∧ (r = true ↔ ∀ c ∈ (s1 e.getID).take e.getDim, c ≥ 0)
      ∧ (r = false ↔ ∃ c ∈ (s1 e.getID).take e.getDim, c < 0)
      ∧ ((s1 e.getID).length = e.getDim →
          (r = true ↔ ∀ c ∈ s1 e.getID, c ≥ 0)
          ∧ (r = false ↔ ∃ c ∈ s1 e.getID, c < 0)))
    ∧ (LTOEConstraint.fulfilled (Constraint.new (.leaf ⟨1, 3, sign.NN⟩ .Parameter)) cm x y
        (fun _ => [-1, 0, 2])).map (fun p => p.1) = some false := by
  refine ⟨?_, ?_⟩
  · refine ⟨decide (∀ c ∈ (s1 e.getID).take e.getDim, (decide (c < 0)) = false), ?_, ?_, ?_,
      ?_⟩
    · simp only [LTOEConstraint.fulfilled, Constraint.new, he, Option.bind_eq_bind,
        Option.some_bind, scan_first _ _ _ hl, Option.pure_def]
    · simp
    · simp
    · intro hd
      have ht : (s1 e.getID).take e.getDim = s1 e.getID := by
        rw [← hd]
        exact List.take_length _
      rw [ht]
      simp
  all_goals
    simp only [LTOEConstraint.fulfilled, Constraint.new, Expression.evaluate,
      Expression.getID, Expression.getDim, Expression.header, Option.bind_eq_bind,
      Option.some_bind, Option.pure_def]
    norm_num [Constraint.scan, Vec.at]

/-- Witness for C18: on the Variable `v` of dimension 1 at `x = [1, -5]`, only the first
component of the value enters. -/
theorem ltoe_fulfilled_iff_all_nonnegative_witness :
    ∃ r, LTOEConstraint.fulfilled (Constraint.new (.leaf ⟨1, 1, sign.NN⟩ .Variable)) noLog
        [1, -5] [0] (fun _ => [0]) = some (r, Function.update (fun _ => [0]) 1 [1, -5])
      ∧ (r = true ↔ ∀ c ∈ ((Function.update (fun _ => [0]) 1 [1, -5] : Store)
          (Expression.leaf ⟨1, 1, sign.NN⟩ .Variable).getID).take
            (Expression.leaf ⟨1, 1, sign.NN⟩ .Variable).getDim, c ≥ 0)
      ∧ (r = false ↔ ∃ c ∈ ((Function.update (fun _ => [0]) 1 [1, -5] : Store)
          (Expression.leaf ⟨1, 1, sign.NN⟩ .Variable).getID).take
            (Expression.leaf ⟨1, 1, sign.NN⟩ .Variable).getDim, c < 0)
      ∧ (((Function.update (fun _ => [0]) 1 [1, -5] : Store)
          (Expression.leaf ⟨1, 1, sign.NN⟩ .Variable).getID).length
            = (Expression.leaf ⟨1, 1, sign.NN⟩ .Variable).getDim →
          (r = true ↔ ∀ c ∈ (Function.update (fun _ => [0]) 1 [1, -5] : Store)
            (Expression.leaf ⟨1, 1, sign.NN⟩ .Variable).getID, c ≥ 0)
          ∧ (r = false ↔ ∃ c ∈ (Function.update (fun _ => [0]) 1 [1, -5] : Store)
            (Expression.leaf ⟨1, 1, sign.NN⟩ .Variable).getID, c < 0)) :=
  (ltoe_fulfilled_iff_all_nonnegative noLog (.leaf ⟨1, 1, sign.NN⟩ .Variable) [1, -5] [0]
    (fun _ => [0]) (Function.update (fun _ => [0]) 1 [1, -5])
    (by simp [Expression.evaluate])
    (by simp [Expression.getID, Expression.getDim, Expression.header])).1

/-- C19, as stated, fails when the value of the wrapped node is longer than the node's dimension:
the loop of `fulfilled` visits the first `m_dim` components only. For a Variable `v` of dimension
1, `fulfilled([1, 0], [0])` of `v ≠ 0` leaves the value `[1, 0]` and returns true although its
component `0` equals zero. When the value is shorter than the dimension the loop runs into `at(i)`
out of range: for a Variable of dimension 2, `fulfilled([1], [0])` returns nothing. -/
theorem inequality_fulfilled_counterexample :
    InequalityConstraint.fulfilled (Constraint.new (.leaf ⟨1, 1, sign.NN⟩ .Variable)) noLog [1, 0] [0]
        (fun _ => [0]) = some (true, Function.update (fun _ => [0]) 1 [1, 0])
    ∧ (∃ c ∈ (Function.update (fun _ => [0]) 1 [1, 0] : Store) 1, c = 0)
    ∧ InequalityConstraint.fulfilled (Constraint.new (.leaf ⟨1, 2, sign.NN⟩ .Variable)) noLog [1] [0]
        (fun _ => [0, 0]) = none := by
  refine ⟨?_, ?_, ?_⟩
  · simp only [InequalityConstraint.fulfilled, Constraint.new, Expression.evaluate,
      Expression.getID, Expression.getDim, Expression.header, Option.bind_eq_bind,
      Option.some_bind, Option.pure_def]
    norm_num [Constraint.scan, Vec.at]
  · norm_num
  · simp only [InequalityConstraint.fulfilled, Constraint.new, Expression.evaluate,
      Expression.getID, Expression.getDim, Expression.header, Option.bind_eq_bind,
      Option.some_bind, Option.pure_def]
    norm_num [Constraint.scan, Vec.at]

/-- C19, amended. `InequalityConstraint` treats a zero among the first `m_dim` components as a
failure: when the wrapped node evaluated at `(x, y)` leaves a value with at least as many
components as the node's dimension `m_dim`, `fulfilled(x, y)` consists of that evaluation and
returns false exactly when one of the first `m_dim` components of the value equals zero, true
exactly when none of them does; when the value has exactly `m_dim` components, these are all the
components of the value; `[1, 2]` is fulfilled, `[0, 0]` and `[-1, 0, 2]` are not. -/
theorem inequality_fulfilled_iff_no_zero (cm : CMath) (e : Expression) (x y : Vec)
    (s s1 : Store) (he : e.evaluate cm x y s = some s1)
    (hl : e.getDim ≤ (s1 e.getID).length) :
    (∃ r, InequalityConstraint.fulfilled (Constraint.new e) cm x y s = some (r, s1)
      ∧ (r = false ↔ ∃ c ∈ (s1 e.getID).take e.getDim, c = 0)
      ∧ (r = true ↔ ∀ c ∈ (s1 e.getID).take e.getDim, c ≠ 0)
      ∧ ((s1 e.getID).length = e.getDim →
          (r = false ↔ ∃ c ∈ s1 e.getID, c = 0)
          ∧ (r = true ↔ ∀ c ∈ s1 e.getID, c ≠ 0)))
    ∧ (InequalityConstraint.fulfilled (Constraint.new (.leaf ⟨1, 2, sign.NN⟩ .Parameter)) cm x y
        (fun _ => [1, 2])).map (fun p => p.1) = some true
    ∧ (InequalityConstraint.fulfilled (Constraint.new (.leaf ⟨1, 2, sign.NN⟩ .Parameter)) cm x y
        (fun _ => [0, 0])).map (fun p => p.1) = some false
    ∧ (InequalityConstraint.fulfilled (Constraint.new (.leaf ⟨1, 3, sign.NN⟩ .Parameter)) cm x y
        (fun _ => [-1, 0, 2])).map (fun p => p.1) = some false := by
  refine ⟨?_, ?_, ?_, ?_⟩
  · refine ⟨decide (∀ c ∈ (s1 e.getID).take e.getDim, (decide (c = 0)) = false), ?_, ?_, ?_,
      ?_⟩
    · simp only [InequalityConstraint.fulfilled, Constraint.new, he, Option.bind_eq_bind,
        Option.some_bind, scan_first _ _ _ hl, Option.pure_def]
    · simp
    · simp
    · intro hd
      have ht : (s1 e.getID).take e.getDim = s1 e.getID := by
        rw [← hd]
        exact List.take_length _
      rw [ht]
      simp
  all_goals
    simp only [InequalityConstraint.fulfilled, Constraint.new, Expression.evaluate,
      Expression.getID, Expression.getDim, Expression.header, Option.bind_eq_bind,
      Option.some_bind, Option.pure_def]
    norm_num [Constraint.scan, Vec.at]

/-- Witness for C19: on the Variable `v` of dimension 1 at `x = [1, 0]`, only the first
component of the value enters. -/
theorem inequality_fulfilled_iff_no_zero_witness :
    ∃ r, InequalityConstraint.fulfilled (Constraint.new (.leaf ⟨1, 1, sign.NN⟩ .Variable)) noLog
        [1, 0] [0] (fun _ => [0]) = some (r, Function.update (fun _ => [0]) 1 [1, 0])
      ∧ (r = false ↔ ∃ c ∈ ((Function.update (fun _ => [0]) 1 [1, 0] : Store)
          (Expression.leaf ⟨1, 1, sign.NN⟩ .Variable).getID).take
            (Expression.leaf ⟨1, 1, sign.NN⟩ .Variable).getDim, c = 0)
      ∧ (r = true ↔ ∀ c ∈ ((Function.update (fun _ => [0]) 1 [1, 0] : Store)
          (Expression.leaf ⟨1, 1, sign.NN⟩ .Variable).getID).take
            (Expression.leaf ⟨1, 1, sign.NN⟩ .Variable).getDim, c ≠ 0)
      ∧ (((Function.update (fun _ => [0]) 1 [1, 0] : Store)
          (Expression.leaf ⟨1, 1, sign.NN⟩ .Variable).getID).length
            = (Expression.leaf ⟨1, 1, sign.NN⟩ .Variable).getDim →
          (r = false ↔ ∃ c ∈ (Function.update (fun _ => [0]) 1 [1, 0] : Store)
            (Expression.leaf ⟨1, 1, sign.NN⟩ .Variable).getID, c = 0)
          ∧ (r = true ↔ ∀ c ∈ (Function.update (fun _ => [0]) 1 [1, 0] : Store)
            (Expression.leaf ⟨1, 1, sign.NN⟩ .Variable).getID, c ≠ 0)) :=
  (inequality_fulfilled_iff_no_zero noLog (.leaf ⟨1, 1, sign.NN⟩ .Variable) [1, 0] [0]
    (fun _ => [0]) (Function.update (fun _ => [0]) 1 [1, 0])
    (by simp [Expression.evaluate])
    (by simp [Expression.getID, Expression.getDim, Expression.header])).1

/-! ## C20: `evaluate_me` -/

/-- C20, as stated, fails: `Parameter([5, 7])` has dimension 2, and `evaluate_me` on it returns
the number 5 instead of failing. -/
theorem evaluate_me_accepts_dimension_two :
    (Parameter.new [5, 7] Registry.initial).1.getDim = 2
    ∧ ((Parameter.new [5, 7] Registry.initial).1.evaluate_me noLog [0] [0]
        (Parameter.new [5, 7] Registry.initial).2.heap).map (fun p => p.1) = some 5 := by
  constructor
  · rfl
  · simp [Parameter.new, Registry.construct, Registry.initial, Expression.evaluate_me,
      Expression.evaluate, Expression.getID, Expression.header, Vec.at]

/-- C20, amended: `evaluate_me` makes no test of the dimension.  For every node and all `x`,
`y` it evaluates the node at `(x, y)` and returns component 0 of the node's value, whatever the
node's dimension is; it fails exactly when the evaluation fails or leaves an empty value. -/
theorem evaluate_me_returns_first_component (cm : CMath) (e : Expression) (x y : Vec)
    (s : Store) :
    (∀ (s1 : Store) (c : ℚ) (rest : Vec), e.evaluate cm x y s = some s1 →
      s1 e.getID = c :: rest → e.evaluate_me cm x y s = some (c, s1))
    ∧ (e.evaluate_me cm x y s = none ↔
        e.evaluate cm x y s = none ∨ ∃ s1, e.evaluate cm x y s = some s1 ∧ s1 e.getID = []) := by
  constructor
  · intro s1 c rest he hv
    simp [Expression.evaluate_me, he, hv, Vec.at]
  · cases he : e.evaluate cm x y s with
    | none => simp [Expression.evaluate_me, he]
    | some s1 =>
      cases hv : s1 e.getID with
      | nil => simp [Expression.evaluate_me, he, hv, Vec.at]
      | cons c rest => simp [Expression.evaluate_me, he, hv, Vec.at]

/-- Witness for the amended C20: the sum of two Parameters, of dimension 3, at which
`evaluate_me` returns the first component 5 of `[5, 7, 9]`. -/
theorem evaluate_me_returns_first_component_witness :
    (Expression.binary ⟨3, 3, sign.NN⟩ .Add_vec_vec (.leaf ⟨1, 3, sign.NN⟩ .Parameter)
        (.leaf ⟨2, 3, sign.NN⟩ .Parameter)).evaluate_me noLog [0] [0]
        (Function.update (Function.update (fun _ => [0, 0, 0]) 1 [1, 2, 3]) 2 [4, 5, 6])
      = some (5, Function.update
          (Function.update (Function.update (fun _ => [0, 0, 0]) 1 [1, 2, 3]) 2 [4, 5, 6])
          3 [5, 7, 9]) :=
  (evaluate_me_returns_first_component noLog
      (Expression.binary ⟨3, 3, sign.NN⟩ .Add_vec_vec (.leaf ⟨1, 3, sign.NN⟩ .Parameter)
        (.leaf ⟨2, 3, sign.NN⟩ .Parameter)) [0] [0]
      (Function.update (Function.update (fun _ => [0, 0, 0]) 1 [1, 2, 3]) 2 [4, 5, 6])).1
    _ 5 [7, 9]
    (by
      simp only [Expression.evaluate, BinaryKind.evaluate, Add_vec_vec.evaluate,
        Expression.getID, Expression.header, Option.bind_eq_bind, Option.some_bind]
      simp only [Function.update_apply]
      norm_num [transform2_plus])
    (by simp [Expression.getID, Expression.header])

/-! ## C21, C22: the expression list of an objective -/

mutual
theorem add_to_expr_list_acc : ∀ (e : Expression) (acc : List Expression),
    e.add_to_expr_list acc = acc ++ e.add_to_expr_list []
  | .leaf h k, acc => by simp [Expression.add_to_expr_list]
  | .unary h k a, acc => by
      simp only [Expression.add_to_expr_list]
      rw [add_to_expr_list_acc a acc]
      simp
  | .binary h k a b, acc => by
      simp only [Expression.add_to_expr_list]
      rw [add_to_expr_list_acc b (a.add_to_expr_list acc), add_to_expr_list_acc a acc,
        add_to_expr_list_acc b (a.add_to_expr_list [])]
      simp
  | .list h args, acc => by
      simp only [Expression.add_to_expr_list]
      rw [add_each_acc args acc]
      simp
theorem add_each_acc : ∀ (l acc : List Expression),
    add_each_to_expr_list l acc = acc ++ add_each_to_expr_list l []
  | [], acc => by simp [add_each_to_expr_list]
  | a :: rest, acc => by
      simp only [add_each_to_expr_list]
      rw [add_each_acc rest (a.add_to_expr_list acc), add_to_expr_list_acc a acc,
        add_each_acc rest (a.add_to_expr_list [])]
      simp
end

theorem operandsSeen_mono (l : List Expression) :
    ∀ (seen seen' : List Nat), (∀ x ∈ seen, x ∈ seen') → operandsSeen l seen →
      operandsSeen l seen' := by
  induction l with
  | nil => intro _ _ _ _; trivial
  | cons e rest ih =>
    intro seen seen' hsub h
    refine ⟨fun o ho => hsub _ (h.1 o ho), ih _ _ ?_ h.2⟩
    intro x hx
    rcases List.mem_cons.1 hx with hx | hx
    · exact List.mem_cons.2 (Or.inl hx)
    · exact List.mem_cons.2 (Or.inr (hsub x hx))

theorem operandsSeen_append (l1 : List Expression) :
    ∀ (l2 : List Expression) (seen : List Nat),
      operandsSeen (l1 ++ l2) seen ↔
        operandsSeen l1 seen ∧ operandsSeen l2 ((l1.map Expression.getID).reverse ++ seen) := by
  induction l1 with
  | nil => intro l2 seen; simp [operandsSeen]
  | cons e rest ih =>
    intro l2 seen
    simp only [List.cons_append, operandsSeen, List.append_eq, ih, List.map_cons,
      List.reverse_cons, List.append_assoc, List.singleton_append, List.nil_append, and_assoc]

theorem dedups_trans (l1 l2 l3 : List Expression) (h12 : Dedups l1 l2) (h23 : Dedups l2 l3) :
    Dedups l1 l3 := by
  induction h12 with
  | refl l => exact h23
  | step pre post d d' l' hm hid _ ih => exact Dedups.step pre post d d' l3 hm hid (ih h23)

theorem dedups_length (l l' : List Expression) (h : Dedups l l') : l'.length ≤ l.length := by
  induction h with
  | refl l => exact le_refl _
  | step pre post d d' l' _ _ _ ih =>
    simp only [List.length_append, List.length_cons] at ih ⊢
    omega

theorem dedups_ids (l l' : List Expression) (h : Dedups l l') :
    ∀ x, x ∈ l.map Expression.getID → x ∈ l'.map Expression.getID := by
  induction h with
  | refl l => intro x hx; exact hx
  | step pre post d d' l' hm hid _ ih =>
    intro x hx
    apply ih
    simp only [List.map_append, List.map_cons, List.mem_append, List.mem_cons,
      List.mem_map] at hx ⊢
    rcases hx with hx | hx | hx
    · exact Or.inl hx
    · exact Or.inl ⟨d', hm, by rw [hid, hx]⟩
    · exact Or.inr hx

theorem dedups_operandsSeen (l l' : List Expression) (h : Dedups l l') :
    ∀ seen, operandsSeen l seen → operandsSeen l' seen := by
  induction h with
  | refl l => intro seen hs; exact hs
  | step pre post d d' l' hm hid _ ih =>
    intro seen hs
    apply ih
    rw [operandsSeen_append] at hs ⊢
    refine ⟨hs.1, ?_⟩
    have h2 := hs.2.2
    refine operandsSeen_mono post _ _ ?_ h2
    intro x hx
    rcases List.mem_cons.1 hx with hx | hx
    · rw [hx, ← hid]
      exact List.mem_append.2 (Or.inl (List.mem_reverse.2 (List.mem_map.2 ⟨d', hm, rfl⟩)))
    · exact hx

theorem eraseLoop_spec (i : Nat) :
    ∀ (n j : Nat) (l : List Expression), i < j → l.length ≤ j + n →
      ∃ l', eraseLoop i n j l = some l' ∧ Dedups l l' := by
  intro n
  induction n with
  | zero =>
    intro j l _ hn
    exact ⟨l, by simp [eraseLoop]; omega, Dedups.refl l⟩
  | succ n ih =>
    intro j l hij hn
    by_cases hj : j < l.length
    · have hi : i < l.length := by omega
      have gi : l.get? i = some l[i] := List.get?_eq_get hi
      have gj : l.get? j = some l[j] := List.get?_eq_get hj
      have gi' : l[i]? = some l[i] := List.getElem?_eq_getElem hi
      have gj' : l[j]? = some l[j] := List.getElem?_eq_getElem hj
      by_cases hid : l[i].getID = l[j].getID
      · obtain ⟨l', h1, h2⟩ := ih (j + 1) (l.eraseIdx j) (by omega)
          (by rw [List.length_eraseIdx]; simp only [hj, if_true]; omega)
        refine ⟨l', by simp [eraseLoop, hj, gi, gj, gi', gj', hid, h1], ?_⟩
        have hsplit : l = l.take j ++ l[j] :: l.drop (j + 1) := by
          rw [← List.drop_eq_getElem_cons hj, List.take_append_drop]
        have herase : l.eraseIdx j = l.take j ++ l.drop (j + 1) :=
          List.eraseIdx_eq_take_drop_succ l j
        rw [herase] at h2
        have hmem : l[i] ∈ l.take j := by
          rw [List.mem_take_iff_getElem]
          exact ⟨i, by simp; omega, rfl⟩
        have := Dedups.step (l.take j) (l.drop (j + 1)) l[j] l[i] l' hmem hid h2
        rwa [← hsplit] at this
      · obtain ⟨l', h1, h2⟩ := ih (j + 1) l (by omega) (by omega)
        exact ⟨l', by simp [eraseLoop, hj, gi, gj, gi', gj', hid, h1], h2⟩
    · exact ⟨l, by simp [eraseLoop, hj], Dedups.refl l⟩

theorem dedupLoop_spec :
    ∀ (n i : Nat) (l : List Expression), l.length ≤ i + n →
      ∃ l', dedupLoop n i l = some l' ∧ Dedups l l' := by
  intro n
  induction n with
  | zero =>
    intro i l hn
    exact ⟨l, by simp [dedupLoop]; omega, Dedups.refl l⟩
  | succ n ih =>
    intro i l hn
    by_cases hi : i < l.length
    · obtain ⟨l1, h1, d1⟩ := eraseLoop_spec i l.length (i + 1) l (by omega) (by omega)
      have hlen := dedups_length l l1 d1
      obtain ⟨l2, h2, d2⟩ := ih (i + 1) l1 (by omega)
      exact ⟨l2, by simp [dedupLoop, hi, h1, h2], dedups_trans _ _ _ d1 d2⟩
    · exact ⟨l, by simp [dedupLoop, hi], Dedups.refl l⟩

theorem post_unary (h : Header) (k : UnaryKind) (a : Expression) :
    (Expression.unary h k a).add_to_expr_list []
      = a.add_to_expr_list [] ++ [Expression.unary h k a] := by
  simp [Expression.add_to_expr_list]

theorem post_binary (h : Header) (k : BinaryKind) (a b : Expression) :
    (Expression.binary h k a b).add_to_expr_list []
      = a.add_to_expr_list [] ++ (b.add_to_expr_list [] ++ [Expression.binary h k a b]) := by
  simp only [Expression.add_to_expr_list]
  rw [add_to_expr_list_acc b (a.add_to_expr_list [])]
  simp

theorem post_list (h : Header) (args : List Expression) :
    (Expression.list h args).add_to_expr_list []
      = add_each_to_expr_list args [] ++ [Expression.list h args] := by
  simp [Expression.add_to_expr_list]

theorem add_each_cons (a : Expression) (rest : List Expression) :
    add_each_to_expr_list (a :: rest) []
      = a.add_to_expr_list [] ++ add_each_to_expr_list rest [] := by
  simp only [add_each_to_expr_list]
  rw [add_each_acc rest (a.add_to_expr_list [])]

theorem seen_snoc (children : List Expression) (node : Expression) (seen : List Nat)
    (hc : operandsSeen children seen)
    (ha : ∀ o ∈ node.getArgs, o ∈ children) : operandsSeen (children ++ [node]) seen := by
  rw [operandsSeen_append]
  refine ⟨hc, ?_, trivial⟩
  intro o ho
  exact List.mem_append.2 (Or.inl (List.mem_reverse.2 (List.mem_map.2 ⟨o, ha o ho, rfl⟩)))

mutual
theorem post_seen : ∀ (e : Expression) (seen : List Nat),
    operandsSeen (e.add_to_expr_list []) seen ∧ e ∈ e.add_to_expr_list []
  | .leaf h k, seen => by
      simp [Expression.add_to_expr_list, operandsSeen, Expression.getArgs]
  | .unary h k a, seen => by
      rw [post_unary]
      refine ⟨seen_snoc _ _ _ (post_seen a seen).1 ?_, by simp⟩
      intro o ho
      simp only [Expression.getArgs, List.mem_singleton] at ho
      rw [ho]
      exact (post_seen a seen).2
  | .binary h k a b, seen => by
      rw [post_binary, ← List.append_assoc]
      refine ⟨seen_snoc _ _ _ ?_ ?_, by simp⟩
      · rw [operandsSeen_append]
        exact ⟨(post_seen a seen).1, (post_seen b _).1⟩
      · intro o ho
        simp only [Expression.getArgs, List.mem_cons, List.mem_singleton, List.not_mem_nil,
          or_false] at ho
        rcases ho with ho | ho
        · rw [ho]
          exact List.mem_append.2 (Or.inl (post_seen a seen).2)
        · rw [ho]
          exact List.mem_append.2 (Or.inr (post_seen b seen).2)
  | .list h args, seen => by
      rw [post_list]
      refine ⟨seen_snoc _ _ _ (each_seen args seen).1 ?_, by simp⟩
      intro o ho
      exact (each_seen args seen).2 o ho
theorem each_seen : ∀ (l : List Expression) (seen : List Nat),
    operandsSeen (add_each_to_expr_list l []) seen ∧ ∀ a ∈ l, a ∈ add_each_to_expr_list l []
  | [], seen => by simp [add_each_to_expr_list, operandsSeen]
  | a :: rest, seen => by
      rw [add_each_cons]
      refine ⟨?_, ?_⟩
      · rw [operandsSeen_append]
        exact ⟨(post_seen a seen).1, (each_seen rest _).1⟩
      · intro o ho
        rcases List.mem_cons.1 ho with ho | ho
        · rw [ho]
          exact List.mem_append.2 (Or.inl (post_seen a seen).2)
        · exact List.mem_append.2 (Or.inr ((each_seen rest seen).2 o ho))
end

theorem each_subset (l : List Expression) :
    ∀ a ∈ l, ∀ n ∈ a.add_to_expr_list [], n ∈ add_each_to_expr_list l [] := by
  induction l with
  | nil => intro a ha; exact absurd ha (List.not_mem_nil a)
  | cons b rest ih =>
    intro a ha n hn
    rw [add_each_cons]
    rcases List.mem_cons.1 ha with ha | ha
    · rw [ha] at hn
      exact List.mem_append.2 (Or.inl hn)
    · exact List.mem_append.2 (Or.inr (ih a ha n hn))

theorem args_post_subset (e a : Expression) (ha : a ∈ e.getArgs) :
    ∀ n ∈ a.add_to_expr_list [], n ∈ e.add_to_expr_list [] := by
  intro n hn
  cases e with
  | leaf h k => simp [Expression.getArgs] at ha
  | unary h k b =>
    simp only [Expression.getArgs, List.mem_singleton] at ha
    rw [post_unary, ← ha]
    exact List.mem_append.2 (Or.inl hn)
  | binary h k b c =>
    simp only [Expression.getArgs, List.mem_cons, List.mem_singleton, List.not_mem_nil,
      or_false] at ha
    rw [post_binary]
    rcases ha with ha | ha
    · rw [← ha]
      exact List.mem_append.2 (Or.inl hn)
    · rw [← ha]
      exact List.mem_append.2 (Or.inr (List.mem_append.2 (Or.inl hn)))
  | list h args =>
    rw [post_list]
    exact List.mem_append.2 (Or.inl (each_subset args a ha n hn))

theorem reaches_mem (e n : Expression) (h : Reaches e n) : n ∈ e.add_to_expr_list [] := by
  induction h with
  | self e => exact (post_seen e []).2
  | operand e a n ha _ ih => exact args_post_subset e a ha n ih

theorem findElementFrom_mem (vec : List Slot) :
    ∀ (i id : Nat), id ∈ vec.map (fun v => v.node.getID) →
      ∃ k, k < vec.length ∧ findElementFrom vec i id = ((i + k : Nat) : Int) := by
  induction vec with
  | nil => intro i id h; simp at h
  | cons v rest ih =>
    intro i id h
    by_cases hv : v.node.getID = id
    · exact ⟨0, by simp, by simp [findElementFrom, hv]⟩
    · have hr : id ∈ rest.map (fun v => v.node.getID) := by
        simp only [List.map_cons, List.mem_cons] at h
        rcases h with h | h
        · exact absurd h.symm hv
        · exact h
      obtain ⟨k, hk, hf⟩ := ih (i + 1) id hr
      refine ⟨k + 1, by simp [hk], ?_⟩
      simp only [findElementFrom, hv, if_false, hf]
      congr 1
      omega

theorem rebindArguments_ok (container : List Slot) (args : List Expression)
    (h : ∀ o ∈ args, o.getID ∈ container.map (fun v => v.node.getID)) :
    ∃ tmp, rebindArguments container args = Outcome.ok tmp := by
  induction args with
  | nil => exact ⟨[], rfl⟩
  | cons arg rest ih =>
    obtain ⟨tmp, ht⟩ := ih (fun o ho => h o (List.mem_cons_of_mem _ ho))
    obtain ⟨k, hk, hf⟩ := findElementFrom_mem container 0 arg.getID
      (h arg (List.mem_cons_self _ _))
    have hat : containerAt container (findElementGetIndex container arg.getID)
        = some container[k] := by
      simp [containerAt, findElementGetIndex, hf, List.getElem?_eq_getElem hk]
    exact ⟨(findElementGetIndex container arg.getID).toNat :: tmp,
      by simp only [rebindArguments, hat, ht]⟩

theorem compactStep_ok (container : List Slot) (e : Expression)
    (h : ∀ o ∈ e.getArgs, o.getID ∈ container.map (fun v => v.node.getID)) :
    ∃ tmp, compactStep container e = Outcome.ok (container ++ [⟨e, tmp⟩]) := by
  cases e with
  | leaf hd k => exact ⟨[], rfl⟩
  | unary hd k a =>
    obtain ⟨tmp, ht⟩ := rebindArguments_ok container _ h
    exact ⟨tmp, by simp only [compactStep, ht]⟩
  | binary hd k a b =>
    obtain ⟨tmp, ht⟩ := rebindArguments_ok container _ h
    exact ⟨tmp, by simp only [compactStep, ht]⟩
  | list hd args =>
    obtain ⟨tmp, ht⟩ := rebindArguments_ok container _ h
    exact ⟨tmp, by simp only [compactStep, ht]⟩

theorem compactLoop_ok (l : List Expression) :
    ∀ (container : List Slot) (seen : List Nat),
      (∀ x ∈ seen, x ∈ container.map (fun v => v.node.getID)) → operandsSeen l seen →
      ∃ array, compactLoop l container = Outcome.ok array
        ∧ array.map (fun v => v.node) = container.map (fun v => v.node) ++ l := by
  induction l with
  | nil => intro container seen _ _; exact ⟨container, rfl, by simp⟩
  | cons e rest ih =>
    intro container seen hsub hs
    obtain ⟨tmp, ht⟩ := compactStep_ok container e (fun o ho => hsub _ (hs.1 o ho))
    obtain ⟨array, ha, hm⟩ := ih (container ++ [⟨e, tmp⟩]) (e.getID :: seen)
      (by
        intro x hx
        simp only [List.map_append, List.map_cons, List.map_nil, List.mem_append,
          List.mem_singleton]
        rcases List.mem_cons.1 hx with hx | hx
        · exact Or.inr hx
        · exact Or.inl (hsub x hx))
      hs.2
    exact ⟨array, by simp only [compactLoop, ht, ha], by simpa using hm⟩

theorem operandsSeen_index (l : List Expression) :
    ∀ (seen : List Nat), operandsSeen l seen →
      ∀ (p : Nat) (hp : p < l.length), ∀ o ∈ l[p].getArgs,
        o.getID ∈ seen ∨ ∃ (q : Nat) (hq : q < l.length), q < p ∧ l[q].getID = o.getID := by
  induction l with
  | nil => intro seen _ p hp; simp at hp
  | cons e rest ih =>
    intro seen hs p hp o ho
    cases p with
    | zero => exact Or.inl (hs.1 o ho)
    | succ p =>
      have hp' : p < rest.length := by simpa using hp
      rcases ih (e.getID :: seen) hs.2 p hp' o (by simpa using ho) with h | ⟨q, hq, hqp, hid⟩
      · rcases List.mem_cons.1 h with h | h
        · exact Or.inr ⟨0, by simp, by omega, by simp [h]⟩
        · exact Or.inl h
      · exact Or.inr ⟨q + 1, by simp [hq], by omega, by simpa using hid⟩

/-- C22. Dependency order of objective-rooted compaction: for every objective,
`get_expression_list()` returns a list in which every node reachable from the objective occurs
(by identifier) and every operand of the element at position `p` has its identifier at some
position `q < p`; and `get_variant_vector(objective)` finds every operand it looks up: it
returns an array with one copy per element of that list, in the same order. -/
theorem expression_list_in_dependency_order (objective : Expression) :
    ∃ out, objective.get_expression_list = some out
      ∧ (∀ n, Reaches objective n → n.getID ∈ out.map Expression.getID)
      ∧ (∀ (p : Nat) (hp : p < out.length), ∀ o ∈ out[p].getArgs,
          ∃ (q : Nat) (hq : q < out.length), q < p ∧ out[q].getID = o.getID)
      ∧ ∃ array, get_variant_vector_of objective = Outcome.ok array
          ∧ array.map (fun v => v.node) = out := by
  obtain ⟨out, h1, hd⟩ := dedupLoop_spec (objective.add_to_expr_list []).length 0
    (objective.add_to_expr_list []) (by omega)
  have hs : operandsSeen out [] :=
    dedups_operandsSeen _ _ hd [] (post_seen objective []).1
  refine ⟨out, h1, ?_, ?_, ?_⟩
  · intro n hn
    exact dedups_ids _ _ hd _ (List.mem_map.2 ⟨n, reaches_mem objective n hn, rfl⟩)
  · intro p hp o ho
    rcases operandsSeen_index out [] hs p hp o ho with h | h
    · exact absurd h (List.not_mem_nil _)
    · exact h
  · obtain ⟨array, ha, hm⟩ := compactLoop_ok out [] [] (fun x hx => absurd hx
      (List.not_mem_nil x)) hs
    refine ⟨array, ?_, by simpa using hm⟩
    have h1' : objective.get_expression_list = some out := h1
    simp only [get_variant_vector_of, h1', ha]

/-- C21 fails on the code, on the example of the claim: for `Add(a, Add(a, a))` the traversal
lists `a, a, a, Add(a, a), Add(a, Add(a, a))` (identifiers `1, 1, 1, 2, 3`), and the erasing
loop leaves `1, 1, 2, 3`: after `erase(begin() + j)` at `j = 1` the loop increments `j`, so the
third `a`, which has moved to position 1, is never compared.  `get_variant_vector(objective)`
then builds an array with two slots for `a`. -/
theorem expression_list_keeps_a_duplicate :
    ((Expression.binary ⟨3, 1, sign.NN⟩ .Add_vec_vec (.leaf ⟨1, 1, sign.NN⟩ .Variable)
      (.binary ⟨2, 1, sign.NN⟩ .Add_vec_vec (.leaf ⟨1, 1, sign.NN⟩ .Variable)
        (.leaf ⟨1, 1, sign.NN⟩ .Variable))).add_to_expr_list []).map Expression.getID
      = [1, 1, 1, 2, 3]
    ∧ ((Expression.binary ⟨3, 1, sign.NN⟩ .Add_vec_vec (.leaf ⟨1, 1, sign.NN⟩ .Variable)
      (.binary ⟨2, 1, sign.NN⟩ .Add_vec_vec (.leaf ⟨1, 1, sign.NN⟩ .Variable)
        (.leaf ⟨1, 1, sign.NN⟩ .Variable))).get_expression_list).map
        (fun l => l.map Expression.getID) = some [1, 1, 2, 3]
    ∧ (match get_variant_vector_of
        (Expression.binary ⟨3, 1, sign.NN⟩ .Add_vec_vec (.leaf ⟨1, 1, sign.NN⟩ .Variable)
          (.binary ⟨2, 1, sign.NN⟩ .Add_vec_vec (.leaf ⟨1, 1, sign.NN⟩ .Variable)
            (.leaf ⟨1, 1, sign.NN⟩ .Variable))) with
        | .ok array => array.map (fun v => (v.node.getID, v.m_arguments))
        | _ => []) = [(1, []), (1, []), (2, [0, 0]), (3, [0, 2])]
    ∧ ¬ ([1, 1, 2, 3] : List Nat).Nodup := by
  refine ⟨rfl, rfl, rfl, by decide⟩

/-! ## C23: the rebinding copy constructors -/

/-- C23 fails on the code for the nine `Div_Vec_Scalar` classes: for
`Div_VecNN_ScalarNN(a, b)` with `a = Parameter([6, 8])`, `b = Parameter([2])` the original node
yields `[3, 4]`, but its copy `Div_VecNN_ScalarNN(old, {a, b})` yields `[1, 4/3]`: the copy
constructor of `Div_Vec_Scalar` sets `m_arg2val = &arguments.at(0)->getValue()->at(0)`, so the
copy divides by the first component of the dividend.  The copy constructors of the other
families take `m_arg2val` from `arguments.at(1)`, and there the copy evaluates as the
original. -/
theorem copy_of_div_vec_scalar_reads_operand_0 :
    ((Expression.binary ⟨3, 2, sign.NN⟩ .Div_VecNN_ScalarNN (.leaf ⟨1, 2, sign.NN⟩ .Parameter)
        (.leaf ⟨2, 1, sign.NN⟩ .Parameter)).evaluate noLog [0] [0]
        (Function.update (Function.update (fun _ => [0, 0]) 1 [6, 8]) 2 [2])).map
          (fun s => s 3) = some [3, 4]
    ∧ (BinaryKind.evaluateCopy .Div_VecNN_ScalarNN ⟨3, 2, sign.NN⟩ noLog
        [.leaf ⟨1, 2, sign.NN⟩ .Parameter, .leaf ⟨2, 1, sign.NN⟩ .Parameter] [0] [0]
        (Function.update (Function.update (fun _ => [0, 0]) 1 [6, 8]) 2 [2])).map
          (fun s => s 3) = some [1, 4 / 3]
    ∧ (∀ (k : BinaryKind) (self : Header) (cm : CMath) (a b : Expression) (x y : Vec)
        (s : Store) (p : ValuePointers), k.family ≠ Family.div_vec_scalar →
          k.family.copyPointers [a, b] s = some p →
            k.evaluateCopy self cm [a, b] x y s
              = (Expression.binary self k a b).evaluate cm x y s) := by
  refine ⟨?_, ?_, ?_⟩
  · simp only [Expression.evaluate, BinaryKind.evaluate, Div_VecNN_ScalarNN.evaluate,
      Expression.getID, Expression.header, Option.bind_eq_bind, Option.some_bind]
    simp only [Function.update_apply]
    norm_num [transform1, overScalar, collect, divides, Vec.at]
  · simp only [BinaryKind.evaluateCopy, BinaryKind.evaluateThrough, BinaryKind.family,
      Family.copyPointers, BinaryKind.evaluate, Div_VecNN_ScalarNN.evaluate, Expression.evaluate,
      Expression.getID, Expression.header, Option.bind_eq_bind, Option.some_bind,
      List.get?_cons_zero, List.get?_cons_succ, Option.pure_def]
    simp only [Function.update_apply]
    norm_num [transform1, overScalar, collect, divides, Vec.at]
  · intro k self cm a b x y s p hk hp
    have hp' : p = ⟨a.getID, b.getID⟩ := by
      cases hf : k.family <;>
        simp only [hf, Family.copyPointers, Option.bind_eq_bind, List.get?_cons_zero,
          List.get?_cons_succ, Option.some_bind, Option.pure_def, Option.bind_eq_some,
          Option.some.injEq, exists_and_right, ne_eq, not_true_eq_false] at hp hk
      all_goals first
        | exact hp.symm
        | (obtain ⟨_, hp⟩ := hp; exact hp.symm)
    simp only [BinaryKind.evaluateCopy, hp, Option.bind_eq_bind, Option.some_bind,
      List.get?_cons_zero, List.get?_cons_succ, BinaryKind.evaluateThrough, hp',
      Expression.evaluate]

/-! ## C24: a lookup miss during compaction -/

theorem findElementFrom_miss (vec : List Slot) :
    ∀ (i id : Nat), id ∉ vec.map (fun v => v.node.getID) → findElementFrom vec i id = -1 := by
  induction vec with
  | nil => intro i id _; rfl
  | cons v rest ih =>
    intro i id h
    simp only [List.map_cons, List.mem_cons, not_or] at h
    simp only [findElementFrom, Ne.symm h.1, if_false]
    exact ih (i + 1) id h.2

theorem rebindArguments_miss (container : List Slot) (args : List Expression)
    (h : ∃ o ∈ args, o.getID ∉ container.map (fun v => v.node.getID)) :
    rebindArguments container args = Outcome.thrown := by
  induction args with
  | nil => obtain ⟨o, ho, _⟩ := h; exact absurd ho (List.not_mem_nil o)
  | cons arg rest ih =>
    by_cases ha : arg.getID ∈ container.map (fun v => v.node.getID)
    · have hr : ∃ o ∈ rest, o.getID ∉ container.map (fun v => v.node.getID) := by
        obtain ⟨o, ho, hn⟩ := h
        rcases List.mem_cons.1 ho with ho | ho
        · rw [ho] at hn
          exact absurd ha hn
        · exact ⟨o, ho, hn⟩
      simp only [rebindArguments, ih hr]
      cases containerAt container (findElementGetIndex container arg.getID) <;> rfl
    · simp [rebindArguments, findElementGetIndex, findElementFrom_miss container 0 _ ha,
        containerAt]

/-- C24 fails on the code in its second half.  An operand that `get_variant_vector` does not
find makes `contiguousStorageContainer.at(-1)` throw, so no array is returned; but
`get_variant_vector_constraints` guards the lookup with `if (index != -1)` and, on a miss,
goes on to build the constraint from the pointer `basePointer` that was never assigned: for the
constraint `v ≤ 0` on a Variable `v` and an empty array the call does not end in an exception
but in undefined behaviour. -/
theorem constraint_lookup_miss_is_not_an_error :
    (∀ (container : List Slot) (func : Expression) (o : Expression),
      o ∈ func.getArgs → o.getID ∉ container.map (fun v => v.node.getID) →
        compactStep container func = Outcome.thrown)
    ∧ (∀ (list_of_expressions : List Slot) (constr : ConstraintKind × Constraint)
        (rest : List (ConstraintKind × Constraint)),
        constr.2.m_constraint.getID ∉ list_of_expressions.map (fun v => v.node.getID) →
          get_variant_vector_constraints (constr :: rest) list_of_expressions
            = Outcome.undefined)
    ∧ get_variant_vector_constraints
        [(ConstraintKind.GTOEConstraint, Constraint.new (.leaf ⟨1, 1, sign.NP⟩ .Variable))] []
        = Outcome.undefined := by
  refine ⟨?_, ?_, rfl⟩
  · intro container func o ho hn
    have hm := rebindArguments_miss container func.getArgs ⟨o, ho, hn⟩
    cases func with
    | leaf h k => simp [Expression.getArgs] at ho
    | unary h k a => simp only [compactStep, hm]
    | binary h k a b => simp only [compactStep, hm]
    | list h args => simp only [compactStep, hm]
  · intro list_of_expressions constr rest hn
    simp [get_variant_vector_constraints, constraintStep, findElementGetIndex,
      findElementFrom_miss list_of_expressions 0 _ hn]

/-! ## C25: dependence on earlier evaluations -/

/-- C25 fails on the code for `Div_ScalarU_VecNN` and `Div_ScalarU_VecNP`: both branches of
their `evaluate` call `m_arguments.at(0)->evaluate`, the vector operand `m_arguments.at(1)` is
never evaluated, and its value is read as an earlier call left it.  For
`Div_ScalarU_VecNN(a, b)` on two Variables, `evaluate([6], [6])` yields `[2]` when `b` was last
evaluated at `[3]` and `[3]` when `b` was last evaluated at `[2]`; the same holds for
`Div_ScalarU_VecNP`.  The sign-definite siblings such as `Div_ScalarNN_VecNN` evaluate both
operands. -/
theorem div_ScalarU_reads_stale_operand :
    (((Expression.leaf ⟨2, 1, sign.NN⟩ .Variable).evaluate noLog [3] [3] (fun _ => [0])).bind
        ((Expression.binary ⟨3, 1, sign.unknown⟩ .Div_ScalarU_VecNN
          (.leaf ⟨1, 1, sign.unknown⟩ .Variable) (.leaf ⟨2, 1, sign.NN⟩ .Variable)).evaluate
          noLog [6] [6])).map (fun s => s 3) = some [2]
    ∧ (((Expression.leaf ⟨2, 1, sign.NN⟩ .Variable).evaluate noLog [2] [2] (fun _ => [0])).bind
        ((Expression.binary ⟨3, 1, sign.unknown⟩ .Div_ScalarU_VecNN
          (.leaf ⟨1, 1, sign.unknown⟩ .Variable) (.leaf ⟨2, 1, sign.NN⟩ .Variable)).evaluate
          noLog [6] [6])).map (fun s => s 3) = some [3]
    ∧ (((Expression.leaf ⟨2, 1, sign.NP⟩ .Variable).evaluate noLog [-3] [-3]
        (fun _ => [0])).bind
        ((Expression.binary ⟨3, 1, sign.unknown⟩ .Div_ScalarU_VecNP
          (.leaf ⟨1, 1, sign.unknown⟩ .Variable) (.leaf ⟨2, 1, sign.NP⟩ .Variable)).evaluate
          noLog [6] [6])).map (fun s => s 3) = some [-2]
    ∧ (((Expression.leaf ⟨2, 1, sign.NP⟩ .Variable).evaluate noLog [-2] [-2]
        (fun _ => [0])).bind
        ((Expression.binary ⟨3, 1, sign.unknown⟩ .Div_ScalarU_VecNP
          (.leaf ⟨1, 1, sign.unknown⟩ .Variable) (.leaf ⟨2, 1, sign.NP⟩ .Variable)).evaluate
          noLog [6] [6])).map (fun s => s 3) = some [-3] := by
  refine ⟨?_, ?_, ?_, ?_⟩
  all_goals
    simp only [Expression.evaluate, BinaryKind.evaluate, Div_ScalarU_VecNN.evaluate,
      Div_ScalarU_VecNP.evaluate, Expression.getID, Expression.header, Option.bind_eq_bind,
      Option.some_bind]
    simp only [Function.update_apply]
    norm_num [transform1, scalarOver, collect, divides, Vec.at]

/-! ## C26: identifiers -/

theorem constructEach_spec (ctors : List ((Nat → Expression) × Vec)) :
    ∀ (r : Registry), (∀ c ∈ ctors, ∀ i, (c.1 i).getID = i) →
      (r.constructEach ctors).uid_counter = r.uid_counter + ctors.length
      ∧ ∃ made, (r.constructEach ctors).expression_list = r.expression_list ++ made
          ∧ made.map Expression.getID = List.range' (r.uid_counter + 1) ctors.length := by
  induction ctors with
  | nil => intro r _; exact ⟨rfl, [], by simp [Registry.constructEach], rfl⟩
  | cons c rest ih =>
    intro r h
    obtain ⟨h1, made, h2, h3⟩ := ih (r.construct c.1 c.2).2
      (fun c' hc' => h c' (List.mem_cons_of_mem _ hc'))
    simp only [Registry.construct] at h1 h2 h3
    refine ⟨?_, c.1 (r.uid_counter + 1) :: made, ?_, ?_⟩
    · simp only [Registry.constructEach, Registry.construct, h1, List.length_cons]
      omega
    · simp only [Registry.constructEach, Registry.construct, h2, List.append_assoc,
        List.singleton_append]
    · simp only [List.map_cons, h (c) (List.mem_cons_self _ _), h3, List.length_cons,
        List.range'_succ]

/-- C26. Identifiers are unique and monotone: after `n` constructions from the empty registry
with the counter at 0 the counter is `n`, the registry lists the `n` nodes in the order of
construction and their identifiers are `1, 2, ..., n` (the `k`-th node constructed has
identifier `k`), hence strictly increasing and pairwise distinct; copying a node keeps its
identifier and leaves counter and registry as they are. -/
theorem identifiers_unique_and_monotone (ctors : List ((Nat → Expression) × Vec))
    (hid : ∀ c ∈ ctors, ∀ i, (c.1 i).getID = i) :
    (Registry.initial.constructEach ctors).uid_counter = ctors.length
    ∧ (Registry.initial.constructEach ctors).expression_list.map Expression.getID
        = List.range' 1 ctors.length
    ∧ ((Registry.initial.constructEach ctors).expression_list.map Expression.getID).Pairwise
        (fun i j => i < j)
    ∧ ((Registry.initial.constructEach ctors).expression_list.map Expression.getID).Nodup
    ∧ (∀ (r : Registry) (old : Expression),
        (r.copy old).1.getID = old.getID ∧ (r.copy old).2 = r) := by
  obtain ⟨h1, made, h2, h3⟩ := constructEach_spec ctors Registry.initial hid
  have hids : (Registry.initial.constructEach ctors).expression_list.map Expression.getID
      = List.range' 1 ctors.length := by
    rw [h2]
    simpa [Registry.initial] using h3
  refine ⟨by simpa [Registry.initial] using h1, hids, ?_, ?_, fun r old => ⟨rfl, rfl⟩⟩
  · rw [hids]
    exact List.pairwise_lt_range' 1 ctors.length
  · rw [hids]
    exact List.nodup_range' 1 ctors.length

/-- Witness for C26: a Parameter, a Variable and their sum receive the identifiers 1, 2, 3. -/
theorem identifiers_unique_and_monotone_witness :
    (Registry.initial.constructEach
      [(fun m_id => Expression.leaf ⟨m_id, 2, sign.NN⟩ .Parameter, [1, 2]),
       (fun m_id => Expression.leaf ⟨m_id, 2, sign.NN⟩ .Variable, [0, 0]),
       (fun m_id => Expression.binary ⟨m_id, 2, sign.NN⟩ .Add_vec_vec
          (.leaf ⟨1, 2, sign.NN⟩ .Parameter) (.leaf ⟨2, 2, sign.NN⟩ .Variable),
          [0, 0])]).expression_list.map Expression.getID = List.range' 1 3 :=
  (identifiers_unique_and_monotone
      [(fun m_id => Expression.leaf ⟨m_id, 2, sign.NN⟩ .Parameter, [1, 2]),
       (fun m_id => Expression.leaf ⟨m_id, 2, sign.NN⟩ .Variable, [0, 0]),
       (fun m_id => Expression.binary ⟨m_id, 2, sign.NN⟩ .Add_vec_vec
          (.leaf ⟨1, 2, sign.NN⟩ .Parameter) (.leaf ⟨2, 2, sign.NN⟩ .Variable),
          [0, 0])]
      (by
        intro c hc i
        simp only [List.mem_cons, List.mem_singleton, List.not_mem_nil, or_false] at hc
        rcases hc with hc | hc | hc <;> rw [hc] <;> rfl)).2.1

/-! ## Lengths of the buffers written by `evaluate` -/

theorem collect_len (l : List (Option ℚ)) : ∀ r, collect l = some r → r.length = l.length := by
  induction l with
  | nil => intro r h; simp only [collect, Option.some.injEq] at h; subst h; rfl
  | cons o rest ih =>
    intro r h
    cases o with
    | none => simp [collect] at h
    | some c =>
      simp only [collect, Option.map_eq_some'] at h
      obtain ⟨r', hr', he⟩ := h
      rw [← he, List.length_cons, ih r' hr', List.length_cons]

theorem transform2_len (op : ℚ → ℚ → Option ℚ) (a b out r : Vec)
    (h : transform2 op a b out = some r) : r.length = out.length := by
  unfold transform2 at h
  split at h
  · rename_i hc
    simp only [Option.map_eq_some'] at h
    obtain ⟨r', hr', he⟩ := h
    have := collect_len _ r' hr'
    rw [← he]
    simp only [List.length_append, List.length_drop, this, List.length_zipWith]
    omega
  · exact absurd h (by simp)

theorem transform1_len (op : ℚ → Option ℚ) (a out r : Vec)
    (h : transform1 op a out = some r) : r.length = out.length := by
  unfold transform1 at h
  split at h
  · rename_i hc
    simp only [Option.map_eq_some'] at h
    obtain ⟨r', hr', he⟩ := h
    have := collect_len _ r' hr'
    rw [← he]
    simp only [List.length_append, List.length_drop, this, List.length_map]
    omega
  · exact absurd h (by simp)

theorem write_len (v : Vec) (i : Nat) (c : ℚ) (r : Vec) (h : v.write i c = some r) :
    r.length = v.length := by
  unfold Vec.write at h
  split at h
  · simp only [Option.some.injEq] at h
    rw [← h, List.length_set]
  · exact absurd h (by simp)

theorem setInner_len (a b out r : Vec) (h : setInner a b out = some r) :
    r.length = out.length := by
  simp only [setInner, Option.bind_eq_bind, Option.bind_eq_some] at h
  obtain ⟨_, _, h⟩ := h
  exact write_len _ _ _ _ h

theorem addInner_len (a b out r : Vec) (h : addInner a b out = some r) :
    r.length = out.length := by
  simp only [addInner, Option.bind_eq_bind, Option.bind_eq_some] at h
  obtain ⟨_, _, _, _, h⟩ := h
  exact write_len _ _ _ _ h

theorem accInner_len (a b out r : Vec) (h : accInner a b out = some r) :
    r.length = out.length := by
  simp only [accInner, Option.bind_eq_bind, Option.bind_eq_some] at h
  obtain ⟨_, _, _, _, h⟩ := h
  exact write_len _ _ _ _ h

theorem setRow_len (cols : Nat) (m : Matrix) (v : Vec) (row : Nat) (out r : Vec)
    (h : setRow cols m v row out = some r) : r.length = out.length := by
  simp only [setRow, Option.bind_eq_bind, Option.bind_eq_some] at h
  obtain ⟨_, _, _, _, h⟩ := h
  exact write_len _ _ _ _ h

theorem accRow_len (cols : Nat) (m : Matrix) (v : Vec) (row : Nat) (out r : Vec)
    (h : accRow cols m v row out = some r) : r.length = out.length := by
  simp only [accRow, Option.bind_eq_bind, Option.bind_eq_some] at h
  obtain ⟨_, _, _, _, _, _, h⟩ := h
  exact write_len _ _ _ _ h

theorem forLoop_len (body : Nat → Vec → Option Vec)
    (hbody : ∀ i v r, body i v = some r → r.length = v.length) :
    ∀ (n : Nat) (out r : Vec), forLoop n body out = some r → r.length = out.length := by
  intro n
  induction n with
  | zero =>
    intro out r h
    simp only [forLoop_zero, Option.some.injEq] at h
    rw [h]
  | succ n ih =>
    intro out r h
    rw [forLoop_succ, Option.bind_eq_some] at h
    obtain ⟨mid, h1, h2⟩ := h
    rw [hbody n mid r h2, ih out mid h1]

theorem rowLoop1_len (m : Matrix) (v : Vec) (n : Nat) (out r : Vec)
    (h : forLoop n (rowBody1 m v) out = some r) : r.length = out.length :=
  forLoop_len _ (fun _ _ _ hb => setRow_len _ _ _ _ _ _ hb) n out r h

theorem rowLoop2_len (cols : Nat) (m1 : Matrix) (v1 : Vec) (m2 : Matrix) (v2 : Vec) (n : Nat)
    (out r : Vec) (h : forLoop n (rowBody2 cols m1 v1 m2 v2) out = some r) :
    r.length = out.length := by
  refine forLoop_len _ ?_ n out r h
  intro i w r' hb
  simp only [rowBody2, Option.bind_eq_bind, Option.bind_eq_some] at hb
  obtain ⟨w1, h1, h2⟩ := hb
  rw [accRow_len _ _ _ _ _ _ h2, setRow_len _ _ _ _ _ _ h1]

theorem rowLoop4_len (cols : Nat) (m1 : Matrix) (v1 : Vec) (m2 : Matrix) (v2 : Vec)
    (m3 : Matrix) (v3 : Vec) (m4 : Matrix) (v4 : Vec) (n : Nat) (out r : Vec)
    (h : forLoop n (rowBody4 cols m1 v1 m2 v2 m3 v3 m4 v4) out = some r) :
    r.length = out.length := by
  refine forLoop_len _ ?_ n out r h
  intro i w r' hb
  simp only [rowBody4, Option.bind_eq_bind, Option.bind_eq_some] at hb
  obtain ⟨w1, h1, w2, h2, w3, h3, h4⟩ := hb
  rw [accRow_len _ _ _ _ _ _ h4, accRow_len _ _ _ _ _ _ h3, accRow_len _ _ _ _ _ _ h2,
    setRow_len _ _ _ _ _ _ h1]

theorem of_bind_write (o : Option ℚ) (f : ℚ → Option Vec) (v r : Vec)
    (hf : ∀ c w, f c = some w → w.length = v.length) (h : o.bind f = some r) :
    r.length = v.length := by
  rw [Option.bind_eq_some] at h
  obtain ⟨c, _, h⟩ := h
  exact hf c r h

theorem bind_len {α : Type} (o : Option α) (f : α → Option Vec) (n : Nat)
    (hf : ∀ c r, f c = some r → r.length = n) : ∀ r, (o >>= f) = some r → r.length = n := by
  intro r h
  cases o with
  | none => exact absurd h (by simp)
  | some c => exact hf c r h

theorem divVecU_body_len (own swap : Split4) (i : Nat) (v : Vec) :
    ∀ r, Div_VecU_VecU.body own swap i v = some r → r.length = v.length := by
  unfold Div_VecU_VecU.body
  repeat' (first
    | (intro r h; exact write_len _ _ _ _ h)
    | refine bind_len _ _ _ (fun _ => ?_)
    | split)

theorem divScalarU_body_len (a_first : ℚ) (arg1val b_ge b_lt b_swap_ge b_swap_lt : Vec)
    (i : Nat) (v : Vec) :
    ∀ r, Div_ScalarU_VecU.body a_first arg1val b_ge b_lt b_swap_ge b_swap_lt i v = some r →
      r.length = v.length := by
  unfold Div_ScalarU_VecU.body
  repeat' (first
    | (intro r h; exact write_len _ _ _ _ h)
    | refine bind_len _ _ _ (fun _ => ?_)
    | split)

theorem divVecU_loop_len (own swap : Split4) (n : Nat) (out r : Vec)
    (h : forLoop n (Div_VecU_VecU.body own swap) out = some r) : r.length = out.length :=
  forLoop_len _ (fun i v r' hb => divVecU_body_len own swap i v r' hb) n out r h

theorem divScalarU_loop_len (a_first : ℚ) (arg1val b_ge b_lt b_swap_ge b_swap_lt : Vec)
    (n : Nat) (out r : Vec)
    (h : forLoop n (Div_ScalarU_VecU.body a_first arg1val b_ge b_lt b_swap_ge b_swap_lt) out
      = some r) : r.length = out.length :=
  forLoop_len _ (fun i v r' hb => divScalarU_body_len _ _ _ _ _ _ i v r' hb) n out r h

/-! ## Lengths of the value buffers -/

theorem bind_elim {α β : Type} (o : Option α) (f : α → Option β) (P : β → Prop)
    (hf : ∀ c, o = some c → ∀ r, f c = some r → P r) : ∀ r, (o >>= f) = some r → P r := by
  intro r h
  cases o with
  | none => exact absurd h (by simp)
  | some c => exact hf c rfl r h

theorem keeps_ite (j : Nat) (a : Arg)
    (ka : ∀ p q t u, a.evaluate p q t = some u → (u j).length = (t j).length)
    (c : Prop) [Decidable c] (p q p' q' : Vec) (t u : Store)
    (h : (if c then a.evaluate p q t else a.evaluate p' q' t) = some u) :
    (u j).length = (t j).length := by
  split at h
  · exact ka _ _ _ _ h
  · exact ka _ _ _ _ h

set_option maxHeartbeats 4000000 in
/-- The body of a two-operand class changes the length of no buffer whose length the operands'
`evaluate` leave alone: it writes its own buffer entry by entry and no other buffer. -/
theorem binary_keeps_length (k : BinaryKind) (self : Header) (a b : Arg) (x y : Vec)
    (s : Store) (j : Nat)
    (ka : ∀ p q t u, a.evaluate p q t = some u → (u j).length = (t j).length)
    (kb : ∀ p q t u, b.evaluate p q t = some u → (u j).length = (t j).length) :
    ∀ r, k.evaluate self a b x y s = some r → (r j).length = (s j).length := by
  cases k
  all_goals simp only [BinaryKind.evaluate]
  all_goals first
    | unfold Add_vec_vec.evaluate
    | unfold Add_vec_scalar.evaluate
    | unfold Mult_vecNN_vecNN.evaluate
    | unfold Mult_vecNP_vecNP.evaluate
    | unfold Mult_vecNN_vecNP.evaluate
    | unfold Mult_vecU_vecNN.evaluate
    | unfold Mult_vecU_vecNP.evaluate
    | unfold Mult_vecU_vecU.evaluate
    | unfold Mult_vecNN_scalarNN.evaluate
    | unfold Mult_vecNP_scalarNP.evaluate
    | unfold Mult_vecNN_scalarNP.evaluate
    | unfold Mult_vecNP_scalarNN.evaluate
    | unfold Mult_vecU_scalarNN.evaluate
    | unfold Mult_vecNN_scalarU.evaluate
    | unfold Mult_vecU_scalarNP.evaluate
    | unfold Mult_vecNP_scalarU.evaluate
    | unfold Mult_vecU_scalarU.evaluate
    | unfold Div_VecNN_ScalarNN.evaluate
    | unfold Div_VecNP_ScalarNP.evaluate
    | unfold Div_VecNN_ScalarNP.evaluate
    | unfold Div_VecNP_ScalarNN.evaluate
    | unfold Div_VecU_ScalarNN.evaluate
    | unfold Div_VecU_ScalarNP.evaluate
    | unfold Div_VecNN_ScalarU.evaluate
    | unfold Div_VecNP_ScalarU.evaluate
    | unfold Div_VecU_ScalarU.evaluate
    | unfold Div_VecNN_VecNN.evaluate
    | unfold Div_VecNP_VecNP.evaluate
    | unfold Div_VecNN_VecNP.evaluate
    | unfold Div_VecNP_VecNN.evaluate
    | unfold Div_VecU_VecNN.evaluate
    | unfold Div_VecU_VecNP.evaluate
    | unfold Div_VecNN_VecU.evaluate
    | unfold Div_VecNP_VecU.evaluate
    | unfold Div_VecU_VecU.evaluate
    | unfold Div_ScalarNN_VecNN.evaluate
    | unfold Div_ScalarNP_VecNP.evaluate
    | unfold Div_ScalarNN_VecNP.evaluate
    | unfold Div_ScalarNP_VecNN.evaluate
    | unfold Div_ScalarU_VecNN.evaluate
    | unfold Div_ScalarU_VecNP.evaluate
    | unfold Div_ScalarNN_VecU.evaluate
    | unfold Div_ScalarNP_VecU.evaluate
    | unfold Div_ScalarU_VecU.evaluate
    | unfold Dot_NN_NN.evaluate
    | unfold Dot_NP_NP.evaluate
    | unfold Dot_NN_NP.evaluate
    | unfold Dot_U_NN.evaluate
    | unfold Dot_U_NP.evaluate
    | unfold Dot_U_U.evaluate
    | unfold Mult_MatNN_VecNN.evaluate
    | unfold Mult_MatNP_VecNP.evaluate
    | unfold Mult_MatNN_VecNP.evaluate
    | unfold Mult_MatNP_VecNN.evaluate
    | unfold Mult_MatU_VecNN.evaluate
    | unfold Mult_MatU_VecNP.evaluate
    | unfold Mult_MatNN_VecU.evaluate
    | unfold Mult_MatNP_VecU.evaluate
    | unfold Mult_MatU_VecU.evaluate
  all_goals
    repeat' (first
      | (refine bind_elim _ _ _ (fun c hc => ?_)
         first
           | have f := ka _ _ _ _ hc
           | have f := kb _ _ _ _ hc
           | have f := keeps_ite _ _ ka _ _ _ _ _ _ _ hc
           | have f := transform2_len _ _ _ _ _ hc
           | have f := transform1_len _ _ _ _ hc
           | have f := rowLoop1_len _ _ _ _ _ hc
           | have f := rowLoop2_len _ _ _ _ _ _ _ _ hc
           | have f := rowLoop4_len _ _ _ _ _ _ _ _ _ _ _ _ hc
           | have f := divVecU_loop_len _ _ _ _ _ hc
           | have f := divScalarU_loop_len _ _ _ _ _ _ _ _ _ hc
           | have f := setInner_len _ _ _ _ hc
           | have f := addInner_len _ _ _ _ hc
           | have f := accInner_len _ _ _ _ hc
           | have f := write_len _ _ _ _ hc
           | skip)
      | split
      | dsimp only
      | (intro r h
         simp only [Option.pure_def, Option.some.injEq] at h
         subst h
         rw [Function.update_apply]
         split
         · subst_vars
           omega
         · omega))

/-- The body of a one-operand class, likewise. -/
theorem unary_keeps_length (cm : CMath) (k : UnaryKind) (self : Header) (a : Arg) (x y : Vec)
    (s : Store) (j : Nat)
    (ka : ∀ p q t u, a.evaluate p q t = some u → (u j).length = (t j).length) :
    ∀ r, k.evaluate cm self a x y s = some r → (r j).length = (s j).length := by
  cases k
  all_goals simp only [UnaryKind.evaluate]
  all_goals first
    | unfold Inv.evaluate
    | unfold Log2.evaluate
    | unfold LogN.evaluate
    | unfold Neg.evaluate
    | unfold Prod.evaluate
    | unfold Sum.evaluate
    | unfold Sliced.evaluate
  all_goals
    repeat' (first
      | (refine bind_elim _ _ _ (fun c hc => ?_)
         first
           | have f := ka _ _ _ _ hc
           | have f := keeps_ite _ _ ka _ _ _ _ _ _ _ hc
           | have f := transform2_len _ _ _ _ _ hc
           | have f := transform1_len _ _ _ _ hc
           | have f := rowLoop1_len _ _ _ _ _ hc
           | have f := rowLoop2_len _ _ _ _ _ _ _ _ hc
           | have f := rowLoop4_len _ _ _ _ _ _ _ _ _ _ _ _ hc
           | have f := divVecU_loop_len _ _ _ _ _ hc
           | have f := divScalarU_loop_len _ _ _ _ _ _ _ _ _ hc
           | have f := setInner_len _ _ _ _ hc
           | have f := addInner_len _ _ _ _ hc
           | have f := accInner_len _ _ _ _ hc
           | have f := write_len _ _ _ _ hc
           | skip)
      | split
      | dsimp only
      | (intro r h
         simp only [Option.pure_def, Option.some.injEq] at h
         subst h
         rw [Function.update_apply]
         split
         · subst_vars
           omega
         · omega))

mutual
/-- The virtual `evaluate` changes the length of no buffer other than those of the Variables
below the node. -/
theorem evaluate_keeps_lengths (cm : CMath) (j : Nat) :
    ∀ (e : Expression) (x y : Vec) (s u : Store),
      (∀ h, Reaches e (.leaf h .Variable) → h.m_id ≠ j) →
      e.evaluate cm x y s = some u → (u j).length = (s j).length
  | .leaf h .Variable, x, y, s, u, hv, he => by
      have hne := hv h (Reaches.self _)
      simp only [Expression.evaluate, Option.some.injEq] at he
      subst he
      rw [Function.update_noteq (Ne.symm hne)]
  | .leaf h .Parameter, x, y, s, u, hv, he => by
      simp only [Expression.evaluate, Option.some.injEq] at he
      subst he
      rfl
  | .leaf h (.MultiDimParameter m), x, y, s, u, hv, he => by
      simp only [Expression.evaluate, Option.some.injEq] at he
      subst he
      rfl
  | .unary h k a, x, y, s, u, hv, he => by
      simp only [Expression.evaluate] at he
      refine unary_keeps_length cm k h _ x y s j (fun p q t v hh => ?_) u he
      exact evaluate_keeps_lengths cm j a p q t v
        (fun h' hr => hv h' (Reaches.operand _ a _ (by simp [Expression.getArgs]) hr)) hh
  | .binary h k a b, x, y, s, u, hv, he => by
      simp only [Expression.evaluate] at he
      refine binary_keeps_length k h _ _ x y s j (fun p q t v hh => ?_) (fun p q t v hh => ?_)
        u he
      · exact evaluate_keeps_lengths cm j a p q t v
          (fun h' hr => hv h' (Reaches.operand _ a _ (by simp [Expression.getArgs]) hr)) hh
      · exact evaluate_keeps_lengths cm j b p q t v
          (fun h' hr => hv h' (Reaches.operand _ b _ (by simp [Expression.getArgs]) hr)) hh
  | .list h m_arguments, x, y, s, u, hv, he => by
      simp only [Expression.evaluate] at he
      exact list_keeps_lengths cm j h m_arguments 0 x y s u
        (fun a ha h' hr =>
          hv h' (Reaches.operand _ a _ (by simpa [Expression.getArgs] using ha) hr)) he
/-- The loop of `List::evaluate`, likewise. -/
theorem list_keeps_lengths (cm : CMath) (j : Nat) (self : Header) :
    ∀ (m_arguments : List Expression) (i : Nat) (x y : Vec) (s u : Store),
      (∀ a ∈ m_arguments, ∀ h, Reaches a (.leaf h .Variable) → h.m_id ≠ j) →
      List_evaluate cm self m_arguments i x y s = some u → (u j).length = (s j).length
  | [], i, x, y, s, u, hv, he => by
      simp only [List_evaluate] at he
      split at he
      · exact absurd he (by simp)
      · simp only [Option.some.injEq] at he
        subst he
        rfl
  | a :: rest, i, x, y, s, u, hv, he => by
      simp only [List_evaluate] at he
      split at he
      · simp only [Option.bind_eq_bind, Option.bind_eq_some] at he
        obtain ⟨s1, e1, c, e2, mv, e3, e4⟩ := he
        have f1 := evaluate_keeps_lengths cm j a x y s s1
          (fun h' hr => hv a (List.mem_cons_self _ _) h' hr) e1
        have f3 := write_len _ _ _ _ e3
        have f4 := list_keeps_lengths cm j self rest (i + 1) x y _ u
          (fun a' ha' h' hr => hv a' (List.mem_cons_of_mem _ ha') h' hr) e4
        rw [Function.update_apply] at f4
        split at f4
        · subst_vars
          omega
        · omega
      · simp only [Option.some.injEq] at he
        subst he
        rfl
end

theorem binary_new_length (k : BinaryKind) (a b : Expression) (r : Registry) (e : Expression)
    (r' : Registry) (hc : k.new a b r = some (e, r')) :
    (r'.heap e.getID).length = e.getDim := by
  unfold BinaryKind.new at hc
  cases hf : k.family <;> simp only [hf, Option.map_eq_some', Option.some.injEq] at hc
  all_goals first
    | (obtain ⟨_, _, hc⟩ := hc
       have h1 := congrArg Prod.fst hc
       have h2 := congrArg Prod.snd hc
       simp only [Registry.construct] at h1 h2
       rw [← h1, ← h2]
       simp [Expression.getID, Expression.getDim, Expression.header, zeros])
    | (have h1 := congrArg Prod.fst hc
       have h2 := congrArg Prod.snd hc
       simp only [Registry.construct] at h1 h2
       rw [← h1, ← h2]
       simp [Expression.getID, Expression.getDim, Expression.header, zeros])

theorem unary_new_length (k : UnaryKind) (a : Expression) (r : Registry) (e : Expression)
    (r' : Registry) (hc : k.new a r = some (e, r')) :
    (r'.heap e.getID).length = e.getDim := by
  unfold UnaryKind.new at hc
  cases k <;> simp only [Option.map_eq_some', Option.some.injEq] at hc
  all_goals first
    | (obtain ⟨_, _, hc⟩ := hc
       have h1 := congrArg Prod.fst hc
       have h2 := congrArg Prod.snd hc
       simp only [Registry.construct] at h1 h2
       rw [← h1, ← h2]
       simp [Expression.getID, Expression.getDim, Expression.header, zeros])
    | (have h1 := congrArg Prod.fst hc
       have h2 := congrArg Prod.snd hc
       simp only [Registry.construct] at h1 h2
       rw [← h1, ← h2]
       simp [Expression.getID, Expression.getDim, Expression.header, zeros])

/-- C27, counterexample. A Variable declared with dimension 2 has a value of length 2 right after
construction, and a value of length 3 after `evaluate(x, y)` with `x` of length 3:
`Variable::evaluate` is the assignment `m_value = x_in`. -/
theorem variable_value_takes_the_length_of_x :
    (Variable.new 2 sign.NN Registry.initial).1.getDim = 2
    ∧ ((Variable.new 2 sign.NN Registry.initial).2.heap
        (Variable.new 2 sign.NN Registry.initial).1.getID).length = 2
    ∧ ∃ u, (Variable.new 2 sign.NN Registry.initial).1.evaluate noLog [1, 2, 3] [4, 5]
          (Variable.new 2 sign.NN Registry.initial).2.heap = some u
        ∧ u (Variable.new 2 sign.NN Registry.initial).1.getID = [1, 2, 3]
        ∧ (u (Variable.new 2 sign.NN Registry.initial).1.getID).length
            ≠ (Variable.new 2 sign.NN Registry.initial).1.getDim :=
  ⟨rfl, rfl, _, rfl, rfl, by decide⟩

/-- C27, amended. Right after construction the value of a node of every kind has the length of
its declared dimension.  A call `e.evaluate(x, y)` that returns, for arbitrary vectors `x` and
`y`, leaves the value of every node `n` at the length of its declared dimension, provided the
identifier of `n` is that of no Variable below `e` (so `n` is a Parameter, a MultiDimParameter or
a function node, or a Variable that `e` does not reach).  The value of a Variable after its
`evaluate(x, y)` has the length of `x`, whatever its declared dimension. -/
theorem value_length_kept_except_variable (cm : CMath) :
    (∀ (valuein : Vec) (r : Registry),
        ((Parameter.new valuein r).2.heap (Parameter.new valuein r).1.getID).length
          = (Parameter.new valuein r).1.getDim)
    ∧ (∀ (rows cols : Nat) (valuein : Vec) (r : Registry),
        ((MultiDimParameter.new rows cols valuein r).2.heap
            (MultiDimParameter.new rows cols valuein r).1.getID).length
          = (MultiDimParameter.new rows cols valuein r).1.getDim)
    ∧ (∀ (dimension : Nat) (sg : sign) (r : Registry),
        ((Variable.new dimension sg r).2.heap (Variable.new dimension sg r).1.getID).length
          = (Variable.new dimension sg r).1.getDim)
    ∧ (∀ (k : BinaryKind) (a b : Expression) (r : Registry) (e : Expression) (r' : Registry),
        k.new a b r = some (e, r') → (r'.heap e.getID).length = e.getDim)
    ∧ (∀ (k : UnaryKind) (a : Expression) (r : Registry) (e : Expression) (r' : Registry),
        k.new a r = some (e, r') → (r'.heap e.getID).length = e.getDim)
    ∧ (∀ (a : List Expression) (r : Registry),
        ((List_new a r).2.heap (List_new a r).1.getID).length = (List_new a r).1.getDim)
    ∧ (∀ (e n : Expression) (x y : Vec) (s u : Store),
        (∀ h, Reaches e (.leaf h .Variable) → h.m_id ≠ n.getID) →
        (s n.getID).length = n.getDim →
        e.evaluate cm x y s = some u → (u n.getID).length = n.getDim)
    ∧ (∀ (h : Header) (x y : Vec) (s : Store),
        ∃ u, (Expression.leaf h .Variable).evaluate cm x y s = some u
          ∧ (u h.m_id).length = x.length) := by
  refine ⟨?_, ?_, ?_, ?_, ?_, ?_, ?_, ?_⟩
  · intro valuein r
    simp [Parameter.new, Registry.construct, Expression.getID, Expression.getDim,
      Expression.header]
  · intro rows cols valuein r
    simp [MultiDimParameter.new, Registry.construct, Expression.getID, Expression.getDim,
      Expression.header]
  · intro dimension sg r
    simp [Variable.new, Registry.construct, Expression.getID, Expression.getDim,
      Expression.header, zeros]
  · exact binary_new_length
  · exact unary_new_length
  · intro a r
    simp [List_new, Registry.construct, Expression.getID, Expression.getDim,
      Expression.header, zeros]
  · intro e n x y s u hv hs he
    rw [evaluate_keeps_lengths cm n.getID e x y s u hv he]
    exact hs
  · intro h x y s
    refine ⟨_, rfl, ?_⟩
    simp

/-- Witness for C27: `Add_vec_vec` of a Variable and a Parameter, both of dimension 1, keeps its
value at length 1 through `evaluate([5], [7])`. -/
theorem value_length_kept_except_variable_witness :
    ∃ u, (Expression.binary ⟨3, 1, sign.NN⟩ .Add_vec_vec (.leaf ⟨1, 1, sign.NN⟩ .Variable)
            (.leaf ⟨2, 1, sign.NN⟩ .Parameter)).evaluate noLog [5] [7]
          (Function.update (Function.update (Function.update (fun _ => []) 1 [0]) 2 [2]) 3 [0]
            : Store) = some u
      ∧ u 3 = [7]
      ∧ (u (Expression.binary ⟨3, 1, sign.NN⟩ .Add_vec_vec (.leaf ⟨1, 1, sign.NN⟩ .Variable)
            (.leaf ⟨2, 1, sign.NN⟩ .Parameter)).getID).length
          = (Expression.binary ⟨3, 1, sign.NN⟩ .Add_vec_vec (.leaf ⟨1, 1, sign.NN⟩ .Variable)
            (.leaf ⟨2, 1, sign.NN⟩ .Parameter)).getDim := by
  have hev : (Expression.binary ⟨3, 1, sign.NN⟩ .Add_vec_vec (.leaf ⟨1, 1, sign.NN⟩ .Variable)
            (.leaf ⟨2, 1, sign.NN⟩ .Parameter)).evaluate noLog [5] [7]
          (Function.update (Function.update (Function.update (fun _ => []) 1 [0]) 2 [2]) 3 [0]
            : Store)
      = some (Function.update (Function.update (Function.update (Function.update
          (Function.update (fun _ => []) 1 [0]) 2 [2]) 3 [0]) 1 [5]) 3 [7] : Store) := by
    simp only [Expression.evaluate, BinaryKind.evaluate, Add_vec_vec.evaluate, Expression.getID,
      Expression.header, Option.bind_eq_bind, Option.some_bind]
    simp only [Function.update_apply]
    norm_num [transform2, collect, plus]
  refine ⟨_, hev, by simp, ?_⟩
  refine (value_length_kept_except_variable noLog).2.2.2.2.2.2.1 _ _ [5] [7] _ _ ?_ ?_ hev
  · intro h hr
    cases hr with
    | operand _ a _ hmem hr =>
      simp only [Expression.getArgs, List.mem_cons, List.mem_singleton, List.not_mem_nil,
        or_false] at hmem
      rcases hmem with rfl | rfl
      · cases hr with
        | self => simp [Expression.getID, Expression.header]
        | operand _ a' _ hmem' _ => simp [Expression.getArgs] at hmem'
      · cases hr with
        | operand _ a' _ hmem' _ => simp [Expression.getArgs] at hmem'
  · rfl

/-! ## C28: the sign split of a matrix -/

theorem foldl_keeps {α β : Type} (l : List β) (m : α) : l.foldl (fun ret _ => ret) m = m := by
  induction l with
  | nil => rfl
  | cons _ rest ih => exact ih

/-- C28 fails on the code: for `M = [[1, -2], [3, 4]]` the entry `(0, 1)` of
`getGreaterEqualThan0()` is `-2`, not `0`, and the entry `(0, 0)` of `getLessThan0()` is `1`,
not `0`; the two results add up to `2·M`.  Both methods loop `for (double value : ret.mData)`,
by value, so `value = 0` changes the loop's copy and, for every matrix, the copy `ret` of the
matrix is returned as it is. -/
theorem matrix_sign_split_returns_the_matrix :
    (∀ m : Matrix, m.getGreaterEqualThan0 = m ∧ m.getLessThan0 = m)
    ∧ (Matrix.getGreaterEqualThan0 ⟨2, 2, [1, -2, 3, 4]⟩).entry 0 1 = -2
    ∧ (Matrix.getLessThan0 ⟨2, 2, [1, -2, 3, 4]⟩).entry 0 0 = 1
    ∧ (Matrix.getGreaterEqualThan0 ⟨2, 2, [1, -2, 3, 4]⟩).entry 0 1
        + (Matrix.getLessThan0 ⟨2, 2, [1, -2, 3, 4]⟩).entry 0 1
        ≠ (Matrix.mk 2 2 [1, -2, 3, 4]).entry 0 1 := by
  have hall : ∀ m : Matrix, m.getGreaterEqualThan0 = m ∧ m.getLessThan0 = m := by
    intro m
    exact ⟨foldl_keeps m.mData m, foldl_keeps m.mData m⟩
  refine ⟨hall, ?_, ?_, ?_⟩
  · rw [(hall _).1]
    simp [Matrix.entry]
  · rw [(hall _).2]
    simp [Matrix.entry]
  · rw [(hall _).1, (hall _).2]
    norm_num [Matrix.entry]

/-! ## C29: the tag of a Parameter, as the code computes it -/

theorem signLoop_concat (v : Vec) (c : ℚ) :
    Parameter.signLoop (v ++ [c]) = if c ≥ 0 then sign.NN else sign.NP := by
  unfold Parameter.signLoop
  rw [List.foldl_append]
  simp only [List.foldl_cons, List.foldl_nil]
  by_cases hc : c ≥ 0
  · simp [hc]
  · have : c ≤ 0 := le_of_lt (not_le.mp hc)
    simp [hc, this]

/-- C29. The Parameter tag is decided by the last component alone: for a non-empty `v`,
`Parameter(v)` is tagged NN when the last component is `≥ 0` and NP when it is `< 0`, never
Unknown; `MultiDimParameter(rows, cols, v)` is tagged in the same way by the last entry of its
data; an empty vector yields Unknown. -/
theorem parameter_tag_by_last_component (v : Vec) (hv : v ≠ []) (r : Registry)
    (rows cols : Nat) :
    (Parameter.new v r).1.getSign = (if v.getLast hv ≥ 0 then sign.NN else sign.NP)
    ∧ (Parameter.new v r).1.getSign ≠ sign.unknown
    ∧ (MultiDimParameter.new rows cols v r).1.getSign
        = (if v.getLast hv ≥ 0 then sign.NN else sign.NP)
    ∧ (Parameter.new [] r).1.getSign = sign.unknown
    ∧ (MultiDimParameter.new rows cols [] r).1.getSign = sign.unknown := by
  have key : Parameter.signLoop v = if v.getLast hv ≥ 0 then sign.NN else sign.NP := by
    obtain ⟨w, c, hw⟩ := (List.eq_nil_or_concat v).resolve_left hv
    subst hw
    simp [List.concat_eq_append, signLoop_concat]
  refine ⟨?_, ?_, ?_, rfl, rfl⟩
  · simpa [Parameter.new, Registry.construct, Expression.getSign, Expression.header] using key
  · have : (Parameter.new v r).1.getSign = Parameter.signLoop v := rfl
    rw [this, key]
    split <;> simp
  · simpa [MultiDimParameter.new, Registry.construct, Expression.getSign, Expression.header]
      using key

/-- Witness for C29: `Parameter([-1, 1])` is tagged NN. -/
theorem parameter_tag_by_last_component_witness :
    (Parameter.new [-1, 1] Registry.initial).1.getSign
      = (if ([-1, 1] : Vec).getLast (by simp) ≥ 0 then sign.NN else sign.NP) :=
  (parameter_tag_by_last_component [-1, 1] (by simp) Registry.initial 1 2).1

/-! ## C30: operands that share a node -/

/-- C30, as stated, fails: in `Div_VecNN_VecNN(v, v)` the one Variable `v` is both operands;
the first operand call leaves `x` in its buffer, the second overwrites it with `y`, and the
quotient is taken of the buffer with itself: at `x = [6]`, `y = [3]` the value is `[1]`, not
`x/y = [2]`. -/
theorem shared_operand_counterexample :
    ((Expression.binary ⟨2, 1, sign.NN⟩ .Div_VecNN_VecNN (.leaf ⟨1, 1, sign.NN⟩ .Variable)
        (.leaf ⟨1, 1, sign.NN⟩ .Variable)).evaluate noLog [6] [3] (fun _ => [0])).map
          (fun s => s 2) = some [1]
    ∧ ((Expression.leaf ⟨1, 1, sign.NN⟩ .Variable).evaluate noLog [6] [3]
        (fun _ => [0])).map (fun s => s 1) = some [6]
    ∧ ((Expression.leaf ⟨1, 1, sign.NN⟩ .Variable).evaluate noLog [3] [6]
        (fun _ => [0])).map (fun s => s 1) = some [3]
    ∧ plainOperation Family.div_vec_vec none [6] [3] = [2] := by
  refine ⟨?_, ?_, ?_, ?_⟩
  · simp only [Expression.evaluate, BinaryKind.evaluate, Div_VecNN_VecNN.evaluate,
      Expression.getID, Expression.header, Option.bind_eq_bind, Option.some_bind]
    simp only [Function.update_apply]
    norm_num [transform2, collect, divides]
  · simp [Expression.evaluate]
  · simp [Expression.evaluate]
  · norm_num [plainOperation]

/-- C30, amended: the value is computed from the operands' buffers as they are once both
operand calls have returned.  For every sign-definite two-operand class and all operand nodes
`a`, `b`, sharing nodes or not: if `a` evaluated at its routed arguments leads from `s` to `s1`
and then `b` at its routed arguments from `s1` to `s2`, `evaluate(x, y)` succeeds and its value
is the operator applied to the buffers of `a` and `b` in `s2`; when the call of `b` has left the
buffer of `a` as it was in `s1`, that is the operator applied to `a`'s value at its routed
arguments and `b`'s value at its routed arguments. -/
theorem cached_value_is_read_after_both_calls (cm : CMath) (k : BinaryKind)
    (hk : k.signDefinite) (h : Header) (a b : Expression) (x y : Vec) (s s1 s2 : Store)
    (ha : a.evaluate cm (route k.swapsFirst x y).1 (route k.swapsFirst x y).2 s = some s1)
    (hb : b.evaluate cm (route k.swapsSecond x y).1 (route k.swapsSecond x y).2 s1 = some s2)
    (hd : wellDimensioned k.family h.m_dim a.getMatrix (s2 a.getID) (s2 b.getID) (s2 h.m_id))
    (hz : divisorsNonzero k.family (s2 b.getID)) :
    ∃ s', (Expression.binary h k a b).evaluate cm x y s = some s'
      ∧ s' h.m_id = plainOperation k.family a.getMatrix (s2 a.getID) (s2 b.getID)
      ∧ (s2 a.getID = s1 a.getID →
          s' h.m_id = plainOperation k.family a.getMatrix (s1 a.getID) (s2 b.getID)) := by
  refine ⟨_, signDefinite_routed cm k hk h a b x y s s1 s2 ha hb hd hz, ?_, ?_⟩
  · simp
  · intro hsame
    rw [← hsame]
    simp

/-- Witness for the amended C30: `Div_VecNN_VecNN(v, v)` at `x = [6]`, `y = [3]`, where both
buffers read are the one buffer of `v`, holding `y`. -/
theorem cached_value_is_read_after_both_calls_witness :
    ∃ s', (Expression.binary ⟨2, 1, sign.NN⟩ .Div_VecNN_VecNN
        (.leaf ⟨1, 1, sign.NN⟩ .Variable) (.leaf ⟨1, 1, sign.NN⟩ .Variable)).evaluate
          noLog [6] [3] (fun _ => [0]) = some s'
      ∧ s' 2 = plainOperation Family.div_vec_vec none [3] [3]
      ∧ ((Function.update (Function.update (fun _ => [0]) 1 [6]) 1 [3] : Store) 1
            = (Function.update (fun _ => [0]) 1 [6] : Store) 1 →
          s' 2 = plainOperation Family.div_vec_vec none [6] [3]) :=
  cached_value_is_read_after_both_calls noLog .Div_VecNN_VecNN
    (by simp [BinaryKind.signDefinite, BinaryKind.namedTags]) ⟨2, 1, sign.NN⟩
    (.leaf ⟨1, 1, sign.NN⟩ .Variable) (.leaf ⟨1, 1, sign.NN⟩ .Variable) [6] [3]
    (fun _ => [0]) (Function.update (fun _ => [0]) 1 [6])
    (Function.update (Function.update (fun _ => [0]) 1 [6]) 1 [3])
    (by simp [Expression.evaluate, route, BinaryKind.swapsFirst, BinaryKind.namedTags])
    (by simp [Expression.evaluate, route, BinaryKind.swapsSecond, BinaryKind.namedTags,
      BinaryKind.family])
    (by simp [wellDimensioned, BinaryKind.family, Expression.getID, Expression.header])
    (by simp [divisorsNonzero, BinaryKind.family, Expression.getID, Expression.header])

/-! ## C32: the sign split of an Unknown first operand -/

theorem geHalf_eq_max (c : ℚ) : geHalf c = max c 0 := by
  unfold geHalf
  split_ifs with h
  · exact (max_eq_left h).symm
  · exact (max_eq_right (le_of_lt (not_le.mp h))).symm

theorem ltHalf_eq_min (c : ℚ) : ltHalf c = min c 0 := by
  unfold ltHalf
  split_ifs with h
  · exact (min_eq_right h).symm
  · exact (min_eq_left (le_of_lt (not_le.mp h))).symm

theorem splitLoop_partition (n k : Nat) (src : Vec) (hs : n ≤ src.length) (hk : n ≤ k) :
    ∃ ge lt, splitLoop n src (zeros k) (zeros k) = some (ge, lt)
      ∧ ge.length = k ∧ lt.length = k
      ∧ ∀ i, i < n → ∃ c, src[i]? = some c ∧ ge[i]? = some (max c 0)
          ∧ lt[i]? = some (min c 0) := by
  refine ⟨_, _, splitLoop_eq n src _ _ hs (by simp [zeros, hk]) (by simp [zeros, hk]), ?_, ?_,
    ?_⟩
  · simp [zeros]
    omega
  · simp [zeros]
    omega
  · intro i hi
    have hi' : i < src.length := by omega
    refine ⟨src[i], List.getElem?_eq_getElem hi', ?_, ?_⟩
    · rw [List.getElem?_append_left (by simp; omega)]
      simp [List.getElem?_take, hi, List.getElem?_eq_getElem hi', geHalf_eq_max]
    · rw [List.getElem?_append_left (by simp; omega)]
      simp [List.getElem?_take, hi, List.getElem?_eq_getElem hi', ltHalf_eq_min]

/-- C32. The sign split of the Unknown first operand is a partition.  In each of the eight
classes `evaluate(x, y)` first evaluates operand 0 at the pair routed to it, then runs the split
loop over the first `m_dim` entries of that operand's value, and continues with the two halves
only.  Whenever the value `src` has at least `m_dim` entries and the halves (sized with the
operand's dimension) as well, the loop returns halves `ge`, `lt` with, for every `i < m_dim`,
`ge[i] = max(src[i], 0)` and `lt[i] = min(src[i], 0)`; hence `ge[i] ≥ 0`, `lt[i] ≤ 0`,
`ge[i] + lt[i] = src[i]`, and one of the two is zero. -/
theorem sign_split_is_a_partition (k : BinaryKind)
    (hk : k ∈ [BinaryKind.Mult_vecU_vecNN, .Mult_vecU_vecNP, .Mult_vecU_scalarNN,
      .Mult_vecU_scalarNP, .Div_VecU_VecNN, .Div_VecU_VecNP, .Div_VecU_ScalarNN,
      .Div_VecU_ScalarNP])
    (self : Header) (a b : Arg) (x y : Vec) :
    (∃ rest : Store → Vec × Vec → Option Store, ∀ s,
      k.evaluate self a b x y s
        = (a.evaluate (route k.swapsFirst x y).1 (route k.swapsFirst x y).2 s >>= fun s1 =>
            splitLoop self.m_dim (s1 a.m_id) (zeros a.m_dim) (zeros a.m_dim) >>= rest s1))
    ∧ ∀ src : Vec, self.m_dim ≤ src.length → self.m_dim ≤ a.m_dim →
        ∃ ge lt, splitLoop self.m_dim src (zeros a.m_dim) (zeros a.m_dim) = some (ge, lt)
          ∧ ∀ i, i < self.m_dim → ∃ c, src[i]? = some c
              ∧ ge[i]? = some (max c 0) ∧ lt[i]? = some (min c 0)
              ∧ 0 ≤ max c 0 ∧ min c 0 ≤ 0 ∧ max c 0 + min c 0 = c
              ∧ (max c 0 = 0 ∨ min c 0 = 0) := by
  constructor
  · simp only [List.mem_cons, List.mem_singleton, List.not_mem_nil, or_false] at hk
    rcases hk with rfl | rfl | rfl | rfl | rfl | rfl | rfl | rfl
    all_goals exact ⟨_, fun _ => rfl⟩
  · intro src hs hd
    obtain ⟨ge, lt, h, _, _, hi⟩ := splitLoop_partition self.m_dim a.m_dim src hs hd
    refine ⟨ge, lt, h, ?_⟩
    intro i hlt
    obtain ⟨c, h1, h2, h3⟩ := hi i hlt
    refine ⟨c, h1, h2, h3, le_max_right _ _, min_le_right _ _, max_add_min c 0 ▸ by simp, ?_⟩
    rcases le_total c 0 with hc | hc
    · left
      exact max_eq_right hc
    · right
      exact min_eq_right hc

/-- Witness for C32: `Mult_vecU_vecNN` of dimension 2; the operand value `[3, -5]` is split
into `[3, 0]` and `[0, -5]`. -/
theorem sign_split_is_a_partition_witness :
    splitLoop 2 [3, -5] (zeros 2) (zeros 2) = some ([3, 0], [0, -5])
    ∧ (∃ rest : Store → Vec × Vec → Option Store, ∀ s,
      BinaryKind.evaluate .Mult_vecU_vecNN ⟨3, 2, sign.unknown⟩
          (functionOperand 1 2 (fun p _ => p)) (functionOperand 2 2 (fun p _ => p))
          [3, -5] [0, 0] s
        = ((functionOperand 1 2 (fun p _ => p)).evaluate
              (route (BinaryKind.swapsFirst .Mult_vecU_vecNN) [3, -5] [0, 0]).1
              (route (BinaryKind.swapsFirst .Mult_vecU_vecNN) [3, -5] [0, 0]).2 s >>= fun s1 =>
            splitLoop (Header.mk 3 2 sign.unknown).m_dim
              (s1 (functionOperand 1 2 (fun p _ => p)).m_id)
              (zeros (functionOperand 1 2 (fun p _ => p)).m_dim)
              (zeros (functionOperand 1 2 (fun p _ => p)).m_dim) >>= rest s1))
    ∧ ∀ src : Vec, (Header.mk 3 2 sign.unknown).m_dim ≤ src.length →
        (Header.mk 3 2 sign.unknown).m_dim ≤ (functionOperand 1 2 (fun p _ => p)).m_dim →
        ∃ ge lt, splitLoop (Header.mk 3 2 sign.unknown).m_dim src
            (zeros (functionOperand 1 2 (fun p _ => p)).m_dim)
            (zeros (functionOperand 1 2 (fun p _ => p)).m_dim) = some (ge, lt)
          ∧ ∀ i, i < (Header.mk 3 2 sign.unknown).m_dim → ∃ c, src[i]? = some c
              ∧ ge[i]? = some (max c 0) ∧ lt[i]? = some (min c 0)
              ∧ 0 ≤ max c 0 ∧ min c 0 ≤ 0 ∧ max c 0 + min c 0 = c
              ∧ (max c 0 = 0 ∨ min c 0 = 0) :=
  ⟨by norm_num [splitLoop, forLoop_two, splitBody, Vec.at, Vec.write, zeros, List.replicate],
    sign_split_is_a_partition .Mult_vecU_vecNN (by simp) ⟨3, 2, sign.unknown⟩
      (functionOperand 1 2 (fun p _ => p)) (functionOperand 2 2 (fun p _ => p)) [3, -5] [0, 0]⟩

/-! ## C31: mixed monotonicity under the routing -/

theorem vec_le_trans (u v w : Vec) (h1 : Vec.le u v) (h2 : Vec.le v w) : Vec.le u w := by
  obtain ⟨l1, g1⟩ := (vec_le_iff u v).1 h1
  obtain ⟨l2, g2⟩ := (vec_le_iff v w).1 h2
  rw [vec_le_iff]
  exact ⟨l1.trans l2, fun i a b => le_trans (g1 i a (l1 ▸ a)) (g2 i (l1 ▸ a) b)⟩

theorem mixed_joint (f : Vec → Vec → Vec) (hf : mixedMonotone f) (x x' y y' : Vec)
    (hx : Vec.le x x') (hy : Vec.le y' y) : Vec.le (f x y) (f x' y') :=
  vec_le_trans _ _ _ (hf.1 x x' y hx) (hf.2 x' y' y hy)

/-- How the value of a mixed-monotone operand moves between `(x, y)` and `(x', y')` with
`x ≤ x'` and `y' ≤ y`: up when it is handed the pair as given, down when it is handed the
swapped pair. -/
theorem routed_moves (f : Vec → Vec → Vec) (hf : mixedMonotone f) (sw : Bool)
    (x x' y y' : Vec) (hx : Vec.le x x') (hy : Vec.le y' y) :
    if sw then
      Vec.le (f (route sw x' y').1 (route sw x' y').2) (f (route sw x y).1 (route sw x y).2)
    else
      Vec.le (f (route sw x y).1 (route sw x y).2) (f (route sw x' y').1 (route sw x' y').2) := by
  cases sw
  · simpa [route] using mixed_joint f hf x x' y y' hx hy
  · simpa [route] using mixed_joint f hf y' y x' x hy hx

theorem joint_to_mixed (F : Vec → Vec → Vec)
    (hJ : ∀ x x' y y', Vec.le x x' → Vec.le y' y → Vec.le (F x y) (F x' y')) :
    mixedMonotone F :=
  ⟨fun x x' y h => hJ x x' y y h (vec_le_refl y), fun x y y' h => hJ x x y' y (vec_le_refl x) h⟩

theorem zip_mixed (f : ℚ → ℚ → ℚ) (fa fb : Vec → Vec → Vec) (sa sb : Bool) (n : Nat)
    (P Q : ℚ → Prop) (hma : mixedMonotone fa) (hmb : mixedMonotone fb)
    (hla : ∀ p q, (fa p q).length = n) (hlb : ∀ p q, (fb p q).length = n)
    (hsa : ∀ p q, ∀ c ∈ fa p q, P c) (hsb : ∀ p q, ∀ d ∈ fb p q, Q d)
    (hop : ∀ c c' d d', P c → P c' → Q d → Q d' → (if sa then c' ≤ c else c ≤ c') →
      (if sb then d' ≤ d else d ≤ d') → f c d ≤ f c' d') :
    mixedMonotone (fun x y => List.zipWith f (fa (route sa x y).1 (route sa x y).2)
      (fb (route sb x y).1 (route sb x y).2)) := by
  refine joint_to_mixed _ (fun x x' y y' hx hy => ?_)
  have ma := routed_moves fa hma sa x x' y y' hx hy
  have mb := routed_moves fb hmb sb x x' y y' hx hy
  refine zipWith_le f _ _ _ _ (by rw [hla, hla]) (by rw [hlb, hlb]) ?_
  intro i h1 h2 h3 h4
  refine hop _ _ _ _ (hsa _ _ _ (List.getElem_mem h1)) (hsa _ _ _ (List.getElem_mem h2))
    (hsb _ _ _ (List.getElem_mem h3)) (hsb _ _ _ (List.getElem_mem h4)) ?_ ?_
  · cases sa
    · simpa using le_at _ _ (by simpa using ma) i h1 h2
    · simpa using le_at _ _ (by simpa using ma) i h2 h1
  · cases sb
    · simpa using le_at _ _ (by simpa using mb) i h3 h4
    · simpa using le_at _ _ (by simpa using mb) i h4 h3

theorem split_mixed (fa fb : Vec → Vec → Vec) (sa : Bool) (n : Nat) (Q : ℚ → Prop)
    (hma : mixedMonotone fa) (hmb : mixedMonotone fb)
    (hla : ∀ p q, (fa p q).length = n) (hlb : ∀ p q, (fb p q).length = n)
    (hsb : ∀ p q, ∀ d ∈ fb p q, Q d)
    (hop : ∀ c c' d d' e e', Q d → Q d' → Q e → Q e' → (if sa then c' ≤ c else c ≤ c') →
      d ≤ d' → e' ≤ e →
      geHalf c * d + ltHalf c * e ≤ geHalf c' * d' + ltHalf c' * e') :
    mixedMonotone (fun x y => List.zipWith (fun c d => c + d)
      (List.zipWith (fun c d => c * d)
        ((fa (route sa x y).1 (route sa x y).2).map geHalf) (fb x y))
      (List.zipWith (fun c d => c * d)
        ((fa (route sa x y).1 (route sa x y).2).map ltHalf) (fb y x))) := by
  refine joint_to_mixed _ (fun x x' y y' hx hy => ?_)
  have ma := routed_moves fa hma sa x x' y y' hx hy
  have mb := mixed_joint fb hmb x x' y y' hx hy
  have me := mixed_joint fb hmb y' y x' x hy hx
  rw [vec_le_iff]
  refine ⟨by simp [hla, hlb], ?_⟩
  intro i h1 h2
  simp only [List.length_zipWith, List.length_map, hla, hlb, min_self] at h1
  have a1 : i < (fa (route sa x y).1 (route sa x y).2).length := by rw [hla]; exact h1
  have a2 : i < (fa (route sa x' y').1 (route sa x' y').2).length := by rw [hla]; exact h1
  have b1 : i < (fb x y).length := by rw [hlb]; exact h1
  have b2 : i < (fb x' y').length := by rw [hlb]; exact h1
  have e1 : i < (fb y x).length := by rw [hlb]; exact h1
  have e2 : i < (fb y' x').length := by rw [hlb]; exact h1
  simp only [List.getElem_zipWith, List.getElem_map]
  refine hop _ _ _ _ _ _ (hsb _ _ _ (List.getElem_mem b1)) (hsb _ _ _ (List.getElem_mem b2))
    (hsb _ _ _ (List.getElem_mem e1)) (hsb _ _ _ (List.getElem_mem e2)) ?_
    (le_at _ _ mb i b1 b2) (le_at _ _ me i e2 e1)
  cases sa
  · simpa using le_at _ _ (by simpa using ma) i a1 a2
  · simpa using le_at _ _ (by simpa using ma) i a2 a1

theorem geHalf_mono (c c' : ℚ) (h : c ≤ c') : geHalf c ≤ geHalf c' := by
  rw [geHalf_eq_max, geHalf_eq_max]
  exact max_le_max h (le_refl 0)

theorem ltHalf_mono (c c' : ℚ) (h : c ≤ c') : ltHalf c ≤ ltHalf c' := by
  rw [ltHalf_eq_min, ltHalf_eq_min]
  exact min_le_min h (le_refl 0)

theorem geHalf_nonneg (c : ℚ) : 0 ≤ geHalf c := by
  rw [geHalf_eq_max]
  exact le_max_right _ _

theorem ltHalf_nonpos (c : ℚ) : ltHalf c ≤ 0 := by
  rw [ltHalf_eq_min]
  exact min_le_right _ _

theorem mul_up_NN_NN (c c' d d' : ℚ) (pc : 0 ≤ c) (_ : 0 ≤ c') (pd : 0 ≤ d) (_ : 0 ≤ d')
    (hc : if false then c' ≤ c else c ≤ c') (hd : if false then d' ≤ d else d ≤ d') :
    c * d ≤ c' * d' := by
  simp only [Bool.false_eq_true, if_false] at hc hd
  nlinarith [mul_nonneg pc (sub_nonneg.2 hd), mul_nonneg (sub_nonneg.2 hc) (le_trans pd hd)]

theorem mul_up_NP_NP (c c' d d' : ℚ) (_ : c ≤ 0) (pc' : c' ≤ 0) (pd : d ≤ 0) (_ : d' ≤ 0)
    (hc : if true then c' ≤ c else c ≤ c') (hd : if true then d' ≤ d else d ≤ d') :
    c * d ≤ c' * d' := by
  simp only [if_true] at hc hd
  nlinarith [mul_nonneg (neg_nonneg.2 pc') (sub_nonneg.2 hd),
    mul_nonneg (neg_nonneg.2 pd) (sub_nonneg.2 hc)]

theorem mul_up_NN_NP (c c' d d' : ℚ) (_ : 0 ≤ c) (pc' : 0 ≤ c') (pd : d ≤ 0) (_ : d' ≤ 0)
    (hc : if true then c' ≤ c else c ≤ c') (hd : if false then d' ≤ d else d ≤ d') :
    c * d ≤ c' * d' := by
  simp only [if_true, Bool.false_eq_true, if_false] at hc hd
  nlinarith [mul_nonneg pc' (sub_nonneg.2 hd), mul_nonneg (neg_nonneg.2 pd) (sub_nonneg.2 hc)]

theorem div_up_pos (c c' d d' : ℚ) (pc : 0 ≤ c') (hc : c ≤ c') (pd : 0 < d') (hd : d' ≤ d) :
    c / d ≤ c' / d' := by
  have pd0 : 0 < d := lt_of_lt_of_le pd hd
  rw [div_le_div_iff₀ pd0 pd]
  nlinarith [mul_nonneg pc (sub_nonneg.2 hd), mul_nonneg (le_of_lt pd) (sub_nonneg.2 hc)]

theorem div_up_NN_NN (c c' d d' : ℚ) (_ : 0 ≤ c) (pc' : 0 ≤ c')
    (_ : 0 ≤ d ∧ d ≠ 0) (pd' : 0 ≤ d' ∧ d' ≠ 0)
    (hc : if false then c' ≤ c else c ≤ c') (hd : if true then d' ≤ d else d ≤ d') :
    c / d ≤ c' / d' := by
  simp only [Bool.false_eq_true, if_false, if_true] at hc hd
  exact div_up_pos c c' d d' pc' hc (lt_of_le_of_ne pd'.1 (Ne.symm pd'.2)) hd

theorem div_up_NP_NP (c c' d d' : ℚ) (pc : c ≤ 0) (_ : c' ≤ 0)
    (pd : d ≤ 0 ∧ d ≠ 0) (pd' : d' ≤ 0 ∧ d' ≠ 0)
    (hc : if true then c' ≤ c else c ≤ c') (hd : if false then d' ≤ d else d ≤ d') :
    c / d ≤ c' / d' := by
  simp only [Bool.false_eq_true, if_false, if_true] at hc hd
  have h := div_up_pos (-c) (-c') (-d) (-d') (by linarith) (by linarith)
    (neg_pos.2 (lt_of_le_of_ne pd'.1 pd'.2)) (by linarith)
  simpa [neg_div_neg_eq] using h

theorem div_up_NN_NP (c c' d d' : ℚ) (pc : 0 ≤ c) (pc' : 0 ≤ c')
    (pd : d ≤ 0 ∧ d ≠ 0) (pd' : d' ≤ 0 ∧ d' ≠ 0)
    (hc : if true then c' ≤ c else c ≤ c') (hd : if true then d' ≤ d else d ≤ d') :
    c / d ≤ c' / d' := by
  simp only [if_true] at hc hd
  have h := div_up_pos c' c (-d') (-d) pc hc (neg_pos.2 (lt_of_le_of_ne pd.1 pd.2))
    (by linarith)
  rw [div_neg, div_neg] at h
  linarith

theorem div_up_NP_NN (c c' d d' : ℚ) (pc : c ≤ 0) (pc' : c' ≤ 0)
    (pd : 0 ≤ d ∧ d ≠ 0) (pd' : 0 ≤ d' ∧ d' ≠ 0)
    (hc : if false then c' ≤ c else c ≤ c') (hd : if false then d' ≤ d else d ≤ d') :
    c / d ≤ c' / d' := by
  simp only [Bool.false_eq_true, if_false] at hc hd
  have h := div_up_pos (-c') (-c) d' d (by linarith) (by linarith)
    (lt_of_le_of_ne pd.1 (Ne.symm pd.2)) hd
  rw [neg_div, neg_div] at h
  linarith

theorem split_up_NN (c c' d d' e e' : ℚ) (pd : 0 ≤ d) (_ : 0 ≤ d') (_ : 0 ≤ e) (pe' : 0 ≤ e')
    (hc : if false then c' ≤ c else c ≤ c') (hd : d ≤ d') (he : e' ≤ e) :
    geHalf c * d + ltHalf c * e ≤ geHalf c' * d' + ltHalf c' * e' := by
  simp only [Bool.false_eq_true, if_false] at hc
  have g := geHalf_mono c c' hc
  have l := ltHalf_mono c c' hc
  have g0 := geHalf_nonneg c
  have l0 := ltHalf_nonpos c'
  nlinarith [mul_nonneg g0 (sub_nonneg.2 hd), mul_nonneg (sub_nonneg.2 g) (le_trans pd hd),
    mul_nonneg (sub_nonneg.2 l) (le_trans pe' he), mul_nonneg (neg_nonneg.2 l0) (sub_nonneg.2 he)]

theorem split_up_NP (c c' d d' e e' : ℚ) (_ : d ≤ 0) (pd' : d' ≤ 0) (pe : e ≤ 0) (_ : e' ≤ 0)
    (hc : if true then c' ≤ c else c ≤ c') (hd : d ≤ d') (he : e' ≤ e) :
    geHalf c * d + ltHalf c * e ≤ geHalf c' * d' + ltHalf c' * e' := by
  simp only [if_true] at hc
  have g := geHalf_mono c' c hc
  have l := ltHalf_mono c' c hc
  have g0 := geHalf_nonneg c
  have l0 := ltHalf_nonpos c'
  nlinarith [mul_nonneg g0 (sub_nonneg.2 hd), mul_nonneg (sub_nonneg.2 g) (neg_nonneg.2 pd'),
    mul_nonneg (sub_nonneg.2 l) (neg_nonneg.2 pe), mul_nonneg (neg_nonneg.2 l0) (sub_nonneg.2 he)]

/-- C31. The routing of the listed vector×vector and vector÷vector classes preserves mixed
monotonicity.  Let the operands be independent functions `fa`, `fb` of the pair they are
handed, mixed monotone, with values of the node's dimension that everywhere carry the signs
named by the class (divisors nonzero).  Then `evaluate(x, y)` succeeds from every store whose
buffer for the node has the node's dimension, its value is a function `F(x, y)` of the pair
alone, and `F` is componentwise nondecreasing in `x` and nonincreasing in `y`. -/
theorem routing_preserves_mixed_monotonicity (k : BinaryKind)
    (hk : k ∈ [BinaryKind.Mult_vecNN_vecNN, .Mult_vecNP_vecNP, .Mult_vecNN_vecNP,
      .Mult_vecU_vecNN, .Mult_vecU_vecNP, .Div_VecNN_VecNN, .Div_VecNP_VecNP,
      .Div_VecNN_VecNP, .Div_VecNP_VecNN])
    (self : Header) (ida idb : Nat) (fa fb : Vec → Vec → Vec)
    (hid : ida ≠ idb ∧ ida ≠ self.m_id ∧ idb ≠ self.m_id)
    (hma : mixedMonotone fa) (hmb : mixedMonotone fb)
    (hla : ∀ p q, (fa p q).length = self.m_dim) (hlb : ∀ p q, (fb p q).length = self.m_dim)
    (hsa : ∀ p q, carries k.tagFirst (fa p q)) (hsb : ∀ p q, carries k.tagSecond (fb p q))
    (hz : ∀ p q, divisorsNonzero k.family (fb p q)) :
    ∃ F : Vec → Vec → Vec,
      (∀ (x y : Vec) (s : Store), (s self.m_id).length = self.m_dim →
        ∃ s', k.evaluate self (functionOperand ida self.m_dim fa)
            (functionOperand idb self.m_dim fb) x y s = some s'
          ∧ s' self.m_id = F x y)
      ∧ mixedMonotone F := by
  obtain ⟨h1, h2, h3⟩ := hid
  simp only [List.mem_cons, List.mem_singleton, List.not_mem_nil, or_false] at hk
  rcases hk with rfl | rfl | rfl | rfl | rfl | rfl | rfl | rfl | rfl
  · refine ⟨(fun x y => List.zipWith (fun c d => c * d)
      (fa (route false x y).1 (route false x y).2) (fb (route false x y).1 (route false x y).2)),
      fun x y s hs => ?_, ?_⟩
    simp [BinaryKind.evaluate, Mult_vecNN_vecNN.evaluate, functionOperand, Function.update_apply,
      h1, h2, h3, Ne.symm h1, Ne.symm h2, Ne.symm h3, transform2_multiplies, hla, hlb, hs,
      route]
    exact zip_mixed (fun c d => c * d) fa fb false false self.m_dim
      (fun c => 0 ≤ c) (fun c => 0 ≤ c) hma hmb hla hlb
      (fun p q c hc => by
        simpa [signHolds, BinaryKind.tagFirst, BinaryKind.namedTags] using hsa p q c hc)
      (fun p q d hd => by
        simpa [signHolds, BinaryKind.tagSecond, BinaryKind.namedTags] using hsb p q d hd)
      mul_up_NN_NN
  · refine ⟨(fun x y => List.zipWith (fun c d => c * d)
      (fa (route true x y).1 (route true x y).2) (fb (route true x y).1 (route true x y).2)),
      fun x y s hs => ?_, ?_⟩
    simp [BinaryKind.evaluate, Mult_vecNP_vecNP.evaluate, functionOperand, Function.update_apply,
      h1, h2, h3, Ne.symm h1, Ne.symm h2, Ne.symm h3, transform2_multiplies, hla, hlb, hs,
      route]
    exact zip_mixed (fun c d => c * d) fa fb true true self.m_dim
      (fun c => c ≤ 0) (fun c => c ≤ 0) hma hmb hla hlb
      (fun p q c hc => by
        simpa [signHolds, BinaryKind.tagFirst, BinaryKind.namedTags] using hsa p q c hc)
      (fun p q d hd => by
        simpa [signHolds, BinaryKind.tagSecond, BinaryKind.namedTags] using hsb p q d hd)
      mul_up_NP_NP
  · refine ⟨(fun x y => List.zipWith (fun c d => c * d)
      (fa (route true x y).1 (route true x y).2) (fb (route false x y).1 (route false x y).2)),
      fun x y s hs => ?_, ?_⟩
    simp [BinaryKind.evaluate, Mult_vecNN_vecNP.evaluate, functionOperand, Function.update_apply,
      h1, h2, h3, Ne.symm h1, Ne.symm h2, Ne.symm h3, transform2_multiplies, hla, hlb, hs,
      route]
    exact zip_mixed (fun c d => c * d) fa fb true false self.m_dim
      (fun c => 0 ≤ c) (fun c => c ≤ 0) hma hmb hla hlb
      (fun p q c hc => by
        simpa [signHolds, BinaryKind.tagFirst, BinaryKind.namedTags] using hsa p q c hc)
      (fun p q d hd => by
        simpa [signHolds, BinaryKind.tagSecond, BinaryKind.namedTags] using hsb p q d hd)
      mul_up_NN_NP
  · refine ⟨(fun x y => List.zipWith (fun c d => c + d)
      (List.zipWith (fun c d => c * d)
        ((fa (route false x y).1 (route false x y).2).map geHalf) (fb x y))
      (List.zipWith (fun c d => c * d)
        ((fa (route false x y).1 (route false x y).2).map ltHalf) (fb y x))),
      fun x y s hs => ?_, ?_⟩
    simp [BinaryKind.evaluate, Mult_vecU_vecNN.evaluate, functionOperand, Function.update_apply,
      h1, h2, h3, Ne.symm h1, Ne.symm h2, Ne.symm h3, transform2_multiplies, transform2_plus,
      splitLoop_fit self.m_dim (fa x y) (hla _ _), hla, hlb, hs, route, length_zeros,
      drop_zeros]
    exact split_mixed fa fb false self.m_dim (fun c => 0 ≤ c) hma hmb hla hlb
      (fun p q d hd => by
        simpa [signHolds, BinaryKind.tagSecond, BinaryKind.namedTags] using hsb p q d hd)
      split_up_NN
  · refine ⟨(fun x y => List.zipWith (fun c d => c + d)
      (List.zipWith (fun c d => c * d)
        ((fa (route true x y).1 (route true x y).2).map geHalf) (fb x y))
      (List.zipWith (fun c d => c * d)
        ((fa (route true x y).1 (route true x y).2).map ltHalf) (fb y x))),
      fun x y s hs => ?_, ?_⟩
    simp [BinaryKind.evaluate, Mult_vecU_vecNP.evaluate, functionOperand, Function.update_apply,
      h1, h2, h3, Ne.symm h1, Ne.symm h2, Ne.symm h3, transform2_multiplies, transform2_plus,
      splitLoop_fit self.m_dim (fa y x) (hla _ _), hla, hlb, hs, route, length_zeros,
      drop_zeros]
    exact split_mixed fa fb true self.m_dim (fun c => c ≤ 0) hma hmb hla hlb
      (fun p q d hd => by
        simpa [signHolds, BinaryKind.tagSecond, BinaryKind.namedTags] using hsb p q d hd)
      split_up_NP
  · refine ⟨(fun x y => List.zipWith (fun c d => c / d)
      (fa (route false x y).1 (route false x y).2) (fb (route true x y).1 (route true x y).2)),
      fun x y s hs => ?_, ?_⟩
    have hzb : ∀ d ∈ fb y x, d ≠ 0 := by
      simpa [divisorsNonzero, BinaryKind.family] using hz y x
    simp [BinaryKind.evaluate, Div_VecNN_VecNN.evaluate, functionOperand, Function.update_apply,
      h1, h2, h3, Ne.symm h1, Ne.symm h2, Ne.symm h3, transform2_divides _ (fb y x) _ hzb,
      hla, hlb, hs, route]
    exact zip_mixed (fun c d => c / d) fa fb false true self.m_dim
      (fun c => 0 ≤ c) (fun c => 0 ≤ c ∧ c ≠ 0) hma hmb hla hlb
      (fun p q c hc => by
        simpa [signHolds, BinaryKind.tagFirst, BinaryKind.namedTags] using hsa p q c hc)
      (fun p q d hd => by
        have hzd : ∀ d ∈ fb p q, d ≠ 0 := by
          simpa [divisorsNonzero, BinaryKind.family] using hz p q
        exact ⟨by simpa [signHolds, BinaryKind.tagSecond, BinaryKind.namedTags]
          using hsb p q d hd, hzd d hd⟩)
      div_up_NN_NN
  · refine ⟨(fun x y => List.zipWith (fun c d => c / d)
      (fa (route true x y).1 (route true x y).2) (fb (route false x y).1 (route false x y).2)),
      fun x y s hs => ?_, ?_⟩
    have hzb : ∀ d ∈ fb x y, d ≠ 0 := by
      simpa [divisorsNonzero, BinaryKind.family] using hz x y
    simp [BinaryKind.evaluate, Div_VecNP_VecNP.evaluate, functionOperand, Function.update_apply,
      h1, h2, h3, Ne.symm h1, Ne.symm h2, Ne.symm h3, transform2_divides _ (fb x y) _ hzb,
      hla, hlb, hs, route]
    exact zip_mixed (fun c d => c / d) fa fb true false self.m_dim
      (fun c => c ≤ 0) (fun c => c ≤ 0 ∧ c ≠ 0) hma hmb hla hlb
      (fun p q c hc => by
        simpa [signHolds, BinaryKind.tagFirst, BinaryKind.namedTags] using hsa p q c hc)
      (fun p q d hd => by
        have hzd : ∀ d ∈ fb p q, d ≠ 0 := by
          simpa [divisorsNonzero, BinaryKind.family] using hz p q
        exact ⟨by simpa [signHolds, BinaryKind.tagSecond, BinaryKind.namedTags]
          using hsb p q d hd, hzd d hd⟩)
      div_up_NP_NP
  · refine ⟨(fun x y => List.zipWith (fun c d => c / d)
      (fa (route true x y).1 (route true x y).2) (fb (route true x y).1 (route true x y).2)),
      fun x y s hs => ?_, ?_⟩
    have hzb : ∀ d ∈ fb y x, d ≠ 0 := by
      simpa [divisorsNonzero, BinaryKind.family] using hz y x
    simp [BinaryKind.evaluate, Div_VecNN_VecNP.evaluate, functionOperand, Function.update_apply,
      h1, h2, h3, Ne.symm h1, Ne.symm h2, Ne.symm h3, transform2_divides _ (fb y x) _ hzb,
      hla, hlb, hs, route]
    exact zip_mixed (fun c d => c / d) fa fb true true self.m_dim
      (fun c => 0 ≤ c) (fun c => c ≤ 0 ∧ c ≠ 0) hma hmb hla hlb
      (fun p q c hc => by
        simpa [signHolds, BinaryKind.tagFirst, BinaryKind.namedTags] using hsa p q c hc)
      (fun p q d hd => by
        have hzd : ∀ d ∈ fb p q, d ≠ 0 := by
          simpa [divisorsNonzero, BinaryKind.family] using hz p q
        exact ⟨by simpa [signHolds, BinaryKind.tagSecond, BinaryKind.namedTags]
          using hsb p q d hd, hzd d hd⟩)
      div_up_NN_NP
  · refine ⟨(fun x y => List.zipWith (fun c d => c / d)
      (fa (route false x y).1 (route false x y).2) (fb (route false x y).1 (route false x y).2)),
      fun x y s hs => ?_, ?_⟩
    have hzb : ∀ d ∈ fb x y, d ≠ 0 := by
      simpa [divisorsNonzero, BinaryKind.family] using hz x y
    simp [BinaryKind.evaluate, Div_VecNP_VecNN.evaluate, functionOperand, Function.update_apply,
      h1, h2, h3, Ne.symm h1, Ne.symm h2, Ne.symm h3, transform2_divides _ (fb x y) _ hzb,
      hla, hlb, hs, route]
    exact zip_mixed (fun c d => c / d) fa fb false false self.m_dim
      (fun c => c ≤ 0) (fun c => 0 ≤ c ∧ c ≠ 0) hma hmb hla hlb
      (fun p q c hc => by
        simpa [signHolds, BinaryKind.tagFirst, BinaryKind.namedTags] using hsa p q c hc)
      (fun p q d hd => by
        have hzd : ∀ d ∈ fb p q, d ≠ 0 := by
          simpa [divisorsNonzero, BinaryKind.family] using hz p q
        exact ⟨by simpa [signHolds, BinaryKind.tagSecond, BinaryKind.namedTags]
          using hsb p q d hd, hzd d hd⟩)
      div_up_NP_NN

theorem clipped_head_mixed (r : ℚ) :
    mixedMonotone (fun p _ => [max (p.headD 0) 0 + r]) :=
  ⟨fun x x' _ h =>
      List.Forall₂.cons (add_le_add_right (max_le_max (headD_le x x' h) (le_refl 0)) r)
        List.Forall₂.nil,
    fun _ _ _ _ => vec_le_refl _⟩

/-- Witness for C31: `Div_VecNN_VecNN` on the operands `a(p, q) = [max(p₀, 0)]` and
`b(p, q) = [max(p₀, 0) + 1]`. -/
theorem routing_preserves_mixed_monotonicity_witness :
    ∃ F : Vec → Vec → Vec,
      (∀ (x y : Vec) (s : Store), (s 3).length = 1 →
        ∃ s', BinaryKind.evaluate .Div_VecNN_VecNN ⟨3, 1, sign.NN⟩
            (functionOperand 1 1 (fun p _ => [max (p.headD 0) 0 + 0]))
            (functionOperand 2 1 (fun p _ => [max (p.headD 0) 0 + 1])) x y s = some s'
          ∧ s' 3 = F x y)
      ∧ mixedMonotone F :=
  routing_preserves_mixed_monotonicity .Div_VecNN_VecNN (by simp) ⟨3, 1, sign.NN⟩ 1 2
    (fun p _ => [max (p.headD 0) 0 + 0]) (fun p _ => [max (p.headD 0) 0 + 1]) (by decide)
    (clipped_head_mixed 0) (clipped_head_mixed 1) (fun _ _ => rfl) (fun _ _ => rfl)
    (by
      intro p q c hc
      simp only [List.mem_singleton] at hc
      subst hc
      simp [signHolds, BinaryKind.tagFirst, BinaryKind.namedTags])
    (by
      intro p q c hc
      simp only [List.mem_singleton] at hc
      subst hc
      simp only [signHolds, BinaryKind.tagSecond, BinaryKind.namedTags]
      positivity)
    (by
      intro p q c hc
      simp only [List.mem_singleton] at hc
      subst hc
      positivity)

/-! ## C33: the split loops of the Unknown×Unknown classes -/

/-- C33 fails on the code.  In `Mult_vecU_vecU` and `Dot_U_U` both split loops are the loop
`splitBodyByFirst`, whose one test `m_arg1val->at(i) >= 0` files the whole of `b[i]` under the
sign of `a[i]`: for `a = [1]`, `b = [-2]` the nonnegative half of `b` is `[-2]`, and for
`a = [-1]`, `b = [2]` the nonpositive half of `b` is `[2]` while its nonnegative half is `[0]`,
although `b[0] ≥ 0`.  The loop of `Div_VecU_VecU` tests `m_arg2val->at(i) >= 0` for the halves
of `b` and yields `[0]`, `[-2]` and `[2]`, `[0]`. -/
theorem unknown_unknown_splits_b_by_sign_of_a :
    (∀ (self : Header) (a b : Arg) (x y : Vec),
      ∃ rest : Store → Split4 → Option Store, ∀ s,
        Mult_vecU_vecU.evaluate self a b x y s
          = (a.evaluate x y s >>= fun s1 => b.evaluate x y s1 >>= fun s2 =>
              forLoop self.m_dim (splitBodyByFirst (s2 a.m_id) (s2 b.m_id))
                ⟨zeros self.m_dim, zeros self.m_dim, zeros self.m_dim, zeros self.m_dim⟩
                >>= rest s2))
    ∧ (∀ (self : Header) (a b : Arg) (x y : Vec),
      ∃ rest : Store → Split4 → Option Store, ∀ s,
        Dot_U_U.evaluate self a b x y s
          = (a.evaluate x y s >>= fun s1 => b.evaluate x y s1 >>= fun s2 =>
              forLoop self.m_dim (splitBodyByFirst (s2 a.m_id) (s2 b.m_id))
                ⟨zeros self.m_dim, zeros self.m_dim, zeros self.m_dim, zeros self.m_dim⟩
                >>= rest s2))
    ∧ (∀ (n : Nat) (a b : Vec), n ≤ a.length → n ≤ b.length →
        forLoop n (splitBodyByFirst a b) ⟨zeros n, zeros n, zeros n, zeros n⟩
          = some ⟨(a.map geHalf).take n, (a.map ltHalf).take n,
              (List.zipWith pickGe a b).take n, (List.zipWith pickLt a b).take n⟩)
    ∧ forLoop 1 (splitBodyByFirst [1] [-2]) ⟨zeros 1, zeros 1, zeros 1, zeros 1⟩
        = some ⟨[1], [0], [-2], [0]⟩
    ∧ forLoop 1 (splitBodyByFirst [-1] [2]) ⟨zeros 1, zeros 1, zeros 1, zeros 1⟩
        = some ⟨[0], [-1], [0], [2]⟩
    ∧ forLoop 1 (splitBodyEach [1] [-2]) ⟨zeros 1, zeros 1, zeros 1, zeros 1⟩
        = some ⟨[1], [0], [0], [-2]⟩
    ∧ forLoop 1 (splitBodyEach [-1] [2]) ⟨zeros 1, zeros 1, zeros 1, zeros 1⟩
        = some ⟨[0], [-1], [2], [0]⟩ := by
  refine ⟨fun _ _ _ _ _ => ⟨_, fun _ => rfl⟩, fun _ _ _ _ _ => ⟨_, fun _ => rfl⟩, ?_, ?_, ?_, ?_,
    ?_⟩
  · intro n a b ha hb
    rw [splitByFirst_eq n a b _ ha hb (by simp [zeros]) (by simp [zeros]) (by simp [zeros])
      (by simp [zeros])]
    simp [zeros]
  · norm_num [forLoop_one, splitBodyByFirst, Vec.at, Vec.write, zeros]
  · norm_num [forLoop_one, splitBodyByFirst, Vec.at, Vec.write, zeros]
  · norm_num [forLoop_one, splitBodyEach, Vec.at, Vec.write, zeros]
  · norm_num [forLoop_one, splitBodyEach, Vec.at, Vec.write, zeros]

/-! ## C34: soundness of the result tags -/

theorem mem_zipWith_elim (f : ℚ → ℚ → ℚ) (P : ℚ → Prop) :
    ∀ (va vb : Vec), (∀ c ∈ va, ∀ d ∈ vb, P (f c d)) → ∀ e ∈ List.zipWith f va vb, P e := by
  intro va
  induction va with
  | nil => intro vb _ e he; simp at he
  | cons c rest ih =>
    intro vb h e he
    cases vb with
    | nil => simp at he
    | cons d restb =>
      simp only [List.zipWith_cons_cons, List.mem_cons] at he
      rcases he with rfl | he
      · exact h c (by simp) d (by simp)
      · exact ih restb (fun c' hc' d' hd' =>
          h c' (List.mem_cons_of_mem _ hc') d' (List.mem_cons_of_mem _ hd')) e he

theorem mul_sign (ta tb : sign) (c d : ℚ) (hta : ta ≠ sign.unknown) (htb : tb ≠ sign.unknown)
    (hc : signHolds ta c) (hd : signHolds tb d) :
    signHolds (if ta = tb then sign.NN else sign.NP) (c * d) := by
  cases ta <;> cases tb <;> simp only [signHolds, ne_eq, not_true_eq_false, reduceCtorEq,
    not_false_eq_true, if_true, if_false] at *
  · exact mul_nonneg hc hd
  · exact mul_nonpos_of_nonneg_of_nonpos hc hd
  · exact mul_nonpos_of_nonpos_of_nonneg hc hd
  · exact mul_nonneg_of_nonpos_of_nonpos hc hd

theorem div_sign (ta tb : sign) (c d : ℚ) (hta : ta ≠ sign.unknown) (htb : tb ≠ sign.unknown)
    (hc : signHolds ta c) (hd : signHolds tb d) :
    signHolds (if ta = tb then sign.NN else sign.NP) (c / d) := by
  cases ta <;> cases tb <;> simp only [signHolds, ne_eq, not_true_eq_false, reduceCtorEq,
    not_false_eq_true, if_true, if_false] at *
  · exact div_nonneg hc hd
  · exact div_nonpos_of_nonneg_of_nonpos hc hd
  · exact div_nonpos_of_nonpos_of_nonneg hc hd
  · exact div_nonneg_of_nonpos hc hd

theorem sum_sign (t : sign) (l : Vec) (h : ∀ e ∈ l, signHolds t e) : signHolds t l.sum := by
  cases t <;> simp only [signHolds] at *
  · exact List.sum_nonneg h
  · induction l with
    | nil => simp
    | cons e rest ih =>
      simp only [List.sum_cons]
      exact add_nonpos (h e (by simp)) (ih (fun e' he' => h e' (List.mem_cons_of_mem _ he')))

theorem signHolds_zero (t : sign) : signHolds t 0 := by
  cases t <;> simp [signHolds]

theorem signHolds_getD (t : sign) (v : Vec) (h : carries t v) (i : Nat) :
    signHolds t (v.getD i 0) := by
  by_cases hc : i < v.length
  · simpa [List.getD_eq_getElem?_getD, List.getElem?_eq_getElem hc] using
      h _ (List.getElem_mem hc)
  · simpa [List.getD_eq_getElem?_getD, List.getElem?_eq_none (not_lt.mp hc)] using
      signHolds_zero t

theorem signHolds_headD (t : sign) (v : Vec) (h : carries t v) : signHolds t (v.headD 0) := by
  cases v with
  | nil => exact signHolds_zero t
  | cons c rest => exact h c (by simp)

/-- The plain operation of a multiplicative or dividing family on values that carry the
definite tags `ta`, `tb` carries NN when the tags are equal and NP when they differ. -/
theorem plainOperation_sign (f : Family) (ta tb : sign) (mat : Option Matrix) (va vb : Vec)
    (hf : f ≠ Family.add_vec_vec ∧ f ≠ Family.add_vec_scalar)
    (hta : ta ≠ sign.unknown) (htb : tb ≠ sign.unknown)
    (ha : carries ta va) (hb : carries tb vb) (hm : ∀ m, mat = some m → carries ta m.mData) :
    carries (if ta = tb then sign.NN else sign.NP) (plainOperation f mat va vb) := by
  cases f with
  | add_vec_vec => exact absurd rfl hf.1
  | add_vec_scalar => exact absurd rfl hf.2
  | mult_vec_vec =>
    exact mem_zipWith_elim _ _ va vb (fun c hc d hd => mul_sign ta tb c d hta htb (ha c hc)
      (hb d hd))
  | mult_vec_scalar =>
    intro e he
    simp only [plainOperation, List.mem_map] at he
    obtain ⟨c, hc, rfl⟩ := he
    exact mul_sign ta tb c _ hta htb (ha c hc) (signHolds_headD tb vb hb)
  | div_vec_vec =>
    exact mem_zipWith_elim _ _ va vb (fun c hc d hd => div_sign ta tb c d hta htb (ha c hc)
      (hb d hd))
  | div_vec_scalar =>
    intro e he
    simp only [plainOperation, List.mem_map] at he
    obtain ⟨c, hc, rfl⟩ := he
    exact div_sign ta tb c _ hta htb (ha c hc) (signHolds_headD tb vb hb)
  | div_scalar_vec =>
    intro e he
    simp only [plainOperation, List.mem_map] at he
    obtain ⟨d, hd, rfl⟩ := he
    exact div_sign ta tb _ d hta htb (signHolds_headD ta va ha) (hb d hd)
  | dot =>
    intro e he
    simp only [plainOperation, List.mem_singleton] at he
    subst he
    exact sum_sign _ _ (mem_zipWith_elim _ _ va vb (fun c hc d hd =>
      mul_sign ta tb c d hta htb (ha c hc) (hb d hd)))
  | mult_mat_vec =>
    cases mat with
    | none => intro e he; simp [plainOperation] at he
    | some m =>
      intro e he
      simp only [plainOperation, plainMatVec, List.mem_map, List.mem_range] at he
      obtain ⟨r, _, rfl⟩ := he
      unfold plainRow
      refine sum_sign _ _ ?_
      intro e he
      simp only [List.mem_map, List.mem_range] at he
      obtain ⟨j, _, rfl⟩ := he
      exact mul_sign ta tb _ _ hta htb (signHolds_getD ta m.mData (hm m rfl) _)
        (signHolds_getD tb vb hb _)

theorem ctorSign_of_named (k : BinaryKind) (hk : k.signDefinite)
    (hf : k.family ≠ Family.add_vec_vec ∧ k.family ≠ Family.add_vec_scalar)
    (hne : k ≠ BinaryKind.Dot_NN_NP) (sa sb : sign) :
    k.ctorSign sa sb = if k.tagFirst = k.tagSecond then sign.NN else sign.NP := by
  cases k <;> simp [BinaryKind.ctorSign, BinaryKind.tagFirst, BinaryKind.tagSecond,
    BinaryKind.namedTags, BinaryKind.family, BinaryKind.signDefinite] at hk hf hne ⊢

/-- C34 fails on the code for `Dot_NN_NP`: its constructor sets `m_sign = NN`, but on operands
that carry the named signs, `a = [1] ≥ 0` and `b = [-1] ≤ 0`, the computed value is `[-1]`; the
sibling `Mult_vecNN_vecNP` is tagged NP.  For every other sign-definite class of the seven
families the claim holds: when the operands' values (and the matrix) carry the signs that the
class names, with nonzero divisors, `evaluate(x, y)` succeeds and every component of its value
has the sign of the class's own tag. -/
theorem dot_NN_NP_is_tagged_NN_but_nonpositive :
    BinaryKind.ctorSign .Dot_NN_NP sign.NN sign.NP = sign.NN
    ∧ BinaryKind.ctorSign .Mult_vecNN_vecNP sign.NN sign.NP = sign.NP
    ∧ carries (BinaryKind.tagFirst .Dot_NN_NP) [1]
    ∧ carries (BinaryKind.tagSecond .Dot_NN_NP) [-1]
    ∧ ((Expression.binary ⟨3, 1, sign.NN⟩ .Dot_NN_NP (.leaf ⟨1, 1, sign.NN⟩ .Parameter)
          (.leaf ⟨2, 1, sign.NP⟩ .Parameter)).evaluate noLog [0] [0]
        (Function.update (Function.update (fun _ => [0]) 1 [1]) 2 [-1])).map (fun s => s 3)
        = some [-1]
    ∧ ¬ carries sign.NN [-1]
    ∧ (∀ (cm : CMath) (k : BinaryKind), k.signDefinite →
        k.family ≠ Family.add_vec_vec → k.family ≠ Family.add_vec_scalar →
        k ≠ BinaryKind.Dot_NN_NP →
        ∀ (h : Header) (a b : Expression) (x y : Vec) (s s1 s2 : Store),
          a.evaluate cm (route k.swapsFirst x y).1 (route k.swapsFirst x y).2 s = some s1 →
          b.evaluate cm (route k.swapsSecond x y).1 (route k.swapsSecond x y).2 s1 = some s2 →
          wellDimensioned k.family h.m_dim a.getMatrix (s2 a.getID) (s2 b.getID) (s2 h.m_id) →
          divisorsNonzero k.family (s2 b.getID) →
          carries k.tagFirst (s2 a.getID) → carries k.tagSecond (s2 b.getID) →
          (∀ m, a.getMatrix = some m → carries k.tagFirst m.mData) →
          ∃ s', (Expression.binary h k a b).evaluate cm x y s = some s'
            ∧ carries (k.ctorSign a.getSign b.getSign) (s' h.m_id)) := by
  refine ⟨rfl, rfl, ?_, ?_, ?_, ?_, ?_⟩
  · simp [carries, signHolds, BinaryKind.tagFirst, BinaryKind.namedTags]
  · simp [carries, signHolds, BinaryKind.tagSecond, BinaryKind.namedTags]
  · simp only [Expression.evaluate, BinaryKind.evaluate, Dot_NN_NP.evaluate,
      Expression.getID, Expression.header, Option.bind_eq_bind, Option.some_bind]
    simp only [Function.update_apply]
    norm_num [setInner, inner_product, Vec.write]
  · simp [carries, signHolds]
  · intro cm k hk hf1 hf2 hne h a b x y s s1 s2 ha hb hd hz ca cb hm
    refine ⟨_, signDefinite_routed cm k hk h a b x y s s1 s2 ha hb hd hz, ?_⟩
    rw [Function.update_same, ctorSign_of_named k hk ⟨hf1, hf2⟩ hne]
    exact plainOperation_sign k.family k.tagFirst k.tagSecond a.getMatrix _ _ ⟨hf1, hf2⟩
      (tags_definite k hk ⟨hf1, hf2⟩).1 (tags_definite k hk ⟨hf1, hf2⟩).2 ca cb hm

/-! ## C35: dot product against elementwise product on one-dimensional operands -/

theorem bind_congr_some {α β : Type} (o : Option α) (f g : α → Option β)
    (h : ∀ c, o = some c → f c = g c) : (o >>= f) = (o >>= g) := by
  cases o with
  | none => rfl
  | some c => exact h c rfl

theorem dot_eq_mult_definite (self : Header) (a b : Arg) (p q p' q' : Vec) (s : Store)
    (hkb : ∀ t u, b.evaluate p' q' t = some u → oneDimensional self a b t →
      oneDimensional self a b u)
    (hka : ∀ t u, a.evaluate p q t = some u → oneDimensional self a b t →
      oneDimensional self a b u)
    (hI : oneDimensional self a b s) :
    (a.evaluate p q s >>= fun s1 => b.evaluate p' q' s1 >>= fun s2 =>
        setInner (s2 a.m_id) (s2 b.m_id) (s2 self.m_id) >>= fun m_value =>
          pure (Function.update s2 self.m_id m_value))
      = (a.evaluate p q s >>= fun s1 => b.evaluate p' q' s1 >>= fun s2 =>
        transform2 multiplies (s2 a.m_id) (s2 b.m_id) (s2 self.m_id) >>= fun m_value =>
          pure (Function.update s2 self.m_id m_value)) := by
  refine bind_congr_some _ _ _ (fun s1 e1 => ?_)
  refine bind_congr_some _ _ _ (fun s2 e2 => ?_)
  obtain ⟨h1, h2, h3⟩ := hkb s1 s2 e2 (hka s s1 e1 hI)
  obtain ⟨c, hc⟩ := List.length_eq_one.mp h1
  obtain ⟨d, hd⟩ := List.length_eq_one.mp h2
  obtain ⟨o, ho⟩ := List.length_eq_one.mp h3
  simp [setInner, inner_product, transform2_multiplies, Vec.write, hc, hd, ho]

theorem dot_eq_mult_unknown_first (self : Header) (a b : Arg) (p q x y : Vec) (s : Store)
    (n : Store → Nat) (hn : ∀ t, (t a.m_id).length = 1 → n t = 1)
    (acc : Vec → Vec → Vec → Option Vec)
    (hacc : ∀ c d o, acc [c] [d] [o] = some [o + c * d])
    (hda : a.m_dim = 1) (hds : self.m_dim = 1)
    (hka : ∀ t u, a.evaluate p q t = some u → oneDimensional self a b t →
      oneDimensional self a b u)
    (hkb : ∀ p' q' t u, (p' = x ∧ q' = y ∨ p' = y ∧ q' = x) → b.evaluate p' q' t = some u →
      oneDimensional self a b t → oneDimensional self a b u)
    (hI : oneDimensional self a b s) :
    (a.evaluate p q s >>= fun s1 =>
      splitLoop (n s1) (s1 a.m_id) (zeros a.m_dim) (zeros a.m_dim) >>= fun halves =>
      b.evaluate y x s1 >>= fun s2 => b.evaluate x y s2 >>= fun s3 =>
        setInner halves.1 (s3 b.m_id) (s3 self.m_id) >>= fun m_value =>
        acc halves.2 (s2 b.m_id) m_value >>= fun m_value =>
          pure (Function.update s3 self.m_id m_value))
      = (a.evaluate p q s >>= fun s1 =>
      splitLoop self.m_dim (s1 a.m_id) (zeros a.m_dim) (zeros a.m_dim) >>= fun halves =>
      b.evaluate y x s1 >>= fun s2 => b.evaluate x y s2 >>= fun s3 =>
        transform2 multiplies halves.1 (s3 b.m_id) (zeros self.m_dim) >>= fun addend1 =>
        transform2 multiplies halves.2 (s2 b.m_id) (zeros self.m_dim) >>= fun addend2 =>
        transform2 plus addend1 addend2 (s3 self.m_id) >>= fun m_value =>
          pure (Function.update s3 self.m_id m_value)) := by
  refine bind_congr_some _ _ _ (fun s1 e1 => ?_)
  have I1 := hka s s1 e1 hI
  rw [hn s1 I1.1, hds, hda, splitLoop_fit 1 _ I1.1]
  simp only [Option.bind_eq_bind, Option.some_bind]
  refine bind_congr_some _ _ _ (fun s2 e2 => ?_)
  have I2 := hkb _ _ s1 s2 (Or.inr ⟨rfl, rfl⟩) e2 I1
  refine bind_congr_some _ _ _ (fun s3 e3 => ?_)
  have I3 := hkb _ _ s2 s3 (Or.inl ⟨rfl, rfl⟩) e3 I2
  obtain ⟨c, hc⟩ := List.length_eq_one.mp I1.1
  obtain ⟨e, he⟩ := List.length_eq_one.mp I2.2.1
  obtain ⟨d, hd⟩ := List.length_eq_one.mp I3.2.1
  obtain ⟨o, ho⟩ := List.length_eq_one.mp I3.2.2
  simp [setInner, inner_product, transform2_multiplies, transform2_plus, Vec.write, hc, hd, ho,
    he, hacc, zeros]

/-- C35 fails on the code for the combination U_U.  On two Variables of dimension 1 at
`x = [1]`, `y = [-1]` the value of `Dot_U_U` is `[2]` and that of `Mult_vecU_vecU` is `[1]`:
the fourth term of `Dot_U_U` pairs `a_swap_lessthan0` with `b_swap_lessthan0`, that of
`Mult_vecU_vecU` pairs it with `b_lessthan0`.  For the five other combinations the claim holds
for all operands: when the buffers of the operands and of the node hold one component before
the call and after every operand call, the Dot class and the Mult_vec_vec class leave the same
store. -/
theorem dot_U_U_differs_from_mult_vecU_vecU :
    ((Expression.binary ⟨3, 1, sign.unknown⟩ .Dot_U_U (.leaf ⟨1, 1, sign.unknown⟩ .Variable)
        (.leaf ⟨2, 1, sign.unknown⟩ .Variable)).evaluate noLog [1] [-1]
        (fun _ => [0])).map (fun s => s 3) = some [2]
    ∧ ((Expression.binary ⟨3, 1, sign.unknown⟩ .Mult_vecU_vecU
        (.leaf ⟨1, 1, sign.unknown⟩ .Variable) (.leaf ⟨2, 1, sign.unknown⟩ .Variable)).evaluate
        noLog [1] [-1] (fun _ => [0])).map (fun s => s 3) = some [1]
    ∧ (∀ (self : Header) (a b : Arg) (x y : Vec) (s : Store),
        self.m_dim = 1 → a.m_dim = 1 → oneDimensional self a b s →
        (∀ p q t u, (p = x ∧ q = y ∨ p = y ∧ q = x) → a.evaluate p q t = some u →
          oneDimensional self a b t → oneDimensional self a b u) →
        (∀ p q t u, (p = x ∧ q = y ∨ p = y ∧ q = x) → b.evaluate p q t = some u →
          oneDimensional self a b t → oneDimensional self a b u) →
        BinaryKind.evaluate .Dot_NN_NN self a b x y s
            = BinaryKind.evaluate .Mult_vecNN_vecNN self a b x y s
          ∧ BinaryKind.evaluate .Dot_NP_NP self a b x y s
            = BinaryKind.evaluate .Mult_vecNP_vecNP self a b x y s
          ∧ BinaryKind.evaluate .Dot_NN_NP self a b x y s
            = BinaryKind.evaluate .Mult_vecNN_vecNP self a b x y s
          ∧ BinaryKind.evaluate .Dot_U_NN self a b x y s
            = BinaryKind.evaluate .Mult_vecU_vecNN self a b x y s
          ∧ BinaryKind.evaluate .Dot_U_NP self a b x y s
            = BinaryKind.evaluate .Mult_vecU_vecNP self a b x y s) := by
  refine ⟨?_, ?_, ?_⟩
  · simp only [Expression.evaluate, BinaryKind.evaluate, Dot_U_U.evaluate,
      Expression.getID, Expression.header, Option.bind_eq_bind, Option.some_bind, forLoop_one,
      zeros, List.replicate]
    simp only [Function.update_apply]
    norm_num [splitBodyByFirst, Vec.at, Vec.write, setInner, accInner, inner_product]
  · simp only [Expression.evaluate, BinaryKind.evaluate, Mult_vecU_vecU.evaluate,
      Expression.getID, Expression.header, Option.bind_eq_bind, Option.some_bind, forLoop_one,
      zeros, List.replicate]
    simp only [Function.update_apply]
    norm_num [splitBodyByFirst, Vec.at, Vec.write, transform2_plus, transform2_multiplies]
  · intro self a b x y s hds hda hI hka hkb
    refine ⟨?_, ?_, ?_, ?_, ?_⟩
    · exact dot_eq_mult_definite self a b x y x y s (hkb x y · · (Or.inl ⟨rfl, rfl⟩))
        (hka x y · · (Or.inl ⟨rfl, rfl⟩)) hI
    · exact dot_eq_mult_definite self a b y x y x s (hkb y x · · (Or.inr ⟨rfl, rfl⟩))
        (hka y x · · (Or.inr ⟨rfl, rfl⟩)) hI
    · exact dot_eq_mult_definite self a b y x x y s (hkb x y · · (Or.inl ⟨rfl, rfl⟩))
        (hka y x · · (Or.inr ⟨rfl, rfl⟩)) hI
    · exact dot_eq_mult_unknown_first self a b x y x y s (fun t => (t a.m_id).length)
        (fun _ h => h) addInner
        (by intro c d o; simp [addInner, inner_product, Vec.at, Vec.write]) hda hds
        (hka x y · · (Or.inl ⟨rfl, rfl⟩)) hkb hI
    · exact dot_eq_mult_unknown_first self a b y x x y s (fun _ => self.m_dim)
        (fun _ _ => hds) accInner
        (by intro c d o; simp [accInner, inner_product, Vec.at, Vec.write]) hda hds
        (hka y x · · (Or.inr ⟨rfl, rfl⟩)) hkb hI

/-! ## C36: scalar ÷ Unknown vector -/

theorem forLoop_invariant {σ : Type} (body : Nat → σ → Option σ) (P : σ → Prop)
    (hbody : ∀ i st st', P st → body i st = some st' → P st') :
    ∀ (n : Nat) (init r : σ), P init → forLoop n body init = some r → P r := by
  intro n
  induction n with
  | zero =>
    intro init r hP h
    simp only [forLoop_zero, Option.some.injEq] at h
    exact h ▸ hP
  | succ n ih =>
    intro init r hP h
    rw [forLoop_succ] at h
    cases hm : forLoop n body init with
    | none => simp [hm] at h
    | some mid =>
      simp only [hm, Option.some_bind] at h
      exact hbody n mid r (ih init mid hP hm) h

/-- After any number of passes of the split loop, every index of the two halves holds a zero in
one of them. -/
theorem splitLoop_one_half_zero (n : Nat) (src : Vec) (k : Nat) (ge lt : Vec)
    (h : splitLoop n src (zeros k) (zeros k) = some (ge, lt)) :
    ge.length = k ∧ lt.length = k ∧ ∀ j, j < k → ge[j]? = some 0 ∨ lt[j]? = some 0 := by
  refine forLoop_invariant (splitBody src)
    (fun st => st.1.length = k ∧ st.2.length = k
      ∧ ∀ j, j < k → st.1[j]? = some 0 ∨ st.2[j]? = some 0) ?_ n (zeros k, zeros k) (ge, lt)
    ?_ h
  · intro i st st' hP hb
    obtain ⟨l1, l2, hz⟩ := hP
    unfold splitBody at hb
    cases hc : src.at i with
    | none => simp [hc] at hb
    | some c =>
      simp only [hc, Option.bind_eq_bind, Option.some_bind, Vec.write] at hb
      split at hb
      · split at hb
        · split at hb
          · simp only [Option.some_bind, Option.pure_def, Option.some.injEq] at hb
            subst hb
            refine ⟨by simp [l1], by simp [l2], ?_⟩
            intro j hj
            by_cases e : i = j
            · right
              subst e
              simp [l2, hj]
            · rcases hz j hj with hh | hh
              · left
                simp [List.getElem?_set, e, hh]
              · right
                simp [List.getElem?_set, e, hh]
          · simp at hb
        · simp at hb
      · split at hb
        · split at hb
          · simp only [Option.some_bind, Option.pure_def, Option.some.injEq] at hb
            subst hb
            refine ⟨by simp [l1], by simp [l2], ?_⟩
            intro j hj
            by_cases e : i = j
            · left
              subst e
              simp [l1, hj]
            · rcases hz j hj with hh | hh
              · left
                simp [List.getElem?_set, e, hh]
              · right
                simp [List.getElem?_set, e, hh]
          · simp at hb
        · simp at hb
  · refine ⟨by simp [zeros], by simp [zeros], ?_⟩
    intro j hj
    left
    simp [zeros, hj]

theorem collect_none_of_mem (l : List (Option ℚ)) (h : none ∈ l) : collect l = none := by
  induction l with
  | nil => simp at h
  | cons o rest ih =>
    cases o with
    | none => rfl
    | some c =>
      have hr : none ∈ rest := by simpa using h
      simp [collect, ih hr]

theorem transform1_none_of_zero (op : ℚ → Option ℚ) (v out : Vec) (h0 : op 0 = none)
    (j : Nat) (hj : v[j]? = some 0) : transform1 op v out = none := by
  unfold transform1
  split
  · have hm : (0 : ℚ) ∈ v := List.mem_iff_getElem?.2 ⟨j, hj⟩
    rw [collect_none_of_mem _ (by simpa [← h0] using List.mem_map_of_mem op hm)]
    rfl
  · rfl

theorem transform1_some_no_zero (op : ℚ → Option ℚ) (v out r : Vec) (h0 : op 0 = none)
    (h : transform1 op v out = some r) (j : Nat) : v[j]? ≠ some 0 := by
  intro hj
  rw [transform1_none_of_zero op v out h0 j hj] at h
  exact absurd h (by simp)

theorem scalarOver_zero (s : Store) (a : Arg) : scalarOver s a 0 = none := by
  unfold scalarOver
  cases (s a.m_id).at 0 <;> simp [divides]

theorem div_ScalarNN_VecU_never_returns (self : Header) (a b : Arg) (x y : Vec) (s : Store)
    (hb : 0 < b.m_dim) : Div_ScalarNN_VecU.evaluate self a b x y s = none := by
  rw [Option.eq_none_iff_forall_not_mem]
  intro r hr
  rw [Option.mem_def] at hr
  revert r
  unfold Div_ScalarNN_VecU.evaluate
  refine bind_elim _ _ _ (fun s1 h1 => ?_)
  refine bind_elim _ _ _ (fun p h2 => ?_)
  obtain ⟨ge, lt⟩ := p
  dsimp only
  refine bind_elim _ _ _ (fun s2 h3 => ?_)
  refine bind_elim _ _ _ (fun a_swap h4 => ?_)
  refine bind_elim _ _ _ (fun s3 h5 => ?_)
  refine bind_elim _ _ _ (fun addend1 h6 => ?_)
  refine bind_elim _ _ _ (fun addend2 h7 => ?_)
  intro r _
  rcases (splitLoop_one_half_zero _ _ _ _ _ h2).2.2 0 hb with h | h
  · exact transform1_some_no_zero _ _ _ _ (scalarOver_zero _ _) h6 0 h
  · exact transform1_some_no_zero _ _ _ _ (by simp [divides]) h7 0 h

theorem div_ScalarNP_VecU_never_returns (self : Header) (a b : Arg) (x y : Vec) (s : Store)
    (hb : 0 < b.m_dim) : Div_ScalarNP_VecU.evaluate self a b x y s = none := by
  rw [Option.eq_none_iff_forall_not_mem]
  intro r hr
  rw [Option.mem_def] at hr
  revert r
  unfold Div_ScalarNP_VecU.evaluate
  refine bind_elim _ _ _ (fun s1 h1 => ?_)
  refine bind_elim _ _ _ (fun p h2 => ?_)
  obtain ⟨ge, lt⟩ := p
  dsimp only
  refine bind_elim _ _ _ (fun s2 h3 => ?_)
  refine bind_elim _ _ _ (fun a_swap h4 => ?_)
  refine bind_elim _ _ _ (fun s3 h5 => ?_)
  refine bind_elim _ _ _ (fun addend1 h6 => ?_)
  refine bind_elim _ _ _ (fun addend2 h7 => ?_)
  intro r _
  rcases (splitLoop_one_half_zero _ _ _ _ _ h2).2.2 0 hb with h | h
  · exact transform1_some_no_zero _ _ _ _ (scalarOver_zero _ _) h6 0 h
  · exact transform1_some_no_zero _ _ _ _ (by simp [divides]) h7 0 h

/-- C36 fails on the code: in `Div_ScalarNN_VecU` and `Div_ScalarNP_VecU` both transforms run
over the whole of `b_greaterequalthan0` and of `b_lessthan0`, and at every index one of the two
halves holds the zero that the split loop (or the constructor) put there.  For the divisor
`b = [2]`, whose only component is nonzero, the split yields `([2], [0])` and the second
transform divides `a_swap = 6` by `0`; for every pair of operands with a vector operand of
positive dimension the call divides by zero (or throws) and never returns normally.
`Div_ScalarU_VecU`, which tests `== 0` before each division, returns `[3]` on the same
operands, as does `Div_ScalarNN_VecNN`. -/
theorem scalar_over_unknown_vector_divides_by_zero :
    (∀ (self : Header) (a b : Arg) (x y : Vec) (s : Store), 0 < b.m_dim →
      Div_ScalarNN_VecU.evaluate self a b x y s = none
      ∧ Div_ScalarNP_VecU.evaluate self a b x y s = none)
    ∧ splitLoop 1 [2] (zeros 1) (zeros 1) = some ([2], [0])
    ∧ transform1 (fun c => divides 6 c) [0] (zeros 1) = none
    ∧ (Expression.binary ⟨3, 1, sign.unknown⟩ .Div_ScalarNN_VecU
        (.leaf ⟨1, 1, sign.NN⟩ .Parameter) (.leaf ⟨2, 1, sign.unknown⟩ .Variable)).evaluate
        noLog [2] [2] (Function.update (fun _ => [0]) 1 [6]) = none
    ∧ ((Expression.binary ⟨3, 1, sign.unknown⟩ .Div_ScalarU_VecU
        (.leaf ⟨1, 1, sign.NN⟩ .Parameter) (.leaf ⟨2, 1, sign.unknown⟩ .Variable)).evaluate
        noLog [2] [2] (Function.update (fun _ => [0]) 1 [6])).map (fun s => s 3) = some [3]
    ∧ ((Expression.binary ⟨3, 1, sign.NN⟩ .Div_ScalarNN_VecNN
        (.leaf ⟨1, 1, sign.NN⟩ .Parameter) (.leaf ⟨2, 1, sign.NN⟩ .Variable)).evaluate
        noLog [2] [2] (Function.update (fun _ => [0]) 1 [6])).map (fun s => s 3)
          = some [3] := by
  refine ⟨fun self a b x y s hb => ⟨div_ScalarNN_VecU_never_returns self a b x y s hb,
    div_ScalarNP_VecU_never_returns self a b x y s hb⟩, ?_, ?_, ?_, ?_, ?_⟩
  · simp [splitLoop, forLoop_one, splitBody, Vec.at, Vec.write, zeros]
  · simp [transform1, collect, divides, zeros]
  · exact div_ScalarNN_VecU_never_returns _ _ _ _ _ _ (by decide)
  · simp only [Expression.evaluate, BinaryKind.evaluate, Div_ScalarU_VecU.evaluate,
      Expression.getID, Expression.header, Option.bind_eq_bind, Option.some_bind, forLoop_one,
      zeros, List.replicate]
    simp only [Function.update_apply]
    norm_num [splitLoop, forLoop_one, splitBody, Div_ScalarU_VecU.body, Vec.at, Vec.write,
      divides]
  · simp only [Expression.evaluate, BinaryKind.evaluate, Div_ScalarNN_VecNN.evaluate,
      Expression.getID, Expression.header, Option.bind_eq_bind, Option.some_bind]
    simp only [Function.update_apply]
    norm_num [transform1, scalarOver, collect, divides, Vec.at]

/-! ## C37: Sum and Prod -/

/-- C38. The tags of Prod and List do not depend on their operands: `Prod(a)` is always built,
and tagged NN, whatever the tag of `a` is; `List(a)` is tagged Unknown for every list of
operands, whatever their tags are: the loop of the constructor can assign nothing but
`unknown`, which is also the initial tag. -/
theorem prod_and_list_tags_ignore_operands :
    (∀ (a : Expression) (r : Registry),
      ∃ e r', UnaryKind.new .Prod a r = some (e, r') ∧ e.getSign = sign.NN)
    ∧ (∀ (a : List Expression) (r : Registry), (List_new a r).1.getSign = sign.unknown)
    ∧ (List_new [.leaf ⟨1, 1, sign.NN⟩ .Variable, .leaf ⟨2, 1, sign.NN⟩ .Variable]
        Registry.initial).1.getSign = sign.unknown
    ∧ (List_new [.leaf ⟨1, 1, sign.NP⟩ .Variable, .leaf ⟨2, 1, sign.NP⟩ .Variable]
        Registry.initial).1.getSign = sign.unknown := by
  have hall : ∀ (a : List Expression) (r : Registry),
      (List_new a r).1.getSign = sign.unknown := by
    intro a r
    simp [List_new, Registry.construct, Expression.getSign, Expression.header,
      list_signLoop_unknown]
  refine ⟨?_, hall, hall _ _, hall _ _⟩
  intro a r
  exact ⟨_, _, rfl, rfl⟩

/-! ## C39: the class Inv -/

/-- C39, as stated, fails when the operand's value is shorter than the node's buffer: on the
freshly built node `Inv(v)`, with `v` a Variable of dimension 2, `evaluate([0], [8])` returns
with every math library `cm`, the value of `v` is `[8]` and the value of the node is
`[log2 8, 0]`, two components, while `log2` of the value of `v` is the one component `[log2 8]`;
after an earlier `evaluate([0, 0], [4, 7])` the second component is `log2 7`.  The values of
`Inv(v)` after `evaluate([0], [8])` and of `Log2(v)` after `evaluate([8], [0])` differ in the
second component when the two buffers held `[0, 1]` and `[0, 2]` before.  When the operand's
value is longer than the buffer, `evaluate` leaves no value: `Inv(Variable(1))` at
`y = [1, 2]`. -/
theorem inv_counterexample :
    (∀ cm : CMath,
      ((Expression.unary ⟨3, 2, sign.NN⟩ .Inv (.leaf ⟨1, 2, sign.NN⟩ .Variable)).evaluate cm
          [0] [8] (fun _ => [0, 0])).map (fun s => (s 1, s 3)) = some ([8], [cm.log2 8, 0])
      ∧ [cm.log2 8, 0] ≠ [(8 : ℚ)].map cm.log2)
    ∧ (∀ cm : CMath,
      (((Expression.unary ⟨3, 2, sign.NN⟩ .Inv (.leaf ⟨1, 2, sign.NN⟩ .Variable)).evaluate cm
          [0, 0] [4, 7] (fun _ => [0, 0])).bind
          (fun s => (Expression.unary ⟨3, 2, sign.NN⟩ .Inv
            (.leaf ⟨1, 2, sign.NN⟩ .Variable)).evaluate cm [0] [8] s)).map
          (fun s => (s 1, s 3)) = some ([8], [cm.log2 8, cm.log2 7]))
    ∧ (∀ cm : CMath,
      ((Expression.unary ⟨3, 2, sign.NN⟩ .Inv (.leaf ⟨1, 2, sign.NN⟩ .Variable)).evaluate cm
          [0] [8] (Function.update (Function.update (fun _ => [0, 0]) 3 [0, 1]) 4 [0, 2])).map
          (fun s => s 3) = some [cm.log2 8, 1]
      ∧ ((Expression.unary ⟨4, 2, sign.unknown⟩ .Log2
          (.leaf ⟨1, 2, sign.NN⟩ .Variable)).evaluate cm
          [8] [0] (Function.update (Function.update (fun _ => [0, 0]) 3 [0, 1]) 4 [0, 2])).map
          (fun s => s 4) = some [cm.log2 8, 2])
    ∧ (∀ cm : CMath,
      (Expression.unary ⟨2, 1, sign.NN⟩ .Inv (.leaf ⟨1, 1, sign.NN⟩ .Variable)).evaluate cm
        [0] [1, 2] (fun _ => [0]) = none) := by
  refine ⟨fun cm => ⟨?_, by simp⟩, fun cm => ?_, fun cm => ⟨?_, ?_⟩, fun cm => ?_⟩
  all_goals
    simp only [Expression.evaluate, UnaryKind.evaluate, Inv.evaluate, Log2.evaluate,
      Expression.getID, Expression.header, Option.bind_eq_bind, Option.some_bind]
    simp only [Function.update_apply]
    norm_num [transform1, collect]

/-- C39, amended. The node kind Inv is a base-2 logarithm with swapped routing: `evaluate(x, y)`
of `Inv(a)` does what `evaluate(y, x)` of `Log2(a)` does on the same node, for every operand
and all `x`, `y`; when `a` evaluates at `(y, x)` to a value no longer than the node's buffer,
the value of `Inv(a)` after `evaluate(x, y)` is `log2` of each component of `a`'s value at
`(y, x)` (no reciprocal is taken) followed by the components the buffer held from there on;
when `a`'s value has the length of the buffer, the value of `Inv(a)` is `log2` of each
component of `a`'s value, and equals the value that a node `Log2(a)` with a buffer of the same
length has after `evaluate(y, x)`; and the constructor gives `Inv(a)` the tag of `a`. -/
theorem inv_is_log2_with_swapped_routing (cm : CMath) (h : Header) (a : Expression)
    (x y : Vec) (s : Store) :
    (Expression.unary h .Inv a).evaluate cm x y s
      = (Expression.unary h .Log2 a).evaluate cm y x s
    ∧ (∀ s1 : Store, a.evaluate cm y x s = some s1 →
        (s1 a.getID).length ≤ (s1 h.m_id).length →
        (Expression.unary h .Inv a).evaluate cm x y s
          = some (Function.update s1 h.m_id
              ((s1 a.getID).map cm.log2 ++ (s1 h.m_id).drop (s1 a.getID).length)))
    ∧ (∀ s1 : Store, a.evaluate cm y x s = some s1 →
        (s1 a.getID).length = (s1 h.m_id).length →
        (Expression.unary h .Inv a).evaluate cm x y s
          = some (Function.update s1 h.m_id ((s1 a.getID).map cm.log2)))
    ∧ (∀ (hL : Header) (s1 : Store), a.evaluate cm y x s = some s1 →
        (s1 a.getID).length = (s1 h.m_id).length →
        (s1 a.getID).length = (s1 hL.m_id).length →
        ((Expression.unary h .Inv a).evaluate cm x y s).map (fun t => t h.m_id)
          = ((Expression.unary hL .Log2 a).evaluate cm y x s).map (fun t => t hL.m_id)
        ∧ ((Expression.unary h .Inv a).evaluate cm x y s).map (fun t => t h.m_id)
          = some ((s1 a.getID).map cm.log2))
    ∧ (∀ (r : Registry) (e : Expression) (r' : Registry),
        UnaryKind.new .Inv a r = some (e, r') → e.getSign = a.getSign) := by
  refine ⟨rfl, ?_, ?_, ?_, ?_⟩
  · intro s1 ha hl
    simp [Expression.evaluate, UnaryKind.evaluate, Inv.evaluate, ha, transform1_total, hl]
  · intro s1 ha hl
    simp [Expression.evaluate, UnaryKind.evaluate, Inv.evaluate, ha, transform1_total, hl]
  · intro hL s1 ha hl hl2
    have eI : (Expression.unary h .Inv a).evaluate cm x y s
        = some (Function.update s1 h.m_id ((s1 a.getID).map cm.log2)) := by
      simp [Expression.evaluate, UnaryKind.evaluate, Inv.evaluate, ha, transform1_total, hl]
    have eL : (Expression.unary hL .Log2 a).evaluate cm y x s
        = some (Function.update s1 hL.m_id ((s1 a.getID).map cm.log2)) := by
      simp [Expression.evaluate, UnaryKind.evaluate, Log2.evaluate, ha, transform1_total, hl2]
    rw [eI, eL]
    simp
  · intro r e r' hc
    rw [unary_new_sign _ a r e r' hc]
    cases hs : a.getSign <;> simp [UnaryKind.ctorSign]

/-- Witness for C39: `Inv` of a Variable at `x = [0]`, `y = [8]` reads the Variable at
`(y, x)`, where its value is `[8]`. -/
theorem inv_is_log2_with_swapped_routing_witness :
    (Expression.unary ⟨2, 1, sign.NN⟩ .Inv (.leaf ⟨1, 1, sign.NN⟩ .Variable)).evaluate noLog
        [0] [8] (fun _ => [0])
      = some (Function.update (Function.update (fun _ => [0]) 1 [8]) 2
          (((Function.update (fun _ => [0]) 1 [8] : Store)
            (Expression.leaf ⟨1, 1, sign.NN⟩ .Variable).getID).map noLog.log2)) :=
  (inv_is_log2_with_swapped_routing noLog ⟨2, 1, sign.NN⟩ (.leaf ⟨1, 1, sign.NN⟩ .Variable)
    [0] [8] (fun _ => [0])).2.2.1 (Function.update (fun _ => [0]) 1 [8]) rfl rfl

/-! ## C40: List and Sliced -/

theorem take_succ_set (l : Vec) (c : ℚ) :
    ∀ (i : Nat), i < l.length → (l.set i c).take (i + 1) = l.take i ++ [c] := by
  induction l with
  | nil => intro i h; simp at h
  | cons d rest ih =>
    intro i h
    cases i with
    | zero => simp
    | succ i =>
      simp only [List.length_cons, Nat.add_lt_add_iff_right] at h
      simp [ih i h]

theorem list_evaluate_spec (cm : CMath) (inv : Store → Prop) (hl : Header) (sliced : Nat)
    (x y : Vec) (hne : hl.m_id ≠ sliced)
    (hw : ∀ t i w, inv t → i ∈ [hl.m_id, sliced] → inv (Function.update t i w)) :
    ∀ (rest : List Expression) (cs : Vec) (i : Nat) (t : Store),
      List.Forall₂ (fun a c => ValueAt cm inv [hl.m_id, sliced] a x y [c]) rest cs →
      inv t → (t hl.m_id).length = hl.m_dim → i + rest.length = hl.m_dim →
      ∃ u, List_evaluate cm hl rest i x y t = some u ∧ inv u
        ∧ u hl.m_id = (t hl.m_id).take i ++ cs ∧ u sliced = t sliced := by
  intro rest
  induction rest with
  | nil =>
    intro cs i t hf hinv hlen hi
    cases hf
    refine ⟨t, ?_, hinv, ?_, rfl⟩
    · simp only [List_evaluate]
      simp only [List.length_nil, Nat.add_zero] at hi
      simp [hi]
    · simp only [List.length_nil, Nat.add_zero] at hi
      simp [List.take_of_length_le (by omega : (t hl.m_id).length ≤ i)]
  | cons a rest ih =>
    intro cs i t hf hinv hlen hi
    cases hf with
    | cons ha hrest =>
      rename_i c cs'
      obtain ⟨t', e1, hinv', hv, hkeep⟩ := ha t hinv
      have k1 : t' hl.m_id = t hl.m_id := hkeep _ (by simp)
      have k2 : t' sliced = t sliced := hkeep _ (by simp)
      simp only [List.length_cons] at hi
      have hlt : i < hl.m_dim := by omega
      have hlt' : i < (t hl.m_id).length := by omega
      obtain ⟨u, e2, hu1, hu2, hu3⟩ := ih cs' (i + 1)
        (Function.update t' hl.m_id ((t hl.m_id).set i c)) hrest
        (hw _ _ _ hinv' (by simp)) (by simp [hlen]) (by omega)
      refine ⟨u, ?_, hu1, ?_, ?_⟩
      · simp only [List_evaluate, hlt, if_true, e1, Option.bind_eq_bind, Option.some_bind, hv,
          Vec.at, k1, Vec.write, hlt']
        simpa using e2
      · rw [hu2, Function.update_same, take_succ_set _ _ _ hlt']
        simp
      · rw [hu3, Function.update_noteq (Ne.symm hne), k2]

/-- C40. Slicing undoes list-packing.  `List(a)` is built with dimension `a.size()`.  Let the
operands `a_0 … a_{k-1}` take the one-component values `[c_0] … [c_{k-1}]` at `(x, y)` (from
every store satisfying an invariant `inv` that writes to the buffers of the List node and of
the Sliced node preserve, and without touching those two buffers).  Then `evaluate(x, y)` of
the List node succeeds and leaves `[c_0, …, c_{k-1}]` as its value, and `evaluate(x, y)` of
`Sliced(List(a), j)` succeeds for every `j < k` and leaves `[c_j]`. -/
theorem slicing_undoes_list_packing (cm : CMath) (inv : Store → Prop) (hl hs : Header)
    (args : List Expression) (vals : Vec) (x y : Vec) (s : Store) (j : Nat)
    (hne : hl.m_id ≠ hs.m_id)
    (hops : List.Forall₂ (fun a c => ValueAt cm inv [hl.m_id, hs.m_id] a x y [c]) args vals)
    (hw : ∀ t i w, inv t → i ∈ [hl.m_id, hs.m_id] → inv (Function.update t i w))
    (hinv : inv s) (hdim : hl.m_dim = args.length)
    (hbuf : (s hl.m_id).length = args.length) (hsb : (s hs.m_id).length = 1)
    (hj : j < args.length) :
    (∀ r : Registry, (List_new args r).1.getDim = args.length)
    ∧ (∃ u, (Expression.list hl args).evaluate cm x y s = some u ∧ u hl.m_id = vals)
    ∧ ∃ u' c, vals[j]? = some c
        ∧ (Expression.unary hs (.Sliced j) (.list hl args)).evaluate cm x y s = some u'
        ∧ u' hs.m_id = [c] := by
  obtain ⟨u, e, _, hu2, hu3⟩ := list_evaluate_spec cm inv hl hs.m_id x y hne hw args vals 0 s
    hops hinv (by rw [hbuf, hdim]) (by simp [hdim])
  simp only [List.take_zero, List.nil_append] at hu2
  have hlv : vals.length = args.length := (List.Forall₂.length_eq hops).symm
  have hjv : j < vals.length := by omega
  refine ⟨fun r => rfl, ⟨u, by simpa [Expression.evaluate] using e, hu2⟩, ?_⟩
  obtain ⟨d, hd⟩ := List.length_eq_one.mp (hu3 ▸ hsb)
  refine ⟨Function.update u hs.m_id [vals[j]], vals[j], List.getElem?_eq_getElem hjv, ?_, by simp⟩
  simp [Expression.evaluate, UnaryKind.evaluate, Sliced.evaluate, e, Expression.getID,
    Expression.header, hu2, Vec.at, List.getElem?_eq_getElem hjv, Vec.write, hd]

/-- Witness for C40: `List({v, p})` and `Sliced(List({v, p}), 1)` for a Variable `v` and the
Parameter `p = [7]` at `x = [5]`: the List value is `[5, 7]`, the slice is `[7]`. -/
theorem slicing_undoes_list_packing_witness :
    (∀ r : Registry,
      (List_new [.leaf ⟨1, 1, sign.NN⟩ .Variable, .leaf ⟨2, 1, sign.NN⟩ .Parameter] r).1.getDim
        = 2)
    ∧ (∃ u, (Expression.list ⟨3, 2, sign.unknown⟩
          [.leaf ⟨1, 1, sign.NN⟩ .Variable, .leaf ⟨2, 1, sign.NN⟩ .Parameter]).evaluate noLog
            [5] [0] (Function.update (Function.update (fun _ => [0]) 2 [7]) 3 [0, 0]) = some u
        ∧ u 3 = [5, 7])
    ∧ ∃ u' c, ([5, 7] : Vec)[1]? = some c
        ∧ (Expression.unary ⟨4, 1, sign.unknown⟩ (.Sliced 1) (.list ⟨3, 2, sign.unknown⟩
          [.leaf ⟨1, 1, sign.NN⟩ .Variable, .leaf ⟨2, 1, sign.NN⟩ .Parameter])).evaluate noLog
            [5] [0] (Function.update (Function.update (fun _ => [0]) 2 [7]) 3 [0, 0]) = some u'
        ∧ u' 4 = [c] :=
  slicing_undoes_list_packing noLog (fun t => t 2 = [7]) ⟨3, 2, sign.unknown⟩
    ⟨4, 1, sign.unknown⟩ [.leaf ⟨1, 1, sign.NN⟩ .Variable, .leaf ⟨2, 1, sign.NN⟩ .Parameter]
    [5, 7] [5] [0] (Function.update (Function.update (fun _ => [0]) 2 [7]) 3 [0, 0]) 1
    (by decide)
    (List.Forall₂.cons
      (fun t ht => ⟨Function.update t 1 [5], rfl, by simpa [Function.update_apply] using ht,
        by simp [Expression.getID, Expression.header], by simp [Function.update_apply]⟩)
      (List.Forall₂.cons
        (fun t ht => ⟨t, rfl, ht, by simpa [Expression.getID, Expression.header] using ht,
          fun _ _ => rfl⟩)
        List.Forall₂.nil))
    (by
      intro t i w ht hi
      simp only [List.mem_cons, List.mem_singleton, List.not_mem_nil, or_false] at hi
      rcases hi with rfl | rfl <;> simpa [Function.update_apply] using ht)
    (by simp [Function.update_apply]) rfl (by simp [Function.update_apply])
    (by simp [Function.update_apply]) (by decide)

end MMP
